import Mathlib

/-! DeferredRasterisation: a verification development

A shallow embedding of `Source/Maths.cpp`, of the stage-2 fragment shader of
`Source/ShaderSource.cpp` and of the pass sequence of `Renderer::Render`
(`Source/Renderer.cpp`).

Numbers: the C++ and GLSL `float` values are read as elements of an arbitrary
linearly ordered field `F` (the reals are one instance, the rationals are the
instance on which concrete inputs are evaluated); in this exact reading a
quotient by zero is zero, and the statements that would depend on it carry the
hypothesis that the divisor is not zero.  Rounding is modelled apart: the
sections on IEEE 754 arithmetic give `Maths.cpp`, the matrices of `Render`, the
sample list and the box extents of the kernel once more on `float` data, for the
statements that are about a conversion to `float`, about the outcome of an
assertion or about an exact equality.
-/

namespace DeferredRasterisation

/-! ## Maths.cpp -/

/-- Matrix44 of `Maths.hpp`: `float Data[4][4]`, first index = first bracket. -/
structure Matrix44 (F : Type) where
  Data : Fin 4 → Fin 4 → F

/-- The value constructor `Matrix44::Matrix44(float, ..., float)` of `Maths.cpp`
(lines 81-92): the sixteen arguments fill `Data[0]`, `Data[1]`, `Data[2]`,
`Data[3]` in the order they are written. -/
def Matrix44.ofValues {F : Type}
    (a0 a1 a2 a3 a4 a5 a6 a7 a8 a9 a10 a11 a12 a13 a14 a15 : F) : Matrix44 F :=
  ⟨![![a0, a1, a2, a3], ![a4, a5, a6, a7], ![a8, a9, a10, a11], ![a12, a13, a14, a15]]⟩

/-- The sixteen expressions handed to the constructor in `Matrix44::Invert`
(`Maths.cpp` lines 138-155), before the division by the determinant. -/
def Matrix44.InvertResult {F : Type} [Field F] (Matrix : Matrix44 F) : Matrix44 F :=
  let m := Matrix.Data
  Matrix44.ofValues
    ( m 1 1 * m 2 2 * m 3 3 - m 1 1 * m 2 3 * m 3 2 - m 2 1 * m 1 2 * m 3 3
      + m 2 1 * m 1 3 * m 3 2 + m 3 1 * m 1 2 * m 2 3 - m 3 1 * m 1 3 * m 2 2)
    (-m 0 1 * m 2 2 * m 3 3 + m 0 1 * m 2 3 * m 3 2 + m 2 1 * m 0 2 * m 3 3
      - m 2 1 * m 0 3 * m 3 2 - m 3 1 * m 0 2 * m 2 3 + m 3 1 * m 0 3 * m 2 2)
    ( m 0 1 * m 1 2 * m 3 3 - m 0 1 * m 1 3 * m 3 2 - m 1 1 * m 0 2 * m 3 3
      + m 1 1 * m 0 3 * m 3 2 + m 3 1 * m 0 2 * m 1 3 - m 3 1 * m 0 3 * m 1 2)
    (-m 0 1 * m 1 2 * m 2 3 + m 0 1 * m 1 3 * m 2 2 + m 1 1 * m 0 2 * m 2 3
      - m 1 1 * m 0 3 * m 2 2 - m 2 1 * m 0 2 * m 1 3 + m 2 1 * m 0 3 * m 1 2)
    (-m 1 0 * m 2 2 * m 3 3 + m 1 0 * m 2 3 * m 3 2 + m 2 0 * m 1 2 * m 3 3
      - m 2 0 * m 1 3 * m 3 2 - m 3 0 * m 1 2 * m 2 3 + m 3 0 * m 1 3 * m 2 2)
    ( m 0 0 * m 2 2 * m 3 3 - m 0 0 * m 2 3 * m 3 2 - m 2 0 * m 0 2 * m 3 3
      + m 2 0 * m 0 3 * m 3 2 + m 3 0 * m 0 2 * m 2 3 - m 3 0 * m 0 3 * m 2 2)
    (-m 0 0 * m 1 2 * m 3 3 + m 0 0 * m 1 3 * m 3 2 + m 1 0 * m 0 2 * m 3 3
      - m 1 0 * m 0 3 * m 3 2 - m 3 0 * m 0 2 * m 1 3 + m 3 0 * m 0 3 * m 1 2)
    ( m 0 0 * m 1 2 * m 2 3 - m 0 0 * m 1 3 * m 2 2 - m 1 0 * m 0 2 * m 2 3
      + m 1 0 * m 0 3 * m 2 2 + m 2 0 * m 0 2 * m 1 3 - m 2 0 * m 0 3 * m 1 2)
    ( m 1 0 * m 2 1 * m 3 3 - m 1 0 * m 2 3 * m 3 1 - m 2 0 * m 1 1 * m 3 3
      + m 2 0 * m 1 3 * m 3 1 + m 3 0 * m 1 1 * m 2 3 - m 3 0 * m 1 3 * m 2 1)
    (-m 0 0 * m 2 1 * m 3 3 + m 0 0 * m 2 3 * m 3 1 + m 2 0 * m 0 1 * m 3 3
      - m 2 0 * m 0 3 * m 3 1 - m 3 0 * m 0 1 * m 2 3 + m 3 0 * m 0 3 * m 2 1)
    ( m 0 0 * m 1 1 * m 3 3 - m 0 0 * m 1 3 * m 3 1 - m 1 0 * m 0 1 * m 3 3
      + m 1 0 * m 0 3 * m 3 1 + m 3 0 * m 0 1 * m 1 3 - m 3 0 * m 0 3 * m 1 1)
    (-m 0 0 * m 1 1 * m 2 3 + m 0 0 * m 1 3 * m 2 1 + m 1 0 * m 0 1 * m 2 3
      - m 1 0 * m 0 3 * m 2 1 - m 2 0 * m 0 1 * m 1 3 + m 2 0 * m 0 3 * m 1 1)
    (-m 1 0 * m 2 1 * m 3 2 + m 1 0 * m 2 2 * m 3 1 + m 2 0 * m 1 1 * m 3 2
      - m 2 0 * m 1 2 * m 3 1 - m 3 0 * m 1 1 * m 2 2 + m 3 0 * m 1 2 * m 2 1)
    ( m 0 0 * m 2 1 * m 3 2 - m 0 0 * m 2 2 * m 3 1 - m 2 0 * m 0 1 * m 3 2
      + m 2 0 * m 0 2 * m 3 1 + m 3 0 * m 0 1 * m 2 2 - m 3 0 * m 0 2 * m 2 1)
    (-m 0 0 * m 1 1 * m 3 2 + m 0 0 * m 1 2 * m 3 1 + m 1 0 * m 0 1 * m 3 2
      - m 1 0 * m 0 2 * m 3 1 - m 3 0 * m 0 1 * m 1 2 + m 3 0 * m 0 2 * m 1 1)
    ( m 0 0 * m 1 1 * m 2 2 - m 0 0 * m 1 2 * m 2 1 - m 1 0 * m 0 1 * m 2 2
      + m 1 0 * m 0 2 * m 2 1 + m 2 0 * m 0 1 * m 1 2 - m 2 0 * m 0 2 * m 1 1)

/-- The local `Determinant` of `Matrix44::Invert` (`Maths.cpp` line 157). -/
def Matrix44.Determinant {F : Type} [Field F] (Matrix : Matrix44 F) : F :=
  let Result := Matrix44.InvertResult Matrix
  Matrix.Data 0 0 * Result.Data 0 0 + Matrix.Data 0 1 * Result.Data 1 0
    + Matrix.Data 0 2 * Result.Data 2 0 + Matrix.Data 0 3 * Result.Data 3 0

/-- The function `Matrix44::Invert` (`Maths.cpp` lines 137-167).  `none` stands for the
failing `assert(Determinant != 0)`; otherwise every entry of the cofactor
result is multiplied by `InverseDeterminant = 1.0 / Determinant`. -/
def Matrix44.Invert {F : Type} [Field F] [DecidableEq F] (Matrix : Matrix44 F) :
    Option (Matrix44 F) :=
  let Result := Matrix44.InvertResult Matrix
  let Determinant := Matrix44.Determinant Matrix
  if Determinant = 0 then none
  else
    let InverseDeterminant := 1 / Determinant
    some ⟨fun i j => Result.Data i j * InverseDeterminant⟩

/-- The operator `operator*(const Matrix44&, const Matrix44&)` (`Maths.cpp` lines 169-181):
`Sum` starts at `0` and accumulates `LHS.Data[Row][k] * RHS.Data[k][Column]`
for `k = 0, 1, 2, 3`. -/
def Matrix44.mul {F : Type} [Field F] (LHS RHS : Matrix44 F) : Matrix44 F :=
  ⟨fun RowLHS ColumnRHS =>
    (List.finRange 4).foldl
      (fun Sum ColumnLHSRowRHS =>
        Sum + LHS.Data RowLHS ColumnLHSRowRHS * RHS.Data ColumnLHSRowRHS ColumnRHS) 0⟩

/-- The identity matrix, written as `Renderer.cpp` writes `Model` (lines 156-161). -/
def Matrix44.Identity {F : Type} [Field F] : Matrix44 F :=
  Matrix44.ofValues 1 0 0 0  0 1 0 0  0 0 1 0  0 0 0 1

/-! ## GLSL vectors and built-in functions used by ShaderSource.cpp -/

/-- GLSL `vec2`. -/
structure Vec2 (F : Type) where
  x : F
  y : F

/-- GLSL `vec3`. -/
structure Vec3 (F : Type) where
  x : F
  y : F
  z : F

/-- GLSL `vec4`. -/
structure Vec4 (F : Type) where
  x : F
  y : F
  z : F
  w : F

/-- GLSL `max(x, y)`: `y` if `x < y`, otherwise `x`. -/
def glslMax {F : Type} [LinearOrderedField F] (x y : F) : F := if x < y then y else x

/-- GLSL `min(x, y)`: `y` if `y < x`, otherwise `x`. -/
def glslMin {F : Type} [LinearOrderedField F] (x y : F) : F := if y < x then y else x

/-- The swizzle `.xyz` of a `vec4`. -/
def Vec4.xyz {F : Type} (v : Vec4 F) : Vec3 F := ⟨v.x, v.y, v.z⟩

/-- The GLSL constructor `vec4(vec3, float)`. -/
def Vec4.ofVec3 {F : Type} (v : Vec3 F) (w : F) : Vec4 F := ⟨v.x, v.y, v.z, w⟩

/-- Componentwise `vec3 - vec3`. -/
def Vec3.sub {F : Type} [LinearOrderedField F] (a b : Vec3 F) : Vec3 F :=
  ⟨a.x - b.x, a.y - b.y, a.z - b.z⟩

/-- Componentwise `vec3 * vec3`. -/
def Vec3.mul {F : Type} [LinearOrderedField F] (a b : Vec3 F) : Vec3 F :=
  ⟨a.x * b.x, a.y * b.y, a.z * b.z⟩

/-- The GLSL expression `vec3 - float`: the scalar is subtracted from every component. -/
def Vec3.subScalar {F : Type} [LinearOrderedField F] (a : Vec3 F) (s : F) : Vec3 F :=
  ⟨a.x - s, a.y - s, a.z - s⟩

/-- The GLSL expression `vec3 + float`: the scalar is added to every component. -/
def Vec3.addScalar {F : Type} [LinearOrderedField F] (a : Vec3 F) (s : F) : Vec3 F :=
  ⟨a.x + s, a.y + s, a.z + s⟩

/-- The GLSL expression `float / vec3`: the scalar is divided by every component. -/
def Vec3.scalarDiv {F : Type} [LinearOrderedField F] (s : F) (a : Vec3 F) : Vec3 F :=
  ⟨s / a.x, s / a.y, s / a.z⟩

/-- The GLSL expression `vec3 / float`. -/
def Vec3.divScalar {F : Type} [LinearOrderedField F] (a : Vec3 F) (s : F) : Vec3 F :=
  ⟨a.x / s, a.y / s, a.z / s⟩

/-- GLSL `dot` on `vec3`. -/
def Vec3.dot {F : Type} [LinearOrderedField F] (a b : Vec3 F) : F :=
  a.x * b.x + a.y * b.y + a.z * b.z

/-- GLSL `normalize` on `vec3`: the vector divided by its length
`sqrt(dot(v, v))`.  The square root is the one supplied by the caller. -/
def normalize {F : Type} [LinearOrderedField F] (sqrt : F → F) (v : Vec3 F) : Vec3 F :=
  v.divScalar (sqrt (v.dot v))

/-! ## Maths.cpp: Vector3 and the camera matrices -/

/-- Vector3 of `Maths.hpp` (`float Data[3]`): `x`, `y`, `z` are `Data[0]`,
`Data[1]`, `Data[2]`. -/
abbrev Vector3 (F : Type) := Vec3 F

/-- The function `Vector3::Normalise` (`Maths.cpp` lines 47-55).  `none` stands for the
failing `assert(Denominator != 0)`; the square root is the one supplied by the
caller. -/
def Vector3.Normalise {F : Type} [LinearOrderedField F] (sqrt : F → F) (Vector : Vector3 F) :
    Option (Vector3 F) :=
  let Denominator := sqrt (Vector.x * Vector.x + Vector.y * Vector.y + Vector.z * Vector.z)
  if Denominator = 0 then none
  else some ⟨Vector.x / Denominator, Vector.y / Denominator, Vector.z / Denominator⟩

/-- The function `Vector3::Cross` (`Maths.cpp` lines 57-63). -/
def Vector3.Cross {F : Type} [LinearOrderedField F] (LHS RHS : Vector3 F) : Vector3 F :=
  ⟨LHS.y * RHS.z - LHS.z * RHS.y, LHS.z * RHS.x - LHS.x * RHS.z, LHS.x * RHS.y - LHS.y * RHS.x⟩

/-- The operator `operator+(const Vector3&, const Vector3&)` (`Maths.cpp` lines 65-71). -/
def Vector3.add {F : Type} [LinearOrderedField F] (LHS RHS : Vector3 F) : Vector3 F :=
  ⟨LHS.x + RHS.x, LHS.y + RHS.y, LHS.z + RHS.z⟩

/-- The operator `operator-(const Vector3&, const Vector3&)` (`Maths.cpp` lines 73-79). -/
def Vector3.sub {F : Type} [LinearOrderedField F] (LHS RHS : Vector3 F) : Vector3 F :=
  ⟨LHS.x - RHS.x, LHS.y - RHS.y, LHS.z - RHS.z⟩

/-- The function `Matrix44::Frustum` (`Maths.cpp` lines 94-105). -/
def Matrix44.Frustum {F : Type} [LinearOrderedField F] (Left Right Bottom Top Near Far : F) :
    Matrix44 F :=
  let TwoNear := 2 * Near
  let Width := Right - Left
  let Height := Top - Bottom
  let Depth := Far - Near
  Matrix44.ofValues
    (TwoNear / Width) 0 ((Right + Left) / Width) 0
    0 (TwoNear / Height) ((Top + Bottom) / Height) 0
    0 0 ((-Far - Near) / Depth) ((-TwoNear * Far) / Depth)
    0 0 (-1) 0

/-- The function `Matrix44::Perspective` (`Maths.cpp` lines 107-111); the tangent and the
constant `M_PI` are the ones supplied by the caller. -/
def Matrix44.Perspective {F : Type} [LinearOrderedField F] (tan : F → F) (M_PI : F)
    (FieldOfViewDegrees AspectRatio Near Far : F) : Matrix44 F :=
  let VerticalLimit := Near * tan (FieldOfViewDegrees * M_PI / 360)
  let HorizontalLimit := VerticalLimit * AspectRatio
  Matrix44.Frustum (-HorizontalLimit) HorizontalLimit (-VerticalLimit) VerticalLimit Near Far

/-- The function `Matrix44::View` (`Maths.cpp` lines 113-123).  `none` when one of the two
`Normalise` calls fails its assertion. -/
def Matrix44.View {F : Type} [LinearOrderedField F] (sqrt : F → F) (Eye Target Up : Vector3 F) :
    Option (Matrix44 F) :=
  (Vector3.Normalise sqrt (Vector3.sub Eye Target)).bind fun AxisZ =>
  (Vector3.Normalise sqrt (Vector3.Cross Up AxisZ)).bind fun AxisX =>
  let AxisY := Vector3.Cross AxisZ AxisX
  some (Matrix44.ofValues
    AxisX.x AxisX.y AxisX.z (-(AxisX.x * Eye.x + AxisX.y * Eye.y + AxisX.z * Eye.z))
    AxisY.x AxisY.y AxisY.z (-(AxisY.x * Eye.x + AxisY.y * Eye.y + AxisY.z * Eye.z))
    AxisZ.x AxisZ.y AxisZ.z (-(AxisZ.x * Eye.x + AxisZ.y * Eye.y + AxisZ.z * Eye.z))
    0 0 0 1)

/-! ## ShaderSource.cpp: the ray-box test of the stage-2 fragment shader -/

/-- The function `RayBoxIntersect` of `FragmentShaderSource2` (`ShaderSource.cpp` lines
145-162).  The result is `vec2(IntersectionDepth, BackIntersectionDepth)`. -/
def RayBoxIntersect {F : Type} [LinearOrderedField F]
    (RayOrigin RayDirection BoxMin BoxMax : Vec3 F) : Vec2 F :=
  let InverseRayDirection := Vec3.scalarDiv 1 RayDirection
  let OriginToBoxMinimumVector := InverseRayDirection.mul (BoxMin.sub RayOrigin)
  let OriginToBoxMaximumVector := InverseRayDirection.mul (BoxMax.sub RayOrigin)
  let MaximumVector : Vec3 F :=
    ⟨glslMax OriginToBoxMaximumVector.x OriginToBoxMinimumVector.x,
     glslMax OriginToBoxMaximumVector.y OriginToBoxMinimumVector.y,
     glslMax OriginToBoxMaximumVector.z OriginToBoxMinimumVector.z⟩
  let MinimumVector : Vec3 F :=
    ⟨glslMin OriginToBoxMaximumVector.x OriginToBoxMinimumVector.x,
     glslMin OriginToBoxMaximumVector.y OriginToBoxMinimumVector.y,
     glslMin OriginToBoxMaximumVector.z OriginToBoxMinimumVector.z⟩
  let MaxOfMin : Vec2 F :=
    ⟨glslMax MinimumVector.x MinimumVector.y, glslMax MinimumVector.x MinimumVector.z⟩
  let MinOfMax : Vec2 F :=
    ⟨glslMin MaximumVector.x MaximumVector.y, glslMin MaximumVector.x MaximumVector.z⟩
  let BackIntersectionDepth := glslMin MinOfMax.x MinOfMax.y
  let IntersectionDepth := glslMax MaxOfMin.x MaxOfMin.y
  ⟨IntersectionDepth, BackIntersectionDepth⟩

/-- The point `RayOrigin + t * RayDirection` of a ray's line. -/
def rayPoint {F : Type} [LinearOrderedField F] (RayOrigin RayDirection : Vec3 F) (t : F) :
    Vec3 F :=
  ⟨RayOrigin.x + t * RayDirection.x, RayOrigin.y + t * RayDirection.y,
   RayOrigin.z + t * RayDirection.z⟩

/-- Membership of a point in the closed axis-aligned box `[BoxMin, BoxMax]`. -/
def InBox {F : Type} [LinearOrderedField F] (p BoxMin BoxMax : Vec3 F) : Prop :=
  (BoxMin.x ≤ p.x ∧ p.x ≤ BoxMax.x) ∧ (BoxMin.y ≤ p.y ∧ p.y ≤ BoxMax.y)
    ∧ (BoxMin.z ≤ p.z ∧ p.z ≤ BoxMax.z)

instance {F : Type} [LinearOrderedField F] (p BoxMin BoxMax : Vec3 F) :
    Decidable (InBox p BoxMin BoxMax) := by
  unfold InBox
  infer_instance

/-- The centre of the box `[BoxMin, BoxMax]`. -/
def boxCentre {F : Type} [LinearOrderedField F] (BoxMin BoxMax : Vec3 F) : Vec3 F :=
  ⟨(BoxMin.x + BoxMax.x) / 2, (BoxMin.y + BoxMax.y) / 2, (BoxMin.z + BoxMax.z) / 2⟩

/-- The entry parameter of one slab: the smaller of the two face parameters. -/
def slabEntry {F : Type} [LinearOrderedField F] (o d lo hi : F) : F :=
  min ((lo - o) / d) ((hi - o) / d)

/-- The exit parameter of one slab: the larger of the two face parameters. -/
def slabExit {F : Type} [LinearOrderedField F] (o d lo hi : F) : F :=
  max ((lo - o) / d) ((hi - o) / d)

/-! ## ShaderSource.cpp: the stage-2 fragment shader -/

/-- GLSL `mix(x, y, a) = x * (1 - a) + y * a`. -/
def mix {F : Type} [LinearOrderedField F] (x y a : F) : F := x * (1 - a) + y * a

/-- GLSL `floor`, as a value of the field. -/
def glslFloor {F : Type} [LinearOrderedField F] [FloorRing F] (x : F) : F := ((⌊x⌋ : ℤ) : F)

/-- GLSL `fract(x) = x - floor(x)`. -/
def fract {F : Type} [LinearOrderedField F] [FloorRing F] (x : F) : F := x - glslFloor x

/-- GLSL `mod(x, y) = x - y * floor(x / y)`. -/
def glslMod {F : Type} [LinearOrderedField F] [FloorRing F] (x y : F) : F :=
  x - y * glslFloor (x / y)

/-- GLSL `clamp(x, lo, hi) = min(max(x, lo), hi)`. -/
def clamp {F : Type} [LinearOrderedField F] (x lo hi : F) : F := glslMin (glslMax x lo) hi

/-- GLSL `abs`. -/
def glslAbs {F : Type} [LinearOrderedField F] (x : F) : F := if x < 0 then -x else x

/-- The function `HSL2RGB` of `FragmentShaderSource2` (`ShaderSource.cpp` lines 118-121). -/
def HSL2RGB {F : Type} [LinearOrderedField F] [FloorRing F] (HSL : Vec3 F) : Vec3 F :=
  let channel := fun (offset : F) =>
    clamp (glslAbs (glslMod (HSL.x * 6 + offset) 6 - 3) - 1) 0 1
  let RGB : Vec3 F := ⟨channel 0, channel 4, channel 2⟩
  let scale := 1 - glslAbs (2 * HSL.z - 1)
  ⟨HSL.z + HSL.y * (RGB.x - 1 / 2) * scale, HSL.z + HSL.y * (RGB.y - 1 / 2) * scale,
   HSL.z + HSL.y * (RGB.z - 1 / 2) * scale⟩

/-- The function `Hash` of `FragmentShaderSource2` (`ShaderSource.cpp` lines 124-126); the
sine is the one supplied by the caller. -/
def Hash {F : Type} [LinearOrderedField F] [FloorRing F] (sin : F → F) (Seed : F) : F :=
  fract (sin Seed * (437585453 / 10000))

/-- The function `Noise` of `FragmentShaderSource2` (`ShaderSource.cpp` lines 130-142). -/
def Noise {F : Type} [LinearOrderedField F] [FloorRing F] (sin : F → F) (Seed : Vec3 F) : F :=
  let FloorSeed : Vec3 F := ⟨glslFloor Seed.x, glslFloor Seed.y, glslFloor Seed.z⟩
  let FractSeed0 : Vec3 F := ⟨fract Seed.x, fract Seed.y, fract Seed.z⟩
  let FractSeed : Vec3 F :=
    ⟨FractSeed0.x * FractSeed0.x * (3 - 2 * FractSeed0.x),
     FractSeed0.y * FractSeed0.y * (3 - 2 * FractSeed0.y),
     FractSeed0.z * FractSeed0.z * (3 - 2 * FractSeed0.z)⟩
  let BaseSeed := FloorSeed.x + FloorSeed.y * 57 + 113 * FloorSeed.z
  mix (mix (mix (Hash sin (BaseSeed + 0)) (Hash sin (BaseSeed + 1)) FractSeed.x)
           (mix (Hash sin (BaseSeed + 57)) (Hash sin (BaseSeed + 58)) FractSeed.x) FractSeed.y)
      (mix (mix (Hash sin (BaseSeed + 113)) (Hash sin (BaseSeed + 114)) FractSeed.x)
           (mix (Hash sin (BaseSeed + 170)) (Hash sin (BaseSeed + 171)) FractSeed.x) FractSeed.y)
      FractSeed.z

/-- The function `HemisphereLighting` of `FragmentShaderSource2` (`ShaderSource.cpp` lines 165-169). -/
def HemisphereLighting {F : Type} [LinearOrderedField F] (Normal : Vec3 F) : Vec3 F :=
  let LightPosition : Vec3 F := ⟨1 / 10, -1, 0⟩
  let NdotL := Normal.dot LightPosition * (1 / 2) + 1 / 2
  ⟨mix (886 / 1000) (518 / 1000) NdotL, mix (757 / 1000) (169 / 1000) NdotL,
   mix (337 / 1000) 0 NdotL⟩

/-- The product `mat4 * vec4` of GLSL for a matrix uploaded from `Matrix44::data()`
with `transpose = GL_TRUE` (`Renderer.cpp` lines 432 and 477): component `r` of
the result is the dot product of `Data[r]` with the vector. -/
def Matrix44.mulVec4 {F : Type} [Field F] (M : Matrix44 F) (v : Vec4 F) : Vec4 F :=
  ⟨M.Data 0 0 * v.x + M.Data 0 1 * v.y + M.Data 0 2 * v.z + M.Data 0 3 * v.w,
   M.Data 1 0 * v.x + M.Data 1 1 * v.y + M.Data 1 2 * v.z + M.Data 1 3 * v.w,
   M.Data 2 0 * v.x + M.Data 2 1 * v.y + M.Data 2 2 * v.z + M.Data 2 3 * v.w,
   M.Data 3 0 * v.x + M.Data 3 1 * v.y + M.Data 3 2 * v.z + M.Data 3 3 * v.w⟩

/-- The three `sampler2D` uniforms of `FragmentShaderSource2`, each as the
function `texture(Sampler, Coordinate)`. -/
structure Samplers (F : Type) where
  PositionSampler : Vec2 F → Vec4 F
  NormalSampler : Vec2 F → Vec4 F
  ColourSampler : Vec2 F → Vec4 F

/-- The other uniforms of `FragmentShaderSource2` (`ShaderSource.cpp` lines 99-104). -/
structure Uniforms (F : Type) where
  ViewProjectionInverseMatrix : Matrix44 F
  EvaluationDirection : Vec2 F
  VoxelSize : F
  PixelDimensions : Vec2 F
  LastRender : Bool
  SceneOffset : Vec3 F

/-- The constant `const int TapNeighbourhoodSize = 16` (`ShaderSource.cpp` line 112). -/
def TapNeighbourhoodSize : Int := 16

/-- The values `CurrentTap` takes in the loop of `main`
(`ShaderSource.cpp` line 192): `-16, -15, ..., 16`, in this order. -/
def Taps : List Int :=
  (List.range (2 * TapNeighbourhoodSize.toNat + 1)).map
    (fun k => (k : Int) - TapNeighbourhoodSize)

/-- The initial value of `BestDepth` (`ShaderSource.cpp` line 190). -/
def InitialBestDepth {F : Type} [LinearOrderedField F] : F := 9999999

/-- The variables the tap loop of `main` updates (`ShaderSource.cpp` lines 185-190). -/
structure KernelState (F : Type) where
  BestDepth : F
  OutputPosition : Vec3 F
  OutputNormal : Vec3 F
  OutputColour : Vec3 F

/-- The state before the loop: three zero vectors and `BestDepth = 9999999.0`. -/
def KernelState.initial {F : Type} [LinearOrderedField F] : KernelState F :=
  ⟨InitialBestDepth, ⟨0, 0, 0⟩, ⟨0, 0, 0⟩, ⟨0, 0, 0⟩⟩

/-- The value `TappedCoordinate` of the loop body (`ShaderSource.cpp` line 194). -/
def TappedCoordinate {F : Type} [LinearOrderedField F] (U : Uniforms F)
    (DataCoordinate : Vec2 F) (CurrentTap : Int) : Vec2 F :=
  ⟨DataCoordinate.x + (CurrentTap : F) * U.EvaluationDirection.x * U.PixelDimensions.x,
   DataCoordinate.y + (CurrentTap : F) * U.EvaluationDirection.y * U.PixelDimensions.y⟩

/-- The value `IntersectionDepths` of the loop body for one tap (`ShaderSource.cpp` lines 195-198). -/
def IntersectionDepths {F : Type} [LinearOrderedField F] (S : Samplers F) (U : Uniforms F)
    (EyePosition EyeVector : Vec3 F) (DataCoordinate : Vec2 F) (CurrentTap : Int) : Vec2 F :=
  let Position := (S.PositionSampler (TappedCoordinate U DataCoordinate CurrentTap)).xyz
  RayBoxIntersect EyePosition EyeVector (Position.subScalar U.VoxelSize)
    (Position.addScalar U.VoxelSize)

/-- One iteration of the tap loop of `main` (`ShaderSource.cpp` lines 194-208). -/
def tapStep {F : Type} [LinearOrderedField F] (S : Samplers F) (U : Uniforms F)
    (EyePosition EyeVector : Vec3 F) (DataCoordinate : Vec2 F)
    (State : KernelState F) (CurrentTap : Int) : KernelState F :=
  let Coordinate := TappedCoordinate U DataCoordinate CurrentTap
  let Position := (S.PositionSampler Coordinate).xyz
  let Depths := IntersectionDepths S U EyePosition EyeVector DataCoordinate CurrentTap
  if Depths.x ≤ Depths.y then
    if Depths.x ≤ State.BestDepth then
      { BestDepth := Depths.x
        OutputPosition := Position
        OutputNormal := (S.NormalSampler Coordinate).xyz
        OutputColour := (S.ColourSampler Coordinate).xyz }
    else State
  else State

/-- The tap loop of `main` (`ShaderSource.cpp` lines 184-209). -/
def tapLoop {F : Type} [LinearOrderedField F] (S : Samplers F) (U : Uniforms F)
    (EyePosition EyeVector : Vec3 F) (DataCoordinate : Vec2 F) : KernelState F :=
  Taps.foldl (tapStep S U EyePosition EyeVector DataCoordinate) KernelState.initial

/-- The three outputs of `FragmentShaderSource2`.  The branch taken on the last
render with a hit assigns `FragmentPosition` only; the two outputs it leaves
unassigned are `none`. -/
structure FragmentOutputs (F : Type) where
  FragmentPosition : Vec4 F
  FramgmentNormal : Option (Vec4 F)
  FramgmentColour : Option (Vec4 F)

/-- The value `EyePosition.xyz` of `main` (`ShaderSource.cpp` lines 173-174). -/
def EyePosition {F : Type} [LinearOrderedField F] (U : Uniforms F) : Vec3 F :=
  let p := U.ViewProjectionInverseMatrix.mulVec4 ⟨0, 0, -1, 1⟩
  p.xyz.divScalar p.w

/-- The value `EyeVector` of `main` (`ShaderSource.cpp` lines 176-179). -/
def EyeVector {F : Type} [LinearOrderedField F] (sqrt : F → F) (U : Uniforms F)
    (VertexPosition : Vec3 F) : Vec3 F :=
  let p := U.ViewProjectionInverseMatrix.mulVec4 (Vec4.ofVec3 VertexPosition 1)
  let ScreenPosition := p.xyz.divScalar p.w
  normalize sqrt (ScreenPosition.sub (EyePosition U))

/-- The value `DataCoordinate` of `main` (`ShaderSource.cpp` line 182). -/
def DataCoordinate {F : Type} [LinearOrderedField F] (VertexPosition : Vec3 F) : Vec2 F :=
  ⟨VertexPosition.x * (1 / 2) + 1 / 2, VertexPosition.y * (1 / 2) + 1 / 2⟩

/-- The state of the loop variables of `main` when the loop is left. -/
def resolve {F : Type} [LinearOrderedField F] (sqrt : F → F) (S : Samplers F) (U : Uniforms F)
    (VertexPosition : Vec3 F) : KernelState F :=
  tapLoop S U (EyePosition U) (EyeVector sqrt U VertexPosition) (DataCoordinate VertexPosition)

/-- The colour the last render writes on a hit (`ShaderSource.cpp` lines 213-215). -/
def compositeColour {F : Type} [LinearOrderedField F] [FloorRing F] (sin : F → F)
    (U : Uniforms F) (State : KernelState F) : Vec4 F :=
  let Ambient := HemisphereLighting State.OutputNormal
  let Colour := HSL2RGB State.OutputColour
  let First : Vec4 F :=
    ⟨mix Ambient.x Colour.x (1 / 2), mix Ambient.y Colour.y (1 / 2),
     mix Ambient.z Colour.z (1 / 2), 1⟩
  let Seed : Vec3 F :=
    ⟨(State.OutputPosition.x + U.SceneOffset.x) * 100,
     (State.OutputPosition.y + U.SceneOffset.y) * 100,
     (State.OutputPosition.z + U.SceneOffset.z) * 100⟩
  let n := Noise sin Seed
  ⟨mix n First.x (9 / 10), mix n First.y (9 / 10), mix n First.z (9 / 10), mix n First.w 1⟩

/-- The function `main` of `FragmentShaderSource2` (`ShaderSource.cpp` lines 172-222). -/
def main {F : Type} [LinearOrderedField F] [FloorRing F] (sqrt sin : F → F)
    (S : Samplers F) (U : Uniforms F) (VertexPosition : Vec3 F) : FragmentOutputs F :=
  let State := resolve sqrt S U VertexPosition
  if U.LastRender = true ∧ State.BestDepth < InitialBestDepth then
    { FragmentPosition := compositeColour sin U State
      FramgmentNormal := none
      FramgmentColour := none }
  else
    { FragmentPosition := Vec4.ofVec3 State.OutputPosition 0
      FramgmentNormal := some (Vec4.ofVec3 State.OutputNormal 0)
      FramgmentColour := some (Vec4.ofVec3 State.OutputColour 0) }

/-! ## Renderer.cpp: the objects of the renderer -/

/-- The two shader programs of `Renderer.hpp` (`ShaderProgram1`, `ShaderProgram2`). -/
inductive Program where
  | ShaderProgram1
  | ShaderProgram2
  deriving DecidableEq, Repr

/-- The framebuffer objects `Render` binds: the window's framebuffer `0` and the
two of `Renderer.hpp`. -/
inductive FrameBuffer where
  | Zero
  | FrameBuffer1
  | FrameBuffer2
  deriving DecidableEq, Repr

/-- The texture objects of `Renderer.hpp`. -/
inductive TextureName where
  | TexturePosition1
  | TextureNormal1
  | TextureColour1
  | TextureDepth1
  | TexturePosition2
  | TextureNormal2
  | TextureColour2
  deriving DecidableEq, Repr

/-- The colour attachments 0, 1, 2 the constructor gives each framebuffer
(`Renderer.cpp` lines 204-206 and 249-251). -/
def ColourAttachments : FrameBuffer → Option (TextureName × TextureName × TextureName)
  | FrameBuffer.Zero => none
  | FrameBuffer.FrameBuffer1 =>
      some (TextureName.TexturePosition1, TextureName.TextureNormal1, TextureName.TextureColour1)
  | FrameBuffer.FrameBuffer2 =>
      some (TextureName.TexturePosition2, TextureName.TextureNormal2, TextureName.TextureColour2)

/-- Voxel of the volume (its header is not part of the sources read here): four
unsigned fields, as `Render` reads them (`Renderer.cpp` lines 365-369). -/
structure Voxel where
  Hue : Nat
  Saturation : Nat
  Light : Nat
  Alpha : Nat
  deriving DecidableEq, Repr

/-- The scene `State.GetScene()`: its three sizes and `operator()(x, y, z)`. -/
structure Scene where
  SizeX : Nat
  SizeY : Nat
  SizeZ : Nat
  At : Nat → Nat → Nat → Voxel

/-- The part of `GameState` that `Render` reads. -/
structure GameState (F : Type) where
  CameraPosition : Vec3 F
  CameraTarget : Vec3 F
  SceneOffset : Vec3 F
  Scene : Scene

/-- The fields of `Renderer` that `Render` reads (`Renderer.hpp`). -/
structure Renderer (F : Type) where
  ScreenWidth : Nat
  ScreenHeight : Nat
  Projection : Matrix44 F
  Model : Matrix44 F
  Subdivisions : F

/-- One element of `map`: nine floats, read by the three vertex attributes at
offsets 0, 3 and 6 (`Renderer.cpp` lines 313-315). -/
structure Sample (F : Type) where
  Position : Vec3 F
  Normal : Vec3 F
  Colour : Vec3 F

/-- The loop that fills `map` (`Renderer.cpp` lines 359-375).  The subtraction
`v.Hue - uint(4)` is done on 32-bit unsigned integers. -/
def buildMap {F : Type} [LinearOrderedField F] (Scene : Scene) : List (Sample F) :=
  (List.range Scene.SizeZ).flatMap fun z =>
  (List.range Scene.SizeY).flatMap fun y =>
  (List.range Scene.SizeX).flatMap fun x =>
    let v := Scene.At x y z
    if v.Alpha > 0 then
      let Hue : F := (((v.Hue + (2 ^ 32 - 4)) % 2 ^ 32 : Nat) : F) / 11
      let Saturation : F := (v.Saturation : F) / 3
      let Light : F := (v.Light : F) / 15
      [{ Position := ⟨(x : F) / 100, (y : F) / 100, (z : F) / 100⟩
         Normal := ⟨1, 0, 0⟩
         Colour := ⟨Hue, Saturation, Light⟩ }]
    else []

/-! ## Renderer.cpp: the OpenGL calls of `Render` -/

/-- The capabilities `Render` switches. -/
inductive Capability where
  | DEPTH_TEST
  | BLEND
  deriving DecidableEq, Repr

/-- The primitive modes `Render` draws with. -/
inductive PrimitiveMode where
  | POINTS
  | TRIANGLES
  deriving DecidableEq, Repr

/-- The OpenGL calls `Render` makes.  A uniform call is named after the location
field of `Renderer.hpp` it is given. -/
inductive GLCommand (F : Type) where
  | Enable (c : Capability)
  | Disable (c : Capability)
  | UseProgram (p : Program)
  | BindFramebuffer (fb : FrameBuffer)
  | ClearColor (r g b a : F)
  | ClearDepth (d : F)
  | Clear (colour depth : Bool)
  | UniformModelViewProjection (M : Matrix44 F)
  | UniformModel (M : Matrix44 F)
  | BindBuffer
  | BufferData (data : List (Sample F))
  | BindVertexArray
  | ActiveTexture (unit : Nat)
  | BindTexture (t : TextureName)
  | UniformEvaluationDirection (v : Vec2 F)
  | UniformVoxelSize (x : F)
  | UniformPixelDimensions (v : Vec2 F)
  | UniformViewProjectionInverse (M : Matrix44 F)
  | UniformLast (b : Bool)
  | UniformSceneOffset (v : Vec3 F)
  | DrawArrays (mode : PrimitiveMode) (first count : Nat)

/-- The `Direction` array of spread iteration `i` (`Renderer.cpp` line 424);
`%` is the remainder of C++ `int`. -/
def spreadDirection {F : Type} [LinearOrderedField F] (i : Int) : Vec2 F :=
  ⟨((Int.tmod (i + 1) 2 : Int) : F), ((Int.tmod i 2 : Int) : F)⟩

/-- The `PixelDimensions` array (`Renderer.cpp` lines 429 and 474). -/
def pixelDimensions {F : Type} [LinearOrderedField F] (r : Renderer F) : Vec2 F :=
  ⟨1 / (r.ScreenWidth : F), 1 / (r.ScreenHeight : F)⟩

/-- The `SceneOffset` array (`Renderer.cpp` lines 436 and 481). -/
def sceneOffset {F : Type} [LinearOrderedField F] (State : GameState F) : Vec3 F :=
  ⟨State.SceneOffset.x / 100, State.SceneOffset.y / 100, State.SceneOffset.z / 100⟩

/-- The body of the ping-pong loop for one value of `i` (`Renderer.cpp` lines 395-440). -/
def spreadIteration {F : Type} [LinearOrderedField F] (r : Renderer F) (State : GameState F)
    (ViewProjectionInverse : Matrix44 F) (i : Int) : List (GLCommand F) :=
  (if Int.tmod i 2 = 0 then
    [ GLCommand.BindFramebuffer FrameBuffer.FrameBuffer2,
      GLCommand.Clear true false,
      GLCommand.ActiveTexture 0, GLCommand.BindTexture TextureName.TexturePosition1,
      GLCommand.ActiveTexture 1, GLCommand.BindTexture TextureName.TextureNormal1,
      GLCommand.ActiveTexture 2, GLCommand.BindTexture TextureName.TextureColour1 ]
  else
    [ GLCommand.BindFramebuffer FrameBuffer.FrameBuffer1,
      GLCommand.Clear true false,
      GLCommand.ActiveTexture 0, GLCommand.BindTexture TextureName.TexturePosition2,
      GLCommand.ActiveTexture 1, GLCommand.BindTexture TextureName.TextureNormal2,
      GLCommand.ActiveTexture 2, GLCommand.BindTexture TextureName.TextureColour2 ])
  ++
  [ GLCommand.UniformEvaluationDirection (spreadDirection i),
    GLCommand.UniformVoxelSize ((1 / 2) / r.Subdivisions),
    GLCommand.UniformPixelDimensions (pixelDimensions r),
    GLCommand.UniformViewProjectionInverse ViewProjectionInverse,
    GLCommand.UniformLast false,
    GLCommand.UniformSceneOffset (sceneOffset State),
    GLCommand.DrawArrays PrimitiveMode.TRIANGLES 0 3 ]

/-- The OpenGL calls of `Renderer::Render` once the three matrices are computed
(`Renderer.cpp` lines 326-485), in the order they are made. -/
def renderCommands {F : Type} [LinearOrderedField F] (r : Renderer F) (State : GameState F)
    (ModelViewProjection ViewProjectionInverse : Matrix44 F) : List (GLCommand F) :=
  let map : List (Sample F) := buildMap State.Scene
  [ GLCommand.Enable Capability.DEPTH_TEST,
    GLCommand.Disable Capability.BLEND,
    GLCommand.UseProgram Program.ShaderProgram1,
    GLCommand.BindFramebuffer FrameBuffer.FrameBuffer1,
    GLCommand.ClearColor (9 / 10) (9 / 10) (9 / 10) 1,
    GLCommand.ClearDepth 1,
    GLCommand.Clear true true,
    GLCommand.UniformModelViewProjection ModelViewProjection,
    GLCommand.UniformModel r.Model,
    GLCommand.BindBuffer,
    GLCommand.BufferData map,
    GLCommand.BindVertexArray,
    GLCommand.DrawArrays PrimitiveMode.POINTS 0 map.length,
    GLCommand.Disable Capability.DEPTH_TEST,
    GLCommand.Disable Capability.BLEND,
    GLCommand.UseProgram Program.ShaderProgram2 ]
  ++ ([0, 1, 2] : List Int).flatMap (spreadIteration r State ViewProjectionInverse)
  ++
  [ GLCommand.Disable Capability.DEPTH_TEST,
    GLCommand.Enable Capability.BLEND,
    GLCommand.BindFramebuffer FrameBuffer.Zero,
    GLCommand.ClearColor (306 / 1000) (267 / 1000) (698 / 1000) 0,
    GLCommand.ClearDepth 1,
    GLCommand.Clear true true,
    GLCommand.ActiveTexture 0, GLCommand.BindTexture TextureName.TexturePosition2,
    GLCommand.ActiveTexture 1, GLCommand.BindTexture TextureName.TextureNormal2,
    GLCommand.ActiveTexture 2, GLCommand.BindTexture TextureName.TextureColour2,
    GLCommand.UniformEvaluationDirection ⟨0, 1⟩,
    GLCommand.UniformVoxelSize ((1 / 2) / r.Subdivisions),
    GLCommand.UniformPixelDimensions (pixelDimensions r),
    GLCommand.UniformViewProjectionInverse ViewProjectionInverse,
    GLCommand.UniformLast true,
    GLCommand.UniformSceneOffset (sceneOffset State),
    GLCommand.DrawArrays PrimitiveMode.TRIANGLES 0 3 ]

/-- The function `Renderer::Render` (`Renderer.cpp` lines 322-486) as the list of its OpenGL
calls.  `none` when an assertion fails: in `Matrix44::View` (line 324) or in
`Matrix44::Invert` (line 344). -/
def Render {F : Type} [LinearOrderedField F] (sqrt : F → F) (r : Renderer F)
    (State : GameState F) : Option (List (GLCommand F)) :=
  (Matrix44.View sqrt State.CameraPosition State.CameraTarget ⟨0, 1, 0⟩).bind fun View =>
  let ViewProjection := r.Projection.mul View
  let ModelViewProjection := ViewProjection.mul r.Model
  (Matrix44.Invert ViewProjection).bind fun ViewProjectionInverse =>
  some (renderCommands r State ModelViewProjection ViewProjectionInverse)

/-! ## The OpenGL state the calls of `Render` act on -/

/-- The OpenGL state `Render` sets and its draw calls read. -/
structure GLState (F : Type) where
  DepthTest : Bool
  Blend : Bool
  CurrentProgram : Program
  DrawFramebuffer : FrameBuffer
  ClearColour : Vec4 F
  ActiveUnit : Nat
  TextureUnits : Nat → Option TextureName
  ModelViewProjection : Matrix44 F
  Model : Matrix44 F
  Vertices : List (Sample F)
  Uniforms : Uniforms F

/-- What a draw call finds when it is issued. -/
structure DrawCall (F : Type) where
  Mode : PrimitiveMode
  First : Nat
  Count : Nat
  State : GLState F

/-- The effect of one call on the state. -/
def GLState.step {F : Type} (s : GLState F) : GLCommand F → GLState F
  | GLCommand.Enable Capability.DEPTH_TEST => { s with DepthTest := true }
  | GLCommand.Enable Capability.BLEND => { s with Blend := true }
  | GLCommand.Disable Capability.DEPTH_TEST => { s with DepthTest := false }
  | GLCommand.Disable Capability.BLEND => { s with Blend := false }
  | GLCommand.UseProgram p => { s with CurrentProgram := p }
  | GLCommand.BindFramebuffer fb => { s with DrawFramebuffer := fb }
  | GLCommand.ClearColor r g b a => { s with ClearColour := ⟨r, g, b, a⟩ }
  | GLCommand.ClearDepth _ => s
  | GLCommand.Clear _ _ => s
  | GLCommand.UniformModelViewProjection M => { s with ModelViewProjection := M }
  | GLCommand.UniformModel M => { s with Model := M }
  | GLCommand.BindBuffer => s
  | GLCommand.BufferData data => { s with Vertices := data }
  | GLCommand.BindVertexArray => s
  | GLCommand.ActiveTexture unit => { s with ActiveUnit := unit }
  | GLCommand.BindTexture t =>
      { s with TextureUnits := fun u => if u = s.ActiveUnit then some t else s.TextureUnits u }
  | GLCommand.UniformEvaluationDirection v =>
      { s with Uniforms := { s.Uniforms with EvaluationDirection := v } }
  | GLCommand.UniformVoxelSize x => { s with Uniforms := { s.Uniforms with VoxelSize := x } }
  | GLCommand.UniformPixelDimensions v =>
      { s with Uniforms := { s.Uniforms with PixelDimensions := v } }
  | GLCommand.UniformViewProjectionInverse M =>
      { s with Uniforms := { s.Uniforms with ViewProjectionInverseMatrix := M } }
  | GLCommand.UniformLast b => { s with Uniforms := { s.Uniforms with LastRender := b } }
  | GLCommand.UniformSceneOffset v => { s with Uniforms := { s.Uniforms with SceneOffset := v } }
  | GLCommand.DrawArrays _ _ _ => s

/-- The draw calls issued by a list of calls run from a state, in order, each
with the state it finds. -/
def drawCalls {F : Type} : GLState F → List (GLCommand F) → List (DrawCall F)
  | _, [] => []
  | s, GLCommand.DrawArrays mode first count :: rest =>
      ⟨mode, first, count, s⟩ :: drawCalls s rest
  | s, c :: rest => drawCalls (s.step c) rest

/-- The textures a draw call of program 2 samples: the sampler uniforms are set
to the units 0, 1 and 2 by the constructor (`Renderer.cpp` lines 288-293). -/
def DrawCall.sampled {F : Type} (d : DrawCall F) :
    Option TextureName × Option TextureName × Option TextureName :=
  (d.State.TextureUnits 0, d.State.TextureUnits 1, d.State.TextureUnits 2)

/-- The three colour attachments, as sampled textures. -/
def attachedSet (fb : FrameBuffer) :
    Option (Option TextureName × Option TextureName × Option TextureName) :=
  (ColourAttachments fb).map fun a => (some a.1, some a.2.1, some a.2.2)

/-! ## The kernel passes of a frame, texel by texel -/

/-- The contents of a texture: the texel `(i, j)`, `i` counting columns and `j`
rows; only `0 ≤ i < ScreenWidth`, `0 ≤ j < ScreenHeight` are read
(`glTexImage2D`, `Renderer.cpp` line 174). -/
abbrev Image (F : Type) := Int → Int → Vec4 F

/-- The contents of all textures. -/
abbrev TextureMemory (F : Type) := TextureName → Image F

/-- The wrap mode `GL_CLAMP_TO_EDGE` (`Renderer.cpp` lines 172-173) on a texel
index of a texture with `size` texels. -/
def clampToEdge (i : Int) (size : Nat) : Int := max 0 (min i ((size : Int) - 1))

/-- The GLSL call `texture(Sampler, Coordinate)` on a texture of `Width` by
`Height` texels with the filter `GL_LINEAR` and the wrap mode
`GL_CLAMP_TO_EDGE` (`Renderer.cpp` lines 170-173): the four texels around the
coordinate, weighted by the fractional parts. -/
def texture {F : Type} [LinearOrderedField F] [FloorRing F] (Width Height : Nat) (img : Image F)
    (Coordinate : Vec2 F) : Vec4 F :=
  let u := Coordinate.x * (Width : F) - 1 / 2
  let v := Coordinate.y * (Height : F) - 1 / 2
  let i0 : Int := ⌊u⌋
  let j0 : Int := ⌊v⌋
  let a := u - (i0 : F)
  let b := v - (j0 : F)
  let t00 := img (clampToEdge i0 Width) (clampToEdge j0 Height)
  let t10 := img (clampToEdge (i0 + 1) Width) (clampToEdge j0 Height)
  let t01 := img (clampToEdge i0 Width) (clampToEdge (j0 + 1) Height)
  let t11 := img (clampToEdge (i0 + 1) Width) (clampToEdge (j0 + 1) Height)
  let blend := fun (c : Vec4 F → F) =>
    (1 - a) * (1 - b) * c t00 + a * (1 - b) * c t10 + (1 - a) * b * c t01 + a * b * c t11
  ⟨blend Vec4.x, blend Vec4.y, blend Vec4.z, blend Vec4.w⟩

/-- The value of the varying `VertexPosition` at the fragment of pixel `(i, j)`
of a `Width` by `Height` viewport: the full-screen triangle of
`VertexShaderSource2` gives every fragment its own normalised device
coordinates, at the pixel centre, and `z = 1`. -/
def FragmentVertexPosition {F : Type} [LinearOrderedField F] (Width Height : Nat) (i j : Int) :
    Vec3 F :=
  ⟨-1 + (2 * (i : F) + 1) / (Width : F), -1 + (2 * (j : F) + 1) / (Height : F), 1⟩

/-- The image a texture unit samples; a unit with no texture bound reads
(0, 0, 0, 1). -/
def boundImage {F : Type} [LinearOrderedField F] (mem : TextureMemory F) :
    Option TextureName → Image F
  | some t => mem t
  | none => fun _ _ => ⟨0, 0, 0, 1⟩

/-- The three samplers of a draw call of program 2: units 0, 1 and 2
(`Renderer.cpp` lines 288-293). -/
def DrawCall.samplers {F : Type} [LinearOrderedField F] [FloorRing F] (r : Renderer F)
    (d : DrawCall F) (mem : TextureMemory F) : Samplers F :=
  ⟨texture r.ScreenWidth r.ScreenHeight (boundImage mem (d.State.TextureUnits 0)),
   texture r.ScreenWidth r.ScreenHeight (boundImage mem (d.State.TextureUnits 1)),
   texture r.ScreenWidth r.ScreenHeight (boundImage mem (d.State.TextureUnits 2))⟩

/-- What the fragment shader of program 2 writes for pixel `(i, j)` in a draw call. -/
def fragmentOutputs {F : Type} [LinearOrderedField F] [FloorRing F] (sqrt sin : F → F)
    (r : Renderer F) (d : DrawCall F) (mem : TextureMemory F) (i j : Int) : FragmentOutputs F :=
  main sqrt sin (d.samplers r mem) d.State.Uniforms
    (FragmentVertexPosition r.ScreenWidth r.ScreenHeight i j)

/-- The loop variables of the fragment shader of program 2 for pixel `(i, j)`
in a draw call, when the tap loop is left. -/
def fragmentResolve {F : Type} [LinearOrderedField F] [FloorRing F] (sqrt : F → F)
    (r : Renderer F) (d : DrawCall F) (mem : TextureMemory F) (i j : Int) : KernelState F :=
  resolve sqrt (d.samplers r mem) d.State.Uniforms
    (FragmentVertexPosition r.ScreenWidth r.ScreenHeight i j)

/-- Pixel `(i, j)` lies in the viewport (`glViewport`, `Renderer.cpp` line 56). -/
def inViewport {F : Type} (r : Renderer F) (i j : Int) : Prop :=
  0 ≤ i ∧ i < (r.ScreenWidth : Int) ∧ 0 ≤ j ∧ j < (r.ScreenHeight : Int)

instance {F : Type} (r : Renderer F) (i j : Int) : Decidable (inViewport r i j) := by
  unfold inViewport
  infer_instance

/-- The effect on the textures of a draw call of the full-screen triangle with
program 2 into a framebuffer object: with blending and the depth test off
(`Renderer.cpp` lines 386-387), every texel of the three colour attachments
receives the output of its fragment; an output the shader leaves unassigned
leaves the texel as it is.  Other draw calls leave the textures unchanged. -/
def execDraw {F : Type} [LinearOrderedField F] [FloorRing F] (sqrt sin : F → F)
    (r : Renderer F) (mem : TextureMemory F) (d : DrawCall F) : TextureMemory F :=
  if d.State.CurrentProgram = Program.ShaderProgram2 ∧ d.Mode = PrimitiveMode.TRIANGLES then
    match ColourAttachments d.State.DrawFramebuffer with
    | none => mem
    | some (position, normal, colour) =>
      fun t i j =>
        if inViewport r i j then
          if t = position then (fragmentOutputs sqrt sin r d mem i j).FragmentPosition
          else if t = normal then
            ((fragmentOutputs sqrt sin r d mem i j).FramgmentNormal).getD (mem t i j)
          else if t = colour then
            ((fragmentOutputs sqrt sin r d mem i j).FramgmentColour).getD (mem t i j)
          else mem t i j
        else mem t i j
  else mem

/-- The textures after the draw calls of a frame that follow the splat pass,
run in order on the textures the splat pass left. -/
def runKernelPasses {F : Type} [LinearOrderedField F] [FloorRing F] (sqrt sin : F → F)
    (r : Renderer F) (calls : List (DrawCall F)) (afterSplat : TextureMemory F) :
    TextureMemory F :=
  (calls.drop 1).foldl (execDraw sqrt sin r) afterSplat

/-- The sample the composite pass (the last draw call of the frame) resolves
for pixel `(i, j)`: the loop variables of its fragment when the loop is left. -/
def compositeResolve {F : Type} [LinearOrderedField F] [FloorRing F] (sqrt sin : F → F)
    (r : Renderer F) (calls : List (DrawCall F)) (afterSplat : TextureMemory F) (i j : Int) :
    Option (KernelState F) :=
  calls.getLast?.map fun d =>
    fragmentResolve sqrt r d (runKernelPasses sqrt sin r calls afterSplat) i j

/-- The data of one sample: position, normal and colour. -/
abbrev SampleData (F : Type) := Vec3 F × Vec3 F × Vec3 F

/-- The position, normal and colour held by the loop variables. -/
def KernelState.data {F : Type} (s : KernelState F) : SampleData F :=
  (s.OutputPosition, s.OutputNormal, s.OutputColour)

/-- The position, normal and colour a set of three textures holds at texel `(i, j)`. -/
def texelData {F : Type} (mem : TextureMemory F) (set : TextureName × TextureName × TextureName)
    (i j : Int) : SampleData F :=
  ((mem set.1 i j).xyz, (mem set.2.1 i j).xyz, (mem set.2.2 i j).xyz)

/-- The data of a miss: three zero vectors. -/
def zeroData {F : Type} [LinearOrderedField F] : SampleData F := (⟨0, 0, 0⟩, ⟨0, 0, 0⟩, ⟨0, 0, 0⟩)

/-- The data `x` is the data of a miss or the data `src` holds at a pixel of
the viewport at most `nx` columns and at most `ny` rows away from `(i, j)`. -/
def Carried {F : Type} [LinearOrderedField F] (r : Renderer F) (src : Int → Int → SampleData F)
    (nx ny : Int) (i j : Int)
    (x : SampleData F) : Prop :=
  x = zeroData ∨ ∃ i' j', inViewport r i' j' ∧ |i' - i| ≤ nx ∧ |j' - j| ≤ ny ∧ x = src i' j'

/-- The renderer the constructor builds for a 64 by 64 window
(`Renderer.cpp` lines 152-163), for a given tangent function and value of `M_PI`. -/
def reachRenderer {F : Type} [LinearOrderedField F] (tan : F → F) (M_PI : F) : Renderer F :=
  { ScreenWidth := 64
    ScreenHeight := 64
    Projection := Matrix44.Perspective tan M_PI 45 (64 / 64) (1 / 100) 1000
    Model := Matrix44.Identity
    Subdivisions := 100 }

/-- A game state: the camera at (0.0343, 0.0099, 0.0205) looking down the negative
z axis, and a 4 x 2 x 2 volume whose only opaque voxel is the cell (3, 1, 1), at
the world position (0.03, 0.01, 0.01). -/
def reachState {F : Type} [LinearOrderedField F] : GameState F :=
  { CameraPosition := ⟨343 / 10000, 99 / 10000, 205 / 10000⟩
    CameraTarget := ⟨343 / 10000, 99 / 10000, -9795 / 10000⟩
    SceneOffset := ⟨0, 0, 0⟩
    Scene :=
      { SizeX := 4
        SizeY := 2
        SizeZ := 2
        At := fun x y z => if x = 3 ∧ y = 1 ∧ z = 1 then ⟨15, 0, 0, 1⟩ else ⟨0, 0, 0, 0⟩ } }

/-- The product `Projection * View` for `reachRenderer` and `reachState`. -/
def reachViewProjection {F : Type} [LinearOrderedField F] (tan : F → F) (M_PI : F) : Matrix44 F :=
  (reachRenderer tan M_PI).Projection.mul
    (Matrix44.ofValues 1 0 0 (-(343 / 10000)) 0 1 0 (-(99 / 10000))
      0 0 1 (-(205 / 10000)) 0 0 0 1)

/-- The world position of the voxel of `reachState`. -/
def reachVoxel {F : Type} [LinearOrderedField F] : Vec3 F := ⟨3 / 100, 1 / 100, 1 / 100⟩

/-- The three textures of set 1 as the splat pass leaves them for `reachState`:
the clear value (0.9, 0.9, 0.9, 1) everywhere, except at the pixel (0, 32) the
voxel projects to, which holds its position, normal and colour. -/
def reachAfterSplat {F : Type} [LinearOrderedField F] : TextureMemory F := fun t i j =>
  match t with
  | TextureName.TexturePosition1 =>
      if i = 0 ∧ j = 32 then ⟨3 / 100, 1 / 100, 1 / 100, 1⟩ else ⟨9 / 10, 9 / 10, 9 / 10, 1⟩
  | TextureName.TextureNormal1 =>
      if i = 0 ∧ j = 32 then ⟨1, 0, 0, 0⟩ else ⟨9 / 10, 9 / 10, 9 / 10, 1⟩
  | TextureName.TextureColour1 =>
      if i = 0 ∧ j = 32 then ⟨1, 0, 0, 1⟩ else ⟨9 / 10, 9 / 10, 9 / 10, 1⟩
  | _ => ⟨0, 0, 0, 0⟩

/-- The two values an empty texel of a position texture holds: the clear value
of the splat pass and the zero vector a kernel pass writes on a miss. -/
def IsSentinel {F : Type} [LinearOrderedField F] (p : Vec3 F) : Prop :=
  p = ⟨9 / 10, 9 / 10, 9 / 10⟩ ∨ p = ⟨0, 0, 0⟩

/-- The ray of the fragment of pixel `(i, j)` misses the cube around `p`, by the
test of the kernel. -/
def fragmentRayMisses {F : Type} [LinearOrderedField F] (sqrt : F → F) (r : Renderer F)
    (U : Uniforms F) (i j : Int) (p : Vec3 F) : Prop :=
  ¬ (RayBoxIntersect (EyePosition U)
        (EyeVector sqrt U (FragmentVertexPosition r.ScreenWidth r.ScreenHeight i j))
        (p.subScalar U.VoxelSize) (p.addScalar U.VoxelSize)).x
      ≤ (RayBoxIntersect (EyePosition U)
        (EyeVector sqrt U (FragmentVertexPosition r.ScreenWidth r.ScreenHeight i j))
        (p.subScalar U.VoxelSize) (p.addScalar U.VoxelSize)).y

/-- The window coordinates of a vertex with clip coordinates `clip` in a
`Width` by `Height` viewport at the origin (`glViewport`, `Renderer.cpp` line 56). -/
def windowCoordinate {F : Type} [LinearOrderedField F] (Width Height : Nat) (clip : Vec4 F) :
    Vec2 F :=
  ⟨(clip.x / clip.w + 1) / 2 * (Width : F), (clip.y / clip.w + 1) / 2 * (Height : F)⟩

/-- GLSL `dot` on `vec2`. -/
def Vec2.dot {F : Type} [LinearOrderedField F] (a b : Vec2 F) : F := a.x * b.x + a.y * b.y

/-- A renderer for a 2 by 3 window whose projection is the frustum
`[-1, 1] x [-1, 1]`, near 1, far 3; the constructor's `Model` and `Subdivisions`. -/
def sampleRenderer : Renderer ℚ :=
  { ScreenWidth := 2
    ScreenHeight := 3
    Projection := Matrix44.Frustum (-1) 1 (-1) 1 1 3
    Model := Matrix44.Identity
    Subdivisions := 100 }

/-- A game state: the camera at the origin looking down the negative z axis,
and a 2 x 1 x 1 volume whose first voxel is opaque. -/
def sampleState : GameState ℚ :=
  { CameraPosition := ⟨0, 0, 0⟩
    CameraTarget := ⟨0, 0, -1⟩
    SceneOffset := ⟨0, 0, 0⟩
    Scene :=
      { SizeX := 2
        SizeY := 1
        SizeZ := 1
        At := fun x _ _ => if x = 0 then ⟨5, 3, 8, 1⟩ else ⟨0, 0, 0, 0⟩ } }

/-- An OpenGL state to start from (the one the constructor leaves, as far as
`Render` reads it). -/
def sampleGLState {F : Type} [LinearOrderedField F] : GLState F :=
  { DepthTest := true
    Blend := true
    CurrentProgram := Program.ShaderProgram2
    DrawFramebuffer := FrameBuffer.FrameBuffer2
    ClearColour := ⟨0, 0, 0, 0⟩
    ActiveUnit := 0
    TextureUnits := fun _ => some TextureName.TextureColour2
    ModelViewProjection := Matrix44.Identity
    Model := Matrix44.Identity
    Vertices := []
    Uniforms := ⟨Matrix44.Identity, ⟨0, 0⟩, 0, ⟨0, 0⟩, false, ⟨0, 0, 0⟩⟩ }

/-- A matrix with determinant 8 on which `Invert` is evaluated. -/
def sampleMatrix : Matrix44 ℚ :=
  Matrix44.ofValues 2 0 0 1  0 1 0 0  0 3 1 0  0 0 0 4

/-- The uniforms of a spread pass over a 2 by 3 window with the identity as
`ViewProjectionInverseMatrix`: the eye is (0, 0, -1). -/
def sampleUniforms : Uniforms ℚ :=
  ⟨Matrix44.Identity, ⟨1, 0⟩, 1 / 200, ⟨1 / 2, 1 / 3⟩, false, ⟨0, 0, 0⟩⟩

/-- The `VertexPosition` of the pixel (1, 2) of a 2 by 3 window.  With
`sampleUniforms` its ray has the direction (3/13, 4/13, 12/13). -/
def sampleVertexPosition : Vec3 ℚ := ⟨1 / 2, 2 / 3, 1⟩

/-- Textures holding one voxel everywhere, at (3, 4, 11): on the ray of
`sampleVertexPosition`, 13 units from the eye. -/
def nearSamplers : Samplers ℚ :=
  ⟨fun _ => ⟨3, 4, 11, 1⟩, fun _ => ⟨1, 0, 0, 0⟩, fun _ => ⟨1 / 3, 2 / 3, 2 / 3, 1⟩⟩

/-- Textures holding one voxel everywhere, at (6000000, 8000000, 23999999): on
the ray of `sampleVertexPosition`, 26000000 units from the eye. -/
def farSamplers : Samplers ℚ :=
  ⟨fun _ => ⟨6000000, 8000000, 23999999, 1⟩, fun _ => ⟨1, 0, 0, 0⟩,
   fun _ => ⟨1 / 3, 2 / 3, 2 / 3, 1⟩⟩

/-- Textures holding the clear value of the splat pass everywhere
(`Renderer.cpp` line 335): no voxel was drawn. -/
def clearSamplers : Samplers ℚ :=
  ⟨fun _ => ⟨9 / 10, 9 / 10, 9 / 10, 1⟩, fun _ => ⟨9 / 10, 9 / 10, 9 / 10, 1⟩,
   fun _ => ⟨9 / 10, 9 / 10, 9 / 10, 1⟩⟩

/-- Uniforms whose `ViewProjectionInverseMatrix` is a translation putting the
eye at (-21/10, -31/10, -111/10): the ray of `sampleVertexPosition` then passes
through (9/10, 9/10, 9/10). -/
def sentinelUniforms : Uniforms ℚ :=
  ⟨Matrix44.ofValues 1 0 0 (-21 / 10)  0 1 0 (-31 / 10)  0 0 1 (-101 / 10)  0 0 0 1,
   ⟨1, 0⟩, 1 / 200, ⟨1 / 2, 1 / 3⟩, false, ⟨0, 0, 0⟩⟩

/-- The hit test of the loop body for one tap (`ShaderSource.cpp` line 201). -/
def tapHits {F : Type} [LinearOrderedField F] (S : Samplers F) (U : Uniforms F)
    (EyePosition EyeVector : Vec3 F) (DataCoordinate : Vec2 F) (CurrentTap : Int) : Prop :=
  (IntersectionDepths S U EyePosition EyeVector DataCoordinate CurrentTap).x
    ≤ (IntersectionDepths S U EyePosition EyeVector DataCoordinate CurrentTap).y

instance {F : Type} [LinearOrderedField F] (S : Samplers F) (U : Uniforms F)
    (EyePosition EyeVector : Vec3 F) (DataCoordinate : Vec2 F) (CurrentTap : Int) :
    Decidable (tapHits S U EyePosition EyeVector DataCoordinate CurrentTap) := by
  unfold tapHits
  infer_instance

/-- The values the loop body assigns when a tap becomes the best one
(`ShaderSource.cpp` lines 203-206). -/
def tapRecord {F : Type} [LinearOrderedField F] (S : Samplers F) (U : Uniforms F)
    (EyePosition EyeVector : Vec3 F) (DataCoordinate : Vec2 F) (CurrentTap : Int) :
    KernelState F :=
  { BestDepth := (IntersectionDepths S U EyePosition EyeVector DataCoordinate CurrentTap).x
    OutputPosition := (S.PositionSampler (TappedCoordinate U DataCoordinate CurrentTap)).xyz
    OutputNormal := (S.NormalSampler (TappedCoordinate U DataCoordinate CurrentTap)).xyz
    OutputColour := (S.ColourSampler (TappedCoordinate U DataCoordinate CurrentTap)).xyz }

/-- The hit test of tap `CurrentTap` as `main` evaluates it for a fragment. -/
abbrev fragmentTapHits {F : Type} [LinearOrderedField F] (sqrt : F → F) (S : Samplers F)
    (U : Uniforms F) (VertexPosition : Vec3 F) (CurrentTap : Int) : Prop :=
  tapHits S U (EyePosition U) (EyeVector sqrt U VertexPosition) (DataCoordinate VertexPosition)
    CurrentTap

/-- The entry depth `IntersectionDepths.x` of tap `CurrentTap` as `main`
evaluates it for a fragment. -/
abbrev fragmentTapDepth {F : Type} [LinearOrderedField F] (sqrt : F → F) (S : Samplers F)
    (U : Uniforms F) (VertexPosition : Vec3 F) (CurrentTap : Int) : F :=
  (IntersectionDepths S U (EyePosition U) (EyeVector sqrt U VertexPosition)
    (DataCoordinate VertexPosition) CurrentTap).x

/-- The entry depth, position, normal and colour of tap `CurrentTap` as `main`
reads them for a fragment. -/
abbrev fragmentTapRecord {F : Type} [LinearOrderedField F] (sqrt : F → F) (S : Samplers F)
    (U : Uniforms F) (VertexPosition : Vec3 F) (CurrentTap : Int) : KernelState F :=
  tapRecord S U (EyePosition U) (EyeVector sqrt U VertexPosition) (DataCoordinate VertexPosition)
    CurrentTap

/-- The position `main` samples at tap `CurrentTap` for a fragment. -/
abbrev fragmentTapPosition {F : Type} [LinearOrderedField F] (S : Samplers F)
    (U : Uniforms F) (VertexPosition : Vec3 F) (CurrentTap : Int) : Vec3 F :=
  (S.PositionSampler (TappedCoordinate U (DataCoordinate VertexPosition) CurrentTap)).xyz

/-! ## Statements about the sample list -/

/-- The cells of the volume in the order the three loops of `Render` visit them
(`Renderer.cpp` lines 359-361): `z` outermost, then `y`, then `x`. -/
def loopCells (Scene : Scene) : List (Nat × Nat × Nat) :=
  (List.range Scene.SizeZ).flatMap fun z =>
  (List.range Scene.SizeY).flatMap fun y =>
  (List.range Scene.SizeX).map fun x => (x, y, z)

/-- The test `v.Alpha > 0` of `Render` (`Renderer.cpp` line 365) on the voxel of a cell. -/
def opaqueCell (Scene : Scene) (c : Nat × Nat × Nat) : Bool :=
  decide ((Scene.At c.1 c.2.1 c.2.2).Alpha > 0)

/-- The order in which the loops visit two cells: by `z`, then `y`, then `x`. -/
def visitedBefore (a b : Nat × Nat × Nat) : Prop :=
  a.2.2 < b.2.2 ∨ (a.2.2 = b.2.2 ∧ (a.2.1 < b.2.1 ∨ (a.2.1 = b.2.1 ∧ a.1 < b.1)))

/-- The record `push_back` appends for the voxel `v` of the cell `(x, y, z)`
(`Renderer.cpp` lines 367-371). -/
def voxelRecord {F : Type} [LinearOrderedField F] (x y z : Nat) (v : Voxel) : Sample F :=
  { Position := ⟨(x : F) / 100, (y : F) / 100, (z : F) / 100⟩
    Normal := ⟨1, 0, 0⟩
    Colour := ⟨(((v.Hue + (2 ^ 32 - 4)) % 2 ^ 32 : Nat) : F) / 11, (v.Saturation : F) / 3,
      (v.Light : F) / 15⟩ }

/-! ## ShaderSource.cpp: the stage-1 shaders -/

/-- The outputs of `VertexShaderSource1` (`ShaderSource.cpp` lines 41-43 and
`gl_Position`). -/
structure VertexOutputs1 (F : Type) where
  VertexPosition : Vec3 F
  VertexNormal : Vec3 F
  VertexColour : Vec3 F
  gl_Position : Vec4 F

/-- The function `main` of `VertexShaderSource1` (`ShaderSource.cpp` lines 46-51); the two
matrices are uploaded with `transpose = GL_TRUE` (`Renderer.cpp` lines 346-347). -/
def VertexShaderSource1.main {F : Type} [LinearOrderedField F]
    (ModelViewProjectionMatrix ModelMatrix : Matrix44 F)
    (InputPosition InputNormal InputColour : Vec3 F) : VertexOutputs1 F :=
  { VertexPosition := (ModelMatrix.mulVec4 (Vec4.ofVec3 InputPosition 1)).xyz
    VertexNormal := (ModelMatrix.mulVec4 (Vec4.ofVec3 InputNormal 0)).xyz
    VertexColour := InputColour
    gl_Position := ModelViewProjectionMatrix.mulVec4 (Vec4.ofVec3 InputPosition 1) }

/-- The outputs of `FragmentShaderSource1` (`ShaderSource.cpp` lines 63-65). -/
structure FragmentOutputs1 (F : Type) where
  FragmentPosition : Vec4 F
  FragmentNormal : Vec4 F
  FragmentColour : Vec4 F

/-- The function `main` of `FragmentShaderSource1` (`ShaderSource.cpp` lines 68-72). -/
def FragmentShaderSource1.main {F : Type} [LinearOrderedField F] (sqrt : F → F)
    (VertexPosition VertexNormal VertexColour : Vec3 F) : FragmentOutputs1 F :=
  { FragmentPosition := Vec4.ofVec3 VertexPosition 1
    FragmentNormal := Vec4.ofVec3 (normalize sqrt VertexNormal) 0
    FragmentColour := Vec4.ofVec3 (normalize sqrt VertexColour) 1 }

/-- What program 1 writes for the fragment of a point: the three vertex
attributes of the sample (`Renderer.cpp` lines 313-315) go through the vertex
shader, and the fragment of a point receives the outputs of its one vertex. -/
def splatFragment {F : Type} [LinearOrderedField F] (sqrt : F → F)
    (ModelViewProjectionMatrix ModelMatrix : Matrix44 F) (s : Sample F) : FragmentOutputs1 F :=
  let v := VertexShaderSource1.main ModelViewProjectionMatrix ModelMatrix
    s.Position s.Normal s.Colour
  FragmentShaderSource1.main sqrt v.VertexPosition v.VertexNormal v.VertexColour

/-- A volume of one voxel with hue 4, saturation 1 and lightness 12: its record
has the colour (0, 1/3, 4/5), of length 13/15. -/
def dimScene : Scene :=
  { SizeX := 1
    SizeY := 1
    SizeZ := 1
    At := fun _ _ _ => ⟨4, 1, 12, 1⟩ }

/-- A volume of 91 x 91 x 91 cells whose only opaque voxel is the last one, the
cell (90, 90, 90). -/
def cornerScene : Scene :=
  { SizeX := 91
    SizeY := 91
    SizeZ := 91
    At := fun x y z => if x = 90 ∧ y = 90 ∧ z = 90 then ⟨4, 0, 0, 1⟩ else ⟨0, 0, 0, 0⟩ }

/-- The sample game state with the volume `cornerScene`. -/
def cornerState : GameState ℚ :=
  { CameraPosition := ⟨0, 0, 0⟩
    CameraTarget := ⟨0, 0, -1⟩
    SceneOffset := ⟨0, 0, 0⟩
    Scene := cornerScene }

/-- The uniforms of a composite pass (`LastRender = true`, direction (0, 1))
over a 2 by 3 window with the identity as `ViewProjectionInverseMatrix`. -/
def compositeUniforms : Uniforms ℚ :=
  ⟨Matrix44.Identity, ⟨0, 1⟩, 1 / 200, ⟨1 / 2, 1 / 3⟩, true, ⟨0, 0, 0⟩⟩

/-- Textures holding one voxel everywhere, placed so that the ray of
`sampleVertexPosition` enters its cube at the depth 9999999 exactly. -/
def edgeSamplers : Samplers ℚ :=
  ⟨fun _ => ⟨29999997 / 13, 39999996 / 13, 23999995013 / 2600, 1⟩, fun _ => ⟨1, 0, 0, 0⟩,
   fun _ => ⟨1 / 3, 2 / 3, 2 / 3, 1⟩⟩

/-- The standard hue ramps of the HSL to RGB conversion, as the specification
words it, for a hue scaled to the six sectors `0 ≤ H ≤ 6`: the red, the green
and the blue share of the chroma, each between 0 and 1. -/
def standardHueRamp {F : Type} [LinearOrderedField F] (H : F) : Vec3 F :=
  ⟨if H ≤ 1 then 1 else if H ≤ 2 then 2 - H else if H ≤ 4 then 0 else if H ≤ 5 then H - 4 else 1,
   if H ≤ 1 then H else if H ≤ 3 then 1 else if H ≤ 4 then 4 - H else 0,
   if H ≤ 2 then 0 else if H ≤ 3 then H - 2 else if H ≤ 5 then 1 else 6 - H⟩

/-- The standard HSL to RGB conversion, as the specification words it: chroma
`C = (1 - |2L - 1|) * S`, `m = L - C / 2`, and each channel `m + C * k` for the
hue ramp `k` of the channel; the hue `h` in `[0, 1]` covers the six sectors. -/
def standardHSL2RGB {F : Type} [LinearOrderedField F] (HSL : Vec3 F) : Vec3 F :=
  let C := (1 - |2 * HSL.z - 1|) * HSL.y
  let m := HSL.z - C / 2
  let k := standardHueRamp (HSL.x * 6)
  ⟨m + C * k.x, m + C * k.y, m + C * k.z⟩

/-! ## The splat pass and the displayed frame, texel by texel -/

/-- The three colour textures and the depth texture while the splat pass draws. -/
structure SplatBuffers (F : Type) where
  Textures : TextureMemory F
  Depth : Int → Int → F

/-- The call `glClear(GL_COLOR_BUFFER_BIT | GL_DEPTH_BUFFER_BIT)` of the splat
pass (`Renderer.cpp` lines 335-339): every texel of the three colour attachments
of the bound framebuffer receives the clear colour, and the depth buffer the
clear depth 1. -/
def clearBuffers {F : Type} [LinearOrderedField F] (s : GLState F) (mem : TextureMemory F) :
    SplatBuffers F :=
  { Textures :=
      match ColourAttachments s.DrawFramebuffer with
      | none => mem
      | some (position, normal, colour) => fun t i j =>
          if t = position ∨ t = normal ∨ t = colour then s.ClearColour else mem t i j
    Depth := fun _ _ => 1 }

/-- The fragment of a point of size 1 (`glPointSize(1.0f)`, `Renderer.cpp` line
298) with the given clip coordinates: none when the point lies outside the clip
volume, otherwise the pixel its window coordinates fall in and its window
depth. -/
def pointFragment {F : Type} [LinearOrderedField F] [FloorRing F] (r : Renderer F)
    (clip : Vec4 F) : Option (Int × Int × F) :=
  if 0 < clip.w ∧ -clip.w ≤ clip.x ∧ clip.x ≤ clip.w ∧ -clip.w ≤ clip.y ∧ clip.y ≤ clip.w
      ∧ -clip.w ≤ clip.z ∧ clip.z ≤ clip.w then
    some (⌊(windowCoordinate r.ScreenWidth r.ScreenHeight clip).x⌋,
      ⌊(windowCoordinate r.ScreenWidth r.ScreenHeight clip).y⌋, (clip.z / clip.w + 1) / 2)
  else none

/-- The effect of one vertex of the splat pass: its fragment, when it has one in
the viewport and passes the depth test `GL_LESS` (`Renderer.cpp` lines 296-297
and 327), replaces the texel of each colour attachment (blending is off, line
328) and the depth. -/
def drawPoint {F : Type} [LinearOrderedField F] [FloorRing F] (sqrt : F → F) (r : Renderer F)
    (d : DrawCall F) (buf : SplatBuffers F) (s : Sample F) : SplatBuffers F :=
  match ColourAttachments d.State.DrawFramebuffer,
    pointFragment r (VertexShaderSource1.main d.State.ModelViewProjection d.State.Model
      s.Position s.Normal s.Colour).gl_Position with
  | some (position, normal, colour), some (i, j, depth) =>
      if inViewport r i j ∧ (d.State.DepthTest = true → depth < buf.Depth i j) then
        { Textures := fun t i' j' =>
            if i' = i ∧ j' = j then
              if t = position then
                (splatFragment sqrt d.State.ModelViewProjection d.State.Model s).FragmentPosition
              else if t = normal then
                (splatFragment sqrt d.State.ModelViewProjection d.State.Model s).FragmentNormal
              else if t = colour then
                (splatFragment sqrt d.State.ModelViewProjection d.State.Model s).FragmentColour
              else buf.Textures t i' j'
            else buf.Textures t i' j'
          Depth := fun i' j' =>
            if i' = i ∧ j' = j ∧ d.State.DepthTest = true then depth else buf.Depth i' j' }
      else buf
  | _, _ => buf

/-- The splat pass (`Renderer.cpp` lines 331-383): the clear, then the vertices
`First ..< First + Count` of the buffer drawn as points with program 1, in
order. -/
def execSplat {F : Type} [LinearOrderedField F] [FloorRing F] (sqrt : F → F) (r : Renderer F)
    (d : DrawCall F) (mem : TextureMemory F) : SplatBuffers F :=
  if d.State.CurrentProgram = Program.ShaderProgram1 ∧ d.Mode = PrimitiveMode.POINTS then
    ((d.State.Vertices.drop d.First).take d.Count).foldl (drawPoint sqrt r d)
      (clearBuffers d.State mem)
  else ⟨mem, fun _ _ => 1⟩

/-- The textures the first draw call of a frame, the splat pass, leaves. -/
def frameAfterSplat {F : Type} [LinearOrderedField F] [FloorRing F] (sqrt : F → F)
    (r : Renderer F) (calls : List (DrawCall F)) (mem : TextureMemory F) : TextureMemory F :=
  match calls.head? with
  | some d0 => (execSplat sqrt r d0 mem).Textures
  | none => mem

/-- What the last draw call of a frame, the composite pass, writes for pixel
`(i, j)`, the passes before it run on the textures `mem`. -/
def frameOutput {F : Type} [LinearOrderedField F] [FloorRing F] (sqrt sin : F → F)
    (r : Renderer F) (calls : List (DrawCall F)) (mem : TextureMemory F) (i j : Int) :
    Option (FragmentOutputs F) :=
  calls.getLast?.map fun d =>
    fragmentOutputs sqrt sin r d
      (runKernelPasses sqrt sin r calls (frameAfterSplat sqrt r calls mem)) i j

/-- Blending with `glBlendFunc(GL_SRC_ALPHA, GL_ONE_MINUS_SRC_ALPHA)`
(`Renderer.cpp` line 300). -/
def blend {F : Type} [LinearOrderedField F] (src dst : Vec4 F) : Vec4 F :=
  ⟨src.x * src.w + dst.x * (1 - src.w), src.y * src.w + dst.y * (1 - src.w),
   src.z * src.w + dst.z * (1 - src.w), src.w * src.w + dst.w * (1 - src.w)⟩

/-- The colour of pixel `(i, j)` of the window after a frame: the output of the
composite pass, blended when blending is on (`Renderer.cpp` line 445) over the
clear colour the window was cleared to just before (lines 453-457). -/
def displayedPixel {F : Type} [LinearOrderedField F] [FloorRing F] (sqrt sin : F → F)
    (r : Renderer F) (calls : List (DrawCall F)) (mem : TextureMemory F) (i j : Int) :
    Option (Vec4 F) :=
  calls.getLast?.bind fun d =>
    (frameOutput sqrt sin r calls mem i j).map fun out =>
      if d.State.Blend = true then blend out.FragmentPosition d.State.ClearColour
      else out.FragmentPosition

/-- The entry and exit depths the kernel computes for the ray of the fragment
of pixel `(i, j)` and the cube around `p`. -/
def fragmentRayDepths {F : Type} [LinearOrderedField F] (sqrt : F → F) (r : Renderer F)
    (U : Uniforms F) (i j : Int) (p : Vec3 F) : Vec2 F :=
  RayBoxIntersect (EyePosition U)
    (EyeVector sqrt U (FragmentVertexPosition r.ScreenWidth r.ScreenHeight i j))
    (p.subScalar U.VoxelSize) (p.addScalar U.VoxelSize)

/-- The ray of the fragment of pixel `(i, j)` hits the cube around `p`, by the
test of the kernel, at an entry depth of at most `D`. -/
def fragmentRayHits {F : Type} [LinearOrderedField F] (sqrt : F → F) (r : Renderer F)
    (U : Uniforms F) (i j : Int) (p : Vec3 F) (D : F) : Prop :=
  (fragmentRayDepths sqrt r U i j p).x ≤ (fragmentRayDepths sqrt r U i j p).y
    ∧ (fragmentRayDepths sqrt r U i j p).x ≤ D

/-- The uniforms of the composite pass of a frame (`Renderer.cpp` lines 469-482). -/
def compositeUniformsOf {F : Type} [LinearOrderedField F] (r : Renderer F) (State : GameState F)
    (ViewProjectionInverse : Matrix44 F) : Uniforms F :=
  ⟨ViewProjectionInverse, ⟨0, 1⟩, (1 / 2) / r.Subdivisions, pixelDimensions r, true,
    sceneOffset State⟩

/-- A game state whose camera is at `Eye` and looks down the negative z axis. -/
def axisState {F : Type} [LinearOrderedField F] (Eye : Vec3 F) (Scene : Scene) : GameState F :=
  { CameraPosition := Eye
    CameraTarget := ⟨Eye.x, Eye.y, Eye.z - 1⟩
    SceneOffset := ⟨0, 0, 0⟩
    Scene := Scene }

/-- The product `Projection * View` for `reachRenderer` and a camera at `Eye`
looking down the negative z axis. -/
def axisViewProjection {F : Type} [LinearOrderedField F] (tan : F → F) (M_PI : F) (Eye : Vec3 F) :
    Matrix44 F :=
  (reachRenderer tan M_PI).Projection.mul
    (Matrix44.ofValues 1 0 0 (-Eye.x) 0 1 0 (-Eye.y) 0 0 1 (-Eye.z) 0 0 0 1)

/-- A volume of 2 x 2 x 2 cells without any opaque voxel. -/
def emptyScene : Scene :=
  { SizeX := 2
    SizeY := 2
    SizeZ := 2
    At := fun _ _ _ => ⟨0, 0, 0, 0⟩ }

/-- The pixel and the window depth of the fragment of a sample in the splat
pass of a frame, none when the point is clipped. -/
def splatPixel {F : Type} [LinearOrderedField F] [FloorRing F] (r : Renderer F)
    (calls : List (DrawCall F)) (s : Sample F) : Option (Int × Int × F) :=
  calls.head?.bind fun d0 =>
    pointFragment r (VertexShaderSource1.main d0.State.ModelViewProjection d0.State.Model
      s.Position s.Normal s.Colour).gl_Position

/-- The camera position of `reachState`. -/
def reachEye {F : Type} [LinearOrderedField F] : Vec3 F :=
  ⟨343 / 10000, 99 / 10000, 205 / 10000⟩

/-- A volume of 4 x 2 x 2 cells whose only opaque voxel is the cell (3, 1, 1),
at the world position (0.03, 0.01, 0.01). -/
def oneVoxelScene : Scene :=
  { SizeX := 4
    SizeY := 2
    SizeZ := 2
    At := fun x y z => if x = 3 ∧ y = 1 ∧ z = 1 then ⟨15, 0, 0, 1⟩ else ⟨0, 0, 0, 0⟩ }

/-! ## Statements about the camera matrices -/

/-- The division of clip coordinates by their `w` that follows the vertex
shader: the normalised device coordinates of a vertex. -/
def perspectiveDivide {F : Type} [LinearOrderedField F] (clip : Vec4 F) : Vec3 F :=
  clip.xyz.divScalar clip.w

/-! ## Renderer.cpp: the constructor -/

/-- The value `GL_FRAMEBUFFER_COMPLETE` of the OpenGL headers. -/
def GL_FRAMEBUFFER_COMPLETE : Nat := 0x8CD5

/-- The value `GL_FALSE` of the OpenGL headers. -/
def GL_FALSE : Int := 0

/-- What the OpenGL implementation answers to the queries of the constructor:
the value written to `ErrorCode` by the four `glGetShaderiv` and the two
`glGetProgramiv` calls (`Renderer.cpp` lines 106-141), and the value
`glCheckFramebufferStatus` returns for each of the two framebuffers (lines 212
and 256). -/
structure DriverReplies where
  VertexShader1 : Int
  FragmentShader1 : Int
  VertexShader2 : Int
  FragmentShader2 : Int
  ShaderProgram1 : Int
  ShaderProgram2 : Int
  Status1 : Nat
  Status2 : Nat

/-- The six messages the constructor can write to `std::cerr`
(`Renderer.cpp` lines 110-145), each named after the object it reports. -/
inductive Diagnostic where
  | VertexShader1
  | FragmentShader1
  | VertexShader2
  | FragmentShader2
  | ShaderProgram1
  | ShaderProgram2
  deriving DecidableEq, Repr

/-- What the six checks of `Renderer.cpp` lines 104-146 write to `std::cerr`,
in order: one message for every `ErrorCode == GL_FALSE`. -/
def constructionLog (gl : DriverReplies) : List Diagnostic :=
  (if gl.VertexShader1 = GL_FALSE then [Diagnostic.VertexShader1] else [])
  ++ (if gl.FragmentShader1 = GL_FALSE then [Diagnostic.FragmentShader1] else [])
  ++ (if gl.VertexShader2 = GL_FALSE then [Diagnostic.VertexShader2] else [])
  ++ (if gl.FragmentShader2 = GL_FALSE then [Diagnostic.FragmentShader2] else [])
  ++ (if gl.ShaderProgram1 = GL_FALSE then [Diagnostic.ShaderProgram1] else [])
  ++ (if gl.ShaderProgram2 = GL_FALSE then [Diagnostic.ShaderProgram2] else [])

/-- How a call of the constructor ends, with what it wrote to `std::cerr`:
an assertion of `Matrix44::View` failed (line 154), `std::abort` was called
(line 214 or 258), or the constructor returned, leaving the fields `Render`
reads and the member `View`. -/
inductive Construction (F : Type) where
  | Asserted (Log : List Diagnostic)
  | Aborted (Log : List Diagnostic)
  | Completed (Log : List Diagnostic) (r : Renderer F) (View : Matrix44 F)

set_option linter.dupNamespace false in
/-- The constructor `Renderer::Renderer` (`Renderer.cpp` lines 51-320), as far as
it decides how construction ends and which values it leaves in the fields.
The square root, the tangent and `M_PI` are the ones supplied by the caller;
the checks of `CHECK_GL` are those of a build without `_DEBUG`. -/
def Renderer.Renderer {F : Type} [LinearOrderedField F] (sqrt tan : F → F) (M_PI : F)
    (ScreenWidth ScreenHeight : Nat) (gl : DriverReplies) : Construction F :=
  let Log := constructionLog gl
  let Projection : Matrix44 F :=
    Matrix44.Perspective tan M_PI 45 ((ScreenWidth : F) / (ScreenHeight : F)) (1 / 100) 1000
  match Matrix44.View sqrt ⟨-(1 / 4), -(1 / 4), -(1 / 4)⟩ ⟨0, 0, 0⟩ ⟨0, 1, 0⟩ with
  | none => Construction.Asserted Log
  | some View =>
    let Model : Matrix44 F := Matrix44.ofValues 1 0 0 0  0 1 0 0  0 0 1 0  0 0 0 1
    let Subdivisions : F := 100
    if gl.Status1 ≠ GL_FRAMEBUFFER_COMPLETE then Construction.Aborted Log
    else if gl.Status2 ≠ GL_FRAMEBUFFER_COMPLETE then Construction.Aborted Log
    else
      Construction.Completed Log
        { ScreenWidth := ScreenWidth
          ScreenHeight := ScreenHeight
          Projection := Projection
          Model := Model
          Subdivisions := Subdivisions }
        View

/-! ## Renderer.cpp: what a call of `Render` leaves for the next call -/

/-- What persists from one call of `Render` to the next: the member `View`
(`Renderer.cpp` line 324), the `static` vector `map` (line 350) and the state of
the OpenGL context. -/
structure FrameMemory (F : Type) where
  View : Matrix44 F
  map : List (Sample F)
  Context : GLState F

/-- The call `map.clear()` (`Renderer.cpp` line 353): whatever the vector held, it is
empty afterwards. -/
def clearMap {F : Type} (_map : List (Sample F)) : List (Sample F) := []

/-- The three loops of `Renderer.cpp` lines 359-375 run on the vector `map` as
they find it: the record of every opaque voxel is pushed at the back. -/
def pushVoxels {F : Type} [LinearOrderedField F] (map : List (Sample F)) (Scene : Scene) :
    List (Sample F) :=
  (List.range Scene.SizeZ).foldl (fun map z =>
    (List.range Scene.SizeY).foldl (fun map y =>
      (List.range Scene.SizeX).foldl (fun map x =>
        let v := Scene.At x y z
        if v.Alpha > 0 then
          let Hue : F := (((v.Hue + (2 ^ 32 - 4)) % 2 ^ 32 : Nat) : F) / 11
          let Saturation : F := (v.Saturation : F) / 3
          let Light : F := (v.Light : F) / 15
          map ++ [{ Position := ⟨(x : F) / 100, (y : F) / 100, (z : F) / 100⟩
                    Normal := ⟨1, 0, 0⟩
                    Colour := ⟨Hue, Saturation, Light⟩ }]
        else map) map) map) map

/-- The OpenGL calls of `Renderer::Render` (`Renderer.cpp` lines 326-485) for a
given content of the vector `map` at line 379. -/
def frameCommands {F : Type} [LinearOrderedField F] (r : Renderer F) (State : GameState F)
    (ModelViewProjection ViewProjectionInverse : Matrix44 F) (map : List (Sample F)) :
    List (GLCommand F) :=
  [ GLCommand.Enable Capability.DEPTH_TEST,
    GLCommand.Disable Capability.BLEND,
    GLCommand.UseProgram Program.ShaderProgram1,
    GLCommand.BindFramebuffer FrameBuffer.FrameBuffer1,
    GLCommand.ClearColor (9 / 10) (9 / 10) (9 / 10) 1,
    GLCommand.ClearDepth 1,
    GLCommand.Clear true true,
    GLCommand.UniformModelViewProjection ModelViewProjection,
    GLCommand.UniformModel r.Model,
    GLCommand.BindBuffer,
    GLCommand.BufferData map,
    GLCommand.BindVertexArray,
    GLCommand.DrawArrays PrimitiveMode.POINTS 0 map.length,
    GLCommand.Disable Capability.DEPTH_TEST,
    GLCommand.Disable Capability.BLEND,
    GLCommand.UseProgram Program.ShaderProgram2 ]
  ++ ([0, 1, 2] : List Int).flatMap (spreadIteration r State ViewProjectionInverse)
  ++
  [ GLCommand.Disable Capability.DEPTH_TEST,
    GLCommand.Enable Capability.BLEND,
    GLCommand.BindFramebuffer FrameBuffer.Zero,
    GLCommand.ClearColor (306 / 1000) (267 / 1000) (698 / 1000) 0,
    GLCommand.ClearDepth 1,
    GLCommand.Clear true true,
    GLCommand.ActiveTexture 0, GLCommand.BindTexture TextureName.TexturePosition2,
    GLCommand.ActiveTexture 1, GLCommand.BindTexture TextureName.TextureNormal2,
    GLCommand.ActiveTexture 2, GLCommand.BindTexture TextureName.TextureColour2,
    GLCommand.UniformEvaluationDirection ⟨0, 1⟩,
    GLCommand.UniformVoxelSize ((1 / 2) / r.Subdivisions),
    GLCommand.UniformPixelDimensions (pixelDimensions r),
    GLCommand.UniformViewProjectionInverse ViewProjectionInverse,
    GLCommand.UniformLast true,
    GLCommand.UniformSceneOffset (sceneOffset State),
    GLCommand.DrawArrays PrimitiveMode.TRIANGLES 0 3 ]

/-- The method `Renderer::Render` (`Renderer.cpp` lines 322-486) as a step from what
the previous call left to what this call leaves, together with the draw calls
it issues.  `none` when an assertion fails, in `Matrix44::View` (line 324) or in
`Matrix44::Invert` (line 344). -/
def RenderFrame {F : Type} [LinearOrderedField F] (sqrt : F → F) (r : Renderer F)
    (m : FrameMemory F) (State : GameState F) : Option (FrameMemory F × List (DrawCall F)) :=
  (Matrix44.View sqrt State.CameraPosition State.CameraTarget ⟨0, 1, 0⟩).bind fun View =>
  let ViewProjection := r.Projection.mul View
  let ModelViewProjection := ViewProjection.mul r.Model
  (Matrix44.Invert ViewProjection).bind fun ViewProjectionInverse =>
  let map := pushVoxels (clearMap m.map) State.Scene
  let calls := frameCommands r State ModelViewProjection ViewProjectionInverse map
  some ({ View := View, map := map, Context := calls.foldl GLState.step m.Context },
    drawCalls m.Context calls)

/-- What a draw call hands to its pass: the splat pass (program 1) reads the
two matrices and the vertices `First` to `First + Count`; a kernel pass
(program 2) reads the six uniforms, samples three textures and writes to a
framebuffer. -/
inductive PassInputs (F : Type) where
  | Splat (ModelViewProjection Model : Matrix44 F) (Vertices : List (Sample F))
      (First Count : Nat)
  | Kernel (U : Uniforms F)
      (Sampled : Option TextureName × Option TextureName × Option TextureName)
      (Target : FrameBuffer)

/-- The inputs of the pass a draw call runs. -/
def DrawCall.inputs {F : Type} (d : DrawCall F) : PassInputs F :=
  match d.State.CurrentProgram with
  | Program.ShaderProgram1 =>
      PassInputs.Splat d.State.ModelViewProjection d.State.Model d.State.Vertices d.First d.Count
  | Program.ShaderProgram2 =>
      PassInputs.Kernel d.State.Uniforms d.sampled d.State.DrawFramebuffer

/-- What a frame shows of a call of `Render`: the view matrix, the sample list
and the inputs of the passes, in the order of the draw calls. -/
def frameInputs {F : Type} (o : FrameMemory F × List (DrawCall F)) :
    Matrix44 F × List (Sample F) × List (PassInputs F) :=
  (o.1.View, o.1.map, o.2.map DrawCall.inputs)

/-- A state of the OpenGL context other than `sampleGLState`. -/
def otherGLState {F : Type} [LinearOrderedField F] : GLState F :=
  { DepthTest := false
    Blend := false
    CurrentProgram := Program.ShaderProgram1
    DrawFramebuffer := FrameBuffer.Zero
    ClearColour := ⟨1, 1, 1, 1⟩
    ActiveUnit := 2
    TextureUnits := fun _ => none
    ModelViewProjection := Matrix44.ofValues 2 0 0 0  0 2 0 0  0 0 2 0  0 0 0 2
    Model := Matrix44.ofValues 3 0 0 0  0 3 0 0  0 0 3 0  0 0 0 3
    Vertices := [⟨⟨1, 2, 3⟩, ⟨0, 1, 0⟩, ⟨1, 1, 1⟩⟩]
    Uniforms := ⟨Matrix44.ofValues 5 0 0 0  0 5 0 0  0 0 5 0  0 0 0 5,
      ⟨1, 1⟩, 7, ⟨1, 1⟩, true, ⟨4, 4, 4⟩⟩ }

/-- The volume of `oneVoxelScene` with other voxels outside its 4 x 2 x 2 cells. -/
def paddedVoxelScene : Scene :=
  { SizeX := 4
    SizeY := 2
    SizeZ := 2
    At := fun x y z =>
      if x = 3 ∧ y = 1 ∧ z = 1 then ⟨15, 0, 0, 1⟩
      else if 4 ≤ x then ⟨7, 7, 7, 7⟩ else ⟨0, 0, 0, 0⟩ }

/-- Replies of an OpenGL implementation on which everything succeeds. -/
def completeReplies : DriverReplies :=
  ⟨1, 1, 1, 1, 1, 1, GL_FRAMEBUFFER_COMPLETE, GL_FRAMEBUFFER_COMPLETE⟩

/-- Replies of an OpenGL implementation on which the first vertex shader does
not compile and the first program does not link, and both framebuffers are
complete. -/
def failedCompileReplies : DriverReplies :=
  ⟨0, 1, 1, 1, 0, 1, GL_FRAMEBUFFER_COMPLETE, GL_FRAMEBUFFER_COMPLETE⟩

/-- What a first frame finds: an empty vector and the state `sampleGLState`. -/
def firstMemory {F : Type} [LinearOrderedField F] : FrameMemory F :=
  ⟨Matrix44.Identity, [], sampleGLState⟩

/-- What a later frame may find: another view matrix, a vector holding a
sample, and the state `otherGLState`. -/
def laterMemory {F : Type} [LinearOrderedField F] : FrameMemory F :=
  ⟨Matrix44.ofValues 2 0 0 0  0 2 0 0  0 0 2 0  0 0 0 2, [⟨⟨1, 2, 3⟩, ⟨0, 1, 0⟩, ⟨1, 1, 1⟩⟩],
   otherGLState⟩

/-! ## Statements about the ray of the kernel -/

/-- The world position of the point with the coordinates `(a, b, c)` along the
three axes of a camera, measured from its eye. -/
def cameraPoint {F : Type} [LinearOrderedField F] (Eye AxisX AxisY AxisZ : Vec3 F) (a b c : F) :
    Vec3 F :=
  ⟨Eye.x + a * AxisX.x + b * AxisY.x + c * AxisZ.x,
   Eye.y + a * AxisX.y + b * AxisY.y + c * AxisZ.y,
   Eye.z + a * AxisX.z + b * AxisY.z + c * AxisZ.z⟩

/-! ## Statements about the kernel and the noise -/

/-- The noise seed of the composite pass (`ShaderSource.cpp` line 215):
`(OutputPosition + SceneOffset) * 100.0`. -/
def noiseSeed {F : Type} [LinearOrderedField F] (U : Uniforms F) (State : KernelState F) :
    Vec3 F :=
  ⟨(State.OutputPosition.x + U.SceneOffset.x) * 100,
   (State.OutputPosition.y + U.SceneOffset.y) * 100,
   (State.OutputPosition.z + U.SceneOffset.z) * 100⟩

/-- A game state with the integer scene offset (2, -3, 5). -/
def offsetState : GameState ℚ :=
  { CameraPosition := ⟨0, 0, 0⟩
    CameraTarget := ⟨0, 0, -1⟩
    SceneOffset := ⟨((2 : Int) : ℚ), ((-3 : Int) : ℚ), ((5 : Int) : ℚ)⟩
    Scene := sampleState.Scene }

/-! ## Statements about the cubes, the full-screen triangle and the normals -/

/-- Membership of a point in the interior of the axis-aligned box
`[BoxMin, BoxMax]`. -/
def InOpenBox {F : Type} [LinearOrderedField F] (p BoxMin BoxMax : Vec3 F) : Prop :=
  (BoxMin.x < p.x ∧ p.x < BoxMax.x) ∧ (BoxMin.y < p.y ∧ p.y < BoxMax.y)
    ∧ (BoxMin.z < p.z ∧ p.z < BoxMax.z)

/-- The outputs of `VertexShaderSource2` (`ShaderSource.cpp` line 79 and
`gl_Position`). -/
structure VertexOutputs2 (F : Type) where
  VertexPosition : Vec3 F
  gl_Position : Vec4 F

/-- The function `main` of `VertexShaderSource2` (`ShaderSource.cpp` lines 82-87), for
a vertex ID that is not negative. -/
def VertexShaderSource2.main {F : Type} [LinearOrderedField F] (gl_VertexID : Nat) :
    VertexOutputs2 F :=
  let X : F := -1 + (((gl_VertexID &&& 1) <<< 2 : Nat) : F)
  let Y : F := -1 + (((gl_VertexID &&& 2) <<< 1 : Nat) : F)
  { VertexPosition := ⟨X, Y, 1⟩
    gl_Position := ⟨X, Y, 1, 1⟩ }

/-- The value `HemisphereLighting` has for the normal (1, 0, 0):
`0.45 * (0.886, 0.757, 0.337) + 0.55 * (0.518, 0.169, 0.0)`. -/
def ambientOfSplat {F : Type} [LinearOrderedField F] : Vec3 F :=
  ⟨45 / 100 * (886 / 1000) + 55 / 100 * (518 / 1000),
   45 / 100 * (757 / 1000) + 55 / 100 * (169 / 1000),
   45 / 100 * (337 / 1000) + 55 / 100 * 0⟩

/-- The data program 1 writes for the sample `s`: the `xyz` parts of its three
outputs. -/
def splatData {F : Type} [LinearOrderedField F] (sqrt : F → F)
    (ModelViewProjectionMatrix ModelMatrix : Matrix44 F) (s : Sample F) : SampleData F :=
  ((splatFragment sqrt ModelViewProjectionMatrix ModelMatrix s).FragmentPosition.xyz,
   (splatFragment sqrt ModelViewProjectionMatrix ModelMatrix s).FragmentNormal.xyz,
   (splatFragment sqrt ModelViewProjectionMatrix ModelMatrix s).FragmentColour.xyz)

/-- The three textures of set 1. -/
def textureSet1 : TextureName × TextureName × TextureName :=
  (TextureName.TexturePosition1, TextureName.TextureNormal1, TextureName.TextureColour1)

/-! ## Statements about the bound of the ping-pong loop -/

/-- The calls of the ping-pong loop (`Renderer.cpp` lines 394-441) with the
bound `k` in place of 3: the body for `i = 0, ..., k - 1`. -/
def spreadLoop {F : Type} [LinearOrderedField F] (r : Renderer F) (State : GameState F)
    (ViewProjectionInverse : Matrix44 F) (k : Nat) : List (GLCommand F) :=
  ((List.range k).map fun i : Nat => (i : Int)).flatMap
    (spreadIteration r State ViewProjectionInverse)

/-- The calls of `Render` with the bound `k` in place of 3 in the ping-pong
loop: the 16 calls that precede the loop, the loop, and the calls that follow
it (the three iterations of `renderCommands` take 45 calls). -/
def renderCommandsFor {F : Type} [LinearOrderedField F] (k : Nat) (r : Renderer F)
    (State : GameState F) (ModelViewProjection ViewProjectionInverse : Matrix44 F) :
    List (GLCommand F) :=
  (renderCommands r State ModelViewProjection ViewProjectionInverse).take 16
    ++ spreadLoop r State ViewProjectionInverse k
    ++ (renderCommands r State ModelViewProjection ViewProjectionInverse).drop 61

/-- The three textures of set 2, as a draw call samples them. -/
def sampledSet2 : Option TextureName × Option TextureName × Option TextureName :=
  (some TextureName.TexturePosition2, some TextureName.TextureNormal2,
    some TextureName.TextureColour2)

/-- The three textures of set 1, as a draw call samples them. -/
def sampledSet1 : Option TextureName × Option TextureName × Option TextureName :=
  (some TextureName.TexturePosition1, some TextureName.TextureNormal1,
    some TextureName.TextureColour1)

/-- The ray of the fragment of pixel `(i, j)` has three nonzero direction
components: the three quotients `1.0 / RayDirection` of `RayBoxIntersect`
(`ShaderSource.cpp` line 147) are then quotients by a nonzero number. -/
def fragmentRayRegular {F : Type} [LinearOrderedField F] (sqrt : F → F) (r : Renderer F)
    (U : Uniforms F) (i j : Int) : Prop :=
  (EyeVector sqrt U (FragmentVertexPosition r.ScreenWidth r.ScreenHeight i j)).x ≠ 0
    ∧ (EyeVector sqrt U (FragmentVertexPosition r.ScreenWidth r.ScreenHeight i j)).y ≠ 0
    ∧ (EyeVector sqrt U (FragmentVertexPosition r.ScreenWidth r.ScreenHeight i j)).z ≠ 0

/-! ## IEEE 754 binary floating point

The `float` and `double` values of the C++ code, with every operation rounded
to nearest, ties to even, as IEEE 754 defines it (no extended intermediate
precision, no fused multiply-add). -/

/-- A binary interchange format: the number `prec` of significand bits, the
exponent `shift` of the smallest positive datum `2^-shift`, and the exponent
`top` of the overflow threshold: a magnitude of `2^top` units `2^-shift` and
more is not finite. -/
structure FloatFormat where
  prec : Nat
  shift : Nat
  top : Nat
  deriving DecidableEq, Repr

/-- The format of `float`: 24 significand bits, smallest datum `2^-149`,
overflow at `2^128 = 2^277 * 2^-149`. -/
def binary32 : FloatFormat := ⟨24, 149, 277⟩

/-- The format of `double`: 53 significand bits, smallest datum `2^-1074`,
overflow at `2^1024 = 2^2098 * 2^-1074`. -/
def binary64 : FloatFormat := ⟨53, 1074, 2098⟩

/-- A floating-point datum of the format `fmt`: a signed multiple `m` of the
unit `2^-fmt.shift` (both zeros among them), an infinity, or a NaN. -/
inductive IEEE (fmt : FloatFormat) where
  | finite (negative : Bool) (m : Nat)
  | infinite (negative : Bool)
  | nan
  deriving DecidableEq, Repr

/-- The C++ type `float`. -/
abbrev Binary32 := IEEE binary32

/-- The C++ type `double`. -/
abbrev Binary64 := IEEE binary64

/-- The number of binary digits of `n`, counted with at most `fuel` steps. -/
def bitLength : Nat → Nat → Nat
  | 0, _ => 0
  | fuel + 1, n => if n = 0 then 0 else bitLength fuel (n / 2) + 1

/-- Rounding to nearest, ties to even: the datum of the format nearest to the
magnitude `n / d` units, with the sign given.  The spacing `ulp` of the data
around the magnitude is one unit below `2^prec` units and doubles with every
further binary digit; `t` is the number of whole spacings in the magnitude and
`r` what is left over, and a result of `2^top` units or more is an infinity. -/
def IEEE.round (fmt : FloatFormat) (negative : Bool) (n d : Nat) : IEEE fmt :=
  let q := n / d
  let ulp := 2 ^ (bitLength (fmt.top + 1) q - fmt.prec)
  let t := n / (d * ulp)
  let r := n % (d * ulp)
  let t' := if 2 * r < d * ulp then t else if 2 * r = d * ulp then t + t % 2 else t + 1
  if t' * ulp < 2 ^ fmt.top then IEEE.finite negative (t' * ulp) else IEEE.infinite negative

/-- The value of a finite datum as a rational number. -/
def IEEE.value {fmt : FloatFormat} : IEEE fmt → Option ℚ
  | IEEE.finite negative m => some ((if negative then -1 else 1) * (m : ℚ) / 2 ^ fmt.shift)
  | _ => none

/-- The C++ test `x == 0`, the negation of `x != 0`: true of both zeros, false
of every other datum, a NaN included. -/
def IEEE.isZero {fmt : FloatFormat} : IEEE fmt → Bool
  | IEEE.finite _ 0 => true
  | _ => false

/-- Unary minus. -/
def IEEE.neg {fmt : FloatFormat} : IEEE fmt → IEEE fmt
  | IEEE.finite negative m => IEEE.finite (!negative) m
  | IEEE.infinite negative => IEEE.infinite (!negative)
  | IEEE.nan => IEEE.nan

/-- Addition: the exact sum, rounded; a sum that is exactly zero is `+0` unless
both terms are `-0`. -/
def IEEE.add {fmt : FloatFormat} : IEEE fmt → IEEE fmt → IEEE fmt
  | IEEE.finite s m, IEEE.finite s' m' =>
    if s = s' then IEEE.round fmt s (m + m') 1
    else if m' < m then IEEE.round fmt s (m - m') 1
    else if m < m' then IEEE.round fmt s' (m' - m) 1
    else IEEE.finite false 0
  | IEEE.finite _ _, IEEE.infinite s' => IEEE.infinite s'
  | IEEE.infinite s, IEEE.finite _ _ => IEEE.infinite s
  | IEEE.infinite s, IEEE.infinite s' => if s = s' then IEEE.infinite s else IEEE.nan
  | _, _ => IEEE.nan

/-- Subtraction: `a + (-b)`. -/
def IEEE.sub {fmt : FloatFormat} (a b : IEEE fmt) : IEEE fmt := IEEE.add a (IEEE.neg b)

/-- Multiplication: the exact product, rounded. -/
def IEEE.mul {fmt : FloatFormat} : IEEE fmt → IEEE fmt → IEEE fmt
  | IEEE.finite s m, IEEE.finite s' m' => IEEE.round fmt (xor s s') (m * m') (2 ^ fmt.shift)
  | IEEE.finite s m, IEEE.infinite s' => if m = 0 then IEEE.nan else IEEE.infinite (xor s s')
  | IEEE.infinite s, IEEE.finite s' m' => if m' = 0 then IEEE.nan else IEEE.infinite (xor s s')
  | IEEE.infinite s, IEEE.infinite s' => IEEE.infinite (xor s s')
  | _, _ => IEEE.nan

/-- Division: the exact quotient, rounded; `x / 0` is an infinity for `x` not
zero, and `0 / 0` is a NaN. -/
def IEEE.div {fmt : FloatFormat} : IEEE fmt → IEEE fmt → IEEE fmt
  | IEEE.finite s m, IEEE.finite s' m' =>
    if m' = 0 then (if m = 0 then IEEE.nan else IEEE.infinite (xor s s'))
    else IEEE.round fmt (xor s s') (m * 2 ^ fmt.shift) m'
  | IEEE.finite s _, IEEE.infinite s' => IEEE.finite (xor s s') 0
  | IEEE.infinite s, IEEE.finite s' _ => IEEE.infinite (xor s s')
  | _, _ => IEEE.nan

/-- The largest `r + k` with `k < 2^bits` and `(r + k)^2 ≤ n`, digit by digit. -/
def isqrtLoop (n : Nat) : Nat → Nat → Nat
  | 0, r => r
  | bits + 1, r =>
    if (r + 2 ^ bits) * (r + 2 ^ bits) ≤ n then isqrtLoop n bits (r + 2 ^ bits)
    else isqrtLoop n bits r

/-- The square root, rounded: of a magnitude of `m` units the root is
`sqrt (m * 2^shift)` units. -/
def IEEE.sqrt {fmt : FloatFormat} : IEEE fmt → IEEE fmt
  | IEEE.finite negative m =>
    if m = 0 then IEEE.finite negative 0
    else if negative then IEEE.nan
    else
      let n := m * 2 ^ fmt.shift
      let q := isqrtLoop n fmt.top 0
      let ulp := 2 ^ (bitLength (fmt.top + 1) q - fmt.prec)
      let t := isqrtLoop (n / (ulp * ulp)) fmt.top 0
      let t' := if 4 * n < (2 * t + 1) * (2 * t + 1) * (ulp * ulp) then t
        else if 4 * n = (2 * t + 1) * (2 * t + 1) * (ulp * ulp) then t + t % 2 else t + 1
      IEEE.finite false (t' * ulp)
  | IEEE.infinite negative => if negative then IEEE.nan else IEEE.infinite false
  | IEEE.nan => IEEE.nan

/-- The conversion of an unsigned integer to the format. -/
def IEEE.ofNat (fmt : FloatFormat) (n : Nat) : IEEE fmt :=
  IEEE.round fmt false (n * 2 ^ fmt.shift) 1

/-- The datum a decimal literal of value `n / d` denotes. -/
def IEEE.ofDecimal (fmt : FloatFormat) (n d : Nat) : IEEE fmt :=
  IEEE.round fmt false (n * 2 ^ fmt.shift) d

/-- The conversion between formats, as in an initialisation of a `float` by a
`double` or the promotion of a `float` to `double`. -/
def IEEE.convert {fmt : FloatFormat} (target : FloatFormat) : IEEE fmt → IEEE target
  | IEEE.finite negative m => IEEE.round target negative (m * 2 ^ target.shift) (2 ^ fmt.shift)
  | IEEE.infinite negative => IEEE.infinite negative
  | IEEE.nan => IEEE.nan

instance (fmt : FloatFormat) : Add (IEEE fmt) := ⟨IEEE.add⟩

instance (fmt : FloatFormat) : Sub (IEEE fmt) := ⟨IEEE.sub⟩

instance (fmt : FloatFormat) : Mul (IEEE fmt) := ⟨IEEE.mul⟩

instance (fmt : FloatFormat) : Div (IEEE fmt) := ⟨IEEE.div⟩

instance (fmt : FloatFormat) : Neg (IEEE fmt) := ⟨IEEE.neg⟩

/-- An integer literal denotes the datum its value is converted to. -/
instance (fmt : FloatFormat) (n : Nat) : OfNat (IEEE fmt) n := ⟨IEEE.ofNat fmt n⟩

/-! ## Maths.cpp in `float` arithmetic

The functions of `Maths.cpp` once more, on `float` data: every operation is the
rounded one, and `none` stands for a failing assertion as before. -/

/-- The function `Vector3::Normalise` (`Maths.cpp` lines 47-55) on `float` data. -/
def Rounded.Vector3.Normalise (Vector : Vector3 Binary32) : Option (Vector3 Binary32) :=
  let Denominator : Binary32 :=
    IEEE.sqrt (Vector.x * Vector.x + Vector.y * Vector.y + Vector.z * Vector.z)
  if Denominator.isZero then none
  else some ⟨Vector.x / Denominator, Vector.y / Denominator, Vector.z / Denominator⟩

/-- The function `Vector3::Cross` (`Maths.cpp` lines 57-63) on `float` data. -/
def Rounded.Vector3.Cross (LHS RHS : Vector3 Binary32) : Vector3 Binary32 :=
  ⟨LHS.y * RHS.z - LHS.z * RHS.y, LHS.z * RHS.x - LHS.x * RHS.z, LHS.x * RHS.y - LHS.y * RHS.x⟩

/-- The operator `operator-(const Vector3&, const Vector3&)` (`Maths.cpp` lines 73-79) on
`float` data. -/
def Rounded.Vector3.sub (LHS RHS : Vector3 Binary32) : Vector3 Binary32 :=
  ⟨LHS.x - RHS.x, LHS.y - RHS.y, LHS.z - RHS.z⟩

/-- The function `Matrix44::Frustum` (`Maths.cpp` lines 94-105) on `float` data; the product
`2.0 * Near` is one of `double` values, stored in a `float`. -/
def Rounded.Matrix44.Frustum (Left Right Bottom Top Near Far : Binary32) : Matrix44 Binary32 :=
  let TwoNear : Binary32 := IEEE.convert binary32 ((2 : Binary64) * IEEE.convert binary64 Near)
  let Width := Right - Left
  let Height := Top - Bottom
  let Depth := Far - Near
  Matrix44.ofValues
    (TwoNear / Width) 0 ((Right + Left) / Width) 0
    0 (TwoNear / Height) ((Top + Bottom) / Height) 0
    0 0 ((-Far - Near) / Depth) ((-TwoNear * Far) / Depth)
    0 0 (-1) 0

/-- The constant `M_PI` of `cmath`: the `double` of the literal
`3.14159265358979323846`. -/
def Rounded.M_PI : Binary64 := IEEE.ofDecimal binary64 314159265358979323846 (10 ^ 20)

/-- The function `Matrix44::Perspective` (`Maths.cpp` lines 107-111) on `float` data.  The
argument of `std::tan` and the product with `Near` are computed on `double`
values; the tangent is the one supplied by the caller. -/
def Rounded.Matrix44.Perspective (tan : Binary64 → Binary64)
    (FieldOfViewDegrees AspectRatio Near Far : Binary32) : Matrix44 Binary32 :=
  let VerticalLimit : Binary32 := IEEE.convert binary32
    (IEEE.convert binary64 Near
      * tan (IEEE.convert binary64 FieldOfViewDegrees * Rounded.M_PI / 360))
  let HorizontalLimit := VerticalLimit * AspectRatio
  Rounded.Matrix44.Frustum (-HorizontalLimit) HorizontalLimit (-VerticalLimit) VerticalLimit
    Near Far

/-- The function `Matrix44::View` (`Maths.cpp` lines 113-123) on `float` data. -/
def Rounded.Matrix44.View (Eye Target Up : Vector3 Binary32) : Option (Matrix44 Binary32) :=
  (Rounded.Vector3.Normalise (Rounded.Vector3.sub Eye Target)).bind fun AxisZ =>
  (Rounded.Vector3.Normalise (Rounded.Vector3.Cross Up AxisZ)).bind fun AxisX =>
  let AxisY := Rounded.Vector3.Cross AxisZ AxisX
  some (Matrix44.ofValues
    AxisX.x AxisX.y AxisX.z (-(AxisX.x * Eye.x + AxisX.y * Eye.y + AxisX.z * Eye.z))
    AxisY.x AxisY.y AxisY.z (-(AxisY.x * Eye.x + AxisY.y * Eye.y + AxisY.z * Eye.z))
    AxisZ.x AxisZ.y AxisZ.z (-(AxisZ.x * Eye.x + AxisZ.y * Eye.y + AxisZ.z * Eye.z))
    0 0 0 1)

/-- The sixteen expressions handed to the constructor in `Matrix44::Invert`
(`Maths.cpp` lines 138-155) on `float` data. -/
def Rounded.Matrix44.InvertResult (Matrix : Matrix44 Binary32) : Matrix44 Binary32 :=
  let m := Matrix.Data
  Matrix44.ofValues
    ( m 1 1 * m 2 2 * m 3 3 - m 1 1 * m 2 3 * m 3 2 - m 2 1 * m 1 2 * m 3 3
      + m 2 1 * m 1 3 * m 3 2 + m 3 1 * m 1 2 * m 2 3 - m 3 1 * m 1 3 * m 2 2)
    (-m 0 1 * m 2 2 * m 3 3 + m 0 1 * m 2 3 * m 3 2 + m 2 1 * m 0 2 * m 3 3
      - m 2 1 * m 0 3 * m 3 2 - m 3 1 * m 0 2 * m 2 3 + m 3 1 * m 0 3 * m 2 2)
    ( m 0 1 * m 1 2 * m 3 3 - m 0 1 * m 1 3 * m 3 2 - m 1 1 * m 0 2 * m 3 3
      + m 1 1 * m 0 3 * m 3 2 + m 3 1 * m 0 2 * m 1 3 - m 3 1 * m 0 3 * m 1 2)
    (-m 0 1 * m 1 2 * m 2 3 + m 0 1 * m 1 3 * m 2 2 + m 1 1 * m 0 2 * m 2 3
      - m 1 1 * m 0 3 * m 2 2 - m 2 1 * m 0 2 * m 1 3 + m 2 1 * m 0 3 * m 1 2)
    (-m 1 0 * m 2 2 * m 3 3 + m 1 0 * m 2 3 * m 3 2 + m 2 0 * m 1 2 * m 3 3
      - m 2 0 * m 1 3 * m 3 2 - m 3 0 * m 1 2 * m 2 3 + m 3 0 * m 1 3 * m 2 2)
    ( m 0 0 * m 2 2 * m 3 3 - m 0 0 * m 2 3 * m 3 2 - m 2 0 * m 0 2 * m 3 3
      + m 2 0 * m 0 3 * m 3 2 + m 3 0 * m 0 2 * m 2 3 - m 3 0 * m 0 3 * m 2 2)
    (-m 0 0 * m 1 2 * m 3 3 + m 0 0 * m 1 3 * m 3 2 + m 1 0 * m 0 2 * m 3 3
      - m 1 0 * m 0 3 * m 3 2 - m 3 0 * m 0 2 * m 1 3 + m 3 0 * m 0 3 * m 1 2)
    ( m 0 0 * m 1 2 * m 2 3 - m 0 0 * m 1 3 * m 2 2 - m 1 0 * m 0 2 * m 2 3
      + m 1 0 * m 0 3 * m 2 2 + m 2 0 * m 0 2 * m 1 3 - m 2 0 * m 0 3 * m 1 2)
    ( m 1 0 * m 2 1 * m 3 3 - m 1 0 * m 2 3 * m 3 1 - m 2 0 * m 1 1 * m 3 3
      + m 2 0 * m 1 3 * m 3 1 + m 3 0 * m 1 1 * m 2 3 - m 3 0 * m 1 3 * m 2 1)
    (-m 0 0 * m 2 1 * m 3 3 + m 0 0 * m 2 3 * m 3 1 + m 2 0 * m 0 1 * m 3 3
      - m 2 0 * m 0 3 * m 3 1 - m 3 0 * m 0 1 * m 2 3 + m 3 0 * m 0 3 * m 2 1)
    ( m 0 0 * m 1 1 * m 3 3 - m 0 0 * m 1 3 * m 3 1 - m 1 0 * m 0 1 * m 3 3
      + m 1 0 * m 0 3 * m 3 1 + m 3 0 * m 0 1 * m 1 3 - m 3 0 * m 0 3 * m 1 1)
    (-m 0 0 * m 1 1 * m 2 3 + m 0 0 * m 1 3 * m 2 1 + m 1 0 * m 0 1 * m 2 3
      - m 1 0 * m 0 3 * m 2 1 - m 2 0 * m 0 1 * m 1 3 + m 2 0 * m 0 3 * m 1 1)
    (-m 1 0 * m 2 1 * m 3 2 + m 1 0 * m 2 2 * m 3 1 + m 2 0 * m 1 1 * m 3 2
      - m 2 0 * m 1 2 * m 3 1 - m 3 0 * m 1 1 * m 2 2 + m 3 0 * m 1 2 * m 2 1)
    ( m 0 0 * m 2 1 * m 3 2 - m 0 0 * m 2 2 * m 3 1 - m 2 0 * m 0 1 * m 3 2
      + m 2 0 * m 0 2 * m 3 1 + m 3 0 * m 0 1 * m 2 2 - m 3 0 * m 0 2 * m 2 1)
    (-m 0 0 * m 1 1 * m 3 2 + m 0 0 * m 1 2 * m 3 1 + m 1 0 * m 0 1 * m 3 2
      - m 1 0 * m 0 2 * m 3 1 - m 3 0 * m 0 1 * m 1 2 + m 3 0 * m 0 2 * m 1 1)
    ( m 0 0 * m 1 1 * m 2 2 - m 0 0 * m 1 2 * m 2 1 - m 1 0 * m 0 1 * m 2 2
      + m 1 0 * m 0 2 * m 2 1 + m 2 0 * m 0 1 * m 1 2 - m 2 0 * m 0 2 * m 1 1)

/-- The local `Determinant` of `Matrix44::Invert` (`Maths.cpp` line 157) on `float` data. -/
def Rounded.Matrix44.Determinant (Matrix : Matrix44 Binary32) : Binary32 :=
  let Result := Rounded.Matrix44.InvertResult Matrix
  Matrix.Data 0 0 * Result.Data 0 0 + Matrix.Data 0 1 * Result.Data 1 0
    + Matrix.Data 0 2 * Result.Data 2 0 + Matrix.Data 0 3 * Result.Data 3 0

/-- The function `Matrix44::Invert` (`Maths.cpp` lines 137-167) on `float` data.  The quotient
`1.0 / Determinant` is one of `double` values, stored in a `float`. -/
def Rounded.Matrix44.Invert (Matrix : Matrix44 Binary32) : Option (Matrix44 Binary32) :=
  let Result := Rounded.Matrix44.InvertResult Matrix
  let Determinant := Rounded.Matrix44.Determinant Matrix
  if Determinant.isZero then none
  else
    let InverseDeterminant : Binary32 :=
      IEEE.convert binary32 ((1 : Binary64) / IEEE.convert binary64 Determinant)
    some ⟨fun i j => Result.Data i j * InverseDeterminant⟩

/-- The operator `operator*(const Matrix44&, const Matrix44&)` (`Maths.cpp` lines 169-181) on
`float` data. -/
def Rounded.Matrix44.mul (LHS RHS : Matrix44 Binary32) : Matrix44 Binary32 :=
  ⟨fun RowLHS ColumnRHS =>
    (List.finRange 4).foldl
      (fun Sum ColumnLHSRowRHS =>
        Sum + LHS.Data RowLHS ColumnLHSRowRHS * RHS.Data ColumnLHSRowRHS ColumnRHS) 0⟩

/-! ## Renderer.cpp in `float` arithmetic -/

/-- The member `Projection` as the constructor computes it (`Renderer.cpp` line 152):
the literals `45.0`, `0.01` and `1000.0` are `double` values converted to the
`float` parameters of `Perspective`. -/
def Rounded.Projection (tan : Binary64 → Binary64) (ScreenWidth ScreenHeight : Nat) :
    Matrix44 Binary32 :=
  Rounded.Matrix44.Perspective tan (IEEE.convert binary32 (45 : Binary64))
    (IEEE.ofNat binary32 ScreenWidth / IEEE.ofNat binary32 ScreenHeight)
    (IEEE.convert binary32 (IEEE.ofDecimal binary64 1 100))
    (IEEE.convert binary32 (1000 : Binary64))

/-- The matrices of `Renderer::Render` (`Renderer.cpp` lines 324 and 342-344) on `float` data:
`ModelViewProjection` and `ViewProjectionInverse`, or `none` when an assertion
fails in `Matrix44::View` or in `Matrix44::Invert`. -/
def Rounded.RenderMatrices (Projection Model : Matrix44 Binary32)
    (CameraPosition CameraTarget : Vector3 Binary32) :
    Option (Matrix44 Binary32 × Matrix44 Binary32) :=
  (Rounded.Matrix44.View CameraPosition CameraTarget ⟨0, 1, 0⟩).bind fun View =>
  let ViewProjection := Rounded.Matrix44.mul Projection View
  let ModelViewProjection := Rounded.Matrix44.mul ViewProjection Model
  (Rounded.Matrix44.Invert ViewProjection).bind fun ViewProjectionInverse =>
  some (ModelViewProjection, ViewProjectionInverse)

/-- The record `push_back` appends for the voxel `v` of the cell `(x, y, z)`
(`Renderer.cpp` lines 367-371) on `float` data: the subtraction `v.Hue - uint(4)` is
done on 32-bit unsigned integers, its result and the other integers are
converted to `float`, and the divisions are those of `float`. -/
def Rounded.voxelRecord (x y z : Nat) (v : Voxel) : Sample Binary32 :=
  { Position := ⟨IEEE.ofNat binary32 x / 100, IEEE.ofNat binary32 y / 100,
      IEEE.ofNat binary32 z / 100⟩
    Normal := ⟨1, 0, 0⟩
    Colour := ⟨IEEE.ofNat binary32 ((v.Hue + (2 ^ 32 - 4)) % 2 ^ 32) / 11,
      IEEE.ofNat binary32 v.Saturation / 3, IEEE.ofNat binary32 v.Light / 15⟩ }

/-- The loop that fills `map` (`Renderer.cpp` lines 359-375) on `float` data. -/
def Rounded.buildMap (Scene : Scene) : List (Sample Binary32) :=
  (List.range Scene.SizeZ).flatMap fun z =>
  (List.range Scene.SizeY).flatMap fun y =>
  (List.range Scene.SizeX).flatMap fun x =>
    let v := Scene.At x y z
    if v.Alpha > 0 then [Rounded.voxelRecord x y z v] else []

/-- The argument `0.5 / (this->Subdivisions)` of `glUniform1f` (`Renderer.cpp` lines 427
and 472): a quotient of `double` values, converted to the `float` the uniform
`VoxelSize` holds. -/
def Rounded.VoxelSize (Subdivisions : Binary32) : Binary32 :=
  IEEE.convert binary32 (IEEE.ofDecimal binary64 1 2 / IEEE.convert binary64 Subdivisions)

/-- The expression `Position - VoxelSize` of `FragmentShaderSource2`
(`ShaderSource.cpp` line 198) on `float` data. -/
def Rounded.BoxMin (Position : Vec3 Binary32) (VoxelSize : Binary32) : Vec3 Binary32 :=
  ⟨Position.x - VoxelSize, Position.y - VoxelSize, Position.z - VoxelSize⟩

/-- The expression `Position + VoxelSize` of `FragmentShaderSource2`
(`ShaderSource.cpp` line 198) on `float` data. -/
def Rounded.BoxMax (Position : Vec3 Binary32) (VoxelSize : Binary32) : Vec3 Binary32 :=
  ⟨Position.x + VoxelSize, Position.y + VoxelSize, Position.z + VoxelSize⟩

/-- The values of the three components of a `float` vector, when all are
finite. -/
def Rounded.values (v : Vec3 Binary32) : Option (Vec3 ℚ) :=
  v.x.value.bind fun x => v.y.value.bind fun y => v.z.value.map fun z => ⟨x, y, z⟩

/-- The magnitude of a finite datum in units `2^-shift`; 0 for the others. -/
def IEEE.magnitude {fmt : FloatFormat} : IEEE fmt → Nat
  | IEEE.finite _ m => m
  | _ => 0

/-- The `double` nearest to the tangent of the `double` `45 * M_PI / 360`:
7461808180621106 / 2^54 = 0.41421356237309503.  Its two neighbours lie
`2^-54`, that is `2^1020` units, below and above it. -/
def Rounded.tanEighthPi : Binary64 := IEEE.finite false (7461808180621106 * 2 ^ 1020)

/-! ### Matrices -/

@[simp]
theorem Matrix44.ofValues_00 {F : Type}
    (a0 a1 a2 a3 a4 a5 a6 a7 a8 a9 a10 a11 a12 a13 a14 a15 : F) :
    (Matrix44.ofValues a0 a1 a2 a3 a4 a5 a6 a7 a8 a9 a10 a11 a12 a13 a14 a15).Data 0 0
      = a0 := rfl

@[simp]
theorem Matrix44.ofValues_01 {F : Type}
    (a0 a1 a2 a3 a4 a5 a6 a7 a8 a9 a10 a11 a12 a13 a14 a15 : F) :
    (Matrix44.ofValues a0 a1 a2 a3 a4 a5 a6 a7 a8 a9 a10 a11 a12 a13 a14 a15).Data 0 1
      = a1 := rfl

@[simp]
theorem Matrix44.ofValues_02 {F : Type}
    (a0 a1 a2 a3 a4 a5 a6 a7 a8 a9 a10 a11 a12 a13 a14 a15 : F) :
    (Matrix44.ofValues a0 a1 a2 a3 a4 a5 a6 a7 a8 a9 a10 a11 a12 a13 a14 a15).Data 0 2
      = a2 := rfl

@[simp]
theorem Matrix44.ofValues_03 {F : Type}
    (a0 a1 a2 a3 a4 a5 a6 a7 a8 a9 a10 a11 a12 a13 a14 a15 : F) :
    (Matrix44.ofValues a0 a1 a2 a3 a4 a5 a6 a7 a8 a9 a10 a11 a12 a13 a14 a15).Data 0 3
      = a3 := rfl

@[simp]
theorem Matrix44.ofValues_10 {F : Type}
    (a0 a1 a2 a3 a4 a5 a6 a7 a8 a9 a10 a11 a12 a13 a14 a15 : F) :
    (Matrix44.ofValues a0 a1 a2 a3 a4 a5 a6 a7 a8 a9 a10 a11 a12 a13 a14 a15).Data 1 0
      = a4 := rfl

@[simp]
theorem Matrix44.ofValues_11 {F : Type}
    (a0 a1 a2 a3 a4 a5 a6 a7 a8 a9 a10 a11 a12 a13 a14 a15 : F) :
    (Matrix44.ofValues a0 a1 a2 a3 a4 a5 a6 a7 a8 a9 a10 a11 a12 a13 a14 a15).Data 1 1
      = a5 := rfl

@[simp]
theorem Matrix44.ofValues_12 {F : Type}
    (a0 a1 a2 a3 a4 a5 a6 a7 a8 a9 a10 a11 a12 a13 a14 a15 : F) :
    (Matrix44.ofValues a0 a1 a2 a3 a4 a5 a6 a7 a8 a9 a10 a11 a12 a13 a14 a15).Data 1 2
      = a6 := rfl

@[simp]
theorem Matrix44.ofValues_13 {F : Type}
    (a0 a1 a2 a3 a4 a5 a6 a7 a8 a9 a10 a11 a12 a13 a14 a15 : F) :
    (Matrix44.ofValues a0 a1 a2 a3 a4 a5 a6 a7 a8 a9 a10 a11 a12 a13 a14 a15).Data 1 3
      = a7 := rfl

@[simp]
theorem Matrix44.ofValues_20 {F : Type}
    (a0 a1 a2 a3 a4 a5 a6 a7 a8 a9 a10 a11 a12 a13 a14 a15 : F) :
    (Matrix44.ofValues a0 a1 a2 a3 a4 a5 a6 a7 a8 a9 a10 a11 a12 a13 a14 a15).Data 2 0
      = a8 := rfl

@[simp]
theorem Matrix44.ofValues_21 {F : Type}
    (a0 a1 a2 a3 a4 a5 a6 a7 a8 a9 a10 a11 a12 a13 a14 a15 : F) :
    (Matrix44.ofValues a0 a1 a2 a3 a4 a5 a6 a7 a8 a9 a10 a11 a12 a13 a14 a15).Data 2 1
      = a9 := rfl

@[simp]
theorem Matrix44.ofValues_22 {F : Type}
    (a0 a1 a2 a3 a4 a5 a6 a7 a8 a9 a10 a11 a12 a13 a14 a15 : F) :
    (Matrix44.ofValues a0 a1 a2 a3 a4 a5 a6 a7 a8 a9 a10 a11 a12 a13 a14 a15).Data 2 2
      = a10 := rfl

@[simp]
theorem Matrix44.ofValues_23 {F : Type}
    (a0 a1 a2 a3 a4 a5 a6 a7 a8 a9 a10 a11 a12 a13 a14 a15 : F) :
    (Matrix44.ofValues a0 a1 a2 a3 a4 a5 a6 a7 a8 a9 a10 a11 a12 a13 a14 a15).Data 2 3
      = a11 := rfl

@[simp]
theorem Matrix44.ofValues_30 {F : Type}
    (a0 a1 a2 a3 a4 a5 a6 a7 a8 a9 a10 a11 a12 a13 a14 a15 : F) :
    (Matrix44.ofValues a0 a1 a2 a3 a4 a5 a6 a7 a8 a9 a10 a11 a12 a13 a14 a15).Data 3 0
      = a12 := rfl

@[simp]
theorem Matrix44.ofValues_31 {F : Type}
    (a0 a1 a2 a3 a4 a5 a6 a7 a8 a9 a10 a11 a12 a13 a14 a15 : F) :
    (Matrix44.ofValues a0 a1 a2 a3 a4 a5 a6 a7 a8 a9 a10 a11 a12 a13 a14 a15).Data 3 1
      = a13 := rfl

@[simp]
theorem Matrix44.ofValues_32 {F : Type}
    (a0 a1 a2 a3 a4 a5 a6 a7 a8 a9 a10 a11 a12 a13 a14 a15 : F) :
    (Matrix44.ofValues a0 a1 a2 a3 a4 a5 a6 a7 a8 a9 a10 a11 a12 a13 a14 a15).Data 3 2
      = a14 := rfl

@[simp]
theorem Matrix44.ofValues_33 {F : Type}
    (a0 a1 a2 a3 a4 a5 a6 a7 a8 a9 a10 a11 a12 a13 a14 a15 : F) :
    (Matrix44.ofValues a0 a1 a2 a3 a4 a5 a6 a7 a8 a9 a10 a11 a12 a13 a14 a15).Data 3 3
      = a15 := rfl

theorem Matrix44.ext_data {F : Type} {A B : Matrix44 F}
    (h : ∀ i j, A.Data i j = B.Data i j) : A = B := by
  cases A; cases B
  congr
  funext i j
  exact h i j

/-- The scalar `Invert` divides by is the determinant of the matrix. -/
theorem Matrix44.Determinant_eq_det {F : Type} [Field F] (M : Matrix44 F) :
    M.Determinant = Matrix.det (Matrix.of M.Data) := by
  have e1 : (Fin.succ (2 : Fin 3) : Fin 4) = 3 := rfl
  have e2 : (Fin.castSucc (2 : Fin 3) : Fin 4) = 2 := rfl
  have e3 : (1 : Fin 4) < 3 := by decide
  rw [Matrix.det_succ_row_zero]
  simp [Fin.sum_univ_succ, Matrix.det_fin_three, Matrix.submatrix, Fin.succAbove,
    Matrix44.Determinant, Matrix44.InvertResult, e1, e2, e3]
  ring

theorem Matrix44.mul_data {F : Type} [Field F] (A B : Matrix44 F) (i j : Fin 4) :
    (A.mul B).Data i j
      = A.Data i 0 * B.Data 0 j + A.Data i 1 * B.Data 1 j
        + A.Data i 2 * B.Data 2 j + A.Data i 3 * B.Data 3 j := by
  have e1 : (Fin.succ (2 : Fin 3) : Fin 4) = 3 := rfl
  simp [Matrix44.mul, List.finRange, e1]

set_option maxHeartbeats 4000000 in
/-- The cofactor result times the matrix is the determinant times the identity. -/
theorem Matrix44.InvertResult_mul {F : Type} [Field F] (M : Matrix44 F) (i j : Fin 4) :
    (M.InvertResult.mul M).Data i j = M.Determinant * (Matrix44.Identity (F := F)).Data i j := by
  rw [Matrix44.mul_data]
  fin_cases i <;> fin_cases j <;>
    simp [Matrix44.Determinant, Matrix44.InvertResult, Matrix44.Identity] <;>
    ring

/-- C1. For every 4x4 matrix with nonzero determinant (over the reals or any
other field), `Invert` returns a matrix, and that matrix times `M`, with the
product of `operator*`, is exactly the identity matrix. -/
theorem Invert_mul_eq_Identity {F : Type} [Field F] [DecidableEq F] (M : Matrix44 F)
    (hdet : Matrix.det (Matrix.of M.Data) ≠ 0) :
    ∃ R, Matrix44.Invert M = some R ∧ R.mul M = Matrix44.Identity := by
  have hD : M.Determinant ≠ 0 := by rw [Matrix44.Determinant_eq_det]; exact hdet
  refine ⟨⟨fun i j => M.InvertResult.Data i j * (1 / M.Determinant)⟩, ?_, ?_⟩
  · simp [Matrix44.Invert, hD]
  · apply Matrix44.ext_data
    intro i j
    have h := Matrix44.InvertResult_mul M i j
    rw [Matrix44.mul_data] at h ⊢
    simp only []
    field_simp
    linear_combination h

/-! ### The slab method -/

theorem glslMax_eq_max {F : Type} [LinearOrderedField F] (x y : F) : glslMax x y = max x y := by
  unfold glslMax
  split_ifs with h
  · exact (max_eq_right h.le).symm
  · exact (max_eq_left (not_lt.mp h)).symm

theorem glslMin_eq_min {F : Type} [LinearOrderedField F] (x y : F) : glslMin x y = min x y := by
  unfold glslMin
  split_ifs with h
  · exact (min_eq_right h.le).symm
  · exact (min_eq_left (not_lt.mp h)).symm

theorem max_max_shared {F : Type} [LinearOrder F] (a b c : F) :
    max (max a b) (max a c) = max (max a b) c := by
  rw [max_max_max_comm, max_self, max_assoc]

theorem min_min_shared {F : Type} [LinearOrder F] (a b c : F) :
    min (min a b) (min a c) = min (min a b) c := by
  rw [min_min_min_comm, min_self, min_assoc]

/-- The entry depth returned by `RayBoxIntersect` is the largest slab entry. -/
theorem RayBoxIntersect_x {F : Type} [LinearOrderedField F] (o d bmin bmax : Vec3 F) :
    (RayBoxIntersect o d bmin bmax).x
      = max (max (slabEntry o.x d.x bmin.x bmax.x) (slabEntry o.y d.y bmin.y bmax.y))
          (slabEntry o.z d.z bmin.z bmax.z) := by
  simp only [RayBoxIntersect, glslMax_eq_max, glslMin_eq_min, slabEntry, Vec3.scalarDiv,
    Vec3.mul, Vec3.sub, one_div, inv_mul_eq_div]
  rw [max_max_shared, min_comm ((bmax.x - o.x) / d.x), min_comm ((bmax.y - o.y) / d.y),
    min_comm ((bmax.z - o.z) / d.z)]

/-- The exit depth returned by `RayBoxIntersect` is the smallest slab exit. -/
theorem RayBoxIntersect_y {F : Type} [LinearOrderedField F] (o d bmin bmax : Vec3 F) :
    (RayBoxIntersect o d bmin bmax).y
      = min (min (slabExit o.x d.x bmin.x bmax.x) (slabExit o.y d.y bmin.y bmax.y))
          (slabExit o.z d.z bmin.z bmax.z) := by
  simp only [RayBoxIntersect, glslMax_eq_max, glslMin_eq_min, slabExit, Vec3.scalarDiv,
    Vec3.mul, Vec3.sub, one_div, inv_mul_eq_div]
  rw [min_min_shared, max_comm ((bmax.x - o.x) / d.x), max_comm ((bmax.y - o.y) / d.y),
    max_comm ((bmax.z - o.z) / d.z)]

/-- One slab: for a nonzero direction component and `lo ≤ hi`, the parameter `t`
puts the coordinate inside `[lo, hi]` exactly when it lies between the slab's
entry and exit. -/
theorem slab_iff {F : Type} [LinearOrderedField F] (o d lo hi t : F) (hd : d ≠ 0)
    (h : lo ≤ hi) :
    (lo ≤ o + t * d ∧ o + t * d ≤ hi) ↔ (slabEntry o d lo hi ≤ t ∧ t ≤ slabExit o d lo hi) := by
  unfold slabEntry slabExit
  rcases lt_or_gt_of_ne hd with hneg | hpos
  · have hle : (hi - o) / d ≤ (lo - o) / d :=
      div_le_div_of_nonpos_of_le hneg.le (by linarith)
    rw [min_eq_right hle, max_eq_left hle, div_le_iff_of_neg hneg, le_div_iff_of_neg hneg]
    constructor <;> rintro ⟨h1, h2⟩ <;> constructor <;> linarith
  · have hle : (lo - o) / d ≤ (hi - o) / d :=
      div_le_div_of_nonneg_right (by linarith) hpos.le
    rw [min_eq_left hle, max_eq_right hle, div_le_iff₀ hpos, le_div_iff₀ hpos]
    constructor <;> rintro ⟨h1, h2⟩ <;> constructor <;> linarith

/-- A parameter lies between the entry and exit depths of `RayBoxIntersect`
exactly when the point of the line at that parameter is inside the box. -/
theorem RayBoxIntersect_between_iff {F : Type} [LinearOrderedField F] (o d bmin bmax : Vec3 F)
    (hdx : d.x ≠ 0) (hdy : d.y ≠ 0) (hdz : d.z ≠ 0)
    (hx : bmin.x ≤ bmax.x) (hy : bmin.y ≤ bmax.y) (hz : bmin.z ≤ bmax.z) (t : F) :
    ((RayBoxIntersect o d bmin bmax).x ≤ t ∧ t ≤ (RayBoxIntersect o d bmin bmax).y)
      ↔ InBox (rayPoint o d t) bmin bmax := by
  rw [RayBoxIntersect_x, RayBoxIntersect_y]
  unfold InBox rayPoint
  simp only []
  rw [slab_iff o.x d.x bmin.x bmax.x t hdx hx, slab_iff o.y d.y bmin.y bmax.y t hdy hy,
    slab_iff o.z d.z bmin.z bmax.z t hdz hz]
  simp only [max_le_iff, le_min_iff]
  tauto

/-- The hit test `entry ≤ exit` holds exactly when the line meets the box. -/
theorem RayBoxIntersect_hit_iff {F : Type} [LinearOrderedField F] (o d bmin bmax : Vec3 F)
    (hdx : d.x ≠ 0) (hdy : d.y ≠ 0) (hdz : d.z ≠ 0)
    (hx : bmin.x ≤ bmax.x) (hy : bmin.y ≤ bmax.y) (hz : bmin.z ≤ bmax.z) :
    (RayBoxIntersect o d bmin bmax).x ≤ (RayBoxIntersect o d bmin bmax).y
      ↔ ∃ t, InBox (rayPoint o d t) bmin bmax := by
  constructor
  · intro h
    exact ⟨_, (RayBoxIntersect_between_iff o d bmin bmax hdx hdy hdz hx hy hz _).mp ⟨le_refl _, h⟩⟩
  · rintro ⟨t, ht⟩
    have := (RayBoxIntersect_between_iff o d bmin bmax hdx hdy hdz hx hy hz t).mpr ht
    exact le_trans this.1 this.2

theorem boxCentre_InBox {F : Type} [LinearOrderedField F] (bmin bmax : Vec3 F)
    (hx : bmin.x ≤ bmax.x) (hy : bmin.y ≤ bmax.y) (hz : bmin.z ≤ bmax.z) :
    InBox (boxCentre bmin bmax) bmin bmax := by
  unfold InBox boxCentre
  simp only []
  refine ⟨⟨?_, ?_⟩, ⟨?_, ?_⟩, ⟨?_, ?_⟩⟩ <;> linarith

/-- C4. For every origin, every direction with three nonzero components and
every box with `BoxMin ≤ BoxMax` componentwise, `RayBoxIntersect` returns the
largest of the three per-axis entries `min((bmin-o)/d, (bmax-o)/d)` and the
smallest of the three per-axis exits; `entry ≤ exit` holds if and only if some
`t` puts `o + t*d` inside the closed box; and a ray whose line passes through
the box centre returns `entry ≤ exit`. -/
theorem RayBoxIntersect_slab_method {F : Type} [LinearOrderedField F] (o d bmin bmax : Vec3 F)
    (hdx : d.x ≠ 0) (hdy : d.y ≠ 0) (hdz : d.z ≠ 0)
    (hx : bmin.x ≤ bmax.x) (hy : bmin.y ≤ bmax.y) (hz : bmin.z ≤ bmax.z) :
    (RayBoxIntersect o d bmin bmax).x
        = max (max (min ((bmin.x - o.x) / d.x) ((bmax.x - o.x) / d.x))
                   (min ((bmin.y - o.y) / d.y) ((bmax.y - o.y) / d.y)))
              (min ((bmin.z - o.z) / d.z) ((bmax.z - o.z) / d.z))
    ∧ (RayBoxIntersect o d bmin bmax).y
        = min (min (max ((bmin.x - o.x) / d.x) ((bmax.x - o.x) / d.x))
                   (max ((bmin.y - o.y) / d.y) ((bmax.y - o.y) / d.y)))
              (max ((bmin.z - o.z) / d.z) ((bmax.z - o.z) / d.z))
    ∧ ((RayBoxIntersect o d bmin bmax).x ≤ (RayBoxIntersect o d bmin bmax).y
        ↔ ∃ t, InBox (rayPoint o d t) bmin bmax)
    ∧ ((∃ t, rayPoint o d t = boxCentre bmin bmax) →
        (RayBoxIntersect o d bmin bmax).x ≤ (RayBoxIntersect o d bmin bmax).y) := by
  refine ⟨RayBoxIntersect_x o d bmin bmax, RayBoxIntersect_y o d bmin bmax,
    RayBoxIntersect_hit_iff o d bmin bmax hdx hdy hdz hx hy hz, ?_⟩
  rintro ⟨t, ht⟩
  refine (RayBoxIntersect_hit_iff o d bmin bmax hdx hdy hdz hx hy hz).mpr ⟨t, ?_⟩
  rw [ht]
  exact boxCentre_InBox bmin bmax hx hy hz

/-! ### The tap loop -/

section TapLoop

variable {F : Type} [LinearOrderedField F] (S : Samplers F) (U : Uniforms F)
  (eye dir : Vec3 F) (dc : Vec2 F)

theorem tapStep_of_not_hit (s : KernelState F) (t : Int) (h : ¬ tapHits S U eye dir dc t) :
    tapStep S U eye dir dc s t = s := by
  unfold tapHits at h
  simp [tapStep, h]

theorem tapStep_of_far (s : KernelState F) (t : Int)
    (h : s.BestDepth < (IntersectionDepths S U eye dir dc t).x) :
    tapStep S U eye dir dc s t = s := by
  simp [tapStep, not_le.mpr h]

theorem tapStep_of_hit (s : KernelState F) (t : Int) (h : tapHits S U eye dir dc t)
    (hd : (IntersectionDepths S U eye dir dc t).x ≤ s.BestDepth) :
    tapStep S U eye dir dc s t = tapRecord S U eye dir dc t := by
  unfold tapHits at h
  simp [tapStep, tapRecord, h, hd]

/-- One iteration either keeps the state or replaces it by the record of a
hitting tap that is at least as near as the best so far. -/
theorem tapStep_cases (s : KernelState F) (t : Int) :
    (tapStep S U eye dir dc s t = s
        ∧ (tapHits S U eye dir dc t → s.BestDepth < (IntersectionDepths S U eye dir dc t).x))
      ∨ (tapStep S U eye dir dc s t = tapRecord S U eye dir dc t
        ∧ tapHits S U eye dir dc t ∧ (IntersectionDepths S U eye dir dc t).x ≤ s.BestDepth) := by
  by_cases h : tapHits S U eye dir dc t
  · by_cases hd : (IntersectionDepths S U eye dir dc t).x ≤ s.BestDepth
    · exact Or.inr ⟨tapStep_of_hit S U eye dir dc s t h hd, h, hd⟩
    · exact Or.inl ⟨tapStep_of_far S U eye dir dc s t (not_le.mp hd), fun _ => not_le.mp hd⟩
  · exact Or.inl ⟨tapStep_of_not_hit S U eye dir dc s t h, fun h2 => absurd h2 h⟩

/-- The loop over any list of taps, from any state: the best depth never grows,
it ends no larger than the entry depth of any hitting tap, and the final state
is the initial one or the record of a hitting tap of the list. -/
theorem foldl_tapStep_spec (L : List Int) (s : KernelState F) :
    (L.foldl (tapStep S U eye dir dc) s).BestDepth ≤ s.BestDepth
    ∧ (∀ j ∈ L, tapHits S U eye dir dc j →
        (L.foldl (tapStep S U eye dir dc) s).BestDepth ≤ (IntersectionDepths S U eye dir dc j).x)
    ∧ (L.foldl (tapStep S U eye dir dc) s = s
        ∨ ∃ k ∈ L, tapHits S U eye dir dc k
            ∧ (IntersectionDepths S U eye dir dc k).x ≤ s.BestDepth
            ∧ L.foldl (tapStep S U eye dir dc) s = tapRecord S U eye dir dc k) := by
  induction L generalizing s with
  | nil => simp
  | cons t L ih =>
    simp only [List.foldl_cons, List.mem_cons]
    obtain ⟨ih1, ih2, ih3⟩ := ih (tapStep S U eye dir dc s t)
    have hstep : (tapStep S U eye dir dc s t).BestDepth ≤ s.BestDepth := by
      rcases tapStep_cases S U eye dir dc s t with ⟨h, _⟩ | ⟨h, _, hd⟩
      · rw [h]
      · rw [h]; exact hd
    refine ⟨le_trans ih1 hstep, ?_, ?_⟩
    · rintro j (rfl | hj) hhit
      · refine le_trans ih1 ?_
        rcases tapStep_cases S U eye dir dc s j with ⟨h, hfar⟩ | ⟨h, _, _⟩
        · rw [h]; exact (hfar hhit).le
        · rw [h]; exact le_refl _
      · exact ih2 j hj hhit
    · rcases ih3 with h | ⟨k, hk, hhit, hd, hrec⟩
      · rcases tapStep_cases S U eye dir dc s t with ⟨h2, _⟩ | ⟨h2, hhit, hd⟩
        · left; rw [h, h2]
        · right; exact ⟨t, Or.inl rfl, hhit, hd, by rw [h, h2]⟩
      · right; exact ⟨k, Or.inr hk, hhit, le_trans hd hstep, hrec⟩

/-- If some tap of the list hits no farther than the best depth so far, the
loop ends in the record of a hitting tap of the list. -/
theorem foldl_tapStep_of_candidate (L : List Int) (s : KernelState F)
    (h : ∃ j ∈ L, tapHits S U eye dir dc j
      ∧ (IntersectionDepths S U eye dir dc j).x ≤ s.BestDepth) :
    ∃ k ∈ L, tapHits S U eye dir dc k
      ∧ L.foldl (tapStep S U eye dir dc) s = tapRecord S U eye dir dc k := by
  induction L generalizing s with
  | nil => obtain ⟨j, hj, _⟩ := h; simp at hj
  | cons t L ih =>
    simp only [List.foldl_cons, List.mem_cons]
    by_cases hc : tapHits S U eye dir dc t ∧ (IntersectionDepths S U eye dir dc t).x ≤ s.BestDepth
    · have hrec := tapStep_of_hit S U eye dir dc s t hc.1 hc.2
      rcases (foldl_tapStep_spec S U eye dir dc L (tapStep S U eye dir dc s t)).2.2 with
        h2 | ⟨k, hk, hhit, _, hk2⟩
      · exact ⟨t, Or.inl rfl, hc.1, by rw [h2, hrec]⟩
      · exact ⟨k, Or.inr hk, hhit, hk2⟩
    · have hkeep : tapStep S U eye dir dc s t = s := by
        rcases tapStep_cases S U eye dir dc s t with ⟨h2, _⟩ | ⟨_, hhit, hd⟩
        · exact h2
        · exact absurd ⟨hhit, hd⟩ hc
      obtain ⟨j, hj, hhit, hd⟩ := h
      rcases List.mem_cons.mp hj with rfl | hj
      · exact absurd ⟨hhit, hd⟩ hc
      · obtain ⟨k, hk, hk1, hk2⟩ := ih s ⟨j, hj, hhit, hd⟩
        exact ⟨k, Or.inr hk, hk1, by rw [hkeep]; exact hk2⟩

/-- If every hitting tap of the list is farther than the best depth so far,
the loop leaves the state unchanged. -/
theorem foldl_tapStep_of_no_candidate (L : List Int) (s : KernelState F)
    (h : ∀ j ∈ L, tapHits S U eye dir dc j →
      s.BestDepth < (IntersectionDepths S U eye dir dc j).x) :
    L.foldl (tapStep S U eye dir dc) s = s := by
  induction L generalizing s with
  | nil => rfl
  | cons t L ih =>
    simp only [List.foldl_cons]
    have hkeep : tapStep S U eye dir dc s t = s := by
      by_cases hhit : tapHits S U eye dir dc t
      · exact tapStep_of_far S U eye dir dc s t (h t (List.mem_cons_self _ _) hhit)
      · exact tapStep_of_not_hit S U eye dir dc s t hhit
    rw [hkeep]
    exact ih s (fun j hj => h j (List.mem_cons_of_mem _ hj))

end TapLoop

/-! ### The pass sequence of `Render` -/

/-- Whenever `Render` gets past its assertions, its calls are `renderCommands`
for some pair of matrices. -/
theorem Render_eq_some {F : Type} [LinearOrderedField F] (sqrt : F → F) (r : Renderer F)
    (State : GameState F) (cmds : List (GLCommand F)) (h : Render sqrt r State = some cmds) :
    ∃ ModelViewProjection ViewProjectionInverse,
      cmds = renderCommands r State ModelViewProjection ViewProjectionInverse := by
  unfold Render at h
  simp only [Option.bind_eq_some] at h
  obtain ⟨View, _, VPI, _, h⟩ := h
  exact ⟨_, VPI, (Option.some.inj h).symm⟩

/-- The five draw calls of `renderCommands`, each with the state it is issued in. -/
theorem drawCalls_renderCommands {F : Type} [LinearOrderedField F] (r : Renderer F)
    (State : GameState F) (MVP VPI : Matrix44 F) (s0 : GLState F) :
    ∃ d0 d1 d2 d3 d4 : DrawCall F,
      drawCalls s0 (renderCommands r State MVP VPI) = [d0, d1, d2, d3, d4]
      ∧ (d0.Mode = PrimitiveMode.POINTS ∧ d0.State.CurrentProgram = Program.ShaderProgram1
          ∧ d0.State.DrawFramebuffer = FrameBuffer.FrameBuffer1
          ∧ d0.State.ModelViewProjection = MVP ∧ d0.State.Model = r.Model
          ∧ d0.State.Vertices = buildMap State.Scene
          ∧ d0.First = 0 ∧ d0.Count = (buildMap (F := F) State.Scene).length
          ∧ d0.State.DepthTest = true ∧ d0.State.Blend = false)
      ∧ (d1.Mode = PrimitiveMode.TRIANGLES ∧ d1.State.CurrentProgram = Program.ShaderProgram2
          ∧ d1.State.DrawFramebuffer = FrameBuffer.FrameBuffer2
          ∧ d1.sampled = (some TextureName.TexturePosition1, some TextureName.TextureNormal1,
              some TextureName.TextureColour1)
          ∧ d1.State.Uniforms = ⟨VPI, spreadDirection 0, (1 / 2) / r.Subdivisions,
              pixelDimensions r, false, sceneOffset State⟩)
      ∧ (d2.Mode = PrimitiveMode.TRIANGLES ∧ d2.State.CurrentProgram = Program.ShaderProgram2
          ∧ d2.State.DrawFramebuffer = FrameBuffer.FrameBuffer1
          ∧ d2.sampled = (some TextureName.TexturePosition2, some TextureName.TextureNormal2,
              some TextureName.TextureColour2)
          ∧ d2.State.Uniforms = ⟨VPI, spreadDirection 1, (1 / 2) / r.Subdivisions,
              pixelDimensions r, false, sceneOffset State⟩)
      ∧ (d3.Mode = PrimitiveMode.TRIANGLES ∧ d3.State.CurrentProgram = Program.ShaderProgram2
          ∧ d3.State.DrawFramebuffer = FrameBuffer.FrameBuffer2
          ∧ d3.sampled = (some TextureName.TexturePosition1, some TextureName.TextureNormal1,
              some TextureName.TextureColour1)
          ∧ d3.State.Uniforms = ⟨VPI, spreadDirection 2, (1 / 2) / r.Subdivisions,
              pixelDimensions r, false, sceneOffset State⟩)
      ∧ (d4.Mode = PrimitiveMode.TRIANGLES ∧ d4.State.CurrentProgram = Program.ShaderProgram2
          ∧ d4.State.DrawFramebuffer = FrameBuffer.Zero
          ∧ d4.sampled = (some TextureName.TexturePosition2, some TextureName.TextureNormal2,
              some TextureName.TextureColour2)
          ∧ d4.State.Uniforms = ⟨VPI, ⟨0, 1⟩, (1 / 2) / r.Subdivisions,
              pixelDimensions r, true, sceneOffset State⟩) := by
  refine ⟨_, _, _, _, _, rfl, ?_⟩
  simp [DrawCall.sampled, GLState.step]

theorem spreadDirection_values {F : Type} [LinearOrderedField F] :
    spreadDirection (F := F) 0 = ⟨1, 0⟩ ∧ spreadDirection (F := F) 1 = ⟨0, 1⟩
      ∧ spreadDirection (F := F) 2 = ⟨1, 0⟩ := by
  refine ⟨?_, ?_, ?_⟩ <;> simp [spreadDirection, Int.tmod]

theorem spreadDirection_nat {F : Type} [LinearOrderedField F] (i : Nat) :
    spreadDirection (F := F) (i : Int) = if i % 2 = 0 then ⟨1, 0⟩ else ⟨0, 1⟩ := by
  have h1 : Int.tmod (i : Int) 2 = ((i % 2 : Nat) : Int) := (Int.ofNat_tmod i 2).symm
  have h2 : Int.tmod ((i : Int) + 1) 2 = (((i + 1) % 2 : Nat) : Int) := by
    have := (Int.ofNat_tmod (i + 1) 2).symm
    simpa using this
  unfold spreadDirection
  rw [h1, h2]
  rcases Nat.mod_two_eq_zero_or_one i with h | h
  · have h3 : (i + 1) % 2 = 1 := by omega
    simp [h, h3]
  · have h3 : (i + 1) % 2 = 0 := by omega
    simp [h, h3]

theorem Rat_sqrt_one : Rat.sqrt 1 = 1 := by
  have h := Rat.sqrt_eq 1
  rwa [mul_one, abs_one] at h

/-- On the sample input `Render` gets past its two assertions. -/
theorem Render_sample_isSome :
    ∃ cmds, Render Rat.sqrt sampleRenderer sampleState = some cmds := by
  have hView : Matrix44.View Rat.sqrt sampleState.CameraPosition sampleState.CameraTarget
      ⟨0, 1, 0⟩ = some (Matrix44.ofValues 1 0 0 0 0 1 0 0 0 0 1 0 0 0 0 1) := by
    simp [Matrix44.View, Vector3.Normalise, Vector3.sub, Vector3.Cross, sampleState,
      Rat_sqrt_one]
  have hdet : (sampleRenderer.Projection.mul
      (Matrix44.ofValues 1 0 0 0 0 1 0 0 0 0 1 0 0 0 0 1)).Determinant ≠ 0 := by
    simp only [Matrix44.Determinant, Matrix44.InvertResult, Matrix44.mul_data]
    norm_num [sampleRenderer, Matrix44.Frustum]
  unfold Render
  rw [hView]
  simp [Matrix44.Invert, hdet]

/-- C8. Every call of `Render` that gets past its assertions issues exactly
five draw calls, in this order: one of points with program 1, three of the
full-screen triangle with program 2 and `LastRender = false` into a framebuffer
object, and last one of the full-screen triangle with program 2 and
`LastRender = true` into framebuffer 0. -/
theorem Render_five_passes {F : Type} [LinearOrderedField F] (sqrt : F → F) (r : Renderer F)
    (State : GameState F) (s0 : GLState F) (cmds : List (GLCommand F))
    (h : Render sqrt r State = some cmds) :
    ∃ d0 d1 d2 d3 d4 : DrawCall F,
      drawCalls s0 cmds = [d0, d1, d2, d3, d4]
      ∧ (d0.Mode = PrimitiveMode.POINTS ∧ d0.State.CurrentProgram = Program.ShaderProgram1)
      ∧ (∀ d ∈ [d1, d2, d3], d.Mode = PrimitiveMode.TRIANGLES ∧ d.Count = 3
          ∧ d.State.CurrentProgram = Program.ShaderProgram2
          ∧ d.State.Uniforms.LastRender = false
          ∧ d.State.DrawFramebuffer ≠ FrameBuffer.Zero)
      ∧ (d4.Mode = PrimitiveMode.TRIANGLES ∧ d4.Count = 3
          ∧ d4.State.CurrentProgram = Program.ShaderProgram2
          ∧ d4.State.Uniforms.LastRender = true
          ∧ d4.State.DrawFramebuffer = FrameBuffer.Zero) := by
  obtain ⟨MVP, VPI, rfl⟩ := Render_eq_some sqrt r State cmds h
  refine ⟨_, _, _, _, _, rfl, ?_⟩
  simp [GLState.step]

/-- C9. In every frame the splat pass writes framebuffer 1 (set 1); spread
iteration 0 reads set 1 and writes set 2, iteration 1 reads set 2 and writes
set 1, iteration 2 reads set 1 and writes set 2; the composite pass reads set 2.
So each pass after the first reads exactly the attachments of the framebuffer
the pass before it wrote, and no spread pass reads the attachments of the
framebuffer it writes. -/
theorem Render_read_after_write {F : Type} [LinearOrderedField F] (sqrt : F → F)
    (r : Renderer F) (State : GameState F) (s0 : GLState F) (cmds : List (GLCommand F))
    (h : Render sqrt r State = some cmds) :
    ∃ d0 d1 d2 d3 d4 : DrawCall F,
      drawCalls s0 cmds = [d0, d1, d2, d3, d4]
      ∧ d0.State.DrawFramebuffer = FrameBuffer.FrameBuffer1
      ∧ (some d1.sampled = attachedSet FrameBuffer.FrameBuffer1
          ∧ d1.State.DrawFramebuffer = FrameBuffer.FrameBuffer2)
      ∧ (some d2.sampled = attachedSet FrameBuffer.FrameBuffer2
          ∧ d2.State.DrawFramebuffer = FrameBuffer.FrameBuffer1)
      ∧ (some d3.sampled = attachedSet FrameBuffer.FrameBuffer1
          ∧ d3.State.DrawFramebuffer = FrameBuffer.FrameBuffer2)
      ∧ some d4.sampled = attachedSet FrameBuffer.FrameBuffer2
      ∧ (some d1.sampled = attachedSet d0.State.DrawFramebuffer
          ∧ some d2.sampled = attachedSet d1.State.DrawFramebuffer
          ∧ some d3.sampled = attachedSet d2.State.DrawFramebuffer
          ∧ some d4.sampled = attachedSet d3.State.DrawFramebuffer)
      ∧ (some d1.sampled ≠ attachedSet d1.State.DrawFramebuffer
          ∧ some d2.sampled ≠ attachedSet d2.State.DrawFramebuffer
          ∧ some d3.sampled ≠ attachedSet d3.State.DrawFramebuffer) := by
  obtain ⟨MVP, VPI, rfl⟩ := Render_eq_some sqrt r State cmds h
  refine ⟨_, _, _, _, _, rfl, ?_⟩
  simp [DrawCall.sampled, GLState.step, attachedSet, ColourAttachments]

/-- C10. Spread iteration `i` uses the evaluation direction (1,0) when `i` is
even and (0,1) when `i` is odd; the three spread passes of a frame use (1,0),
(0,1), (1,0) and the composite pass (0,1); every two consecutive kernel passes,
the composite after the last spread pass included, use perpendicular directions. -/
theorem Render_directions {F : Type} [LinearOrderedField F] (sqrt : F → F)
    (r : Renderer F) (State : GameState F) (s0 : GLState F) (cmds : List (GLCommand F))
    (h : Render sqrt r State = some cmds) :
    (∀ i : Nat, spreadDirection (F := F) (i : Int) = if i % 2 = 0 then ⟨1, 0⟩ else ⟨0, 1⟩)
    ∧ ∃ d0 d1 d2 d3 d4 : DrawCall F,
      drawCalls s0 cmds = [d0, d1, d2, d3, d4]
      ∧ d1.State.Uniforms.EvaluationDirection = ⟨1, 0⟩
      ∧ d2.State.Uniforms.EvaluationDirection = ⟨0, 1⟩
      ∧ d3.State.Uniforms.EvaluationDirection = ⟨1, 0⟩
      ∧ d4.State.Uniforms.EvaluationDirection = ⟨0, 1⟩
      ∧ Vec2.dot d1.State.Uniforms.EvaluationDirection d2.State.Uniforms.EvaluationDirection = 0
      ∧ Vec2.dot d2.State.Uniforms.EvaluationDirection d3.State.Uniforms.EvaluationDirection = 0
      ∧ Vec2.dot d3.State.Uniforms.EvaluationDirection d4.State.Uniforms.EvaluationDirection = 0 := by
  obtain ⟨MVP, VPI, rfl⟩ := Render_eq_some sqrt r State cmds h
  refine ⟨spreadDirection_nat, _, _, _, _, _, rfl, ?_⟩
  simp [GLState.step, Vec2.dot, spreadDirection, Int.tmod]

/-- Witness of C8 on the sample input. -/
theorem Render_five_passes_witness :
    ∃ cmds, Render Rat.sqrt sampleRenderer sampleState = some cmds
      ∧ ∃ d0 d1 d2 d3 d4 : DrawCall ℚ,
        drawCalls sampleGLState cmds = [d0, d1, d2, d3, d4]
        ∧ (d0.Mode = PrimitiveMode.POINTS ∧ d0.State.CurrentProgram = Program.ShaderProgram1)
        ∧ (∀ d ∈ [d1, d2, d3], d.Mode = PrimitiveMode.TRIANGLES ∧ d.Count = 3
            ∧ d.State.CurrentProgram = Program.ShaderProgram2
            ∧ d.State.Uniforms.LastRender = false
            ∧ d.State.DrawFramebuffer ≠ FrameBuffer.Zero)
        ∧ (d4.Mode = PrimitiveMode.TRIANGLES ∧ d4.Count = 3
            ∧ d4.State.CurrentProgram = Program.ShaderProgram2
            ∧ d4.State.Uniforms.LastRender = true
            ∧ d4.State.DrawFramebuffer = FrameBuffer.Zero) :=
  Render_sample_isSome.elim fun cmds h =>
    ⟨cmds, h, Render_five_passes Rat.sqrt sampleRenderer sampleState sampleGLState cmds h⟩

/-- Witness of C1: the sample matrix has a nonzero determinant, and its inverse
times it is the identity. -/
theorem Invert_mul_eq_Identity_witness :
    Matrix.det (Matrix.of sampleMatrix.Data) ≠ 0
      ∧ ∃ R, Matrix44.Invert sampleMatrix = some R ∧ R.mul sampleMatrix = Matrix44.Identity :=
  have hdet : Matrix.det (Matrix.of sampleMatrix.Data) ≠ 0 := by
    rw [← Matrix44.Determinant_eq_det]
    norm_num [Matrix44.Determinant, Matrix44.InvertResult, sampleMatrix]
  ⟨hdet, Invert_mul_eq_Identity sampleMatrix hdet⟩

/-- Witness of C4: the ray from the origin along (1, 2, 4) and the box
`[1, 3] x [2, 6] x [4, 12]`. -/
theorem RayBoxIntersect_slab_method_witness :
    (RayBoxIntersect (F := ℚ) ⟨0, 0, 0⟩ ⟨1, 2, 4⟩ ⟨1, 2, 4⟩ ⟨3, 6, 12⟩).x
      ≤ (RayBoxIntersect (F := ℚ) ⟨0, 0, 0⟩ ⟨1, 2, 4⟩ ⟨1, 2, 4⟩ ⟨3, 6, 12⟩).y
    ↔ ∃ t : ℚ, InBox (rayPoint ⟨0, 0, 0⟩ ⟨1, 2, 4⟩ t) ⟨1, 2, 4⟩ ⟨3, 6, 12⟩ :=
  (RayBoxIntersect_slab_method (F := ℚ) ⟨0, 0, 0⟩ ⟨1, 2, 4⟩ ⟨1, 2, 4⟩ ⟨3, 6, 12⟩
    (by norm_num) (by norm_num) (by norm_num) (by norm_num) (by norm_num) (by norm_num)).2.2.1

/-- Witness of C9 on the sample input. -/
theorem Render_read_after_write_witness :
    ∃ cmds, Render Rat.sqrt sampleRenderer sampleState = some cmds
      ∧ ∃ d0 d1 d2 d3 d4 : DrawCall ℚ,
        drawCalls sampleGLState cmds = [d0, d1, d2, d3, d4]
        ∧ some d1.sampled = attachedSet d0.State.DrawFramebuffer
        ∧ some d2.sampled = attachedSet d1.State.DrawFramebuffer
        ∧ some d3.sampled = attachedSet d2.State.DrawFramebuffer
        ∧ some d4.sampled = attachedSet d3.State.DrawFramebuffer :=
  Render_sample_isSome.elim fun cmds h =>
    (Render_read_after_write Rat.sqrt sampleRenderer sampleState sampleGLState cmds h).elim
      fun d0 h0 => h0.elim fun d1 h1 => h1.elim fun d2 h2 => h2.elim fun d3 h3 =>
        h3.elim fun d4 h4 =>
          ⟨cmds, h, d0, d1, d2, d3, d4, h4.1, h4.2.2.2.2.2.2.1⟩

/-- Witness of C10 on the sample input. -/
theorem Render_directions_witness :
    ∃ cmds, Render Rat.sqrt sampleRenderer sampleState = some cmds
      ∧ ∃ d0 d1 d2 d3 d4 : DrawCall ℚ,
        drawCalls sampleGLState cmds = [d0, d1, d2, d3, d4]
        ∧ d1.State.Uniforms.EvaluationDirection = ⟨1, 0⟩
        ∧ d2.State.Uniforms.EvaluationDirection = ⟨0, 1⟩
        ∧ d3.State.Uniforms.EvaluationDirection = ⟨1, 0⟩
        ∧ d4.State.Uniforms.EvaluationDirection = ⟨0, 1⟩ :=
  Render_sample_isSome.elim fun cmds h =>
    (Render_directions Rat.sqrt sampleRenderer sampleState sampleGLState cmds h).2.elim
      fun d0 h0 => h0.elim fun d1 h1 => h1.elim fun d2 h2 => h2.elim fun d3 h3 =>
        h3.elim fun d4 h4 =>
          ⟨cmds, h, d0, d1, d2, d3, d4, h4.1, h4.2.1, h4.2.2.1, h4.2.2.2.1, h4.2.2.2.2.1⟩

/-! ### Rays behind the origin -/

/-- No point of the ray at a parameter `t ≥ 0` is in the box exactly when the
returned entry depth exceeds the exit depth or the exit depth is negative. -/
theorem RayBoxIntersect_forward_iff {F : Type} [LinearOrderedField F] (o d bmin bmax : Vec3 F)
    (hdx : d.x ≠ 0) (hdy : d.y ≠ 0) (hdz : d.z ≠ 0)
    (hx : bmin.x ≤ bmax.x) (hy : bmin.y ≤ bmax.y) (hz : bmin.z ≤ bmax.z) :
    (∀ t, 0 ≤ t → ¬ InBox (rayPoint o d t) bmin bmax)
      ↔ ((RayBoxIntersect o d bmin bmax).y < (RayBoxIntersect o d bmin bmax).x
          ∨ (RayBoxIntersect o d bmin bmax).y < 0) := by
  constructor
  · intro h
    by_contra hcon
    push_neg at hcon
    obtain ⟨h1, h2⟩ := hcon
    refine h (max (RayBoxIntersect o d bmin bmax).x 0) (le_max_right _ _) ?_
    exact (RayBoxIntersect_between_iff o d bmin bmax hdx hdy hdz hx hy hz _).mp
      ⟨le_max_left _ _, max_le h1 h2⟩
  · intro h t ht hin
    have := (RayBoxIntersect_between_iff o d bmin bmax hdx hdy hdz hx hy hz t).mpr hin
    rcases h with h | h
    · exact absurd (le_trans this.1 this.2) (not_le.mpr h)
    · exact absurd (le_trans ht this.2) (not_le.mpr h)

/-- C5, counterexample. The box `[-2, -1]^3` lies behind the origin of the ray
from (0,0,0) along (1,1,1): no point of the ray at `t ≥ 0` is in the box, and
yet `RayBoxIntersect` returns entry -2 and exit -1, so the test
`entry <= exit` of the kernel counts a hit. -/
theorem RayBoxIntersect_behind_counterexample :
    (∀ t : ℚ, 0 ≤ t → ¬ InBox (rayPoint ⟨0, 0, 0⟩ ⟨1, 1, 1⟩ t) ⟨-2, -2, -2⟩ ⟨-1, -1, -1⟩)
    ∧ (RayBoxIntersect (F := ℚ) ⟨0, 0, 0⟩ ⟨1, 1, 1⟩ ⟨-2, -2, -2⟩ ⟨-1, -1, -1⟩).x = -2
    ∧ (RayBoxIntersect (F := ℚ) ⟨0, 0, 0⟩ ⟨1, 1, 1⟩ ⟨-2, -2, -2⟩ ⟨-1, -1, -1⟩).y = -1
    ∧ ¬ ((RayBoxIntersect (F := ℚ) ⟨0, 0, 0⟩ ⟨1, 1, 1⟩ ⟨-2, -2, -2⟩ ⟨-1, -1, -1⟩).x
          > (RayBoxIntersect (F := ℚ) ⟨0, 0, 0⟩ ⟨1, 1, 1⟩ ⟨-2, -2, -2⟩ ⟨-1, -1, -1⟩).y) := by
  refine ⟨?_, ?_, ?_, ?_⟩
  · intro t ht h
    simp only [InBox, rayPoint] at h
    linarith [h.1.2]
  · norm_num [RayBoxIntersect, glslMax, glslMin, Vec3.scalarDiv, Vec3.mul, Vec3.sub]
  · norm_num [RayBoxIntersect, glslMax, glslMin, Vec3.scalarDiv, Vec3.mul, Vec3.sub]
  · norm_num [RayBoxIntersect, glslMax, glslMin, Vec3.scalarDiv, Vec3.mul, Vec3.sub]

/-- C5, amended. For every ray aimed away from the box (no point `o + t*d` with
`t ≥ 0` lies in the box), with three nonzero direction components and
`BoxMin ≤ BoxMax`, `RayBoxIntersect` returns `entry > exit` or a negative exit
depth; it returns `entry > exit` exactly when the whole line misses the box. -/
theorem RayBoxIntersect_aimed_away {F : Type} [LinearOrderedField F] (o d bmin bmax : Vec3 F)
    (hdx : d.x ≠ 0) (hdy : d.y ≠ 0) (hdz : d.z ≠ 0)
    (hx : bmin.x ≤ bmax.x) (hy : bmin.y ≤ bmax.y) (hz : bmin.z ≤ bmax.z) :
    ((∀ t, 0 ≤ t → ¬ InBox (rayPoint o d t) bmin bmax) →
        (RayBoxIntersect o d bmin bmax).x > (RayBoxIntersect o d bmin bmax).y
          ∨ (RayBoxIntersect o d bmin bmax).y < 0)
    ∧ ((RayBoxIntersect o d bmin bmax).x > (RayBoxIntersect o d bmin bmax).y
        ↔ ∀ t, ¬ InBox (rayPoint o d t) bmin bmax) := by
  refine ⟨(RayBoxIntersect_forward_iff o d bmin bmax hdx hdy hdz hx hy hz).mp, ?_⟩
  rw [gt_iff_lt, ← not_le, RayBoxIntersect_hit_iff o d bmin bmax hdx hdy hdz hx hy hz]
  exact not_exists

/-- Witness of C5 (amended): the ray from the origin along (1,1,1) and the box
`[1, 2] x [3, 4] x [5, 6]`, which its line misses. -/
theorem RayBoxIntersect_aimed_away_witness :
    (∀ t : ℚ, 0 ≤ t → ¬ InBox (rayPoint ⟨0, 0, 0⟩ ⟨1, 1, 1⟩ t) ⟨1, 3, 5⟩ ⟨2, 4, 6⟩)
    ∧ ((RayBoxIntersect (F := ℚ) ⟨0, 0, 0⟩ ⟨1, 1, 1⟩ ⟨1, 3, 5⟩ ⟨2, 4, 6⟩).x
          > (RayBoxIntersect (F := ℚ) ⟨0, 0, 0⟩ ⟨1, 1, 1⟩ ⟨1, 3, 5⟩ ⟨2, 4, 6⟩).y
        ∨ (RayBoxIntersect (F := ℚ) ⟨0, 0, 0⟩ ⟨1, 1, 1⟩ ⟨1, 3, 5⟩ ⟨2, 4, 6⟩).y < 0) :=
  have h : ∀ t : ℚ, 0 ≤ t → ¬ InBox (rayPoint ⟨0, 0, 0⟩ ⟨1, 1, 1⟩ t) ⟨1, 3, 5⟩ ⟨2, 4, 6⟩ := by
    intro t _ hin
    simp only [InBox, rayPoint] at hin
    linarith [hin.1.2, hin.2.1.1]
  ⟨h, (RayBoxIntersect_aimed_away (F := ℚ) ⟨0, 0, 0⟩ ⟨1, 1, 1⟩ ⟨1, 3, 5⟩ ⟨2, 4, 6⟩
    (by norm_num) (by norm_num) (by norm_num) (by norm_num) (by norm_num) (by norm_num)).1 h⟩

/-! ### What the kernel resolves -/

/-- C3, amended. For every pixel, source textures and uniforms: if some tap
reports a hit with an entry depth of at most 9999999 (the initial best depth),
the loop ends with the entry depth, position, normal and colour of one hitting
tap, and no hitting tap has a smaller entry depth; so of two hitting taps with
entry depths `d1 < d2` the second is never the one whose depth is kept. -/
theorem resolve_nearest_hit {F : Type} [LinearOrderedField F] (sqrt : F → F) (S : Samplers F)
    (U : Uniforms F) (VertexPosition : Vec3 F)
    (h : ∃ t ∈ Taps, fragmentTapHits sqrt S U VertexPosition t
        ∧ fragmentTapDepth sqrt S U VertexPosition t ≤ InitialBestDepth) :
    ∃ k ∈ Taps,
      fragmentTapHits sqrt S U VertexPosition k
      ∧ resolve sqrt S U VertexPosition = fragmentTapRecord sqrt S U VertexPosition k
      ∧ (∀ j ∈ Taps, fragmentTapHits sqrt S U VertexPosition j →
          fragmentTapDepth sqrt S U VertexPosition k ≤ fragmentTapDepth sqrt S U VertexPosition j)
      ∧ (∀ i ∈ Taps, ∀ j ∈ Taps, fragmentTapHits sqrt S U VertexPosition i →
          fragmentTapDepth sqrt S U VertexPosition i < fragmentTapDepth sqrt S U VertexPosition j →
          (resolve sqrt S U VertexPosition).BestDepth
            ≠ fragmentTapDepth sqrt S U VertexPosition j) := by
  obtain ⟨k, hk, hhit, hrec⟩ := foldl_tapStep_of_candidate S U (EyePosition U)
    (EyeVector sqrt U VertexPosition) (DataCoordinate VertexPosition) Taps KernelState.initial h
  have hmin := (foldl_tapStep_spec S U (EyePosition U) (EyeVector sqrt U VertexPosition)
    (DataCoordinate VertexPosition) Taps KernelState.initial).2.1
  have hres : resolve sqrt S U VertexPosition = fragmentTapRecord sqrt S U VertexPosition k :=
    hrec
  refine ⟨k, hk, hhit, hres, ?_, ?_⟩
  · intro j hj hjhit
    have := hmin j hj hjhit
    rw [hrec] at this
    exact this
  · intro i hi j _ hihit hlt heq
    have := hmin i hi hihit
    have hb : (resolve sqrt S U VertexPosition).BestDepth
        = (Taps.foldl (tapStep S U (EyePosition U) (EyeVector sqrt U VertexPosition)
            (DataCoordinate VertexPosition)) KernelState.initial).BestDepth := rfl
    rw [hb] at heq
    rw [heq] at this
    exact absurd hlt (not_lt.mpr this)

/-! ### The sample fragment -/

theorem Rat_sqrt_sample : Rat.sqrt (169 / 36) = 13 / 6 := by
  have h := Rat.sqrt_eq (13 / 6)
  have e : (13 / 6 : ℚ) * (13 / 6) = 169 / 36 := by norm_num
  rw [e, abs_of_pos (by norm_num)] at h
  exact h

theorem sample_EyePosition : EyePosition sampleUniforms = ⟨0, 0, -1⟩ := by
  simp [EyePosition, sampleUniforms, Matrix44.mulVec4, Matrix44.Identity,
    Vec4.xyz, Vec3.divScalar]

theorem sample_EyeVector :
    EyeVector Rat.sqrt sampleUniforms sampleVertexPosition = ⟨3 / 13, 4 / 13, 12 / 13⟩ := by
  have e : (1 / 2 : ℚ) * (1 / 2) + 2 / 3 * (2 / 3) + (1 - -1) * (1 - -1) = 169 / 36 := by
    norm_num
  simp only [EyeVector, sample_EyePosition]
  simp [sampleUniforms, sampleVertexPosition, Matrix44.mulVec4, Matrix44.Identity,
    Vec4.xyz, Vec4.ofVec3, Vec3.divScalar, Vec3.sub, normalize, Vec3.dot]
  norm_num [e, Rat_sqrt_sample]

theorem sentinel_EyePosition : EyePosition sentinelUniforms = ⟨-21 / 10, -31 / 10, -111 / 10⟩ := by
  simp [EyePosition, sentinelUniforms, Matrix44.mulVec4, Vec4.xyz, Vec3.divScalar]
  norm_num

theorem sentinel_EyeVector :
    EyeVector Rat.sqrt sentinelUniforms sampleVertexPosition = ⟨3 / 13, 4 / 13, 12 / 13⟩ := by
  have e : (1 / 2 : ℚ) * (1 / 2) + 2 / 3 * (2 / 3) + 2 * 2 = 169 / 36 := by norm_num
  simp only [EyeVector, sentinel_EyePosition]
  simp [sentinelUniforms, sampleVertexPosition, Matrix44.mulVec4,
    Vec4.xyz, Vec4.ofVec3, Vec3.divScalar, Vec3.sub, normalize, Vec3.dot]
  norm_num [e, Rat_sqrt_sample]

theorem zero_mem_Taps : (0 : Int) ∈ Taps := by decide

theorem near_IntersectionDepths (t : Int) :
    IntersectionDepths nearSamplers sampleUniforms (EyePosition sampleUniforms)
        (EyeVector Rat.sqrt sampleUniforms sampleVertexPosition)
        (DataCoordinate sampleVertexPosition) t
      = ⟨31187 / 2400, 31213 / 2400⟩ := by
  rw [sample_EyePosition, sample_EyeVector]
  norm_num [IntersectionDepths, RayBoxIntersect, glslMax, glslMin, Vec3.scalarDiv, Vec3.mul,
    Vec3.sub, Vec3.subScalar, Vec3.addScalar, Vec4.xyz, nearSamplers, sampleUniforms]

theorem far_IntersectionDepths (t : Int) :
    IntersectionDepths farSamplers sampleUniforms (EyePosition sampleUniforms)
        (EyeVector Rat.sqrt sampleUniforms sampleVertexPosition)
        (DataCoordinate sampleVertexPosition) t
      = ⟨62399999987 / 2400, 62400000013 / 2400⟩ := by
  rw [sample_EyePosition, sample_EyeVector]
  norm_num [IntersectionDepths, RayBoxIntersect, glslMax, glslMin, Vec3.scalarDiv, Vec3.mul,
    Vec3.sub, Vec3.subScalar, Vec3.addScalar, Vec4.xyz, farSamplers, sampleUniforms]

theorem clear_IntersectionDepths (t : Int) :
    IntersectionDepths clearSamplers sentinelUniforms (EyePosition sentinelUniforms)
        (EyeVector Rat.sqrt sentinelUniforms sampleVertexPosition)
        (DataCoordinate sampleVertexPosition) t
      = ⟨31187 / 2400, 31213 / 2400⟩ := by
  rw [sentinel_EyePosition, sentinel_EyeVector]
  norm_num [IntersectionDepths, RayBoxIntersect, glslMax, glslMin, Vec3.scalarDiv, Vec3.mul,
    Vec3.sub, Vec3.subScalar, Vec3.addScalar, Vec4.xyz, clearSamplers, sentinelUniforms]

/-- On the far sample every tap hits, farther than the initial best depth, so
the loop leaves its initial state. -/
theorem far_resolve :
    resolve Rat.sqrt farSamplers sampleUniforms sampleVertexPosition = KernelState.initial := by
  apply foldl_tapStep_of_no_candidate
  intro j _ _
  rw [far_IntersectionDepths]
  norm_num [KernelState.initial, InitialBestDepth]

/-- C3, counterexample. Every one of the 33 taps samples the same voxel, at
(6000000, 8000000, 23999999), and every tap reports a hit (entry depth about
26000000, beyond the initial best depth 9999999); the kernel's output position
is (0, 0, 0), the position of no tap. -/
theorem resolve_far_hit_counterexample :
    (∀ t ∈ Taps, fragmentTapHits Rat.sqrt farSamplers sampleUniforms sampleVertexPosition t)
    ∧ (∀ t ∈ Taps, fragmentTapPosition farSamplers sampleUniforms sampleVertexPosition t
        = ⟨6000000, 8000000, 23999999⟩)
    ∧ (resolve Rat.sqrt farSamplers sampleUniforms sampleVertexPosition).OutputPosition
        = ⟨0, 0, 0⟩
    ∧ ¬ ∃ k ∈ Taps, (resolve Rat.sqrt farSamplers sampleUniforms sampleVertexPosition).OutputPosition
        = fragmentTapPosition farSamplers sampleUniforms sampleVertexPosition k := by
  refine ⟨?_, ?_, ?_, ?_⟩
  · intro t _
    show tapHits _ _ _ _ _ _
    unfold tapHits
    rw [far_IntersectionDepths]
    norm_num
  · intro t _
    rfl
  · rw [far_resolve]
    rfl
  · rw [far_resolve]
    rintro ⟨k, _, hk⟩
    have h := congrArg Vec3.x hk
    simp [KernelState.initial, fragmentTapPosition, farSamplers, Vec4.xyz] at h

/-- Witness of C3 (amended): on the near sample tap 0 hits at depth 31187/2400. -/
theorem resolve_nearest_hit_witness :
    (∃ t ∈ Taps, fragmentTapHits Rat.sqrt nearSamplers sampleUniforms sampleVertexPosition t
      ∧ fragmentTapDepth Rat.sqrt nearSamplers sampleUniforms sampleVertexPosition t
          ≤ InitialBestDepth)
    ∧ ∃ k ∈ Taps,
      resolve Rat.sqrt nearSamplers sampleUniforms sampleVertexPosition
        = fragmentTapRecord Rat.sqrt nearSamplers sampleUniforms sampleVertexPosition k :=
  have h : ∃ t ∈ Taps,
      fragmentTapHits Rat.sqrt nearSamplers sampleUniforms sampleVertexPosition t
      ∧ fragmentTapDepth Rat.sqrt nearSamplers sampleUniforms sampleVertexPosition t
          ≤ InitialBestDepth := by
    refine ⟨0, zero_mem_Taps, ?_, ?_⟩
    · show tapHits _ _ _ _ _ _
      unfold tapHits
      rw [near_IntersectionDepths]
      norm_num
    · show (IntersectionDepths _ _ _ _ _ _).x ≤ _
      rw [near_IntersectionDepths]
      norm_num [InitialBestDepth]
  ⟨h, (resolve_nearest_hit Rat.sqrt nearSamplers sampleUniforms sampleVertexPosition h).elim
    fun k hk => ⟨k, hk.1, hk.2.2.1⟩⟩

/-- C6, counterexample. Every tap samples the clear value (0.9, 0.9, 0.9) of
the splat pass, and the ray of the fragment passes through that point: the
kernel does not skip the taps, the loop ends with the position
(0.9, 0.9, 0.9) and a best depth below the initial one. -/
theorem resolve_sentinel_counterexample :
    (∀ t ∈ Taps, fragmentTapPosition clearSamplers sentinelUniforms sampleVertexPosition t
        = ⟨9 / 10, 9 / 10, 9 / 10⟩)
    ∧ (resolve Rat.sqrt clearSamplers sentinelUniforms sampleVertexPosition).OutputPosition
        = ⟨9 / 10, 9 / 10, 9 / 10⟩
    ∧ (resolve Rat.sqrt clearSamplers sentinelUniforms sampleVertexPosition).BestDepth
        < InitialBestDepth := by
  have h : ∃ t ∈ Taps,
      tapHits clearSamplers sentinelUniforms (EyePosition sentinelUniforms)
        (EyeVector Rat.sqrt sentinelUniforms sampleVertexPosition)
        (DataCoordinate sampleVertexPosition) t
      ∧ (IntersectionDepths clearSamplers sentinelUniforms (EyePosition sentinelUniforms)
          (EyeVector Rat.sqrt sentinelUniforms sampleVertexPosition)
          (DataCoordinate sampleVertexPosition) t).x ≤ (KernelState.initial (F := ℚ)).BestDepth := by
    refine ⟨0, zero_mem_Taps, ?_, ?_⟩
    · unfold tapHits
      rw [clear_IntersectionDepths]
      norm_num
    · rw [clear_IntersectionDepths]
      norm_num [KernelState.initial, InitialBestDepth]
  obtain ⟨k, _, _, hrec⟩ := foldl_tapStep_of_candidate _ _ _ _ _ Taps KernelState.initial h
  have hres : resolve Rat.sqrt clearSamplers sentinelUniforms sampleVertexPosition
      = tapRecord clearSamplers sentinelUniforms (EyePosition sentinelUniforms)
          (EyeVector Rat.sqrt sentinelUniforms sampleVertexPosition)
          (DataCoordinate sampleVertexPosition) k := hrec
  refine ⟨fun t _ => rfl, ?_, ?_⟩
  · rw [hres]
    rfl
  · rw [hres]
    show (IntersectionDepths _ _ _ _ _ _).x < _
    rw [clear_IntersectionDepths]
    norm_num [InitialBestDepth]

/-- C6, amended. The kernel has no test for the empty sentinel: a tap whose
sampled position is (0.9, 0.9, 0.9) or (0, 0, 0) goes through the ray-box test
like any other tap.  For a ray with three nonzero direction components and
`VoxelSize ≥ 0` such a tap reports a hit exactly when the ray's line meets the
cube of half-size `VoxelSize` around the sentinel; a tap that reports no hit
leaves the loop variables unchanged, and a tap that reports a hit no farther
than the best depth so far is selected. -/
theorem sentinel_tap_is_tested {F : Type} [LinearOrderedField F] (sqrt : F → F)
    (S : Samplers F) (U : Uniforms F) (VertexPosition : Vec3 F) (t : Int)
    (hdx : (EyeVector sqrt U VertexPosition).x ≠ 0)
    (hdy : (EyeVector sqrt U VertexPosition).y ≠ 0)
    (hdz : (EyeVector sqrt U VertexPosition).z ≠ 0)
    (hV : 0 ≤ U.VoxelSize) :
    (fragmentTapPosition S U VertexPosition t = ⟨9 / 10, 9 / 10, 9 / 10⟩ →
        (fragmentTapHits sqrt S U VertexPosition t ↔
          ∃ τ, InBox (rayPoint (EyePosition U) (EyeVector sqrt U VertexPosition) τ)
            (Vec3.subScalar ⟨9 / 10, 9 / 10, 9 / 10⟩ U.VoxelSize)
            (Vec3.addScalar ⟨9 / 10, 9 / 10, 9 / 10⟩ U.VoxelSize)))
    ∧ (fragmentTapPosition S U VertexPosition t = ⟨0, 0, 0⟩ →
        (fragmentTapHits sqrt S U VertexPosition t ↔
          ∃ τ, InBox (rayPoint (EyePosition U) (EyeVector sqrt U VertexPosition) τ)
            (Vec3.subScalar ⟨0, 0, 0⟩ U.VoxelSize) (Vec3.addScalar ⟨0, 0, 0⟩ U.VoxelSize)))
    ∧ (¬ fragmentTapHits sqrt S U VertexPosition t →
        ∀ s, tapStep S U (EyePosition U) (EyeVector sqrt U VertexPosition)
          (DataCoordinate VertexPosition) s t = s)
    ∧ (fragmentTapHits sqrt S U VertexPosition t →
        ∀ s, fragmentTapDepth sqrt S U VertexPosition t ≤ s.BestDepth →
          tapStep S U (EyePosition U) (EyeVector sqrt U VertexPosition)
            (DataCoordinate VertexPosition) s t
          = fragmentTapRecord sqrt S U VertexPosition t) := by
  have key : fragmentTapHits sqrt S U VertexPosition t ↔
      ∃ τ, InBox (rayPoint (EyePosition U) (EyeVector sqrt U VertexPosition) τ)
        ((fragmentTapPosition S U VertexPosition t).subScalar U.VoxelSize)
        ((fragmentTapPosition S U VertexPosition t).addScalar U.VoxelSize) := by
    show (RayBoxIntersect _ _ _ _).x ≤ (RayBoxIntersect _ _ _ _).y ↔ _
    refine RayBoxIntersect_hit_iff _ _ _ _ hdx hdy hdz ?_ ?_ ?_ <;>
      simp only [Vec3.subScalar, Vec3.addScalar] <;> linarith
  refine ⟨?_, ?_, ?_, ?_⟩
  · intro hp
    rw [hp] at key
    exact key
  · intro hp
    rw [hp] at key
    exact key
  · intro h s
    exact tapStep_of_not_hit _ _ _ _ _ s t h
  · intro h s hd
    exact tapStep_of_hit _ _ _ _ _ s t h hd

/-- Witness of C6 (amended): tap 0 of the fragment whose ray passes through the
clear value (0.9, 0.9, 0.9). -/
theorem sentinel_tap_is_tested_witness :
    fragmentTapPosition clearSamplers sentinelUniforms sampleVertexPosition 0
        = ⟨9 / 10, 9 / 10, 9 / 10⟩
    ∧ (fragmentTapHits Rat.sqrt clearSamplers sentinelUniforms sampleVertexPosition 0 ↔
        ∃ τ, InBox (rayPoint (EyePosition sentinelUniforms)
            (EyeVector Rat.sqrt sentinelUniforms sampleVertexPosition) τ)
          (Vec3.subScalar ⟨9 / 10, 9 / 10, 9 / 10⟩ sentinelUniforms.VoxelSize)
          (Vec3.addScalar ⟨9 / 10, 9 / 10, 9 / 10⟩ sentinelUniforms.VoxelSize)) :=
  ⟨rfl, (sentinel_tap_is_tested Rat.sqrt clearSamplers sentinelUniforms sampleVertexPosition 0
    (by rw [sentinel_EyeVector]; norm_num) (by rw [sentinel_EyeVector]; norm_num)
    (by rw [sentinel_EyeVector]; norm_num) (by norm_num [sentinelUniforms])).1 rfl⟩

/-! ### What a spread pass writes -/

theorem main_of_not_last {F : Type} [LinearOrderedField F] [FloorRing F] (sqrt sin : F → F)
    (S : Samplers F) (U : Uniforms F) (VertexPosition : Vec3 F) (hLast : U.LastRender = false) :
    main sqrt sin S U VertexPosition
      = { FragmentPosition := Vec4.ofVec3 (resolve sqrt S U VertexPosition).OutputPosition 0
          FramgmentNormal := some (Vec4.ofVec3 (resolve sqrt S U VertexPosition).OutputNormal 0)
          FramgmentColour := some (Vec4.ofVec3 (resolve sqrt S U VertexPosition).OutputColour 0) } := by
  simp [main, hLast]

/-- C7, counterexample. In a spread pass (`LastRender = false`) whose 33 taps
all sample the voxel at (6000000, 8000000, 23999999) and all report a hit, the
kernel writes the position (0, 0, 0, 0), not the position of a tap. -/
theorem main_far_hit_counterexample :
    sampleUniforms.LastRender = false
    ∧ (∀ t ∈ Taps, fragmentTapHits Rat.sqrt farSamplers sampleUniforms sampleVertexPosition t)
    ∧ (∀ t ∈ Taps, fragmentTapPosition farSamplers sampleUniforms sampleVertexPosition t
        = ⟨6000000, 8000000, 23999999⟩)
    ∧ (main Rat.sqrt (fun _ => 0) farSamplers sampleUniforms sampleVertexPosition).FragmentPosition
        = ⟨0, 0, 0, 0⟩ := by
  refine ⟨rfl, ?_, fun t _ => rfl, ?_⟩
  · intro t _
    show tapHits _ _ _ _ _ _
    unfold tapHits
    rw [far_IntersectionDepths]
    norm_num
  · rw [main_of_not_last _ _ _ _ _ rfl, far_resolve]
    rfl

/-- C7, amended. In a spread pass (`LastRender = false`): if none of the 33 taps
satisfies `entry <= exit`, or if every tap that does has an entry depth above
9999999, the kernel writes position, normal and colour (0, 0, 0), each with
fourth component 0; if some tap satisfies `entry <= exit` with an entry depth of
at most 9999999, it writes the position, normal and colour of a hitting tap of
smallest entry depth, each with fourth component 0. -/
theorem main_spread_pass {F : Type} [LinearOrderedField F] [FloorRing F] (sqrt sin : F → F)
    (S : Samplers F) (U : Uniforms F) (VertexPosition : Vec3 F) (hLast : U.LastRender = false) :
    ((∀ t ∈ Taps, ¬ fragmentTapHits sqrt S U VertexPosition t) →
        main sqrt sin S U VertexPosition
          = ⟨⟨0, 0, 0, 0⟩, some ⟨0, 0, 0, 0⟩, some ⟨0, 0, 0, 0⟩⟩)
    ∧ ((∀ t ∈ Taps, fragmentTapHits sqrt S U VertexPosition t →
          InitialBestDepth < fragmentTapDepth sqrt S U VertexPosition t) →
        main sqrt sin S U VertexPosition
          = ⟨⟨0, 0, 0, 0⟩, some ⟨0, 0, 0, 0⟩, some ⟨0, 0, 0, 0⟩⟩)
    ∧ ((∃ t ∈ Taps, fragmentTapHits sqrt S U VertexPosition t
          ∧ fragmentTapDepth sqrt S U VertexPosition t ≤ InitialBestDepth) →
        ∃ k ∈ Taps, fragmentTapHits sqrt S U VertexPosition k
          ∧ (∀ j ∈ Taps, fragmentTapHits sqrt S U VertexPosition j →
              fragmentTapDepth sqrt S U VertexPosition k
                ≤ fragmentTapDepth sqrt S U VertexPosition j)
          ∧ main sqrt sin S U VertexPosition
              = ⟨Vec4.ofVec3 (fragmentTapRecord sqrt S U VertexPosition k).OutputPosition 0,
                 some (Vec4.ofVec3 (fragmentTapRecord sqrt S U VertexPosition k).OutputNormal 0),
                 some (Vec4.ofVec3 (fragmentTapRecord sqrt S U VertexPosition k).OutputColour 0)⟩) := by
  have hfar : (∀ t ∈ Taps, fragmentTapHits sqrt S U VertexPosition t →
      InitialBestDepth < fragmentTapDepth sqrt S U VertexPosition t) →
      main sqrt sin S U VertexPosition
        = ⟨⟨0, 0, 0, 0⟩, some ⟨0, 0, 0, 0⟩, some ⟨0, 0, 0, 0⟩⟩ := by
    intro h
    have hres : resolve sqrt S U VertexPosition = KernelState.initial := by
      unfold resolve tapLoop
      exact foldl_tapStep_of_no_candidate S U (EyePosition U) (EyeVector sqrt U VertexPosition)
        (DataCoordinate VertexPosition) Taps KernelState.initial h
    rw [main_of_not_last sqrt sin S U VertexPosition hLast, hres]
    simp [KernelState.initial, Vec4.ofVec3]
  refine ⟨fun h => hfar (fun t ht hhit => absurd hhit (h t ht)), hfar, ?_⟩
  intro h
  obtain ⟨k, hk, hhit, hres, hmin, _⟩ := resolve_nearest_hit sqrt S U VertexPosition h
  refine ⟨k, hk, hhit, hmin, ?_⟩
  rw [main_of_not_last sqrt sin S U VertexPosition hLast, hres]

/-- Witness of C7 (amended): the near sample in a spread pass. -/
theorem main_spread_pass_witness :
    sampleUniforms.LastRender = false
    ∧ (∃ t ∈ Taps, fragmentTapHits Rat.sqrt nearSamplers sampleUniforms sampleVertexPosition t
        ∧ fragmentTapDepth Rat.sqrt nearSamplers sampleUniforms sampleVertexPosition t
            ≤ InitialBestDepth)
    ∧ ∃ k ∈ Taps,
        main Rat.sqrt (fun _ => 0) nearSamplers sampleUniforms sampleVertexPosition
          = ⟨Vec4.ofVec3
               (fragmentTapRecord Rat.sqrt nearSamplers sampleUniforms sampleVertexPosition
                 k).OutputPosition 0,
             some (Vec4.ofVec3
               (fragmentTapRecord Rat.sqrt nearSamplers sampleUniforms sampleVertexPosition
                 k).OutputNormal 0),
             some (Vec4.ofVec3
               (fragmentTapRecord Rat.sqrt nearSamplers sampleUniforms sampleVertexPosition
                 k).OutputColour 0)⟩ :=
  have h : ∃ t ∈ Taps,
      fragmentTapHits Rat.sqrt nearSamplers sampleUniforms sampleVertexPosition t
      ∧ fragmentTapDepth Rat.sqrt nearSamplers sampleUniforms sampleVertexPosition t
          ≤ InitialBestDepth := by
    refine ⟨0, zero_mem_Taps, ?_, ?_⟩
    · show tapHits _ _ _ _ _ _
      unfold tapHits
      rw [near_IntersectionDepths]
      norm_num
    · show (IntersectionDepths _ _ _ _ _ _).x ≤ _
      rw [near_IntersectionDepths]
      norm_num [InitialBestDepth]
  ⟨rfl, h,
    ((main_spread_pass Rat.sqrt (fun _ => 0) nearSamplers sampleUniforms sampleVertexPosition
      rfl).2.2 h).elim fun k hk => ⟨k, hk.1, hk.2.2.2⟩⟩

/-! ### The kernel passes of a frame -/

theorem Taps_bounds : ∀ t ∈ Taps, -16 ≤ t ∧ t ≤ 16 := by decide

theorem clampToEdge_of_mem (i : Int) (size : Nat) (h0 : 0 ≤ i) (h1 : i < size) :
    clampToEdge i size = i := by
  unfold clampToEdge
  omega

theorem clampToEdge_mem (i : Int) (size : Nat) (h : 0 < size) :
    0 ≤ clampToEdge i size ∧ clampToEdge i size < size := by
  unfold clampToEdge
  omega

theorem clampToEdge_near (i t : Int) (size : Nat) (h0 : 0 ≤ i) (h1 : i < size) :
    |clampToEdge (i + t) size - i| ≤ |t| := by
  unfold clampToEdge
  rw [abs_le]
  have := abs_nonneg t
  rcases abs_cases t with ⟨h, _⟩ | ⟨h, _⟩ <;> omega

theorem texture_at_centre {F : Type} [LinearOrderedField F] [FloorRing F] (Width Height : Nat)
    (img : Image F) (c : Vec2 F) (i j : Int)
    (hu : c.x * (Width : F) - 1 / 2 = (i : F)) (hv : c.y * (Height : F) - 1 / 2 = (j : F)) :
    texture Width Height img c = img (clampToEdge i Width) (clampToEdge j Height) := by
  unfold texture
  simp only [hu, hv, Int.floor_intCast, sub_self]
  simp

theorem texture_tap_x {F : Type} [LinearOrderedField F] [FloorRing F] (r : Renderer F)
    (hW : 0 < r.ScreenWidth) (hH : 0 < r.ScreenHeight)
    (img : Image F) (U : Uniforms F) (hdir : U.EvaluationDirection = ⟨1, 0⟩)
    (hpix : U.PixelDimensions = pixelDimensions r) (i j : Int) (hj0 : 0 ≤ j)
    (hj1 : j < r.ScreenHeight) (t : Int) :
    texture r.ScreenWidth r.ScreenHeight img
        (TappedCoordinate U
          (DataCoordinate (FragmentVertexPosition r.ScreenWidth r.ScreenHeight i j)) t)
      = img (clampToEdge (i + t) r.ScreenWidth) j := by
  have hW' : (r.ScreenWidth : F) ≠ 0 := by exact_mod_cast hW.ne'
  have hH' : (r.ScreenHeight : F) ≠ 0 := by exact_mod_cast hH.ne'
  rw [texture_at_centre r.ScreenWidth r.ScreenHeight img _ (i + t) j,
    clampToEdge_of_mem j _ hj0 hj1]
  · simp only [TappedCoordinate, DataCoordinate, FragmentVertexPosition, hdir, hpix,
      pixelDimensions]
    field_simp
    ring
  · simp only [TappedCoordinate, DataCoordinate, FragmentVertexPosition, hdir, hpix,
      pixelDimensions]
    field_simp
    ring

theorem texture_tap_y {F : Type} [LinearOrderedField F] [FloorRing F] (r : Renderer F)
    (hW : 0 < r.ScreenWidth) (hH : 0 < r.ScreenHeight)
    (img : Image F) (U : Uniforms F) (hdir : U.EvaluationDirection = ⟨0, 1⟩)
    (hpix : U.PixelDimensions = pixelDimensions r) (i j : Int) (hi0 : 0 ≤ i)
    (hi1 : i < r.ScreenWidth) (t : Int) :
    texture r.ScreenWidth r.ScreenHeight img
        (TappedCoordinate U
          (DataCoordinate (FragmentVertexPosition r.ScreenWidth r.ScreenHeight i j)) t)
      = img i (clampToEdge (j + t) r.ScreenHeight) := by
  have hW' : (r.ScreenWidth : F) ≠ 0 := by exact_mod_cast hW.ne'
  have hH' : (r.ScreenHeight : F) ≠ 0 := by exact_mod_cast hH.ne'
  rw [texture_at_centre r.ScreenWidth r.ScreenHeight img _ i (j + t),
    clampToEdge_of_mem i _ hi0 hi1]
  · simp only [TappedCoordinate, DataCoordinate, FragmentVertexPosition, hdir, hpix,
      pixelDimensions]
    field_simp
    ring
  · simp only [TappedCoordinate, DataCoordinate, FragmentVertexPosition, hdir, hpix,
      pixelDimensions]
    field_simp
    ring

theorem Carried.trans {F : Type} [LinearOrderedField F] (r : Renderer F)
    (src mid : Int → Int → SampleData F)
    (nx ny mx my : Int) (i j : Int) (x : SampleData F)
    (h1 : ∀ i' j', inViewport r i' j' → Carried r src nx ny i' j' (mid i' j'))
    (h2 : Carried r mid mx my i j x) : Carried r src (nx + mx) (ny + my) i j x := by
  rcases h2 with h2 | ⟨i', j', hv, hi, hj, hx⟩
  · exact Or.inl h2
  · rcases h1 i' j' hv with h | ⟨i'', j'', hv', hi', hj', hm⟩
    · left; rw [hx, h]
    · right
      refine ⟨i'', j'', hv', ?_, ?_, by rw [hx, hm]⟩
      · have := abs_sub_le i'' i' i
        linarith
      · have := abs_sub_le j'' j' j
        linarith

theorem resolve_data_x {F : Type} [LinearOrderedField F] [FloorRing F] (sqrt : F → F)
    (r : Renderer F) (hW : 0 < r.ScreenWidth)
    (hH : 0 < r.ScreenHeight) (d : DrawCall F) (mem : TextureMemory F)
    (set : TextureName × TextureName × TextureName)
    (hdir : d.State.Uniforms.EvaluationDirection = ⟨1, 0⟩)
    (hpix : d.State.Uniforms.PixelDimensions = pixelDimensions r)
    (hset : d.sampled = (some set.1, some set.2.1, some set.2.2))
    (i j : Int) (hv : inViewport r i j) :
    Carried r (texelData mem set) 16 0 i j (fragmentResolve sqrt r d mem i j).data := by
  obtain ⟨hi0, hi1, hj0, hj1⟩ := hv
  have h0 : d.State.TextureUnits 0 = some set.1 := congrArg Prod.fst hset
  have h1 : d.State.TextureUnits 1 = some set.2.1 := congrArg (fun p => p.2.1) hset
  have h2 : d.State.TextureUnits 2 = some set.2.2 := congrArg (fun p => p.2.2) hset
  rcases (foldl_tapStep_spec (d.samplers r mem) d.State.Uniforms (EyePosition d.State.Uniforms)
    (EyeVector sqrt d.State.Uniforms (FragmentVertexPosition r.ScreenWidth r.ScreenHeight i j))
    (DataCoordinate (FragmentVertexPosition r.ScreenWidth r.ScreenHeight i j)) Taps
    KernelState.initial).2.2 with h | ⟨k, hk, _, _, h⟩
  · left
    unfold fragmentResolve resolve tapLoop
    rw [h]
    rfl
  · right
    have hb := Taps_bounds k hk
    refine ⟨clampToEdge (i + k) r.ScreenWidth, j,
      ⟨(clampToEdge_mem _ _ hW).1, (clampToEdge_mem _ _ hW).2, hj0, hj1⟩, ?_, by simp, ?_⟩
    · have := clampToEdge_near i k r.ScreenWidth hi0 hi1
      have hk16 : |k| ≤ 16 := abs_le.mpr hb
      linarith
    · unfold fragmentResolve resolve tapLoop
      rw [h]
      simp only [KernelState.data, tapRecord, DrawCall.samplers, h0, h1, h2, boundImage,
        texelData, texture_tap_x r hW hH _ _ hdir hpix i j hj0 hj1]

theorem resolve_data_y {F : Type} [LinearOrderedField F] [FloorRing F] (sqrt : F → F)
    (r : Renderer F) (hW : 0 < r.ScreenWidth)
    (hH : 0 < r.ScreenHeight) (d : DrawCall F) (mem : TextureMemory F)
    (set : TextureName × TextureName × TextureName)
    (hdir : d.State.Uniforms.EvaluationDirection = ⟨0, 1⟩)
    (hpix : d.State.Uniforms.PixelDimensions = pixelDimensions r)
    (hset : d.sampled = (some set.1, some set.2.1, some set.2.2))
    (i j : Int) (hv : inViewport r i j) :
    Carried r (texelData mem set) 0 16 i j (fragmentResolve sqrt r d mem i j).data := by
  obtain ⟨hi0, hi1, hj0, hj1⟩ := hv
  have h0 : d.State.TextureUnits 0 = some set.1 := congrArg Prod.fst hset
  have h1 : d.State.TextureUnits 1 = some set.2.1 := congrArg (fun p => p.2.1) hset
  have h2 : d.State.TextureUnits 2 = some set.2.2 := congrArg (fun p => p.2.2) hset
  rcases (foldl_tapStep_spec (d.samplers r mem) d.State.Uniforms (EyePosition d.State.Uniforms)
    (EyeVector sqrt d.State.Uniforms (FragmentVertexPosition r.ScreenWidth r.ScreenHeight i j))
    (DataCoordinate (FragmentVertexPosition r.ScreenWidth r.ScreenHeight i j)) Taps
    KernelState.initial).2.2 with h | ⟨k, hk, _, _, h⟩
  · left
    unfold fragmentResolve resolve tapLoop
    rw [h]
    rfl
  · right
    have hb := Taps_bounds k hk
    refine ⟨i, clampToEdge (j + k) r.ScreenHeight,
      ⟨hi0, hi1, (clampToEdge_mem _ _ hH).1, (clampToEdge_mem _ _ hH).2⟩, by simp, ?_, ?_⟩
    · have := clampToEdge_near j k r.ScreenHeight hj0 hj1
      have hk16 : |k| ≤ 16 := abs_le.mpr hb
      linarith
    · unfold fragmentResolve resolve tapLoop
      rw [h]
      simp only [KernelState.data, tapRecord, DrawCall.samplers, h0, h1, h2, boundImage,
        texelData, texture_tap_y r hW hH _ _ hdir hpix i j hi0 hi1]

/-- What a spread pass writes to the attachments of its framebuffer. -/
theorem execDraw_data {F : Type} [LinearOrderedField F] [FloorRing F] (sqrt sin : F → F)
    (r : Renderer F) (mem : TextureMemory F)
    (d : DrawCall F) (hp : d.State.CurrentProgram = Program.ShaderProgram2)
    (hm : d.Mode = PrimitiveMode.TRIANGLES) (hl : d.State.Uniforms.LastRender = false)
    (set : TextureName × TextureName × TextureName)
    (hfb : (d.State.DrawFramebuffer = FrameBuffer.FrameBuffer1
        ∧ set = (TextureName.TexturePosition1, TextureName.TextureNormal1,
            TextureName.TextureColour1))
      ∨ (d.State.DrawFramebuffer = FrameBuffer.FrameBuffer2
        ∧ set = (TextureName.TexturePosition2, TextureName.TextureNormal2,
            TextureName.TextureColour2)))
    (i j : Int) (hv : inViewport r i j) :
    texelData (execDraw sqrt sin r mem d) set i j = (fragmentResolve sqrt r d mem i j).data := by
  rcases hfb with ⟨hfb, rfl⟩ | ⟨hfb, rfl⟩ <;>
    simp [texelData, execDraw, hp, hm, hfb, ColourAttachments, hv, fragmentOutputs,
      main_of_not_last _ _ _ _ _ hl, KernelState.data, fragmentResolve, Vec4.ofVec3, Vec4.xyz]


/-- The data the composite pass resolves is the data of a miss or the data the
splat pass left at a pixel at most 32 columns and 32 rows away. -/
theorem compositeResolve_carried {F : Type} [LinearOrderedField F] [FloorRing F]
    (sqrt sin : F → F) (r : Renderer F)
    (hW : 0 < r.ScreenWidth) (hH : 0 < r.ScreenHeight) (State : GameState F) (s0 : GLState F)
    (MVP VPI : Matrix44 F) (afterSplat : TextureMemory F) (i j : Int) (hv : inViewport r i j) :
    ∃ res, compositeResolve sqrt sin r (drawCalls s0 (renderCommands r State MVP VPI))
        afterSplat i j = some res
      ∧ Carried r (texelData afterSplat (TextureName.TexturePosition1,
          TextureName.TextureNormal1, TextureName.TextureColour1)) 32 32 i j res.data := by
  obtain ⟨d0, d1, d2, d3, d4, hcalls, -, h1, h2, h3, h4⟩ :=
    drawCalls_renderCommands r State MVP VPI s0
  obtain ⟨h1m, h1p, h1f, h1s, h1u⟩ := h1
  obtain ⟨h2m, h2p, h2f, h2s, h2u⟩ := h2
  obtain ⟨h3m, h3p, h3f, h3s, h3u⟩ := h3
  obtain ⟨h4m, h4p, h4f, h4s, h4u⟩ := h4
  have dirs := spreadDirection_values (F := F)
  rw [hcalls]
  simp only [compositeResolve, runKernelPasses, List.drop_succ_cons, List.drop_zero,
    List.foldl_cons, List.foldl_nil, List.getLast?_cons_cons, List.getLast?_singleton,
    Option.map_some']
  refine ⟨_, rfl, ?_⟩
  have e4 : execDraw sqrt sin r (execDraw sqrt sin r (execDraw sqrt sin r
      (execDraw sqrt sin r afterSplat d1) d2) d3) d4
      = execDraw sqrt sin r (execDraw sqrt sin r (execDraw sqrt sin r afterSplat d1) d2) d3 := by
    simp [execDraw, h4f, ColourAttachments]
  rw [e4]
  have c4 := resolve_data_y sqrt r hW hH d4
    (execDraw sqrt sin r (execDraw sqrt sin r (execDraw sqrt sin r afterSplat d1) d2) d3)
    (TextureName.TexturePosition2, TextureName.TextureNormal2, TextureName.TextureColour2)
    (by rw [h4u]) (by rw [h4u]) h4s i j hv
  have c3 : ∀ i' j', inViewport r i' j' →
      Carried r (texelData (execDraw sqrt sin r (execDraw sqrt sin r afterSplat d1) d2)
        (TextureName.TexturePosition1, TextureName.TextureNormal1, TextureName.TextureColour1))
        16 0 i' j'
        (texelData (execDraw sqrt sin r (execDraw sqrt sin r (execDraw sqrt sin r afterSplat d1)
          d2) d3)
          (TextureName.TexturePosition2, TextureName.TextureNormal2, TextureName.TextureColour2)
          i' j') := by
    intro i' j' hv'
    rw [execDraw_data sqrt sin r _ d3 h3p h3m (by rw [h3u]) _ (Or.inr ⟨h3f, rfl⟩) i' j' hv']
    exact resolve_data_x sqrt r hW hH d3 _ _ (by rw [h3u, dirs.2.2]) (by rw [h3u]) h3s i' j' hv'
  have c2 : ∀ i' j', inViewport r i' j' →
      Carried r (texelData (execDraw sqrt sin r afterSplat d1)
        (TextureName.TexturePosition2, TextureName.TextureNormal2, TextureName.TextureColour2))
        0 16 i' j'
        (texelData (execDraw sqrt sin r (execDraw sqrt sin r afterSplat d1) d2)
          (TextureName.TexturePosition1, TextureName.TextureNormal1, TextureName.TextureColour1)
          i' j') := by
    intro i' j' hv'
    rw [execDraw_data sqrt sin r _ d2 h2p h2m (by rw [h2u]) _ (Or.inl ⟨h2f, rfl⟩) i' j' hv']
    exact resolve_data_y sqrt r hW hH d2 _ _ (by rw [h2u, dirs.2.1]) (by rw [h2u]) h2s i' j' hv'
  have c1 : ∀ i' j', inViewport r i' j' →
      Carried r (texelData afterSplat
        (TextureName.TexturePosition1, TextureName.TextureNormal1, TextureName.TextureColour1))
        16 0 i' j'
        (texelData (execDraw sqrt sin r afterSplat d1)
          (TextureName.TexturePosition2, TextureName.TextureNormal2, TextureName.TextureColour2)
          i' j') := by
    intro i' j' hv'
    rw [execDraw_data sqrt sin r _ d1 h1p h1m (by rw [h1u]) _ (Or.inr ⟨h1f, rfl⟩) i' j' hv']
    exact resolve_data_x sqrt r hW hH d1 _ _ (by rw [h1u, dirs.1]) (by rw [h1u]) h1s i' j' hv'
  have s12 := fun i' j' hv' => Carried.trans r _ _ 16 0 0 16 i' j' _ c1 (c2 i' j' hv')
  have s123 := fun i' j' hv' => Carried.trans r _ _ (16 + 0) (0 + 16) 16 0 i' j' _ s12 (c3 i' j' hv')
  have s1234 := Carried.trans r _ _ (16 + 0 + 16) (0 + 16 + 0) 0 16 i j _ s123 c4
  exact s1234

/-! ### Unprojection with the inverse matrix -/

theorem Matrix44.Invert_eq_some {F : Type} [Field F] [DecidableEq F] (M R : Matrix44 F)
    (h : Matrix44.Invert M = some R) :
    M.Determinant ≠ 0 ∧ R = ⟨fun i j => M.InvertResult.Data i j * (1 / M.Determinant)⟩ := by
  unfold Matrix44.Invert at h
  by_cases hD : M.Determinant = 0
  · simp [hD] at h
  · simp only [hD, if_false] at h
    exact ⟨hD, (Option.some.inj h).symm⟩

theorem Matrix44.Invert_mul_data {F : Type} [Field F] [DecidableEq F] (M R : Matrix44 F)
    (h : Matrix44.Invert M = some R) (i j : Fin 4) :
    (R.mul M).Data i j = (Matrix44.Identity (F := F)).Data i j := by
  obtain ⟨hD, rfl⟩ := Matrix44.Invert_eq_some M R h
  have h := Matrix44.InvertResult_mul M i j
  rw [Matrix44.mul_data] at h ⊢
  simp only []
  field_simp
  linear_combination h

theorem Matrix44.mulVec4_mul {F : Type} [Field F] (A B : Matrix44 F) (x : Vec4 F) :
    (A.mul B).mulVec4 x = A.mulVec4 (B.mulVec4 x) := by
  simp only [Matrix44.mulVec4, Matrix44.mul_data, Vec4.mk.injEq]
  refine ⟨?_, ?_, ?_, ?_⟩ <;> ring

theorem Matrix44.Invert_mulVec4 {F : Type} [Field F] [DecidableEq F] (M R : Matrix44 F)
    (h : Matrix44.Invert M = some R) (x : Vec4 F) : R.mulVec4 (M.mulVec4 x) = x := by
  rw [← Matrix44.mulVec4_mul]
  simp only [Matrix44.mulVec4, Matrix44.Invert_mul_data M R h, Matrix44.Identity,
    Matrix44.ofValues_00, Matrix44.ofValues_01, Matrix44.ofValues_02, Matrix44.ofValues_03,
    Matrix44.ofValues_10, Matrix44.ofValues_11, Matrix44.ofValues_12, Matrix44.ofValues_13,
    Matrix44.ofValues_20, Matrix44.ofValues_21, Matrix44.ofValues_22, Matrix44.ofValues_23,
    Matrix44.ofValues_30, Matrix44.ofValues_31, Matrix44.ofValues_32, Matrix44.ofValues_33]
  cases x
  simp

/-- Unprojection: if the matrix sends the point `p` to `c` times the vector `v`,
the inverse applied to `v`, divided by its fourth component, is `p`. -/
theorem Matrix44.unproject {F : Type} [LinearOrderedField F] (M R : Matrix44 F)
    (h : Matrix44.Invert M = some R) (p : Vec3 F) (v : Vec4 F) (c : F) (hc : c ≠ 0)
    (hM : M.mulVec4 ⟨p.x, p.y, p.z, 1⟩ = ⟨c * v.x, c * v.y, c * v.z, c * v.w⟩) :
    (R.mulVec4 v).xyz.divScalar (R.mulVec4 v).w = p := by
  have h1 := Matrix44.Invert_mulVec4 M R h ⟨p.x, p.y, p.z, 1⟩
  rw [hM] at h1
  simp only [Matrix44.mulVec4, Vec4.mk.injEq] at h1
  obtain ⟨hx, hy, hz, hw⟩ := h1
  have hw' : (R.mulVec4 v).w = 1 / c := by
    simp only [Matrix44.mulVec4]
    field_simp
    linear_combination hw
  have hx' : (R.mulVec4 v).x = p.x / c := by
    simp only [Matrix44.mulVec4]
    field_simp
    linear_combination hx
  have hy' : (R.mulVec4 v).y = p.y / c := by
    simp only [Matrix44.mulVec4]
    field_simp
    linear_combination hy
  have hz' : (R.mulVec4 v).z = p.z / c := by
    simp only [Matrix44.mulVec4]
    field_simp
    linear_combination hz
  cases p
  simp only [Vec3.divScalar, Vec4.xyz, hw', hx', hy', hz', Vec3.mk.injEq]
  refine ⟨?_, ?_, ?_⟩ <;> field_simp

/-! ### A voxel out of reach of the four kernel passes -/

theorem tan_reach_pos : 0 < Real.tan (45 * Real.pi / 360) := by
  apply Real.tan_pos_of_pos_of_lt_pi_div_two
  · positivity
  · have := Real.pi_pos
    linarith

theorem reach_View :
    Matrix44.View Real.sqrt (reachState (F := ℝ)).CameraPosition reachState.CameraTarget ⟨0, 1, 0⟩
      = some (Matrix44.ofValues 1 0 0 (-(343 / 10000)) 0 1 0 (-(99 / 10000))
          0 0 1 (-(205 / 10000)) 0 0 0 1) := by
  simp [Matrix44.View, Vector3.Normalise, Vector3.sub, Vector3.Cross, reachState]
  norm_num


theorem reach_Determinant :
    (reachViewProjection Real.tan Real.pi).Determinant ≠ 0 := by
  have ht := tan_reach_pos
  simp only [Matrix44.Determinant, Matrix44.InvertResult, reachViewProjection,
    Matrix44.mul_data, reachRenderer, Matrix44.Perspective, Matrix44.Frustum,
    Matrix44.ofValues_00, Matrix44.ofValues_01, Matrix44.ofValues_02, Matrix44.ofValues_03,
    Matrix44.ofValues_10, Matrix44.ofValues_11, Matrix44.ofValues_12, Matrix44.ofValues_13,
    Matrix44.ofValues_20, Matrix44.ofValues_21, Matrix44.ofValues_22, Matrix44.ofValues_23,
    Matrix44.ofValues_30, Matrix44.ofValues_31, Matrix44.ofValues_32, Matrix44.ofValues_33]
  set t := Real.tan (45 * Real.pi / 360) with htdef
  have ht0 : t ≠ 0 := ht.ne'
  field_simp
  ring_nf
  intro h
  have h0 : t = 0 := by linarith
  exact ht0 h0


theorem reach_mulVec4_eye :
    (reachViewProjection Real.tan Real.pi).mulVec4 ⟨343 / 10000, 99 / 10000, 105 / 10000, 1⟩
      = ⟨1 / 100 * 0, 1 / 100 * 0, 1 / 100 * (-1), 1 / 100 * 1⟩ := by
  have ht := tan_reach_pos
  simp only [Matrix44.mulVec4, reachViewProjection,
    Matrix44.mul_data, reachRenderer, Matrix44.Perspective, Matrix44.Frustum,
    Matrix44.ofValues_00, Matrix44.ofValues_01, Matrix44.ofValues_02, Matrix44.ofValues_03,
    Matrix44.ofValues_10, Matrix44.ofValues_11, Matrix44.ofValues_12, Matrix44.ofValues_13,
    Matrix44.ofValues_20, Matrix44.ofValues_21, Matrix44.ofValues_22, Matrix44.ofValues_23,
    Matrix44.ofValues_30, Matrix44.ofValues_31, Matrix44.ofValues_32, Matrix44.ofValues_33,
    Vec4.mk.injEq]
  set t := Real.tan (45 * Real.pi / 360) with htdef
  have ht0 : t ≠ 0 := ht.ne'
  refine ⟨?_, ?_, ?_, ?_⟩ <;> field_simp <;> ring

theorem reach_Render :
    Render Real.sqrt (reachRenderer Real.tan Real.pi) reachState
      = (Matrix44.Invert (reachViewProjection Real.tan Real.pi)).bind fun VPI =>
          some (renderCommands (reachRenderer Real.tan Real.pi) reachState
            ((reachViewProjection Real.tan Real.pi).mul (reachRenderer Real.tan Real.pi).Model)
            VPI) := by
  unfold Render
  rw [reach_View]
  rfl


theorem clampToEdge_ge (i c : Int) (size : Nat) (h0 : c ≤ i) (h1 : c < size) :
    c ≤ clampToEdge i size := by
  unfold clampToEdge
  omega

/-- A kernel pass over taps that all hold sentinels the ray misses resolves nothing. -/
theorem fragmentResolve_of_sentinels {F : Type} [LinearOrderedField F] [FloorRing F]
    (sqrt : F → F) (r : Renderer F) (d : DrawCall F) (mem : TextureMemory F) (i j : Int)
    (hs : ∀ t ∈ Taps, IsSentinel (fragmentTapPosition (d.samplers r mem) d.State.Uniforms
      (FragmentVertexPosition r.ScreenWidth r.ScreenHeight i j) t))
    (hmiss : ∀ p, IsSentinel p → fragmentRayMisses sqrt r d.State.Uniforms i j p) :
    fragmentResolve sqrt r d mem i j = KernelState.initial := by
  unfold fragmentResolve resolve tapLoop
  apply foldl_tapStep_of_no_candidate
  intro t ht hhit
  exact absurd hhit (hmiss _ (hs t ht))


theorem pass_miss_x {F : Type} [LinearOrderedField F] [FloorRing F] (sqrt : F → F)
    (r : Renderer F) (hW : 0 < r.ScreenWidth) (hH : 0 < r.ScreenHeight) (d : DrawCall F)
    (mem : TextureMemory F) (set : TextureName × TextureName × TextureName)
    (hdir : d.State.Uniforms.EvaluationDirection = ⟨1, 0⟩)
    (hpix : d.State.Uniforms.PixelDimensions = pixelDimensions r)
    (hset : d.sampled = (some set.1, some set.2.1, some set.2.2))
    (c : Int)
    (hsrc : ∀ i j, inViewport r i j → c ≤ i → IsSentinel (mem set.1 i j).xyz)
    (hmiss : ∀ i j, inViewport r i j → ∀ p, IsSentinel p →
      fragmentRayMisses sqrt r d.State.Uniforms i j p)
    (i j : Int) (hv : inViewport r i j) (hi : c + 16 ≤ i) :
    fragmentResolve sqrt r d mem i j = KernelState.initial := by
  have h0 : d.State.TextureUnits 0 = some set.1 := congrArg Prod.fst hset
  apply fragmentResolve_of_sentinels sqrt r d mem i j _ (hmiss i j hv)
  intro t ht
  have hb := Taps_bounds t ht
  obtain ⟨hi0, hi1, hj0, hj1⟩ := hv
  simp only [fragmentTapPosition, DrawCall.samplers, h0, boundImage,
    texture_tap_x r hW hH _ _ hdir hpix i j hj0 hj1]
  refine hsrc _ _ ⟨(clampToEdge_mem _ _ hW).1, (clampToEdge_mem _ _ hW).2, hj0, hj1⟩ ?_
  exact clampToEdge_ge _ _ _ (by omega) (by omega)

theorem pass_miss_y {F : Type} [LinearOrderedField F] [FloorRing F] (sqrt : F → F)
    (r : Renderer F) (hW : 0 < r.ScreenWidth) (hH : 0 < r.ScreenHeight) (d : DrawCall F)
    (mem : TextureMemory F) (set : TextureName × TextureName × TextureName)
    (hdir : d.State.Uniforms.EvaluationDirection = ⟨0, 1⟩)
    (hpix : d.State.Uniforms.PixelDimensions = pixelDimensions r)
    (hset : d.sampled = (some set.1, some set.2.1, some set.2.2))
    (c : Int)
    (hsrc : ∀ i j, inViewport r i j → c ≤ i → IsSentinel (mem set.1 i j).xyz)
    (hmiss : ∀ i j, inViewport r i j → ∀ p, IsSentinel p →
      fragmentRayMisses sqrt r d.State.Uniforms i j p)
    (i j : Int) (hv : inViewport r i j) (hi : c ≤ i) :
    fragmentResolve sqrt r d mem i j = KernelState.initial := by
  have h0 : d.State.TextureUnits 0 = some set.1 := congrArg Prod.fst hset
  apply fragmentResolve_of_sentinels sqrt r d mem i j _ (hmiss i j hv)
  intro t _
  obtain ⟨hi0, hi1, hj0, hj1⟩ := hv
  simp only [fragmentTapPosition, DrawCall.samplers, h0, boundImage,
    texture_tap_y r hW hH _ _ hdir hpix i j hi0 hi1]
  exact hsrc _ _ ⟨hi0, hi1, (clampToEdge_mem _ _ hH).1, (clampToEdge_mem _ _ hH).2⟩ hi

theorem sentinel_of_data {F : Type} [LinearOrderedField F] (mem : TextureMemory F)
    (set : TextureName × TextureName × TextureName) (i j : Int)
    (h : texelData mem set i j = (KernelState.initial (F := F)).data) :
    IsSentinel (mem set.1 i j).xyz := by
  right
  exact congrArg Prod.fst h

/-- If the position texture the splat pass leaves holds only sentinels from
column `c` on, and the rays of all fragments miss the two sentinel cubes, the
composite pass resolves nothing from column `c + 32` on. -/
theorem compositeResolve_miss {F : Type} [LinearOrderedField F] [FloorRing F]
    (sqrt sin : F → F) (r : Renderer F)
    (hW : 0 < r.ScreenWidth) (hH : 0 < r.ScreenHeight) (State : GameState F) (s0 : GLState F)
    (MVP VPI : Matrix44 F) (afterSplat : TextureMemory F) (c : Int)
    (hsrc : ∀ i j, inViewport r i j → c ≤ i →
      IsSentinel (afterSplat TextureName.TexturePosition1 i j).xyz)
    (hmiss : ∀ i j, inViewport r i j → ∀ p, IsSentinel p →
      fragmentRayMisses sqrt r ⟨VPI, ⟨0, 1⟩, (1 / 2) / r.Subdivisions, pixelDimensions r, true,
        sceneOffset State⟩ i j p)
    (i j : Int) (hv : inViewport r i j) (hi : c + 32 ≤ i) :
    compositeResolve sqrt sin r (drawCalls s0 (renderCommands r State MVP VPI))
        afterSplat i j = some KernelState.initial := by
  obtain ⟨d0, d1, d2, d3, d4, hcalls, -, h1, h2, h3, h4⟩ :=
    drawCalls_renderCommands r State MVP VPI s0
  obtain ⟨h1m, h1p, h1f, h1s, h1u⟩ := h1
  obtain ⟨h2m, h2p, h2f, h2s, h2u⟩ := h2
  obtain ⟨h3m, h3p, h3f, h3s, h3u⟩ := h3
  obtain ⟨h4m, h4p, h4f, h4s, h4u⟩ := h4
  have dirs := spreadDirection_values (F := F)
  have m1 : ∀ i j, inViewport r i j → ∀ p, IsSentinel p →
      fragmentRayMisses sqrt r d1.State.Uniforms i j p := by
    rw [h1u]; exact hmiss
  have m2 : ∀ i j, inViewport r i j → ∀ p, IsSentinel p →
      fragmentRayMisses sqrt r d2.State.Uniforms i j p := by
    rw [h2u]; exact hmiss
  have m3 : ∀ i j, inViewport r i j → ∀ p, IsSentinel p →
      fragmentRayMisses sqrt r d3.State.Uniforms i j p := by
    rw [h3u]; exact hmiss
  have m4 : ∀ i j, inViewport r i j → ∀ p, IsSentinel p →
      fragmentRayMisses sqrt r d4.State.Uniforms i j p := by
    rw [h4u]; exact hmiss
  rw [hcalls]
  simp only [compositeResolve, runKernelPasses, List.drop_succ_cons, List.drop_zero,
    List.foldl_cons, List.foldl_nil, List.getLast?_cons_cons, List.getLast?_singleton,
    Option.map_some']
  have e4 : execDraw sqrt sin r (execDraw sqrt sin r (execDraw sqrt sin r
      (execDraw sqrt sin r afterSplat d1) d2) d3) d4
      = execDraw sqrt sin r (execDraw sqrt sin r (execDraw sqrt sin r afterSplat d1) d2) d3 := by
    simp [execDraw, h4f, ColourAttachments]
  rw [e4]
  have s1 : ∀ i j, inViewport r i j → c + 16 ≤ i →
      IsSentinel ((execDraw sqrt sin r afterSplat d1) TextureName.TexturePosition2 i j).xyz := by
    intro i' j' hv' hi'
    apply sentinel_of_data _ (TextureName.TexturePosition2, TextureName.TextureNormal2,
      TextureName.TextureColour2)
    rw [execDraw_data sqrt sin r _ d1 h1p h1m (by rw [h1u]) _ (Or.inr ⟨h1f, rfl⟩) i' j' hv']
    rw [pass_miss_x sqrt r hW hH d1 afterSplat (TextureName.TexturePosition1,
      TextureName.TextureNormal1, TextureName.TextureColour1) (by rw [h1u, dirs.1])
      (by rw [h1u]) h1s c hsrc m1 i' j' hv' hi']
  have s2 : ∀ i j, inViewport r i j → c + 16 ≤ i →
      IsSentinel ((execDraw sqrt sin r (execDraw sqrt sin r afterSplat d1) d2)
        TextureName.TexturePosition1 i j).xyz := by
    intro i' j' hv' hi'
    apply sentinel_of_data _ (TextureName.TexturePosition1, TextureName.TextureNormal1,
      TextureName.TextureColour1)
    rw [execDraw_data sqrt sin r _ d2 h2p h2m (by rw [h2u]) _ (Or.inl ⟨h2f, rfl⟩) i' j' hv']
    rw [pass_miss_y sqrt r hW hH d2 _ (TextureName.TexturePosition2,
      TextureName.TextureNormal2, TextureName.TextureColour2) (by rw [h2u, dirs.2.1])
      (by rw [h2u]) h2s (c + 16) s1 m2 i' j' hv' hi']
  have s3 : ∀ i j, inViewport r i j → c + 16 + 16 ≤ i →
      IsSentinel ((execDraw sqrt sin r (execDraw sqrt sin r (execDraw sqrt sin r afterSplat d1)
        d2) d3) TextureName.TexturePosition2 i j).xyz := by
    intro i' j' hv' hi'
    apply sentinel_of_data _ (TextureName.TexturePosition2, TextureName.TextureNormal2,
      TextureName.TextureColour2)
    rw [execDraw_data sqrt sin r _ d3 h3p h3m (by rw [h3u]) _ (Or.inr ⟨h3f, rfl⟩) i' j' hv']
    rw [pass_miss_x sqrt r hW hH d3 _ (TextureName.TexturePosition1,
      TextureName.TextureNormal1, TextureName.TextureColour1) (by rw [h3u, dirs.2.2])
      (by rw [h3u]) h3s (c + 16) s2 m3 i' j' hv' hi']
  rw [pass_miss_y sqrt r hW hH d4 _ (TextureName.TexturePosition2,
      TextureName.TextureNormal2, TextureName.TextureColour2) (by rw [h4u])
      (by rw [h4u]) h4s (c + 16 + 16) s3 m4 i j hv (by omega)]


theorem tan_reach_bounds :
    41 / 100 < Real.tan (45 * Real.pi / 360) ∧ Real.tan (45 * Real.pi / 360) < 42 / 100 := by
  have hpos := tan_reach_pos
  have h2 : Real.tan (2 * (45 * Real.pi / 360)) = 1 := by
    rw [show 2 * (45 * Real.pi / 360) = Real.pi / 4 by ring]
    exact Real.tan_pi_div_four
  rw [Real.tan_two_mul] at h2
  set t := Real.tan (45 * Real.pi / 360) with ht
  have hne : 1 - t ^ 2 ≠ 0 := by
    intro h0
    rw [h0, div_zero] at h2
    exact zero_ne_one h2
  have h3 : 2 * t = 1 - t ^ 2 := by
    field_simp at h2
    linarith
  constructor <;> nlinarith

theorem reach_mulVec4_screen (X Y : ℝ) :
    (reachViewProjection Real.tan Real.pi).mulVec4
        ⟨343 / 10000 + 1000 * Real.tan (45 * Real.pi / 360) * X,
         99 / 10000 + 1000 * Real.tan (45 * Real.pi / 360) * Y,
         205 / 10000 - 1000, 1⟩
      = ⟨1000 * X, 1000 * Y, 1000 * 1, 1000 * 1⟩ := by
  have ht := tan_reach_pos
  simp only [Matrix44.mulVec4, reachViewProjection,
    Matrix44.mul_data, reachRenderer, Matrix44.Perspective, Matrix44.Frustum,
    Matrix44.ofValues_00, Matrix44.ofValues_01, Matrix44.ofValues_02, Matrix44.ofValues_03,
    Matrix44.ofValues_10, Matrix44.ofValues_11, Matrix44.ofValues_12, Matrix44.ofValues_13,
    Matrix44.ofValues_20, Matrix44.ofValues_21, Matrix44.ofValues_22, Matrix44.ofValues_23,
    Matrix44.ofValues_30, Matrix44.ofValues_31, Matrix44.ofValues_32, Matrix44.ofValues_33,
    Vec4.mk.injEq]
  set t := Real.tan (45 * Real.pi / 360) with htdef
  have ht0 : t ≠ 0 := ht.ne'
  refine ⟨?_, ?_, ?_, ?_⟩ <;> field_simp <;> ring

/-- The eye and the unnormalised ray direction of a fragment of the frame. -/
theorem reach_ray (R : Matrix44 ℝ)
    (hR : Matrix44.Invert (reachViewProjection Real.tan Real.pi) = some R) (U : Uniforms ℝ)
    (hU : U.ViewProjectionInverseMatrix = R) (VertexPosition : Vec3 ℝ)
    (hz : VertexPosition.z = 1) :
    EyePosition U = ⟨343 / 10000, 99 / 10000, 105 / 10000⟩
    ∧ ∃ k : ℝ, 0 < k ∧ EyeVector Real.sqrt U VertexPosition
        = ⟨1000 * Real.tan (45 * Real.pi / 360) * VertexPosition.x / k,
           1000 * Real.tan (45 * Real.pi / 360) * VertexPosition.y / k,
           (1 / 100 - 1000) / k⟩ := by
  have hEye : EyePosition U = ⟨343 / 10000, 99 / 10000, 105 / 10000⟩ := by
    unfold EyePosition
    rw [hU]
    exact Matrix44.unproject _ R hR ⟨343 / 10000, 99 / 10000, 105 / 10000⟩ ⟨0, 0, -1, 1⟩
      (1 / 100) (by norm_num) reach_mulVec4_eye
  refine ⟨hEye, ?_⟩
  have hS := Matrix44.unproject _ R hR
    ⟨343 / 10000 + 1000 * Real.tan (45 * Real.pi / 360) * VertexPosition.x,
     99 / 10000 + 1000 * Real.tan (45 * Real.pi / 360) * VertexPosition.y,
     205 / 10000 - 1000⟩ ⟨VertexPosition.x, VertexPosition.y, 1, 1⟩ 1000 (by norm_num)
    (reach_mulVec4_screen VertexPosition.x VertexPosition.y)
  set t := Real.tan (45 * Real.pi / 360) with htdef
  set v : Vec3 ℝ := ⟨1000 * t * VertexPosition.x, 1000 * t * VertexPosition.y, 1 / 100 - 1000⟩
    with hv
  have hdot : 0 < v.dot v := by
    simp only [Vec3.dot, hv]
    nlinarith [mul_self_nonneg (1000 * t * VertexPosition.x),
      mul_self_nonneg (1000 * t * VertexPosition.y)]
  refine ⟨Real.sqrt (v.dot v), Real.sqrt_pos.mpr hdot, ?_⟩
  have hvec : Vec4.ofVec3 VertexPosition 1 = ⟨VertexPosition.x, VertexPosition.y, 1, 1⟩ := by
    simp [Vec4.ofVec3, hz]
  unfold EyeVector
  rw [hEye, hvec, hU]
  dsimp only
  rw [hS]
  have hsub : Vec3.sub ⟨343 / 10000 + 1000 * t * VertexPosition.x,
      99 / 10000 + 1000 * t * VertexPosition.y, 205 / 10000 - 1000⟩
      ⟨343 / 10000, 99 / 10000, 105 / 10000⟩ = v := by
    simp only [Vec3.sub, hv, Vec3.mk.injEq]
    refine ⟨?_, ?_, ?_⟩ <;> ring
  rw [hsub]
  simp only [normalize, Vec3.divScalar, hv]


theorem abs_mul3_le (w t X W T : ℝ) (hw : |w| ≤ W) (ht0 : 0 ≤ t) (ht : t ≤ T) (hX : |X| ≤ 1) :
    |w * t * X| ≤ W * T := by
  rw [abs_mul, abs_mul, abs_of_nonneg ht0]
  have hW : 0 ≤ W := le_trans (abs_nonneg w) hw
  calc |w| * t * |X| ≤ W * T * 1 :=
        mul_le_mul (mul_le_mul hw ht ht0 hW) hX (abs_nonneg X) (mul_nonneg hW (le_trans ht0 ht))
    _ = W * T := mul_one _

/-- In the frame of `reachState` the ray of every fragment misses the cubes
around the two sentinel positions. -/
theorem reach_rays_miss (R : Matrix44 ℝ)
    (hR : Matrix44.Invert (reachViewProjection Real.tan Real.pi) = some R) (U : Uniforms ℝ)
    (hU : U.ViewProjectionInverseMatrix = R) (hvs : U.VoxelSize = 1 / 200) (i j : Int)
    (hv : inViewport (reachRenderer Real.tan Real.pi) i j) (p : Vec3 ℝ) (hp : IsSentinel p) :
    fragmentRayMisses Real.sqrt (reachRenderer Real.tan Real.pi) U i j p := by
  obtain ⟨hi0, hi1, hj0, hj1⟩ := hv
  have hi1' : i < 64 := hi1
  have hj1' : j < 64 := hj1
  obtain ⟨ht1, ht2⟩ := tan_reach_bounds
  obtain ⟨hEye, k, hk, hdir⟩ := reach_ray R hR U hU
    (FragmentVertexPosition (reachRenderer Real.tan Real.pi).ScreenWidth
      (reachRenderer Real.tan Real.pi).ScreenHeight i j) rfl
  set t := Real.tan (45 * Real.pi / 360) with htdef
  have hXdef : (FragmentVertexPosition (F := ℝ) (reachRenderer Real.tan Real.pi).ScreenWidth
      (reachRenderer Real.tan Real.pi).ScreenHeight i j).x = -1 + (2 * (i : ℝ) + 1) / 64 := by
    simp [FragmentVertexPosition, reachRenderer]
  have hYdef : (FragmentVertexPosition (F := ℝ) (reachRenderer Real.tan Real.pi).ScreenWidth
      (reachRenderer Real.tan Real.pi).ScreenHeight i j).y = -1 + (2 * (j : ℝ) + 1) / 64 := by
    simp [FragmentVertexPosition, reachRenderer]
  rw [hXdef, hYdef] at hdir
  set X : ℝ := -1 + (2 * (i : ℝ) + 1) / 64 with hX
  set Y : ℝ := -1 + (2 * (j : ℝ) + 1) / 64 with hY
  have hi0' : (0 : ℝ) ≤ (i : ℝ) := by exact_mod_cast hi0
  have hi1'' : (i : ℝ) ≤ 63 := by
    have : i ≤ 63 := by omega
    exact_mod_cast this
  have hj0' : (0 : ℝ) ≤ (j : ℝ) := by exact_mod_cast hj0
  have hj1'' : (j : ℝ) ≤ 63 := by
    have : j ≤ 63 := by omega
    exact_mod_cast this
  have hXabs : |X| ≤ 1 := by
    rw [abs_le]
    constructor <;> rw [hX] <;> linarith
  have hXne : X ≠ 0 := by
    intro h0
    have h1 : (2 * (i : ℝ) + 1) = 64 := by
      rw [hX] at h0
      linarith
    have h2 : 2 * i + 1 = 64 := by exact_mod_cast h1
    omega
  have hYne : Y ≠ 0 := by
    intro h0
    have h1 : (2 * (j : ℝ) + 1) = 64 := by
      rw [hY] at h0
      linarith
    have h2 : 2 * j + 1 = 64 := by exact_mod_cast h1
    omega
  have ht0 : t ≠ 0 := by linarith
  have hk0 : k ≠ 0 := hk.ne'
  unfold fragmentRayMisses
  rw [hEye, hdir, hvs]
  intro hhit
  have hbox : ∃ τ, InBox (rayPoint ⟨343 / 10000, 99 / 10000, 105 / 10000⟩
      ⟨1000 * t * X / k, 1000 * t * Y / k, (1 / 100 - 1000) / k⟩ τ)
      (p.subScalar (1 / 200)) (p.addScalar (1 / 200)) := by
    refine (RayBoxIntersect_hit_iff _ _ _ _ ?_ ?_ ?_ ?_ ?_ ?_).mp hhit
    · exact div_ne_zero (mul_ne_zero (mul_ne_zero (by norm_num) ht0) hXne) hk0
    · exact div_ne_zero (mul_ne_zero (mul_ne_zero (by norm_num) ht0) hYne) hk0
    · exact div_ne_zero (by norm_num) hk0
    · simp only [Vec3.subScalar, Vec3.addScalar]; linarith
    · simp only [Vec3.subScalar, Vec3.addScalar]; linarith
    · simp only [Vec3.subScalar, Vec3.addScalar]; linarith
  obtain ⟨τ, hτ⟩ := hbox
  simp only [InBox, rayPoint, Vec3.subScalar, Vec3.addScalar] at hτ
  obtain ⟨⟨hx1, hx2⟩, -, ⟨hz1, hz2⟩⟩ := hτ
  have ex : τ * (1000 * t * X / k) = 1000 * (τ / k * t * X) := by ring
  have ez : τ * ((1 / 100 - 1000) / k) = (1 / 100 - 1000) * (τ / k) := by ring
  rw [ex] at hx1 hx2
  rw [ez] at hz1 hz2
  set w := τ / k with hw
  rcases hp with rfl | rfl
  · simp only [] at hx1 hx2 hz1 hz2
    have hwabs : |w| ≤ 9 / 10000 := by
      rw [abs_le]
      constructor <;> linarith
    have hb := abs_mul3_le w t X (9 / 10000) (42 / 100) hwabs (by linarith) ht2.le hXabs
    rw [abs_le] at hb
    linarith [hb.2]
  · simp only [] at hx1 hx2 hz1 hz2
    have hwabs : |w| ≤ 16 / 1000000 := by
      rw [abs_le]
      constructor <;> linarith
    have hb := abs_mul3_le w t X (16 / 1000000) (42 / 100) hwabs (by linarith) ht2.le hXabs
    rw [abs_le] at hb
    linarith [hb.1]


theorem reach_buildMap :
    buildMap (F := ℝ) (reachState (F := ℝ)).Scene = [⟨reachVoxel, ⟨1, 0, 0⟩, ⟨1, 0, 0⟩⟩] := by
  simp [buildMap, reachState, List.range_succ, reachVoxel]

/-- The splat pass of the frame of `reachState` draws one point, the voxel at
(0.03, 0.01, 0.01), and its vertex falls in the pixel (0, 32), between the near
and the far plane. -/
theorem reach_splat (cmds : List (GLCommand ℝ))
    (h : Render Real.sqrt (reachRenderer Real.tan Real.pi) reachState = some cmds) :
    ∃ d0, (drawCalls sampleGLState cmds).head? = some d0
      ∧ d0.State.Vertices = [⟨reachVoxel, ⟨1, 0, 0⟩, ⟨1, 0, 0⟩⟩]
      ∧ -(d0.State.ModelViewProjection.mulVec4 (Vec4.ofVec3 reachVoxel 1)).w
          ≤ (d0.State.ModelViewProjection.mulVec4 (Vec4.ofVec3 reachVoxel 1)).z
      ∧ (d0.State.ModelViewProjection.mulVec4 (Vec4.ofVec3 reachVoxel 1)).z
          ≤ (d0.State.ModelViewProjection.mulVec4 (Vec4.ofVec3 reachVoxel 1)).w
      ∧ ⌊(windowCoordinate 64 64
            (d0.State.ModelViewProjection.mulVec4 (Vec4.ofVec3 reachVoxel 1))).x⌋ = 0
      ∧ ⌊(windowCoordinate 64 64
            (d0.State.ModelViewProjection.mulVec4 (Vec4.ofVec3 reachVoxel 1))).y⌋ = 32 := by
  obtain ⟨R, hR⟩ : ∃ R, Matrix44.Invert (reachViewProjection Real.tan Real.pi) = some R := by
    simp [Matrix44.Invert, reach_Determinant]
  have hRender := reach_Render
  rw [hR] at hRender
  simp only [Option.some_bind] at hRender
  rw [hRender] at h
  obtain rfl := Option.some.inj h
  obtain ⟨d0, d1, d2, d3, d4, hcalls, h0, -⟩ :=
    drawCalls_renderCommands (reachRenderer Real.tan Real.pi) reachState
      ((reachViewProjection Real.tan Real.pi).mul (reachRenderer Real.tan Real.pi).Model) R
      sampleGLState
  obtain ⟨-, -, -, hmvp, -, hvert, -⟩ := h0
  obtain ⟨ht1, ht2⟩ := tan_reach_bounds
  have hclip : d0.State.ModelViewProjection.mulVec4 (Vec4.ofVec3 reachVoxel 1)
      = ⟨-(43 / 10000) / Real.tan (45 * Real.pi / 360),
         (1 / 10000) / Real.tan (45 * Real.pi / 360),
         -(9499895 / 999990000), 105 / 10000⟩ := by
    rw [hmvp, Matrix44.mulVec4_mul]
    simp only [Matrix44.mulVec4, reachViewProjection, Vec4.ofVec3, reachVoxel,
      Matrix44.mul_data, reachRenderer, Matrix44.Perspective, Matrix44.Frustum,
      Matrix44.Identity,
      Matrix44.ofValues_00, Matrix44.ofValues_01, Matrix44.ofValues_02, Matrix44.ofValues_03,
      Matrix44.ofValues_10, Matrix44.ofValues_11, Matrix44.ofValues_12, Matrix44.ofValues_13,
      Matrix44.ofValues_20, Matrix44.ofValues_21, Matrix44.ofValues_22, Matrix44.ofValues_23,
      Matrix44.ofValues_30, Matrix44.ofValues_31, Matrix44.ofValues_32, Matrix44.ofValues_33,
      Vec4.mk.injEq]
    set t := Real.tan (45 * Real.pi / 360) with htdef
    have ht0 : t ≠ 0 := by linarith
    refine ⟨?_, ?_, ?_, ?_⟩ <;> field_simp <;> ring
  refine ⟨d0, by rw [hcalls]; rfl, by rw [hvert, reach_buildMap], ?_, ?_, ?_, ?_⟩ <;>
    rw [hclip]
  · norm_num
  · norm_num
  all_goals
    set t := Real.tan (45 * Real.pi / 360) with htdef
    have ht0 : 0 < t := by linarith
  · rw [Int.floor_eq_iff]
    simp only [windowCoordinate]
    have e : (-(43 / 10000) / t / (105 / 10000) + 1) / 2 * ((64 : ℕ) : ℝ)
        = 32 - 32 * 43 / (105 * t) := by
      field_simp
      ring
    rw [e]
    have h1 : 32 * 43 / (105 * t) ≤ 32 := by
      rw [div_le_iff₀ (by positivity)]
      nlinarith
    have h2 : 31 < 32 * 43 / (105 * t) := by
      rw [lt_div_iff₀ (by positivity)]
      nlinarith
    constructor
    · push_cast; linarith
    · push_cast; linarith
  · rw [Int.floor_eq_iff]
    simp only [windowCoordinate]
    have e : (1 / 10000 / t / (105 / 10000) + 1) / 2 * ((64 : ℕ) : ℝ)
        = 32 + 32 / (105 * t) := by
      field_simp
      ring
    rw [e]
    have h1 : 0 ≤ 32 / (105 * t) := by positivity
    have h2 : 32 / (105 * t) < 1 := by
      rw [div_lt_iff₀ (by positivity)]
      nlinarith
    constructor
    · push_cast; linarith
    · push_cast; linarith


/-- C2, counterexample. A 64 by 64 window and a volume with one opaque voxel,
at (0.03, 0.01, 0.01), right in front of the camera: the splat pass leaves it at
the pixel (0, 32) only (`reach_splat`).  The ray of the pixel (33, 32) intersects
the voxel's cube (its origin lies in the cube, and the kernel's own test on that
cube reports a hit), and the voxel is the only one splatted; yet the composite
pass resolves nothing at (33, 32): the loop variables keep their initial values,
so the pixel is a miss. -/
theorem frame_reach_counterexample :
    ∃ cmds d4,
      Render Real.sqrt (reachRenderer Real.tan Real.pi) reachState = some cmds
      ∧ (drawCalls sampleGLState cmds).getLast? = some d4
      ∧ (∀ i j, (reachAfterSplat (F := ℝ) TextureName.TexturePosition1 i j).xyz = reachVoxel
          ↔ (i = 0 ∧ j = 32))
      ∧ inViewport (reachRenderer Real.tan Real.pi) 33 32
      ∧ InBox (rayPoint (EyePosition d4.State.Uniforms)
            (EyeVector Real.sqrt d4.State.Uniforms (FragmentVertexPosition 64 64 33 32)) 0)
          (reachVoxel.subScalar d4.State.Uniforms.VoxelSize)
          (reachVoxel.addScalar d4.State.Uniforms.VoxelSize)
      ∧ (RayBoxIntersect (EyePosition d4.State.Uniforms)
            (EyeVector Real.sqrt d4.State.Uniforms (FragmentVertexPosition 64 64 33 32))
            (reachVoxel.subScalar d4.State.Uniforms.VoxelSize)
            (reachVoxel.addScalar d4.State.Uniforms.VoxelSize)).x
          ≤ (RayBoxIntersect (EyePosition d4.State.Uniforms)
            (EyeVector Real.sqrt d4.State.Uniforms (FragmentVertexPosition 64 64 33 32))
            (reachVoxel.subScalar d4.State.Uniforms.VoxelSize)
            (reachVoxel.addScalar d4.State.Uniforms.VoxelSize)).y
      ∧ compositeResolve Real.sqrt Real.sin (reachRenderer Real.tan Real.pi)
          (drawCalls sampleGLState cmds) reachAfterSplat 33 32 = some KernelState.initial := by
  obtain ⟨R, hR⟩ : ∃ R, Matrix44.Invert (reachViewProjection Real.tan Real.pi) = some R := by
    simp [Matrix44.Invert, reach_Determinant]
  have hRender := reach_Render
  rw [hR] at hRender
  simp only [Option.some_bind] at hRender
  have hv : inViewport (reachRenderer Real.tan Real.pi) 33 32 := by
    simp [inViewport, reachRenderer]
  obtain ⟨d0, d1, d2, d3, d4, hcalls, -, -, -, -, h4⟩ :=
    drawCalls_renderCommands (reachRenderer Real.tan Real.pi) reachState
      ((reachViewProjection Real.tan Real.pi).mul (reachRenderer Real.tan Real.pi).Model) R
      sampleGLState
  have hU := h4.2.2.2.2
  obtain ⟨ht1, ht2⟩ := tan_reach_bounds
  obtain ⟨hEye, k, hk, hdir⟩ := reach_ray R hR d4.State.Uniforms (by rw [hU])
    (FragmentVertexPosition 64 64 33 32) rfl
  have hvs : d4.State.Uniforms.VoxelSize = 1 / 200 := by
    rw [hU]
    norm_num [reachRenderer]
  have hin : InBox (rayPoint (EyePosition d4.State.Uniforms)
      (EyeVector Real.sqrt d4.State.Uniforms (FragmentVertexPosition 64 64 33 32)) 0)
      (reachVoxel.subScalar d4.State.Uniforms.VoxelSize)
      (reachVoxel.addScalar d4.State.Uniforms.VoxelSize) := by
    rw [hvs]
    simp only [rayPoint, hEye, InBox, reachVoxel, Vec3.subScalar, Vec3.addScalar]
    norm_num
  refine ⟨_, d4, hRender, by rw [hcalls]; rfl, ?_, hv, hin, ?_, ?_⟩
  · intro i j
    simp only [reachAfterSplat, reachVoxel]
    by_cases h : i = 0 ∧ j = 32
    · simp [h, Vec4.xyz]
    · simp only [h, if_false, Vec4.xyz, Vec3.mk.injEq, iff_false]
      norm_num
  · have hk0 : k ≠ 0 := hk.ne'
    have ht0 : Real.tan (45 * Real.pi / 360) ≠ 0 := by linarith
    refine (RayBoxIntersect_hit_iff _ _ _ _ ?_ ?_ ?_ ?_ ?_ ?_).mpr ⟨0, hin⟩
    · rw [hdir]
      simp only [FragmentVertexPosition]
      exact div_ne_zero (mul_ne_zero (mul_ne_zero (by norm_num) ht0) (by norm_num)) hk0
    · rw [hdir]
      simp only [FragmentVertexPosition]
      exact div_ne_zero (mul_ne_zero (mul_ne_zero (by norm_num) ht0) (by norm_num)) hk0
    · rw [hdir]
      exact div_ne_zero (by norm_num) hk0
    · rw [hvs]; simp only [Vec3.subScalar, Vec3.addScalar]; linarith
    · rw [hvs]; simp only [Vec3.subScalar, Vec3.addScalar]; linarith
    · rw [hvs]; simp only [Vec3.subScalar, Vec3.addScalar]; linarith
  · refine compositeResolve_miss Real.sqrt Real.sin (reachRenderer Real.tan Real.pi)
      (by simp [reachRenderer]) (by simp [reachRenderer]) reachState sampleGLState _ R
      reachAfterSplat 1 ?_ ?_ 33 32 hv (by norm_num)
    · intro i j _ hi
      left
      have hi' : ¬ (i = 0 ∧ j = 32) := by
        rintro ⟨h0, -⟩
        omega
      simp only [reachAfterSplat, hi', if_false, Vec4.xyz]
    · intro i j hv' p hp
      exact reach_rays_miss R hR _ rfl (by norm_num [reachRenderer]) i j hv' p hp

/-- C2, amended. After one full frame, for every pixel of the viewport: the
composite pass resolves, among the 33 taps of the pixel's column in buffer set 2
as the third spread pass left it, a tap of smallest entry depth among those that
report a hit, provided one of them hits at an entry depth of at most 9999999,
and resolves nothing when every hitting tap is farther than that; the position,
normal and colour it resolves are zero or the ones the splat pass left at a
pixel at most 32 columns and at most 32 rows away. -/
theorem composite_resolves_carried_sample {F : Type} [LinearOrderedField F] [FloorRing F]
    (sqrt sin : F → F) (r : Renderer F) (State : GameState F) (s0 : GLState F)
    (cmds : List (GLCommand F)) (afterSplat : TextureMemory F) (i j : Int)
    (hW : 0 < r.ScreenWidth) (hH : 0 < r.ScreenHeight)
    (h : Render sqrt r State = some cmds) (hv : inViewport r i j) :
    ∃ d4 res,
      (drawCalls s0 cmds).getLast? = some d4
      ∧ compositeResolve sqrt sin r (drawCalls s0 cmds) afterSplat i j = some res
      ∧ Carried r (texelData afterSplat (TextureName.TexturePosition1,
          TextureName.TextureNormal1, TextureName.TextureColour1)) 32 32 i j res.data
      ∧ ((∃ t ∈ Taps,
            fragmentTapHits sqrt (d4.samplers r (runKernelPasses sqrt sin r (drawCalls s0 cmds)
              afterSplat)) d4.State.Uniforms
              (FragmentVertexPosition r.ScreenWidth r.ScreenHeight i j) t
            ∧ fragmentTapDepth sqrt (d4.samplers r (runKernelPasses sqrt sin r
                (drawCalls s0 cmds) afterSplat)) d4.State.Uniforms
                (FragmentVertexPosition r.ScreenWidth r.ScreenHeight i j) t ≤ InitialBestDepth) →
          ∃ k ∈ Taps,
            fragmentTapHits sqrt (d4.samplers r (runKernelPasses sqrt sin r (drawCalls s0 cmds)
              afterSplat)) d4.State.Uniforms
              (FragmentVertexPosition r.ScreenWidth r.ScreenHeight i j) k
            ∧ res = fragmentTapRecord sqrt (d4.samplers r (runKernelPasses sqrt sin r
                (drawCalls s0 cmds) afterSplat)) d4.State.Uniforms
                (FragmentVertexPosition r.ScreenWidth r.ScreenHeight i j) k
            ∧ ∀ m ∈ Taps,
                fragmentTapHits sqrt (d4.samplers r (runKernelPasses sqrt sin r
                  (drawCalls s0 cmds) afterSplat)) d4.State.Uniforms
                  (FragmentVertexPosition r.ScreenWidth r.ScreenHeight i j) m →
                fragmentTapDepth sqrt (d4.samplers r (runKernelPasses sqrt sin r
                  (drawCalls s0 cmds) afterSplat)) d4.State.Uniforms
                  (FragmentVertexPosition r.ScreenWidth r.ScreenHeight i j) k
                ≤ fragmentTapDepth sqrt (d4.samplers r (runKernelPasses sqrt sin r
                    (drawCalls s0 cmds) afterSplat)) d4.State.Uniforms
                    (FragmentVertexPosition r.ScreenWidth r.ScreenHeight i j) m)
      ∧ ((∀ t ∈ Taps,
            fragmentTapHits sqrt (d4.samplers r (runKernelPasses sqrt sin r (drawCalls s0 cmds)
              afterSplat)) d4.State.Uniforms
              (FragmentVertexPosition r.ScreenWidth r.ScreenHeight i j) t →
            InitialBestDepth < fragmentTapDepth sqrt (d4.samplers r (runKernelPasses sqrt sin r
                (drawCalls s0 cmds) afterSplat)) d4.State.Uniforms
                (FragmentVertexPosition r.ScreenWidth r.ScreenHeight i j) t) →
          res = KernelState.initial) := by
  obtain ⟨MVP, VPI, rfl⟩ := Render_eq_some sqrt r State cmds h
  obtain ⟨res, hres, hcar⟩ := compositeResolve_carried sqrt sin r hW hH State s0 MVP VPI
    afterSplat i j hv
  obtain ⟨d0, d1, d2, d3, d4, hcalls, -⟩ := drawCalls_renderCommands r State MVP VPI s0
  have hlast : (drawCalls s0 (renderCommands r State MVP VPI)).getLast? = some d4 := by
    rw [hcalls]; rfl
  have hres' : res = fragmentResolve sqrt r d4
      (runKernelPasses sqrt sin r (drawCalls s0 (renderCommands r State MVP VPI)) afterSplat)
      i j := by
    unfold compositeResolve at hres
    rw [hlast] at hres
    exact (Option.some.inj hres).symm
  refine ⟨d4, res, hlast, hres, hcar, ?_, ?_⟩
  · intro hc
    obtain ⟨k, hk, hhit, hrec, hmin, _⟩ := resolve_nearest_hit sqrt _ _ _ hc
    exact ⟨k, hk, hhit, by rw [hres']; exact hrec, hmin⟩
  · intro hfar
    rw [hres']
    unfold fragmentResolve resolve tapLoop
    exact foldl_tapStep_of_no_candidate _ _ _ _ _ Taps KernelState.initial hfar

/-- Witness of C2 (amended): pixel (1, 2) of the sample frame. -/
theorem composite_resolves_carried_sample_witness :
    ∃ cmds, Render Rat.sqrt sampleRenderer sampleState = some cmds
      ∧ inViewport sampleRenderer 1 2
      ∧ ∃ res, compositeResolve Rat.sqrt (fun _ => 0) sampleRenderer
            (drawCalls sampleGLState cmds) reachAfterSplat 1 2 = some res
          ∧ Carried sampleRenderer (texelData reachAfterSplat (TextureName.TexturePosition1,
              TextureName.TextureNormal1, TextureName.TextureColour1)) 32 32 1 2 res.data :=
  Render_sample_isSome.elim fun cmds h =>
    have hv : inViewport sampleRenderer 1 2 := by decide
    (composite_resolves_carried_sample Rat.sqrt (fun _ => 0) sampleRenderer sampleState
      sampleGLState cmds reachAfterSplat 1 2 (by decide) (by decide) h hv).elim
      fun _ h4 => h4.elim fun res hres => ⟨cmds, h, hv, res, hres.2.1, hres.2.2.1⟩

/-! ### The sample list of the splat pass -/

theorem flatMap_if_singleton {α β : Type} (L : List α) (p : α → Bool) (f : α → β) :
    L.flatMap (fun a => if p a = true then [f a] else []) = (L.filter p).map f := by
  induction L with
  | nil => rfl
  | cons a L ih =>
    by_cases h : p a = true
    · simp [List.flatMap_cons, List.filter_cons, h, ih]
    · simp [List.flatMap_cons, List.filter_cons, h, ih]

theorem buildMap_eq {F : Type} [LinearOrderedField F] (Scene : Scene) :
    buildMap (F := F) Scene
      = ((loopCells Scene).filter (opaqueCell Scene)).map
          (fun c => voxelRecord c.1 c.2.1 c.2.2 (Scene.At c.1 c.2.1 c.2.2)) := by
  unfold buildMap loopCells
  simp only [List.filter_flatMap, List.map_flatMap, List.filter_map, List.map_map]
  congr 1
  funext z
  congr 1
  funext y
  rw [← flatMap_if_singleton]
  simp [List.flatMap_map, opaqueCell, voxelRecord, Function.comp]

theorem mem_loopCells (Scene : Scene) (x y z : Nat) :
    (x, y, z) ∈ loopCells Scene ↔ x < Scene.SizeX ∧ y < Scene.SizeY ∧ z < Scene.SizeZ := by
  simp only [loopCells, List.mem_flatMap, List.mem_map, List.mem_range, Prod.mk.injEq]
  constructor
  · rintro ⟨z', hz, y', hy, x', hx, rfl, rfl, rfl⟩
    exact ⟨hx, hy, hz⟩
  · rintro ⟨hx, hy, hz⟩
    exact ⟨z, hz, y, hy, x, hx, rfl, rfl, rfl⟩

theorem loopCells_pairwise (Scene : Scene) : (loopCells Scene).Pairwise visitedBefore := by
  unfold loopCells
  rw [List.pairwise_flatMap]
  refine ⟨fun z _ => ?_, ?_⟩
  · rw [List.pairwise_flatMap]
    refine ⟨fun y _ => ?_, ?_⟩
    · rw [List.pairwise_map]
      exact (List.pairwise_lt_range _).imp fun h => Or.inr ⟨rfl, Or.inr ⟨rfl, h⟩⟩
    · refine (List.pairwise_lt_range _).imp fun {a b} h => ?_
      intro p hp q hq
      simp only [List.mem_map] at hp hq
      obtain ⟨_, _, rfl⟩ := hp
      obtain ⟨_, _, rfl⟩ := hq
      exact Or.inr ⟨rfl, Or.inl h⟩
  · refine (List.pairwise_lt_range _).imp fun {a b} h => ?_
    intro p hp q hq
    simp only [List.mem_flatMap, List.mem_map] at hp hq
    obtain ⟨_, _, _, _, rfl⟩ := hp
    obtain ⟨_, _, _, _, rfl⟩ := hq
    exact Or.inl h

theorem length_flatMap_const {α β : Type} (L : List α) (f : α → List β) (m : Nat)
    (h : ∀ a ∈ L, (f a).length = m) : (L.flatMap f).length = L.length * m := by
  induction L with
  | nil => simp
  | cons a L ih =>
    rw [List.flatMap_cons, List.length_append, h a (List.mem_cons_self _ _),
      ih (fun b hb => h b (List.mem_cons_of_mem _ hb)), List.length_cons]
    ring

theorem length_loopCells (Scene : Scene) :
    (loopCells Scene).length = Scene.SizeZ * Scene.SizeY * Scene.SizeX := by
  unfold loopCells
  rw [length_flatMap_const _ _ (Scene.SizeY * Scene.SizeX), List.length_range, mul_assoc]
  intro z _
  rw [length_flatMap_const _ _ Scene.SizeX, List.length_range]
  intro y _
  rw [List.length_map, List.length_range]

/-- C11. The list `Render` builds is, in the order of the loops (`z` outermost,
then `y`, then `x`), one record for each cell of the grid whose voxel has
`Alpha > 0` and none for any other cell; the record of the cell `(x, y, z)` has
the position `(x/100, y/100, z/100)` and the normal `(1, 0, 0)`.  So the length
of the list is the number of opaque voxels, at most `SizeX * SizeY * SizeZ`, and
the list is empty when no voxel of the grid is opaque. -/
theorem buildMap_opaque_cells {F : Type} [LinearOrderedField F] (Scene : Scene) :
    ∃ cells : List (Nat × Nat × Nat),
      cells.Pairwise visitedBefore
      ∧ (∀ x y z, (x, y, z) ∈ cells ↔
          x < Scene.SizeX ∧ y < Scene.SizeY ∧ z < Scene.SizeZ ∧ (Scene.At x y z).Alpha > 0)
      ∧ (buildMap (F := F) Scene).map (fun s => (s.Position, s.Normal))
          = cells.map (fun c =>
              ((⟨(c.1 : F) / 100, (c.2.1 : F) / 100, (c.2.2 : F) / 100⟩ : Vec3 F),
               (⟨1, 0, 0⟩ : Vec3 F)))
      ∧ (buildMap (F := F) Scene).length = cells.length
      ∧ cells.length = (loopCells Scene).countP (opaqueCell Scene)
      ∧ (buildMap (F := F) Scene).length ≤ Scene.SizeX * Scene.SizeY * Scene.SizeZ
      ∧ ((∀ x y z, x < Scene.SizeX → y < Scene.SizeY → z < Scene.SizeZ →
            (Scene.At x y z).Alpha = 0) → buildMap (F := F) Scene = []) := by
  refine ⟨(loopCells Scene).filter (opaqueCell Scene),
    (loopCells_pairwise Scene).sublist (List.filter_sublist _), ?_, ?_, ?_, ?_, ?_, ?_⟩
  · intro x y z
    simp [List.mem_filter, mem_loopCells, opaqueCell, and_assoc]
  · rw [buildMap_eq, List.map_map]
    rfl
  · rw [buildMap_eq, List.length_map]
  · rw [List.countP_eq_length_filter]
  · rw [buildMap_eq, List.length_map]
    calc ((loopCells Scene).filter (opaqueCell Scene)).length
        ≤ (loopCells Scene).length := List.length_filter_le _ _
      _ = Scene.SizeX * Scene.SizeY * Scene.SizeZ := by rw [length_loopCells]; ring
  · intro h
    rw [buildMap_eq, List.map_eq_nil_iff, List.filter_eq_nil_iff]
    rintro ⟨x, y, z⟩ hc
    rw [mem_loopCells] at hc
    simp [opaqueCell, h x y z hc.1 hc.2.1 hc.2.2]

theorem mem_buildMap {F : Type} [LinearOrderedField F] (Scene : Scene) (s : Sample F) :
    s ∈ buildMap (F := F) Scene ↔
      ∃ x y z, x < Scene.SizeX ∧ y < Scene.SizeY ∧ z < Scene.SizeZ
        ∧ (Scene.At x y z).Alpha > 0 ∧ s = voxelRecord x y z (Scene.At x y z) := by
  rw [buildMap_eq]
  simp only [List.mem_map, List.mem_filter, opaqueCell, decide_eq_true_eq]
  constructor
  · rintro ⟨⟨x, y, z⟩, ⟨hc, hA⟩, rfl⟩
    rw [mem_loopCells] at hc
    exact ⟨x, y, z, hc.1, hc.2.1, hc.2.2, hA, rfl⟩
  · rintro ⟨x, y, z, hx, hy, hz, hA, rfl⟩
    exact ⟨(x, y, z), ⟨(mem_loopCells Scene x y z).mpr ⟨hx, hy, hz⟩, hA⟩, rfl⟩

theorem voxelRecord_position_inj {F : Type} [LinearOrderedField F] (x y z x' y' z' : Nat)
    (v v' : Voxel)
    (h : (voxelRecord (F := F) x y z v).Position = (voxelRecord (F := F) x' y' z' v').Position) :
    x = x' ∧ y = y' ∧ z = z' := by
  simp only [voxelRecord, Vec3.mk.injEq] at h
  have h100 : (100 : F) ≠ 0 := by norm_num
  obtain ⟨h1, h2, h3⟩ := h
  rw [div_left_inj' h100] at h1 h2 h3
  exact ⟨Nat.cast_injective h1, Nat.cast_injective h2, Nat.cast_injective h3⟩

/-! ### The colour the splat pass stores -/

theorem Real_sqrt_dim : Real.sqrt (0 * 0 + 1 / 3 * (1 / 3) + 4 / 5 * (4 / 5)) = 13 / 15 := by
  rw [show (0 * 0 + 1 / 3 * (1 / 3) + 4 / 5 * (4 / 5) : ℝ) = (13 / 15) ^ 2 by norm_num]
  exact Real.sqrt_sq (by norm_num)

theorem dim_buildMap {F : Type} [LinearOrderedField F] :
    buildMap (F := F) dimScene = [⟨⟨0, 0, 0⟩, ⟨1, 0, 0⟩, ⟨0, 1 / 3, 4 / 5⟩⟩] := by
  have e : (4 + (2 ^ 32 - 4)) % 2 ^ 32 = 0 := by norm_num
  have hc : loopCells dimScene = [(0, 0, 0)] := by decide
  have ho : opaqueCell dimScene (0, 0, 0) = true := by decide
  rw [buildMap_eq, hc]
  simp only [List.filter_cons, ho, if_true, List.filter_nil, List.map_cons, List.map_nil]
  simp only [voxelRecord, dimScene, e]
  norm_num

/-- C13, counterexample. The one voxel of the volume (hue 4, saturation 1,
lightness 12) gives a record with the packed colour (0, 1/3, 4/5); for every
pair of matrices the stage-1 fragment shader writes the colour
(0, 5/13, 12/13, 1) for it: the triple divided by its length 13/15, not the
triple itself. -/
theorem splat_colour_counterexample :
    ∃ s, buildMap (F := ℝ) dimScene = [s]
      ∧ s.Colour = ⟨0, 1 / 3, 4 / 5⟩
      ∧ ∀ MVP Model : Matrix44 ℝ,
          (splatFragment Real.sqrt MVP Model s).FragmentColour = ⟨0, 5 / 13, 12 / 13, 1⟩
          ∧ (splatFragment Real.sqrt MVP Model s).FragmentColour.xyz ≠ s.Colour := by
  refine ⟨_, dim_buildMap, rfl, fun MVP Model => ?_⟩
  have h : (splatFragment Real.sqrt MVP Model
      ⟨⟨0, 0, 0⟩, ⟨1, 0, 0⟩, ⟨0, 1 / 3, 4 / 5⟩⟩).FragmentColour = ⟨0, 5 / 13, 12 / 13, 1⟩ := by
    simp only [splatFragment, FragmentShaderSource1.main, VertexShaderSource1.main, normalize,
      Vec3.dot, Vec3.divScalar, Vec4.ofVec3, Real_sqrt_dim, Vec4.mk.injEq]
    norm_num
  refine ⟨h, ?_⟩
  rw [h]
  intro hc
  have := congrArg Vec3.y hc
  simp only [Vec4.xyz] at this
  norm_num at this

/-- C13, amended. For every sample whose packed colour `(h, s, l)` is not the
zero triple, every pair of matrices and every square root that is not zero on
positive numbers (the real one is such), the length `sqrt(h*h + s*s + l*l)` is
not zero, and the stage-1 fragment shader writes to `FragmentColour` the packed
colour divided by that length, with fourth component 1, whatever the position
and the normal of the sample; the triple is stored unchanged if and only if the
length is 1. -/
theorem splat_colour_normalised {F : Type} [LinearOrderedField F] (sqrt : F → F)
    (hsqrt : ∀ a : F, 0 < a → sqrt a ≠ 0)
    (MVP Model : Matrix44 F) (s : Sample F) (hs : s.Colour ≠ ⟨0, 0, 0⟩) :
    sqrt (s.Colour.x * s.Colour.x + s.Colour.y * s.Colour.y + s.Colour.z * s.Colour.z) ≠ 0
    ∧ (splatFragment sqrt MVP Model s).FragmentColour
        = ⟨s.Colour.x / sqrt (s.Colour.x * s.Colour.x + s.Colour.y * s.Colour.y
              + s.Colour.z * s.Colour.z),
           s.Colour.y / sqrt (s.Colour.x * s.Colour.x + s.Colour.y * s.Colour.y
              + s.Colour.z * s.Colour.z),
           s.Colour.z / sqrt (s.Colour.x * s.Colour.x + s.Colour.y * s.Colour.y
              + s.Colour.z * s.Colour.z), 1⟩
    ∧ ((splatFragment sqrt MVP Model s).FragmentColour.xyz = s.Colour ↔
        sqrt (s.Colour.x * s.Colour.x + s.Colour.y * s.Colour.y + s.Colour.z * s.Colour.z)
          = 1) := by
  have h : (splatFragment sqrt MVP Model s).FragmentColour
      = ⟨s.Colour.x / sqrt (s.Colour.x * s.Colour.x + s.Colour.y * s.Colour.y
            + s.Colour.z * s.Colour.z),
         s.Colour.y / sqrt (s.Colour.x * s.Colour.x + s.Colour.y * s.Colour.y
            + s.Colour.z * s.Colour.z),
         s.Colour.z / sqrt (s.Colour.x * s.Colour.x + s.Colour.y * s.Colour.y
            + s.Colour.z * s.Colour.z), 1⟩ := rfl
  have hpos : 0 < s.Colour.x * s.Colour.x + s.Colour.y * s.Colour.y
      + s.Colour.z * s.Colour.z := by
    rcases lt_or_eq_of_le (add_nonneg (add_nonneg (mul_self_nonneg s.Colour.x)
      (mul_self_nonneg s.Colour.y)) (mul_self_nonneg s.Colour.z)) with hlt | heq
    · exact hlt
    · exfalso
      apply hs
      have hx : s.Colour.x = 0 := by
        nlinarith [mul_self_nonneg s.Colour.x, mul_self_nonneg s.Colour.y,
          mul_self_nonneg s.Colour.z]
      have hy : s.Colour.y = 0 := by
        nlinarith [mul_self_nonneg s.Colour.x, mul_self_nonneg s.Colour.y,
          mul_self_nonneg s.Colour.z]
      have hz : s.Colour.z = 0 := by
        nlinarith [mul_self_nonneg s.Colour.x, mul_self_nonneg s.Colour.y,
          mul_self_nonneg s.Colour.z]
      cases hc : s.Colour
      rw [hc] at hx hy hz
      simp only at hx hy hz
      rw [hx, hy, hz]
  have h0 := hsqrt _ hpos
  refine ⟨h0, h, ?_⟩
  constructor
  · intro heq
    rw [h] at heq
    set L := sqrt (s.Colour.x * s.Colour.x + s.Colour.y * s.Colour.y + s.Colour.z * s.Colour.z)
    by_contra h1
    have key : ∀ a : F, a / L = a → a = 0 := by
      intro a ha
      rw [div_eq_iff h0] at ha
      have : a * (L - 1) = 0 := by linear_combination -ha
      rcases mul_eq_zero.mp this with h | h
      · exact h
      · exact absurd (sub_eq_zero.mp h) h1
    apply hs
    have hx := key _ (congrArg Vec3.x heq)
    have hy := key _ (congrArg Vec3.y heq)
    have hz := key _ (congrArg Vec3.z heq)
    cases hc : s.Colour
    rw [hc] at hx hy hz
    simp only at hx hy hz
    rw [hx, hy, hz]
  · intro h1
    rw [h, h1]
    simp [Vec4.xyz]

/-- Witness of C13 (amended): the record of the voxel of `dimScene`, whose
colour (0, 1/3, 4/5) is not the zero triple and has the length 13/15, is stored
as that colour divided by 13/15, not as the colour itself. -/
theorem splat_colour_normalised_witness :
    (⟨0, 1 / 3, 4 / 5⟩ : Vec3 ℝ) ≠ ⟨0, 0, 0⟩
    ∧ (splatFragment Real.sqrt Matrix44.Identity Matrix44.Identity
        ⟨⟨0, 0, 0⟩, ⟨1, 0, 0⟩, ⟨0, 1 / 3, 4 / 5⟩⟩).FragmentColour
      = ⟨0 / (13 / 15), 1 / 3 / (13 / 15), 4 / 5 / (13 / 15), 1⟩
    ∧ (splatFragment Real.sqrt Matrix44.Identity Matrix44.Identity
        ⟨⟨0, 0, 0⟩, ⟨1, 0, 0⟩, ⟨0, 1 / 3, 4 / 5⟩⟩).FragmentColour.xyz
      ≠ ⟨0, 1 / 3, 4 / 5⟩ := by
  have hne : (⟨0, 1 / 3, 4 / 5⟩ : Vec3 ℝ) ≠ ⟨0, 0, 0⟩ := by
    intro h
    have := congrArg Vec3.y h
    norm_num at this
  have h := splat_colour_normalised Real.sqrt (fun a ha => (Real.sqrt_pos.mpr ha).ne')
    Matrix44.Identity Matrix44.Identity ⟨⟨0, 0, 0⟩, ⟨1, 0, 0⟩, ⟨0, 1 / 3, 4 / 5⟩⟩ hne
  simp only [Real_sqrt_dim] at h
  refine ⟨hne, h.2.1, fun heq => ?_⟩
  have := h.2.2.mp heq
  norm_num at this

/-! ### The clear value of the splat pass -/

/-- The splat pass is issued with the clear colour (0.9, 0.9, 0.9, 1) and the
list `buildMap` as its vertices. -/
theorem drawCalls_renderCommands_splat {F : Type} [LinearOrderedField F] (r : Renderer F)
    (State : GameState F) (MVP VPI : Matrix44 F) (s0 : GLState F) :
    ∃ d0, (drawCalls s0 (renderCommands r State MVP VPI)).head? = some d0
      ∧ d0.State.ClearColour = ⟨9 / 10, 9 / 10, 9 / 10, 1⟩
      ∧ d0.State.Vertices = buildMap State.Scene := by
  refine ⟨_, rfl, ?_⟩
  simp [GLState.step]

theorem position_eq_clear_iff {F : Type} [LinearOrderedField F] (x y z : Nat) :
    (⟨(x : F) / 100, (y : F) / 100, (z : F) / 100⟩ : Vec3 F) = ⟨9 / 10, 9 / 10, 9 / 10⟩
      ↔ x = 90 ∧ y = 90 ∧ z = 90 := by
  have key : ∀ n : Nat, (n : F) / 100 = 9 / 10 ↔ n = 90 := by
    intro n
    rw [div_eq_iff (by norm_num)]
    constructor
    · intro h
      have h' : (n : F) = ((90 : Nat) : F) := by rw [h]; norm_num
      exact Nat.cast_injective h'
    · rintro rfl
      norm_num
  simp only [Vec3.mk.injEq, key]

theorem Render_corner_isSome :
    ∃ cmds, Render Rat.sqrt sampleRenderer cornerState = some cmds := by
  have hView : Matrix44.View Rat.sqrt cornerState.CameraPosition cornerState.CameraTarget
      ⟨0, 1, 0⟩ = some (Matrix44.ofValues 1 0 0 0 0 1 0 0 0 0 1 0 0 0 0 1) := by
    simp [Matrix44.View, Vector3.Normalise, Vector3.sub, Vector3.Cross, cornerState,
      Rat_sqrt_one]
  have hdet : (sampleRenderer.Projection.mul
      (Matrix44.ofValues 1 0 0 0 0 1 0 0 0 0 1 0 0 0 0 1)).Determinant ≠ 0 := by
    simp only [Matrix44.Determinant, Matrix44.InvertResult, Matrix44.mul_data]
    norm_num [sampleRenderer, Matrix44.Frustum]
  unfold Render
  rw [hView]
  simp [Matrix44.Invert, hdet]

/-- C14, counterexample. In the frame of a 91 x 91 x 91 volume whose voxel at the
cell (90, 90, 90) is opaque, the splat pass draws a vertex whose position is
(90/100, 90/100, 90/100): the same as the clear value (0.9, 0.9, 0.9) the pass
leaves in the pixels no voxel was drawn to. -/
theorem clear_value_counterexample :
    ∃ cmds d0,
      Render Rat.sqrt sampleRenderer cornerState = some cmds
      ∧ (drawCalls sampleGLState cmds).head? = some d0
      ∧ (90 < cornerState.Scene.SizeX ∧ 90 < cornerState.Scene.SizeY
          ∧ 90 < cornerState.Scene.SizeZ)
      ∧ ∃ s ∈ d0.State.Vertices,
          s.Position = ⟨(90 : ℚ) / 100, (90 : ℚ) / 100, (90 : ℚ) / 100⟩
          ∧ s.Position = d0.State.ClearColour.xyz := by
  obtain ⟨cmds, h⟩ := Render_corner_isSome
  obtain ⟨MVP, VPI, rfl⟩ := Render_eq_some _ _ _ _ h
  obtain ⟨d0, hd0, hclear, hvert⟩ :=
    drawCalls_renderCommands_splat sampleRenderer cornerState MVP VPI sampleGLState
  refine ⟨_, d0, h, hd0, by decide, voxelRecord 90 90 90 (cornerScene.At 90 90 90), ?_, ?_, ?_⟩
  · rw [hvert, mem_buildMap]
    exact ⟨90, 90, 90, by decide, by decide, by decide, by decide, rfl⟩
  · simp [voxelRecord]
  · rw [hclear]
    simp only [voxelRecord, Vec4.xyz, Vec3.mk.injEq]
    norm_num

/-- C14, amended. In every frame the splat pass is issued with the clear colour
(0.9, 0.9, 0.9, 1).  Its first three components differ from the world position
`(x/100, y/100, z/100)` of every cell other than (90, 90, 90) and equal that of
the cell (90, 90, 90).  So no vertex of the pass has the clear value as its
position when the volume has a size of at most 90 along some axis, and one has
when the volume contains the cell (90, 90, 90) and its voxel is opaque. -/
theorem clear_value_sentinel {F : Type} [LinearOrderedField F] (sqrt : F → F) (r : Renderer F)
    (State : GameState F) (s0 : GLState F) (cmds : List (GLCommand F))
    (h : Render sqrt r State = some cmds) :
    ∃ d0, (drawCalls s0 cmds).head? = some d0
      ∧ d0.State.ClearColour.xyz = ⟨9 / 10, 9 / 10, 9 / 10⟩
      ∧ (∀ x y z : Nat,
          (⟨(x : F) / 100, (y : F) / 100, (z : F) / 100⟩ : Vec3 F) = d0.State.ClearColour.xyz
            ↔ x = 90 ∧ y = 90 ∧ z = 90)
      ∧ ((State.Scene.SizeX ≤ 90 ∨ State.Scene.SizeY ≤ 90 ∨ State.Scene.SizeZ ≤ 90) →
          ∀ s ∈ d0.State.Vertices, s.Position ≠ d0.State.ClearColour.xyz)
      ∧ (90 < State.Scene.SizeX → 90 < State.Scene.SizeY → 90 < State.Scene.SizeZ →
          (State.Scene.At 90 90 90).Alpha > 0 →
          ∃ s ∈ d0.State.Vertices, s.Position = d0.State.ClearColour.xyz) := by
  obtain ⟨MVP, VPI, rfl⟩ := Render_eq_some sqrt r State cmds h
  obtain ⟨d0, hd0, hclear, hvert⟩ := drawCalls_renderCommands_splat r State MVP VPI s0
  have hxyz : d0.State.ClearColour.xyz = ⟨9 / 10, 9 / 10, 9 / 10⟩ := by
    rw [hclear]; rfl
  refine ⟨d0, hd0, hxyz, ?_, ?_, ?_⟩
  · intro x y z
    rw [hxyz]
    exact position_eq_clear_iff x y z
  · intro hsize s hs heq
    rw [hvert, mem_buildMap] at hs
    obtain ⟨x, y, z, hx, hy, hz, -, rfl⟩ := hs
    rw [hxyz] at heq
    obtain ⟨rfl, rfl, rfl⟩ := (position_eq_clear_iff x y z).mp heq
    omega
  · intro hx hy hz hA
    refine ⟨voxelRecord 90 90 90 (State.Scene.At 90 90 90), ?_, ?_⟩
    · rw [hvert, mem_buildMap]
      exact ⟨90, 90, 90, hx, hy, hz, hA, rfl⟩
    · rw [hxyz]
      exact (position_eq_clear_iff 90 90 90).mpr ⟨rfl, rfl, rfl⟩

/-- Witness of C14 (amended): in the frame of the sample volume, of 2 x 1 x 1
cells, no vertex of the splat pass has the clear value as its position. -/
theorem clear_value_sentinel_witness :
    ∃ cmds d0, Render Rat.sqrt sampleRenderer sampleState = some cmds
      ∧ (drawCalls sampleGLState cmds).head? = some d0
      ∧ ∀ s ∈ d0.State.Vertices, s.Position ≠ d0.State.ClearColour.xyz :=
  Render_sample_isSome.elim fun cmds h =>
    (clear_value_sentinel Rat.sqrt sampleRenderer sampleState sampleGLState cmds h).elim
      fun d0 hd => ⟨cmds, d0, h, hd.1, hd.2.2.2.1 (Or.inl (by decide))⟩

/-! ### What the composite pass writes -/

theorem composite_EyePosition : EyePosition compositeUniforms = ⟨0, 0, -1⟩ :=
  sample_EyePosition

theorem composite_EyeVector :
    EyeVector Rat.sqrt compositeUniforms sampleVertexPosition = ⟨3 / 13, 4 / 13, 12 / 13⟩ :=
  sample_EyeVector

theorem edge_IntersectionDepths (t : Int) :
    IntersectionDepths edgeSamplers compositeUniforms (EyePosition compositeUniforms)
        (EyeVector Rat.sqrt compositeUniforms sampleVertexPosition)
        (DataCoordinate sampleVertexPosition) t
      = ⟨9999999, 11999998813 / 1200⟩ := by
  rw [composite_EyePosition, composite_EyeVector]
  norm_num [IntersectionDepths, RayBoxIntersect, glslMax, glslMin, Vec3.scalarDiv, Vec3.mul,
    Vec3.sub, Vec3.subScalar, Vec3.addScalar, Vec4.xyz, edgeSamplers, compositeUniforms]

theorem composite_near_IntersectionDepths (t : Int) :
    IntersectionDepths nearSamplers compositeUniforms (EyePosition compositeUniforms)
        (EyeVector Rat.sqrt compositeUniforms sampleVertexPosition)
        (DataCoordinate sampleVertexPosition) t
      = ⟨31187 / 2400, 31213 / 2400⟩ := by
  rw [composite_EyePosition, composite_EyeVector]
  norm_num [IntersectionDepths, RayBoxIntersect, glslMax, glslMin, Vec3.scalarDiv, Vec3.mul,
    Vec3.sub, Vec3.subScalar, Vec3.addScalar, Vec4.xyz, nearSamplers, compositeUniforms]

/-- The best depth ends below the initial one exactly when some tap hits at an
entry depth below the initial one. -/
theorem resolve_BestDepth_lt_iff {F : Type} [LinearOrderedField F] (sqrt : F → F)
    (S : Samplers F) (U : Uniforms F) (VertexPosition : Vec3 F) :
    (resolve sqrt S U VertexPosition).BestDepth < InitialBestDepth
      ↔ ∃ t ∈ Taps, fragmentTapHits sqrt S U VertexPosition t
          ∧ fragmentTapDepth sqrt S U VertexPosition t < InitialBestDepth := by
  have hspec := foldl_tapStep_spec S U (EyePosition U) (EyeVector sqrt U VertexPosition)
    (DataCoordinate VertexPosition) Taps KernelState.initial
  constructor
  · intro h
    rcases hspec.2.2 with h0 | ⟨k, hk, hhit, _, hrec⟩
    · have : (resolve sqrt S U VertexPosition).BestDepth = InitialBestDepth := by
        unfold resolve tapLoop
        rw [h0]
        rfl
      rw [this] at h
      exact absurd h (lt_irrefl _)
    · refine ⟨k, hk, hhit, ?_⟩
      have : (resolve sqrt S U VertexPosition).BestDepth
          = fragmentTapDepth sqrt S U VertexPosition k := by
        unfold resolve tapLoop
        rw [hrec]
        rfl
      rw [← this]
      exact h
  · rintro ⟨t, ht, hhit, hd⟩
    exact lt_of_le_of_lt (hspec.2.1 t ht hhit) hd

theorem main_of_last_hit {F : Type} [LinearOrderedField F] [FloorRing F] (sqrt sin : F → F)
    (S : Samplers F) (U : Uniforms F) (VertexPosition : Vec3 F) (hLast : U.LastRender = true)
    (hHit : (resolve sqrt S U VertexPosition).BestDepth < InitialBestDepth) :
    main sqrt sin S U VertexPosition
      = { FragmentPosition := compositeColour sin U (resolve sqrt S U VertexPosition)
          FramgmentNormal := none
          FramgmentColour := none } := by
  simp [main, hLast, hHit]

theorem main_of_last_miss {F : Type} [LinearOrderedField F] [FloorRing F] (sqrt sin : F → F)
    (S : Samplers F) (U : Uniforms F) (VertexPosition : Vec3 F)
    (hMiss : ¬ (resolve sqrt S U VertexPosition).BestDepth < InitialBestDepth) :
    main sqrt sin S U VertexPosition
      = { FragmentPosition := Vec4.ofVec3 (resolve sqrt S U VertexPosition).OutputPosition 0
          FramgmentNormal := some (Vec4.ofVec3 (resolve sqrt S U VertexPosition).OutputNormal 0)
          FramgmentColour := some (Vec4.ofVec3 (resolve sqrt S U VertexPosition).OutputColour 0) } := by
  simp [main, hMiss]

theorem edge_resolve :
    resolve Rat.sqrt edgeSamplers compositeUniforms sampleVertexPosition
      = ⟨9999999, ⟨29999997 / 13, 39999996 / 13, 23999995013 / 2600⟩, ⟨1, 0, 0⟩,
          ⟨1 / 3, 2 / 3, 2 / 3⟩⟩ := by
  have h : ∃ t ∈ Taps,
      tapHits edgeSamplers compositeUniforms (EyePosition compositeUniforms)
        (EyeVector Rat.sqrt compositeUniforms sampleVertexPosition)
        (DataCoordinate sampleVertexPosition) t
      ∧ (IntersectionDepths edgeSamplers compositeUniforms (EyePosition compositeUniforms)
          (EyeVector Rat.sqrt compositeUniforms sampleVertexPosition)
          (DataCoordinate sampleVertexPosition) t).x ≤ (KernelState.initial (F := ℚ)).BestDepth := by
    refine ⟨0, zero_mem_Taps, ?_, ?_⟩
    · unfold tapHits
      rw [edge_IntersectionDepths]
      norm_num
    · rw [edge_IntersectionDepths]
      norm_num [KernelState.initial, InitialBestDepth]
  obtain ⟨k, _, _, hrec⟩ := foldl_tapStep_of_candidate _ _ _ _ _ Taps KernelState.initial h
  have hres : resolve Rat.sqrt edgeSamplers compositeUniforms sampleVertexPosition
      = tapRecord edgeSamplers compositeUniforms (EyePosition compositeUniforms)
          (EyeVector Rat.sqrt compositeUniforms sampleVertexPosition)
          (DataCoordinate sampleVertexPosition) k := hrec
  rw [hres]
  simp only [tapRecord, edge_IntersectionDepths]
  rfl

/-- C17, counterexample. In a composite pass (`LastRender = true`) whose taps
all sample a voxel whose cube the ray enters at the depth 9999999 exactly, every
tap reports a hit and the best entry depth is 9999999, not below it: the colour
written has alpha 0, and it is the voxel's position, not (0, 0, 0, 0). -/
theorem main_composite_edge_counterexample :
    compositeUniforms.LastRender = true
    ∧ (∀ t ∈ Taps, fragmentTapHits Rat.sqrt edgeSamplers compositeUniforms sampleVertexPosition t)
    ∧ (resolve Rat.sqrt edgeSamplers compositeUniforms sampleVertexPosition).BestDepth = 9999999
    ∧ (main Rat.sqrt (fun _ => 0) edgeSamplers compositeUniforms
        sampleVertexPosition).FragmentPosition
        = ⟨29999997 / 13, 39999996 / 13, 23999995013 / 2600, 0⟩
    ∧ (main Rat.sqrt (fun _ => 0) edgeSamplers compositeUniforms
        sampleVertexPosition).FragmentPosition ≠ ⟨0, 0, 0, 0⟩ := by
  have hm : (main Rat.sqrt (fun _ => 0) edgeSamplers compositeUniforms
      sampleVertexPosition).FragmentPosition
      = ⟨29999997 / 13, 39999996 / 13, 23999995013 / 2600, 0⟩ := by
    rw [main_of_last_miss _ _ _ _ _ (by rw [edge_resolve]; norm_num [InitialBestDepth]),
      edge_resolve]
    rfl
  refine ⟨rfl, ?_, by rw [edge_resolve], hm, ?_⟩
  · intro t _
    show tapHits _ _ _ _ _ _
    unfold tapHits
    rw [edge_IntersectionDepths]
    norm_num
  · rw [hm]
    intro h
    have := congrArg Vec4.x h
    norm_num at this

/-- C17, amended. In the composite pass (`LastRender = true`) the colour
written for a pixel has alpha 1 exactly when the best entry depth is below the
initial 9999999, that is when some tap hit at an entry depth below 9999999; the
noise blend leaves that alpha at 1 whatever the noise value.  Otherwise the
colour has alpha 0 and its first three components are the output position of
the loop: it is (0, 0, 0, 0) when no tap hit at an entry depth of at most
9999999. -/
theorem main_composite_alpha {F : Type} [LinearOrderedField F] [FloorRing F] (sqrt sin : F → F)
    (S : Samplers F) (U : Uniforms F) (VertexPosition : Vec3 F) (hLast : U.LastRender = true) :
    ((main sqrt sin S U VertexPosition).FragmentPosition.w = 1
        ↔ (resolve sqrt S U VertexPosition).BestDepth < InitialBestDepth)
    ∧ ((resolve sqrt S U VertexPosition).BestDepth < InitialBestDepth
        ↔ ∃ t ∈ Taps, fragmentTapHits sqrt S U VertexPosition t
            ∧ fragmentTapDepth sqrt S U VertexPosition t < InitialBestDepth)
    ∧ (∀ State : KernelState F, (compositeColour sin U State).w = 1)
    ∧ (∀ n : F, mix n 1 1 = 1)
    ∧ (¬ (resolve sqrt S U VertexPosition).BestDepth < InitialBestDepth →
        (main sqrt sin S U VertexPosition).FragmentPosition
          = Vec4.ofVec3 (resolve sqrt S U VertexPosition).OutputPosition 0)
    ∧ ((∀ t ∈ Taps, fragmentTapHits sqrt S U VertexPosition t →
          InitialBestDepth < fragmentTapDepth sqrt S U VertexPosition t) →
        (main sqrt sin S U VertexPosition).FragmentPosition = ⟨0, 0, 0, 0⟩) := by
  have hmix : ∀ n : F, mix n 1 1 = 1 := by
    intro n
    simp [mix]
  have hw : ∀ State : KernelState F, (compositeColour sin U State).w = 1 := by
    intro State
    simp only [compositeColour]
    exact hmix _
  refine ⟨?_, resolve_BestDepth_lt_iff sqrt S U VertexPosition, hw, hmix, ?_, ?_⟩
  · constructor
    · intro h1
      by_contra hmiss
      rw [main_of_last_miss sqrt sin S U VertexPosition hmiss] at h1
      simp [Vec4.ofVec3] at h1
    · intro hhit
      rw [main_of_last_hit sqrt sin S U VertexPosition hLast hhit]
      exact hw _
  · intro hmiss
    rw [main_of_last_miss sqrt sin S U VertexPosition hmiss]
  · intro hfar
    have hres : resolve sqrt S U VertexPosition = KernelState.initial := by
      unfold resolve tapLoop
      exact foldl_tapStep_of_no_candidate S U (EyePosition U) (EyeVector sqrt U VertexPosition)
        (DataCoordinate VertexPosition) Taps KernelState.initial hfar
    rw [main_of_last_miss sqrt sin S U VertexPosition
      (by rw [hres]; exact lt_irrefl _), hres]
    simp [KernelState.initial, Vec4.ofVec3]

theorem composite_near_hit :
    (resolve Rat.sqrt nearSamplers compositeUniforms sampleVertexPosition).BestDepth
      < InitialBestDepth := by
  rw [resolve_BestDepth_lt_iff]
  refine ⟨0, zero_mem_Taps, ?_, ?_⟩
  · show tapHits _ _ _ _ _ _
    unfold tapHits
    rw [composite_near_IntersectionDepths]
    norm_num
  · show (IntersectionDepths _ _ _ _ _ _).x < _
    rw [composite_near_IntersectionDepths]
    norm_num [InitialBestDepth]

/-- Witness of C17 (amended): the near sample in a composite pass is written
with alpha 1. -/
theorem main_composite_alpha_witness :
    compositeUniforms.LastRender = true
    ∧ (main Rat.sqrt (fun _ => 0) nearSamplers compositeUniforms
        sampleVertexPosition).FragmentPosition.w = 1 :=
  ⟨rfl, (main_composite_alpha Rat.sqrt (fun _ => 0) nearSamplers compositeUniforms
    sampleVertexPosition rfl).1.mpr composite_near_hit⟩

/-- C18. On a composite hit (`LastRender = true` and a best entry depth below
9999999) with resolved position `P`, normal `N` and packed colour `C`, each of
the three colour channels written is
`0.9 * (0.5 * HemisphereLighting(N) + 0.5 * HSL2RGB(C)) + 0.1 * Noise((P + SceneOffset) * 100)`. -/
theorem main_composite_colour {F : Type} [LinearOrderedField F] [FloorRing F]
    (sqrt sin : F → F) (S : Samplers F) (U : Uniforms F) (VertexPosition : Vec3 F)
    (hLast : U.LastRender = true)
    (hHit : (resolve sqrt S U VertexPosition).BestDepth < InitialBestDepth) :
    (main sqrt sin S U VertexPosition).FragmentPosition.x
        = 9 / 10 * (1 / 2 * (HemisphereLighting (resolve sqrt S U VertexPosition).OutputNormal).x
            + 1 / 2 * (HSL2RGB (resolve sqrt S U VertexPosition).OutputColour).x)
          + 1 / 10 * Noise sin
              ⟨((resolve sqrt S U VertexPosition).OutputPosition.x + U.SceneOffset.x) * 100,
               ((resolve sqrt S U VertexPosition).OutputPosition.y + U.SceneOffset.y) * 100,
               ((resolve sqrt S U VertexPosition).OutputPosition.z + U.SceneOffset.z) * 100⟩
    ∧ (main sqrt sin S U VertexPosition).FragmentPosition.y
        = 9 / 10 * (1 / 2 * (HemisphereLighting (resolve sqrt S U VertexPosition).OutputNormal).y
            + 1 / 2 * (HSL2RGB (resolve sqrt S U VertexPosition).OutputColour).y)
          + 1 / 10 * Noise sin
              ⟨((resolve sqrt S U VertexPosition).OutputPosition.x + U.SceneOffset.x) * 100,
               ((resolve sqrt S U VertexPosition).OutputPosition.y + U.SceneOffset.y) * 100,
               ((resolve sqrt S U VertexPosition).OutputPosition.z + U.SceneOffset.z) * 100⟩
    ∧ (main sqrt sin S U VertexPosition).FragmentPosition.z
        = 9 / 10 * (1 / 2 * (HemisphereLighting (resolve sqrt S U VertexPosition).OutputNormal).z
            + 1 / 2 * (HSL2RGB (resolve sqrt S U VertexPosition).OutputColour).z)
          + 1 / 10 * Noise sin
              ⟨((resolve sqrt S U VertexPosition).OutputPosition.x + U.SceneOffset.x) * 100,
               ((resolve sqrt S U VertexPosition).OutputPosition.y + U.SceneOffset.y) * 100,
               ((resolve sqrt S U VertexPosition).OutputPosition.z + U.SceneOffset.z) * 100⟩ := by
  rw [main_of_last_hit sqrt sin S U VertexPosition hLast hHit]
  simp only [compositeColour, mix]
  refine ⟨?_, ?_, ?_⟩ <;> ring

/-- Witness of C18: the near sample in a composite pass, with the sine replaced
by the zero function (so the noise is 0): the red channel written is
`0.9 * (0.5 * HemisphereLighting((1,0,0)).x + 0.5 * HSL2RGB((1/3,2/3,2/3)).x)`. -/
theorem main_composite_colour_witness :
    compositeUniforms.LastRender = true
    ∧ (resolve Rat.sqrt nearSamplers compositeUniforms sampleVertexPosition).BestDepth
        < InitialBestDepth
    ∧ (main Rat.sqrt (fun _ => 0) nearSamplers compositeUniforms
        sampleVertexPosition).FragmentPosition.x
        = 9 / 10 * (1 / 2 * (HemisphereLighting (resolve Rat.sqrt nearSamplers compositeUniforms
              sampleVertexPosition).OutputNormal).x
            + 1 / 2 * (HSL2RGB (resolve Rat.sqrt nearSamplers compositeUniforms
              sampleVertexPosition).OutputColour).x)
          + 1 / 10 * Noise (fun _ => 0)
              ⟨((resolve Rat.sqrt nearSamplers compositeUniforms
                  sampleVertexPosition).OutputPosition.x + compositeUniforms.SceneOffset.x) * 100,
               ((resolve Rat.sqrt nearSamplers compositeUniforms
                  sampleVertexPosition).OutputPosition.y + compositeUniforms.SceneOffset.y) * 100,
               ((resolve Rat.sqrt nearSamplers compositeUniforms
                  sampleVertexPosition).OutputPosition.z + compositeUniforms.SceneOffset.z) * 100⟩ :=
  ⟨rfl, composite_near_hit,
    (main_composite_colour Rat.sqrt (fun _ => 0) nearSamplers compositeUniforms
      sampleVertexPosition rfl composite_near_hit).1⟩

/-! ### The colour conversion -/

theorem glslAbs_eq_abs {F : Type} [LinearOrderedField F] (x : F) : glslAbs x = |x| := by
  unfold glslAbs
  split_ifs with h
  · exact (abs_of_neg h).symm
  · exact (abs_of_nonneg (not_lt.mp h)).symm

theorem glslMod_six_low {F : Type} [LinearOrderedField F] [FloorRing F] (x : F)
    (h0 : 0 ≤ x) (h1 : x < 6) : glslMod x 6 = x := by
  have hf : ⌊x / 6⌋ = 0 := by
    rw [Int.floor_eq_iff]
    constructor
    · simp only [Int.cast_zero]; positivity
    · simp only [Int.cast_zero, zero_add]
      rw [div_lt_one (by norm_num)]
      exact h1
  simp [glslMod, glslFloor, hf]

theorem glslMod_six_high {F : Type} [LinearOrderedField F] [FloorRing F] (x : F)
    (h0 : 6 ≤ x) (h1 : x < 12) : glslMod x 6 = x - 6 := by
  have hf : ⌊x / 6⌋ = 1 := by
    rw [Int.floor_eq_iff]
    constructor
    · simp only [Int.cast_one]
      rw [le_div_iff₀ (by norm_num)]
      linarith
    · simp only [Int.cast_one]
      rw [div_lt_iff₀ (by norm_num)]
      linarith
  simp [glslMod, glslFloor, hf]

/-- The ramp the shader takes of a reduced hue `y` in `[0, 6)`. -/
theorem clamp_ramp {F : Type} [LinearOrderedField F] (y : F) :
    clamp (glslAbs (y - 3) - 1) 0 1
      = if y ≤ 1 then 1 else if y ≤ 2 then 2 - y else if y ≤ 4 then 0
        else if y ≤ 5 then y - 4 else 1 := by
  unfold clamp glslMin glslMax glslAbs
  split_ifs <;> linarith

theorem HSL2RGB_ramp_red {F : Type} [LinearOrderedField F] [FloorRing F] (H : F)
    (hH0 : 0 ≤ H) (hH1 : H ≤ 6) :
    clamp (glslAbs (glslMod (H + 0) 6 - 3) - 1) 0 1 = (standardHueRamp H).x := by
  rw [add_zero]
  rcases lt_or_eq_of_le hH1 with hlt | heq
  · rw [glslMod_six_low H hH0 hlt, clamp_ramp]
    rfl
  · rw [heq, glslMod_six_high 6 le_rfl (by norm_num), clamp_ramp]
    norm_num [standardHueRamp]

theorem HSL2RGB_ramp_green_low {F : Type} [LinearOrderedField F] [FloorRing F] (H : F)
    (hH0 : 0 ≤ H) (hlt : H < 2) :
    clamp (glslAbs (glslMod (H + 4) 6 - 3) - 1) 0 1 = (standardHueRamp H).y := by
  rw [glslMod_six_low (H + 4) (by linarith) (by linarith), clamp_ramp]
  simp only [standardHueRamp]
  split_ifs <;> linarith

theorem HSL2RGB_ramp_green_high {F : Type} [LinearOrderedField F] [FloorRing F] (H : F)
    (hge : 2 ≤ H) (hH1 : H ≤ 6) :
    clamp (glslAbs (glslMod (H + 4) 6 - 3) - 1) 0 1 = (standardHueRamp H).y := by
  rw [glslMod_six_high (H + 4) (by linarith) (by linarith), clamp_ramp]
  simp only [standardHueRamp]
  split_ifs <;> linarith

theorem HSL2RGB_ramp_blue_low {F : Type} [LinearOrderedField F] [FloorRing F] (H : F)
    (hH0 : 0 ≤ H) (hlt : H < 4) :
    clamp (glslAbs (glslMod (H + 2) 6 - 3) - 1) 0 1 = (standardHueRamp H).z := by
  rw [glslMod_six_low (H + 2) (by linarith) (by linarith), clamp_ramp]
  simp only [standardHueRamp]
  split_ifs <;> linarith

theorem HSL2RGB_ramp_blue_high {F : Type} [LinearOrderedField F] [FloorRing F] (H : F)
    (hge : 4 ≤ H) (hH1 : H ≤ 6) :
    clamp (glslAbs (glslMod (H + 2) 6 - 3) - 1) 0 1 = (standardHueRamp H).z := by
  rw [glslMod_six_high (H + 2) (by linarith) (by linarith), clamp_ramp]
  simp only [standardHueRamp]
  split_ifs <;> linarith

/-- The three ramps the shader computes are the standard hue ramps. -/
theorem HSL2RGB_ramp {F : Type} [LinearOrderedField F] [FloorRing F] (H : F)
    (hH0 : 0 ≤ H) (hH1 : H ≤ 6) :
    clamp (glslAbs (glslMod (H + 0) 6 - 3) - 1) 0 1 = (standardHueRamp H).x
    ∧ clamp (glslAbs (glslMod (H + 4) 6 - 3) - 1) 0 1 = (standardHueRamp H).y
    ∧ clamp (glslAbs (glslMod (H + 2) 6 - 3) - 1) 0 1 = (standardHueRamp H).z := by
  refine ⟨HSL2RGB_ramp_red H hH0 hH1, ?_, ?_⟩
  · rcases lt_or_le H 2 with hlt | hge
    · exact HSL2RGB_ramp_green_low H hH0 hlt
    · exact HSL2RGB_ramp_green_high H hge hH1
  · rcases lt_or_le H 4 with hlt | hge
    · exact HSL2RGB_ramp_blue_low H hH0 hlt
    · exact HSL2RGB_ramp_blue_high H hge hH1

theorem standardHueRamp_bounds {F : Type} [LinearOrderedField F] (H : F) (h0 : 0 ≤ H)
    (h1 : H ≤ 6) :
    (0 ≤ (standardHueRamp H).x ∧ (standardHueRamp H).x ≤ 1)
    ∧ (0 ≤ (standardHueRamp H).y ∧ (standardHueRamp H).y ≤ 1)
    ∧ (0 ≤ (standardHueRamp H).z ∧ (standardHueRamp H).z ≤ 1) := by
  simp only [standardHueRamp]
  refine ⟨⟨?_, ?_⟩, ⟨?_, ?_⟩, ⟨?_, ?_⟩⟩ <;> split_ifs <;> linarith

theorem chroma_bounds {F : Type} [LinearOrderedField F] (S L : F) (hS0 : 0 ≤ S) (hS1 : S ≤ 1)
    (hL0 : 0 ≤ L) (hL1 : L ≤ 1) :
    0 ≤ (1 - |2 * L - 1|) * S ∧ (1 - |2 * L - 1|) * S ≤ 2 * L
      ∧ (1 - |2 * L - 1|) * S ≤ 2 - 2 * L := by
  have ha : 0 ≤ 1 - |2 * L - 1| := by
    have : |2 * L - 1| ≤ 1 := abs_le.mpr ⟨by linarith, by linarith⟩
    linarith
  have hle : (1 - |2 * L - 1|) * S ≤ 1 - |2 * L - 1| := by
    calc (1 - |2 * L - 1|) * S ≤ (1 - |2 * L - 1|) * 1 := mul_le_mul_of_nonneg_left hS1 ha
      _ = 1 - |2 * L - 1| := mul_one _
  have h1 := le_abs_self (2 * L - 1)
  have h2 := neg_abs_le (2 * L - 1)
  exact ⟨mul_nonneg ha hS0, by linarith, by linarith⟩

/-- C19. For every hue `h`, saturation `S` and lightness `L` in `[0, 1]`,
`HSL2RGB(h, S, L)` is the standard conversion: with the chroma
`C = (1 - |2L - 1|) * S` and `m = L - C / 2`, each channel is `m + C * k` for the
standard hue ramp `k` of the channel, which lies in `[0, 1]`; each channel lies
in `[0, 1]`, and for `S = 0` the result is the grey `(L, L, L)`. -/
theorem HSL2RGB_standard {F : Type} [LinearOrderedField F] [FloorRing F] (h S L : F)
    (hh0 : 0 ≤ h) (hh1 : h ≤ 1) (hS0 : 0 ≤ S) (hS1 : S ≤ 1) (hL0 : 0 ≤ L) (hL1 : L ≤ 1) :
    HSL2RGB ⟨h, S, L⟩ = standardHSL2RGB ⟨h, S, L⟩
    ∧ HSL2RGB ⟨h, S, L⟩
        = ⟨L - (1 - |2 * L - 1|) * S / 2 + (1 - |2 * L - 1|) * S * (standardHueRamp (h * 6)).x,
           L - (1 - |2 * L - 1|) * S / 2 + (1 - |2 * L - 1|) * S * (standardHueRamp (h * 6)).y,
           L - (1 - |2 * L - 1|) * S / 2 + (1 - |2 * L - 1|) * S * (standardHueRamp (h * 6)).z⟩
    ∧ ((0 ≤ (standardHueRamp (h * 6)).x ∧ (standardHueRamp (h * 6)).x ≤ 1)
        ∧ (0 ≤ (standardHueRamp (h * 6)).y ∧ (standardHueRamp (h * 6)).y ≤ 1)
        ∧ (0 ≤ (standardHueRamp (h * 6)).z ∧ (standardHueRamp (h * 6)).z ≤ 1))
    ∧ ((0 ≤ (HSL2RGB ⟨h, S, L⟩).x ∧ (HSL2RGB ⟨h, S, L⟩).x ≤ 1)
        ∧ (0 ≤ (HSL2RGB ⟨h, S, L⟩).y ∧ (HSL2RGB ⟨h, S, L⟩).y ≤ 1)
        ∧ (0 ≤ (HSL2RGB ⟨h, S, L⟩).z ∧ (HSL2RGB ⟨h, S, L⟩).z ≤ 1))
    ∧ (S = 0 → HSL2RGB ⟨h, S, L⟩ = ⟨L, L, L⟩) := by
  have hH0 : 0 ≤ h * 6 := by positivity
  have hH1 : h * 6 ≤ 6 := by linarith
  obtain ⟨hr, hg, hb⟩ := HSL2RGB_ramp (h * 6) hH0 hH1
  have hexp : HSL2RGB ⟨h, S, L⟩
      = ⟨L - (1 - |2 * L - 1|) * S / 2 + (1 - |2 * L - 1|) * S * (standardHueRamp (h * 6)).x,
         L - (1 - |2 * L - 1|) * S / 2 + (1 - |2 * L - 1|) * S * (standardHueRamp (h * 6)).y,
         L - (1 - |2 * L - 1|) * S / 2 + (1 - |2 * L - 1|) * S * (standardHueRamp (h * 6)).z⟩ := by
    simp only [HSL2RGB]
    rw [hr, hg, hb]
    simp only [glslAbs_eq_abs, Vec3.mk.injEq]
    refine ⟨?_, ?_, ?_⟩ <;> ring
  have hk := standardHueRamp_bounds (h * 6) hH0 hH1
  obtain ⟨hC0, hC1, hC2⟩ := chroma_bounds S L hS0 hS1 hL0 hL1
  have hchan : ∀ k : F, 0 ≤ k → k ≤ 1 →
      0 ≤ L - (1 - |2 * L - 1|) * S / 2 + (1 - |2 * L - 1|) * S * k
      ∧ L - (1 - |2 * L - 1|) * S / 2 + (1 - |2 * L - 1|) * S * k ≤ 1 := by
    intro k hk0 hk1
    have h1 : 0 ≤ (1 - |2 * L - 1|) * S * k := mul_nonneg hC0 hk0
    have h2 : (1 - |2 * L - 1|) * S * k ≤ (1 - |2 * L - 1|) * S := by
      calc (1 - |2 * L - 1|) * S * k ≤ (1 - |2 * L - 1|) * S * 1 :=
            mul_le_mul_of_nonneg_left hk1 hC0
        _ = (1 - |2 * L - 1|) * S := mul_one _
    constructor <;> linarith
  refine ⟨?_, hexp, hk, ?_, ?_⟩
  · rw [hexp]
    rfl
  · rw [hexp]
    exact ⟨hchan _ hk.1.1 hk.1.2, hchan _ hk.2.1.1 hk.2.1.2, hchan _ hk.2.2.1 hk.2.2.2⟩
  · intro hS
    rw [hexp, hS]
    simp

/-- Witness of C19: full saturation at lightness 1/2 gives pure red, green and
blue for the hues 0, 1/3 and 2/3. -/
theorem HSL2RGB_standard_witness :
    HSL2RGB (F := ℚ) ⟨0, 1, 1 / 2⟩ = ⟨1, 0, 0⟩
    ∧ HSL2RGB (F := ℚ) ⟨1 / 3, 1, 1 / 2⟩ = ⟨0, 1, 0⟩
    ∧ HSL2RGB (F := ℚ) ⟨2 / 3, 1, 1 / 2⟩ = ⟨0, 0, 1⟩ := by
  refine ⟨?_, ?_, ?_⟩
  · rw [(HSL2RGB_standard (F := ℚ) 0 1 (1 / 2) (by norm_num) (by norm_num) (by norm_num)
      (by norm_num) (by norm_num) (by norm_num)).1]
    norm_num [standardHSL2RGB, standardHueRamp]
  · rw [(HSL2RGB_standard (F := ℚ) (1 / 3) 1 (1 / 2) (by norm_num) (by norm_num) (by norm_num)
      (by norm_num) (by norm_num) (by norm_num)).1]
    norm_num [standardHSL2RGB, standardHueRamp]
  · rw [(HSL2RGB_standard (F := ℚ) (2 / 3) 1 (1 / 2) (by norm_num) (by norm_num) (by norm_num)
      (by norm_num) (by norm_num) (by norm_num)).1]
    norm_num [standardHSL2RGB, standardHueRamp]

/-! ### Normalise -/

theorem Real_sqrt_169 : Real.sqrt (3 * 3 + 4 * 4 + 12 * 12) = 13 := by
  rw [show (3 * 3 + 4 * 4 + 12 * 12 : ℝ) = 13 ^ 2 by norm_num]
  exact Real.sqrt_sq (by norm_num)

/-- C20. For every vector `v` with real components other than the zero vector,
`Normalise(v)` passes its assertion and returns a vector of Euclidean length 1
that is a positive multiple of `v`: its cross product with `v` is the zero
vector and its dot product with `v` is positive. -/
theorem Normalise_unit_parallel (v : Vector3 ℝ) (hv : v ≠ ⟨0, 0, 0⟩) :
    ∃ n, Vector3.Normalise Real.sqrt v = some n
      ∧ Real.sqrt (n.x * n.x + n.y * n.y + n.z * n.z) = 1
      ∧ Vector3.Cross n v = ⟨0, 0, 0⟩
      ∧ 0 < Vec3.dot n v
      ∧ ∃ c : ℝ, 0 < c ∧ n = ⟨c * v.x, c * v.y, c * v.z⟩ := by
  obtain ⟨x, y, z⟩ := v
  have hpos : 0 < x * x + y * y + z * z := by
    have hnn : 0 ≤ x * x + y * y + z * z := by
      nlinarith [mul_self_nonneg x, mul_self_nonneg y, mul_self_nonneg z]
    rcases lt_or_eq_of_le hnn with h | h
    · exact h
    · exfalso
      apply hv
      have hx : x = 0 := by nlinarith [mul_self_nonneg x, mul_self_nonneg y, mul_self_nonneg z]
      have hy : y = 0 := by nlinarith [mul_self_nonneg x, mul_self_nonneg y, mul_self_nonneg z]
      have hz : z = 0 := by nlinarith [mul_self_nonneg x, mul_self_nonneg y, mul_self_nonneg z]
      rw [hx, hy, hz]
  set D := Real.sqrt (x * x + y * y + z * z) with hD
  have hDpos : 0 < D := Real.sqrt_pos.mpr hpos
  have hD0 : D ≠ 0 := hDpos.ne'
  have hDD : D * D = x * x + y * y + z * z := Real.mul_self_sqrt hpos.le
  refine ⟨⟨x / D, y / D, z / D⟩, ?_, ?_, ?_, ?_, 1 / D, by positivity, ?_⟩
  · simp only [Vector3.Normalise]
    rw [if_neg hD0]
  · have e : x / D * (x / D) + y / D * (y / D) + z / D * (z / D) = 1 := by
      field_simp
      linarith
    simp only [e, Real.sqrt_one]
  · simp only [Vector3.Cross, Vec3.mk.injEq]
    refine ⟨?_, ?_, ?_⟩ <;> field_simp <;> ring
  · simp only [Vec3.dot]
    have e : x / D * x + y / D * y + z / D * z = D := by
      field_simp
      linarith
    rw [e]
    exact hDpos
  · simp only [Vec3.mk.injEq]
    refine ⟨?_, ?_, ?_⟩ <;> field_simp

/-- Witness of C20: `Normalise((3, 4, 12)) = (3/13, 4/13, 12/13)`. -/
theorem Normalise_unit_parallel_witness :
    (⟨3, 4, 12⟩ : Vector3 ℝ) ≠ ⟨0, 0, 0⟩
    ∧ Vector3.Normalise Real.sqrt ⟨3, 4, 12⟩ = some ⟨3 / 13, 4 / 13, 12 / 13⟩
    ∧ ∃ n, Vector3.Normalise Real.sqrt ⟨3, 4, 12⟩ = some n
        ∧ Real.sqrt (n.x * n.x + n.y * n.y + n.z * n.z) = 1 :=
  have hv : (⟨3, 4, 12⟩ : Vector3 ℝ) ≠ ⟨0, 0, 0⟩ := by
    intro h
    have := congrArg Vec3.x h
    norm_num at this
  ⟨hv, by simp [Vector3.Normalise, Real_sqrt_169],
    (Normalise_unit_parallel ⟨3, 4, 12⟩ hv).elim fun n hn => ⟨n, hn.1, hn.2.1⟩⟩

/-! ### Positions through the kernel passes -/

theorem mem_Taps (t : Int) (h0 : -16 ≤ t) (h1 : t ≤ 16) : t ∈ Taps := by
  interval_cases t <;> decide

theorem tap_position_x {F : Type} [LinearOrderedField F] [FloorRing F] (r : Renderer F)
    (hW : 0 < r.ScreenWidth) (hH : 0 < r.ScreenHeight) (d : DrawCall F) (mem : TextureMemory F)
    (set : TextureName × TextureName × TextureName)
    (hdir : d.State.Uniforms.EvaluationDirection = ⟨1, 0⟩)
    (hpix : d.State.Uniforms.PixelDimensions = pixelDimensions r)
    (hset : d.sampled = (some set.1, some set.2.1, some set.2.2))
    (i j : Int) (hv : inViewport r i j) (t : Int) :
    fragmentTapPosition (d.samplers r mem) d.State.Uniforms
        (FragmentVertexPosition r.ScreenWidth r.ScreenHeight i j) t
      = (mem set.1 (clampToEdge (i + t) r.ScreenWidth) j).xyz := by
  have h0 : d.State.TextureUnits 0 = some set.1 := congrArg Prod.fst hset
  obtain ⟨hi0, hi1, hj0, hj1⟩ := hv
  simp only [fragmentTapPosition, DrawCall.samplers, h0, boundImage,
    texture_tap_x r hW hH _ _ hdir hpix i j hj0 hj1]

theorem tap_position_y {F : Type} [LinearOrderedField F] [FloorRing F] (r : Renderer F)
    (hW : 0 < r.ScreenWidth) (hH : 0 < r.ScreenHeight) (d : DrawCall F) (mem : TextureMemory F)
    (set : TextureName × TextureName × TextureName)
    (hdir : d.State.Uniforms.EvaluationDirection = ⟨0, 1⟩)
    (hpix : d.State.Uniforms.PixelDimensions = pixelDimensions r)
    (hset : d.sampled = (some set.1, some set.2.1, some set.2.2))
    (i j : Int) (hv : inViewport r i j) (t : Int) :
    fragmentTapPosition (d.samplers r mem) d.State.Uniforms
        (FragmentVertexPosition r.ScreenWidth r.ScreenHeight i j) t
      = (mem set.1 i (clampToEdge (j + t) r.ScreenHeight)).xyz := by
  have h0 : d.State.TextureUnits 0 = some set.1 := congrArg Prod.fst hset
  obtain ⟨hi0, hi1, hj0, hj1⟩ := hv
  simp only [fragmentTapPosition, DrawCall.samplers, h0, boundImage,
    texture_tap_y r hW hH _ _ hdir hpix i j hi0 hi1]

/-- A kernel pass over taps whose positions all lie in a set of positions the
ray misses resolves nothing. -/
theorem fragmentResolve_of_missed {F : Type} [LinearOrderedField F] [FloorRing F]
    (Q : Vec3 F → Prop) (sqrt : F → F) (r : Renderer F) (d : DrawCall F)
    (mem : TextureMemory F) (i j : Int)
    (hs : ∀ t ∈ Taps, Q (fragmentTapPosition (d.samplers r mem) d.State.Uniforms
      (FragmentVertexPosition r.ScreenWidth r.ScreenHeight i j) t))
    (hmiss : ∀ p, Q p → fragmentRayMisses sqrt r d.State.Uniforms i j p) :
    fragmentResolve sqrt r d mem i j = KernelState.initial := by
  unfold fragmentResolve resolve tapLoop
  apply foldl_tapStep_of_no_candidate
  intro t ht hhit
  exact absurd hhit (hmiss _ (hs t ht))

/-- If some tap of a fragment holds a position whose cube its ray hits at an
entry depth of at most `D`, itself at most the initial best depth, the loop ends
with a best depth of at most `D` and a position whose cube the ray hits at that
best depth. -/
theorem fragmentResolve_hit {F : Type} [LinearOrderedField F] [FloorRing F]
    (sqrt : F → F) (r : Renderer F) (d : DrawCall F) (mem : TextureMemory F) (i j : Int)
    (t : Int) (ht : t ∈ Taps) (D : F) (hD : D ≤ InitialBestDepth)
    (hhit : fragmentRayHits sqrt r d.State.Uniforms i j
      (fragmentTapPosition (d.samplers r mem) d.State.Uniforms
        (FragmentVertexPosition r.ScreenWidth r.ScreenHeight i j) t) D) :
    (fragmentResolve sqrt r d mem i j).BestDepth ≤ D
    ∧ fragmentRayHits sqrt r d.State.Uniforms i j
        (fragmentResolve sqrt r d mem i j).OutputPosition D := by
  have hspec := foldl_tapStep_spec (d.samplers r mem) d.State.Uniforms
    (EyePosition d.State.Uniforms)
    (EyeVector sqrt d.State.Uniforms (FragmentVertexPosition r.ScreenWidth r.ScreenHeight i j))
    (DataCoordinate (FragmentVertexPosition r.ScreenWidth r.ScreenHeight i j)) Taps
    KernelState.initial
  have hcand := foldl_tapStep_of_candidate (d.samplers r mem) d.State.Uniforms
    (EyePosition d.State.Uniforms)
    (EyeVector sqrt d.State.Uniforms (FragmentVertexPosition r.ScreenWidth r.ScreenHeight i j))
    (DataCoordinate (FragmentVertexPosition r.ScreenWidth r.ScreenHeight i j)) Taps
    KernelState.initial ⟨t, ht, hhit.1, le_trans hhit.2 hD⟩
  obtain ⟨k, hk, hkhit, hrec⟩ := hcand
  have hle := le_trans (hspec.2.1 t ht hhit.1) hhit.2
  have hres : fragmentResolve sqrt r d mem i j
      = tapRecord (d.samplers r mem) d.State.Uniforms (EyePosition d.State.Uniforms)
          (EyeVector sqrt d.State.Uniforms
            (FragmentVertexPosition r.ScreenWidth r.ScreenHeight i j))
          (DataCoordinate (FragmentVertexPosition r.ScreenWidth r.ScreenHeight i j)) k := hrec
  have hle' : (fragmentResolve sqrt r d mem i j).BestDepth ≤ D := hle
  refine ⟨hle', ?_⟩
  rw [hres] at hle' ⊢
  exact ⟨hkhit, hle'⟩

/-- The position a spread pass writes at a pixel is the zero vector or the
position the source textures hold at some pixel of the viewport. -/
theorem pass_positions {F : Type} [LinearOrderedField F] [FloorRing F] (Q : Vec3 F → Prop)
    (hQ0 : Q ⟨0, 0, 0⟩) (sqrt sin : F → F) (r : Renderer F) (hW : 0 < r.ScreenWidth)
    (hH : 0 < r.ScreenHeight) (d : DrawCall F) (mem : TextureMemory F)
    (src dst : TextureName × TextureName × TextureName)
    (hp : d.State.CurrentProgram = Program.ShaderProgram2)
    (hm : d.Mode = PrimitiveMode.TRIANGLES) (hl : d.State.Uniforms.LastRender = false)
    (hfb : (d.State.DrawFramebuffer = FrameBuffer.FrameBuffer1
        ∧ dst = (TextureName.TexturePosition1, TextureName.TextureNormal1,
            TextureName.TextureColour1))
      ∨ (d.State.DrawFramebuffer = FrameBuffer.FrameBuffer2
        ∧ dst = (TextureName.TexturePosition2, TextureName.TextureNormal2,
            TextureName.TextureColour2)))
    (hdir : d.State.Uniforms.EvaluationDirection = ⟨1, 0⟩
      ∨ d.State.Uniforms.EvaluationDirection = ⟨0, 1⟩)
    (hpix : d.State.Uniforms.PixelDimensions = pixelDimensions r)
    (hset : d.sampled = (some src.1, some src.2.1, some src.2.2))
    (hsrc : ∀ i j, inViewport r i j → Q (mem src.1 i j).xyz)
    (i j : Int) (hv : inViewport r i j) :
    Q ((execDraw sqrt sin r mem d) dst.1 i j).xyz := by
  have hdata := execDraw_data sqrt sin r mem d hp hm hl dst hfb i j hv
  have hpos : ((execDraw sqrt sin r mem d) dst.1 i j).xyz
      = (fragmentResolve sqrt r d mem i j).OutputPosition := congrArg Prod.fst hdata
  rw [hpos]
  have hcar : ∃ nx ny : Int, Carried r (texelData mem src) nx ny i j
      (fragmentResolve sqrt r d mem i j).data := by
    rcases hdir with hdir | hdir
    · exact ⟨16, 0, resolve_data_x sqrt r hW hH d mem src hdir hpix hset i j hv⟩
    · exact ⟨0, 16, resolve_data_y sqrt r hW hH d mem src hdir hpix hset i j hv⟩
  obtain ⟨nx, ny, h | ⟨i', j', hv', -, -, h⟩⟩ := hcar
  · have : (fragmentResolve sqrt r d mem i j).OutputPosition = ⟨0, 0, 0⟩ :=
      congrArg Prod.fst h
    rw [this]
    exact hQ0
  · have : (fragmentResolve sqrt r d mem i j).OutputPosition = (mem src.1 i' j').xyz :=
      congrArg Prod.fst h
    rw [this]
    exact hsrc i' j' hv'

/-- A spread pass along the rows: if the source holds, at most 16 columns from a
pixel, a position whose cube the pixel's ray hits at an entry depth of at most
`D`, the pass writes at the pixel a position with the same property. -/
theorem pass_hit_x {F : Type} [LinearOrderedField F] [FloorRing F]
    (sqrt sin : F → F) (r : Renderer F) (hW : 0 < r.ScreenWidth)
    (hH : 0 < r.ScreenHeight) (d : DrawCall F) (mem : TextureMemory F)
    (src dst : TextureName × TextureName × TextureName)
    (hp : d.State.CurrentProgram = Program.ShaderProgram2)
    (hm : d.Mode = PrimitiveMode.TRIANGLES) (hl : d.State.Uniforms.LastRender = false)
    (hfb : (d.State.DrawFramebuffer = FrameBuffer.FrameBuffer1
        ∧ dst = (TextureName.TexturePosition1, TextureName.TextureNormal1,
            TextureName.TextureColour1))
      ∨ (d.State.DrawFramebuffer = FrameBuffer.FrameBuffer2
        ∧ dst = (TextureName.TexturePosition2, TextureName.TextureNormal2,
            TextureName.TextureColour2)))
    (hdir : d.State.Uniforms.EvaluationDirection = ⟨1, 0⟩)
    (hpix : d.State.Uniforms.PixelDimensions = pixelDimensions r)
    (hset : d.sampled = (some src.1, some src.2.1, some src.2.2))
    (i j : Int) (hv : inViewport r i j) (i0 : Int) (hv0 : inViewport r i0 j)
    (hnear : |i0 - i| ≤ 16) (D : F) (hD : D ≤ InitialBestDepth)
    (hhit : fragmentRayHits sqrt r d.State.Uniforms i j (mem src.1 i0 j).xyz D) :
    fragmentRayHits sqrt r d.State.Uniforms i j
      ((execDraw sqrt sin r mem d) dst.1 i j).xyz D := by
  have hdata := execDraw_data sqrt sin r mem d hp hm hl dst hfb i j hv
  have hpos : ((execDraw sqrt sin r mem d) dst.1 i j).xyz
      = (fragmentResolve sqrt r d mem i j).OutputPosition := congrArg Prod.fst hdata
  rw [hpos]
  rw [abs_le] at hnear
  have ht : i0 - i ∈ Taps := mem_Taps _ (by omega) (by omega)
  refine (fragmentResolve_hit sqrt r d mem i j (i0 - i) ht D hD ?_).2
  rw [tap_position_x r hW hH d mem src hdir hpix hset i j hv, show i + (i0 - i) = i0 by ring,
    clampToEdge_of_mem i0 _ hv0.1 hv0.2.1]
  exact hhit

/-- A spread pass along the columns that finds at a pixel a position whose cube
the pixel's ray hits at an entry depth of at most `D` writes at the pixel a
position with the same property. -/
theorem pass_hit_y {F : Type} [LinearOrderedField F] [FloorRing F]
    (sqrt sin : F → F) (r : Renderer F) (hW : 0 < r.ScreenWidth)
    (hH : 0 < r.ScreenHeight) (d : DrawCall F) (mem : TextureMemory F)
    (src dst : TextureName × TextureName × TextureName)
    (hp : d.State.CurrentProgram = Program.ShaderProgram2)
    (hm : d.Mode = PrimitiveMode.TRIANGLES) (hl : d.State.Uniforms.LastRender = false)
    (hfb : (d.State.DrawFramebuffer = FrameBuffer.FrameBuffer1
        ∧ dst = (TextureName.TexturePosition1, TextureName.TextureNormal1,
            TextureName.TextureColour1))
      ∨ (d.State.DrawFramebuffer = FrameBuffer.FrameBuffer2
        ∧ dst = (TextureName.TexturePosition2, TextureName.TextureNormal2,
            TextureName.TextureColour2)))
    (hdir : d.State.Uniforms.EvaluationDirection = ⟨0, 1⟩)
    (hpix : d.State.Uniforms.PixelDimensions = pixelDimensions r)
    (hset : d.sampled = (some src.1, some src.2.1, some src.2.2))
    (i j : Int) (hv : inViewport r i j) (D : F) (hD : D ≤ InitialBestDepth)
    (hhit : fragmentRayHits sqrt r d.State.Uniforms i j (mem src.1 i j).xyz D) :
    fragmentRayHits sqrt r d.State.Uniforms i j
      ((execDraw sqrt sin r mem d) dst.1 i j).xyz D := by
  have hdata := execDraw_data sqrt sin r mem d hp hm hl dst hfb i j hv
  have hpos : ((execDraw sqrt sin r mem d) dst.1 i j).xyz
      = (fragmentResolve sqrt r d mem i j).OutputPosition := congrArg Prod.fst hdata
  rw [hpos]
  refine (fragmentResolve_hit sqrt r d mem i j 0 zero_mem_Taps D hD ?_).2
  rw [tap_position_y r hW hH d mem src hdir hpix hset i j hv, add_zero,
    clampToEdge_of_mem j _ hv.2.2.1 hv.2.2.2]
  exact hhit

/-- If the position texture the splat pass leaves holds, in the row of a pixel
and at most 16 columns from it, a position whose cube the pixel's ray hits at
an entry depth of at most `D`, the composite pass ends at the pixel with a best
depth of at most `D`. -/
theorem compositeResolve_hit {F : Type} [LinearOrderedField F] [FloorRing F]
    (sqrt sin : F → F) (r : Renderer F)
    (hW : 0 < r.ScreenWidth) (hH : 0 < r.ScreenHeight) (State : GameState F) (s0 : GLState F)
    (MVP VPI : Matrix44 F) (afterSplat : TextureMemory F)
    (i j : Int) (hv : inViewport r i j) (i0 : Int) (hv0 : inViewport r i0 j)
    (hnear : |i0 - i| ≤ 16) (D : F) (hD : D ≤ InitialBestDepth)
    (hhit : fragmentRayHits sqrt r (compositeUniformsOf r State VPI) i j
      (afterSplat TextureName.TexturePosition1 i0 j).xyz D) :
    ∃ res, compositeResolve sqrt sin r (drawCalls s0 (renderCommands r State MVP VPI))
        afterSplat i j = some res ∧ res.BestDepth ≤ D := by
  obtain ⟨d0, d1, d2, d3, d4, hcalls, -, h1, h2, h3, h4⟩ :=
    drawCalls_renderCommands r State MVP VPI s0
  obtain ⟨h1m, h1p, h1f, h1s, h1u⟩ := h1
  obtain ⟨h2m, h2p, h2f, h2s, h2u⟩ := h2
  obtain ⟨h3m, h3p, h3f, h3s, h3u⟩ := h3
  obtain ⟨h4m, h4p, h4f, h4s, h4u⟩ := h4
  have dirs := spreadDirection_values (F := F)
  rw [hcalls]
  simp only [compositeResolve, runKernelPasses, List.drop_succ_cons, List.drop_zero,
    List.foldl_cons, List.foldl_nil, List.getLast?_cons_cons, List.getLast?_singleton,
    Option.map_some']
  refine ⟨_, rfl, ?_⟩
  have e4 : execDraw sqrt sin r (execDraw sqrt sin r (execDraw sqrt sin r
      (execDraw sqrt sin r afterSplat d1) d2) d3) d4
      = execDraw sqrt sin r (execDraw sqrt sin r (execDraw sqrt sin r afterSplat d1) d2) d3 := by
    simp [execDraw, h4f, ColourAttachments]
  rw [e4]
  have s1 : fragmentRayHits sqrt r d1.State.Uniforms i j
      ((execDraw sqrt sin r afterSplat d1) TextureName.TexturePosition2 i j).xyz D := by
    refine pass_hit_x sqrt sin r hW hH d1 afterSplat (TextureName.TexturePosition1,
      TextureName.TextureNormal1, TextureName.TextureColour1) (TextureName.TexturePosition2,
      TextureName.TextureNormal2, TextureName.TextureColour2) h1p h1m (by rw [h1u])
      (Or.inr ⟨h1f, rfl⟩) (by rw [h1u, dirs.1]) (by rw [h1u]) h1s i j hv i0 hv0 hnear D hD ?_
    rw [h1u]
    exact hhit
  have s2 : fragmentRayHits sqrt r d2.State.Uniforms i j
      ((execDraw sqrt sin r (execDraw sqrt sin r afterSplat d1) d2)
        TextureName.TexturePosition1 i j).xyz D := by
    refine pass_hit_y sqrt sin r hW hH d2 _ (TextureName.TexturePosition2,
      TextureName.TextureNormal2, TextureName.TextureColour2) (TextureName.TexturePosition1,
      TextureName.TextureNormal1, TextureName.TextureColour1) h2p h2m (by rw [h2u])
      (Or.inl ⟨h2f, rfl⟩) (by rw [h2u, dirs.2.1]) (by rw [h2u]) h2s i j hv D hD ?_
    rw [h1u] at s1
    rw [h2u]
    exact s1
  have s3 : fragmentRayHits sqrt r d3.State.Uniforms i j
      ((execDraw sqrt sin r (execDraw sqrt sin r (execDraw sqrt sin r afterSplat d1) d2) d3)
        TextureName.TexturePosition2 i j).xyz D := by
    refine pass_hit_x sqrt sin r hW hH d3 _ (TextureName.TexturePosition1,
      TextureName.TextureNormal1, TextureName.TextureColour1) (TextureName.TexturePosition2,
      TextureName.TextureNormal2, TextureName.TextureColour2) h3p h3m (by rw [h3u])
      (Or.inr ⟨h3f, rfl⟩) (by rw [h3u, dirs.2.2]) (by rw [h3u]) h3s i j hv i hv
      (by simp) D hD ?_
    rw [h2u] at s2
    rw [h3u]
    exact s2
  refine (fragmentResolve_hit sqrt r d4 _ i j 0 zero_mem_Taps D hD ?_).1
  rw [tap_position_y r hW hH d4 _ (TextureName.TexturePosition2,
      TextureName.TextureNormal2, TextureName.TextureColour2) (by rw [h4u]) (by rw [h4u]) h4s
      i j hv, add_zero, clampToEdge_of_mem j _ hv.2.2.1 hv.2.2.2]
  rw [h3u] at s3
  rw [h4u]
  exact s3

/-- If every position the splat pass leaves in the viewport lies in a set of
positions that contains the zero vector, and the ray of a pixel misses the cube
around every position of the set, the composite pass resolves nothing at the
pixel. -/
theorem compositeResolve_missed {F : Type} [LinearOrderedField F] [FloorRing F]
    (Q : Vec3 F → Prop) (hQ0 : Q ⟨0, 0, 0⟩) (sqrt sin : F → F) (r : Renderer F)
    (hW : 0 < r.ScreenWidth) (hH : 0 < r.ScreenHeight) (State : GameState F) (s0 : GLState F)
    (MVP VPI : Matrix44 F) (afterSplat : TextureMemory F)
    (hsrc : ∀ i j, inViewport r i j → Q (afterSplat TextureName.TexturePosition1 i j).xyz)
    (i j : Int) (hv : inViewport r i j)
    (hmiss : ∀ p, Q p → fragmentRayMisses sqrt r (compositeUniformsOf r State VPI) i j p) :
    compositeResolve sqrt sin r (drawCalls s0 (renderCommands r State MVP VPI))
        afterSplat i j = some KernelState.initial := by
  obtain ⟨d0, d1, d2, d3, d4, hcalls, -, h1, h2, h3, h4⟩ :=
    drawCalls_renderCommands r State MVP VPI s0
  obtain ⟨h1m, h1p, h1f, h1s, h1u⟩ := h1
  obtain ⟨h2m, h2p, h2f, h2s, h2u⟩ := h2
  obtain ⟨h3m, h3p, h3f, h3s, h3u⟩ := h3
  obtain ⟨h4m, h4p, h4f, h4s, h4u⟩ := h4
  have dirs := spreadDirection_values (F := F)
  rw [hcalls]
  simp only [compositeResolve, runKernelPasses, List.drop_succ_cons, List.drop_zero,
    List.foldl_cons, List.foldl_nil, List.getLast?_cons_cons, List.getLast?_singleton,
    Option.map_some']
  have e4 : execDraw sqrt sin r (execDraw sqrt sin r (execDraw sqrt sin r
      (execDraw sqrt sin r afterSplat d1) d2) d3) d4
      = execDraw sqrt sin r (execDraw sqrt sin r (execDraw sqrt sin r afterSplat d1) d2) d3 := by
    simp [execDraw, h4f, ColourAttachments]
  rw [e4]
  have s1 := pass_positions Q hQ0 sqrt sin r hW hH d1 afterSplat (TextureName.TexturePosition1,
      TextureName.TextureNormal1, TextureName.TextureColour1) (TextureName.TexturePosition2,
      TextureName.TextureNormal2, TextureName.TextureColour2) h1p h1m (by rw [h1u])
      (Or.inr ⟨h1f, rfl⟩) (Or.inl (by rw [h1u, dirs.1])) (by rw [h1u]) h1s hsrc
  have s2 := pass_positions Q hQ0 sqrt sin r hW hH d2 _ (TextureName.TexturePosition2,
      TextureName.TextureNormal2, TextureName.TextureColour2) (TextureName.TexturePosition1,
      TextureName.TextureNormal1, TextureName.TextureColour1) h2p h2m (by rw [h2u])
      (Or.inl ⟨h2f, rfl⟩) (Or.inr (by rw [h2u, dirs.2.1])) (by rw [h2u]) h2s s1
  have s3 := pass_positions Q hQ0 sqrt sin r hW hH d3 _ (TextureName.TexturePosition1,
      TextureName.TextureNormal1, TextureName.TextureColour1) (TextureName.TexturePosition2,
      TextureName.TextureNormal2, TextureName.TextureColour2) h3p h3m (by rw [h3u])
      (Or.inr ⟨h3f, rfl⟩) (Or.inl (by rw [h3u, dirs.2.2])) (by rw [h3u]) h3s s2
  rw [fragmentResolve_of_missed Q sqrt r d4 _ i j ?_ ?_]
  · intro t _
    rw [tap_position_y r hW hH d4 _ (TextureName.TexturePosition2,
      TextureName.TextureNormal2, TextureName.TextureColour2) (by rw [h4u]) (by rw [h4u]) h4s
      i j hv]
    exact s3 _ _ ⟨hv.1, hv.2.1, (clampToEdge_mem _ _ hH).1, (clampToEdge_mem _ _ hH).2⟩
  · rw [h4u]
    exact hmiss

/-! ### The frame: splat pass, kernel passes and blending -/

/-- The first and the last draw call of a frame, each with the state it is
issued in. -/
theorem drawCalls_renderCommands_frame {F : Type} [LinearOrderedField F] (r : Renderer F)
    (State : GameState F) (MVP VPI : Matrix44 F) (s0 : GLState F) :
    ∃ d0 d1 d2 d3 d4 : DrawCall F,
      drawCalls s0 (renderCommands r State MVP VPI) = [d0, d1, d2, d3, d4]
      ∧ (d0.Mode = PrimitiveMode.POINTS ∧ d0.State.CurrentProgram = Program.ShaderProgram1
          ∧ d0.State.DrawFramebuffer = FrameBuffer.FrameBuffer1
          ∧ d0.State.ModelViewProjection = MVP ∧ d0.State.Model = r.Model
          ∧ d0.State.Vertices = buildMap State.Scene
          ∧ d0.First = 0 ∧ d0.Count = (buildMap (F := F) State.Scene).length
          ∧ d0.State.DepthTest = true
          ∧ d0.State.ClearColour = ⟨9 / 10, 9 / 10, 9 / 10, 1⟩)
      ∧ (d4.State.Uniforms = compositeUniformsOf r State VPI
          ∧ d4.State.Blend = true
          ∧ d4.State.ClearColour = ⟨306 / 1000, 267 / 1000, 698 / 1000, 0⟩) := by
  refine ⟨_, _, _, _, _, rfl, ?_⟩
  simp [GLState.step, compositeUniformsOf]

theorem clearBuffers_position {F : Type} [LinearOrderedField F] (s : GLState F)
    (mem : TextureMemory F) (hfb : s.DrawFramebuffer = FrameBuffer.FrameBuffer1) (i j : Int) :
    (clearBuffers s mem).Textures TextureName.TexturePosition1 i j = s.ClearColour := by
  simp [clearBuffers, hfb, ColourAttachments]

/-- The splat pass of an empty vertex list leaves the clear colour in every
texel of the position texture. -/
theorem execSplat_nil {F : Type} [LinearOrderedField F] [FloorRing F] (sqrt : F → F)
    (r : Renderer F) (d : DrawCall F) (mem : TextureMemory F)
    (hp : d.State.CurrentProgram = Program.ShaderProgram1) (hm : d.Mode = PrimitiveMode.POINTS)
    (hfb : d.State.DrawFramebuffer = FrameBuffer.FrameBuffer1) (hvert : d.State.Vertices = [])
    (i j : Int) :
    (execSplat sqrt r d mem).Textures TextureName.TexturePosition1 i j = d.State.ClearColour := by
  simp only [execSplat, hp, hm, and_self, if_true, hvert, List.drop_nil, List.take_nil,
    List.foldl_nil]
  exact clearBuffers_position d.State mem hfb i j

/-- The splat pass of one vertex whose fragment lies in the viewport, nearer
than the far plane: the position texture holds the fragment's position at its
pixel and the clear colour elsewhere. -/
theorem execSplat_single {F : Type} [LinearOrderedField F] [FloorRing F] (sqrt : F → F)
    (r : Renderer F) (d : DrawCall F) (mem : TextureMemory F) (s : Sample F)
    (hp : d.State.CurrentProgram = Program.ShaderProgram1) (hm : d.Mode = PrimitiveMode.POINTS)
    (hfb : d.State.DrawFramebuffer = FrameBuffer.FrameBuffer1) (hvert : d.State.Vertices = [s])
    (hfirst : d.First = 0) (hcount : d.Count = 1)
    (i0 j0 : Int) (depth : F)
    (hfrag : pointFragment r (VertexShaderSource1.main d.State.ModelViewProjection d.State.Model
      s.Position s.Normal s.Colour).gl_Position = some (i0, j0, depth))
    (hv0 : inViewport r i0 j0) (hdepth : depth < 1) (i j : Int) :
    (execSplat sqrt r d mem).Textures TextureName.TexturePosition1 i j
      = if i = i0 ∧ j = j0 then
          (splatFragment sqrt d.State.ModelViewProjection d.State.Model s).FragmentPosition
        else d.State.ClearColour := by
  have hd : (clearBuffers d.State mem).Depth i0 j0 = 1 := rfl
  simp only [execSplat, hp, hm, and_self, if_true, hvert, hfirst, hcount, List.drop_zero,
    List.take_succ_cons, List.take_zero, List.foldl_cons, List.foldl_nil, drawPoint, hfb,
    ColourAttachments, hfrag, hv0, hd, hdepth, true_and, implies_true]
  by_cases h : i = i0 ∧ j = j0
  · simp [h]
  · simp only [h, if_false]
    exact clearBuffers_position d.State mem hfb i j

/-- The output of the composite pass in terms of what its loop resolves. -/
theorem frameOutput_of_resolve {F : Type} [LinearOrderedField F] [FloorRing F]
    (sqrt sin : F → F) (r : Renderer F) (calls : List (DrawCall F)) (mem : TextureMemory F)
    (i j : Int) (d4 : DrawCall F) (res : KernelState F)
    (hlast : calls.getLast? = some d4) (hL : d4.State.Uniforms.LastRender = true)
    (hres : compositeResolve sqrt sin r calls (frameAfterSplat sqrt r calls mem) i j
      = some res) :
    ∃ out, frameOutput sqrt sin r calls mem i j = some out
      ∧ (res.BestDepth < InitialBestDepth → out.FragmentPosition.w = 1)
      ∧ (¬ res.BestDepth < InitialBestDepth →
          out.FragmentPosition = Vec4.ofVec3 res.OutputPosition 0) := by
  simp only [compositeResolve, hlast, Option.map_some', Option.some.injEq] at hres
  have hout : frameOutput sqrt sin r calls mem i j
      = some (fragmentOutputs sqrt sin r d4
          (runKernelPasses sqrt sin r calls (frameAfterSplat sqrt r calls mem)) i j) := by
    simp only [frameOutput, hlast, Option.map_some']
  refine ⟨_, hout, ?_, ?_⟩
  · intro hhit
    rw [← hres] at hhit
    unfold fragmentOutputs
    rw [main_of_last_hit sqrt sin _ _ _ hL hhit]
    simp [compositeColour, mix]
  · intro hmiss
    rw [← hres] at hmiss ⊢
    unfold fragmentOutputs
    rw [main_of_last_miss sqrt sin _ _ _ hmiss]
    rfl

theorem displayedPixel_of_output {F : Type} [LinearOrderedField F] [FloorRing F]
    (sqrt sin : F → F) (r : Renderer F) (calls : List (DrawCall F)) (mem : TextureMemory F)
    (i j : Int) (d4 : DrawCall F) (out : FragmentOutputs F)
    (hlast : calls.getLast? = some d4) (hB : d4.State.Blend = true)
    (hout : frameOutput sqrt sin r calls mem i j = some out) :
    displayedPixel sqrt sin r calls mem i j
      = some (blend out.FragmentPosition d4.State.ClearColour) := by
  simp [displayedPixel, hlast, hout, hB]

theorem blend_transparent {F : Type} [LinearOrderedField F] (dst : Vec4 F) :
    blend ⟨0, 0, 0, 0⟩ dst = dst := by
  simp [blend]

theorem blend_opaque_w {F : Type} [LinearOrderedField F] (src dst : Vec4 F) (h : src.w = 1) :
    (blend src dst).w = 1 := by
  simp [blend, h]

theorem axis_View (E : Vec3 ℝ) (Scene : Scene) :
    Matrix44.View Real.sqrt (axisState E Scene).CameraPosition (axisState E Scene).CameraTarget
        ⟨0, 1, 0⟩
      = some (Matrix44.ofValues 1 0 0 (-E.x) 0 1 0 (-E.y) 0 0 1 (-E.z) 0 0 0 1) := by
  simp [Matrix44.View, Vector3.Normalise, Vector3.sub, Vector3.Cross, axisState]

theorem axis_Determinant (E : Vec3 ℝ) :
    (axisViewProjection Real.tan Real.pi E).Determinant ≠ 0 := by
  have ht := tan_reach_pos
  simp only [Matrix44.Determinant, Matrix44.InvertResult, axisViewProjection,
    Matrix44.mul_data, reachRenderer, Matrix44.Perspective, Matrix44.Frustum,
    Matrix44.ofValues_00, Matrix44.ofValues_01, Matrix44.ofValues_02, Matrix44.ofValues_03,
    Matrix44.ofValues_10, Matrix44.ofValues_11, Matrix44.ofValues_12, Matrix44.ofValues_13,
    Matrix44.ofValues_20, Matrix44.ofValues_21, Matrix44.ofValues_22, Matrix44.ofValues_23,
    Matrix44.ofValues_30, Matrix44.ofValues_31, Matrix44.ofValues_32, Matrix44.ofValues_33]
  set t := Real.tan (45 * Real.pi / 360) with htdef
  have ht0 : t ≠ 0 := ht.ne'
  field_simp
  ring_nf
  intro h
  have h0 : t = 0 := by linarith
  exact ht0 h0

theorem axis_mulVec4_eye (E : Vec3 ℝ) :
    (axisViewProjection Real.tan Real.pi E).mulVec4 ⟨E.x, E.y, E.z - 1 / 100, 1⟩
      = ⟨1 / 100 * 0, 1 / 100 * 0, 1 / 100 * (-1), 1 / 100 * 1⟩ := by
  have ht := tan_reach_pos
  simp only [Matrix44.mulVec4, axisViewProjection,
    Matrix44.mul_data, reachRenderer, Matrix44.Perspective, Matrix44.Frustum,
    Matrix44.ofValues_00, Matrix44.ofValues_01, Matrix44.ofValues_02, Matrix44.ofValues_03,
    Matrix44.ofValues_10, Matrix44.ofValues_11, Matrix44.ofValues_12, Matrix44.ofValues_13,
    Matrix44.ofValues_20, Matrix44.ofValues_21, Matrix44.ofValues_22, Matrix44.ofValues_23,
    Matrix44.ofValues_30, Matrix44.ofValues_31, Matrix44.ofValues_32, Matrix44.ofValues_33,
    Vec4.mk.injEq]
  set t := Real.tan (45 * Real.pi / 360) with htdef
  have ht0 : t ≠ 0 := ht.ne'
  refine ⟨?_, ?_, ?_, ?_⟩ <;> field_simp
  ring

theorem axis_mulVec4_screen (E : Vec3 ℝ) (X Y : ℝ) :
    (axisViewProjection Real.tan Real.pi E).mulVec4
        ⟨E.x + 1000 * Real.tan (45 * Real.pi / 360) * X,
         E.y + 1000 * Real.tan (45 * Real.pi / 360) * Y,
         E.z - 1000, 1⟩
      = ⟨1000 * X, 1000 * Y, 1000 * 1, 1000 * 1⟩ := by
  have ht := tan_reach_pos
  simp only [Matrix44.mulVec4, axisViewProjection,
    Matrix44.mul_data, reachRenderer, Matrix44.Perspective, Matrix44.Frustum,
    Matrix44.ofValues_00, Matrix44.ofValues_01, Matrix44.ofValues_02, Matrix44.ofValues_03,
    Matrix44.ofValues_10, Matrix44.ofValues_11, Matrix44.ofValues_12, Matrix44.ofValues_13,
    Matrix44.ofValues_20, Matrix44.ofValues_21, Matrix44.ofValues_22, Matrix44.ofValues_23,
    Matrix44.ofValues_30, Matrix44.ofValues_31, Matrix44.ofValues_32, Matrix44.ofValues_33,
    Vec4.mk.injEq]
  set t := Real.tan (45 * Real.pi / 360) with htdef
  have ht0 : t ≠ 0 := ht.ne'
  refine ⟨?_, ?_, ?_, ?_⟩ <;> field_simp <;> ring

theorem axis_Render (E : Vec3 ℝ) (Scene : Scene) :
    ∃ R, Matrix44.Invert (axisViewProjection Real.tan Real.pi E) = some R
      ∧ Render Real.sqrt (reachRenderer Real.tan Real.pi) (axisState E Scene)
        = some (renderCommands (reachRenderer Real.tan Real.pi) (axisState E Scene)
            ((axisViewProjection Real.tan Real.pi E).mul (reachRenderer Real.tan Real.pi).Model)
            R) := by
  obtain ⟨R, hR⟩ : ∃ R, Matrix44.Invert (axisViewProjection Real.tan Real.pi E) = some R := by
    simp [Matrix44.Invert, axis_Determinant]
  refine ⟨R, hR, ?_⟩
  unfold Render
  rw [axis_View]
  simp only [Option.some_bind]
  have : (reachRenderer Real.tan Real.pi).Projection.mul
      (Matrix44.ofValues 1 0 0 (-E.x) 0 1 0 (-E.y) 0 0 1 (-E.z) 0 0 0 1)
      = axisViewProjection Real.tan Real.pi E := rfl
  rw [this, hR]
  rfl

/-- The eye and the unnormalised ray direction of a fragment of a frame whose
camera is at `E` and looks down the negative z axis. -/
theorem axis_ray (E : Vec3 ℝ) (R : Matrix44 ℝ)
    (hR : Matrix44.Invert (axisViewProjection Real.tan Real.pi E) = some R) (U : Uniforms ℝ)
    (hU : U.ViewProjectionInverseMatrix = R) (VertexPosition : Vec3 ℝ)
    (hz : VertexPosition.z = 1) :
    EyePosition U = ⟨E.x, E.y, E.z - 1 / 100⟩
    ∧ ∃ k : ℝ, 0 < k ∧ EyeVector Real.sqrt U VertexPosition
        = ⟨1000 * Real.tan (45 * Real.pi / 360) * VertexPosition.x / k,
           1000 * Real.tan (45 * Real.pi / 360) * VertexPosition.y / k,
           (1 / 100 - 1000) / k⟩ := by
  have hEye : EyePosition U = ⟨E.x, E.y, E.z - 1 / 100⟩ := by
    unfold EyePosition
    rw [hU]
    exact Matrix44.unproject _ R hR ⟨E.x, E.y, E.z - 1 / 100⟩ ⟨0, 0, -1, 1⟩
      (1 / 100) (by norm_num) (axis_mulVec4_eye E)
  refine ⟨hEye, ?_⟩
  have hS := Matrix44.unproject _ R hR
    ⟨E.x + 1000 * Real.tan (45 * Real.pi / 360) * VertexPosition.x,
     E.y + 1000 * Real.tan (45 * Real.pi / 360) * VertexPosition.y,
     E.z - 1000⟩ ⟨VertexPosition.x, VertexPosition.y, 1, 1⟩ 1000 (by norm_num)
    (axis_mulVec4_screen E VertexPosition.x VertexPosition.y)
  set t := Real.tan (45 * Real.pi / 360) with htdef
  set v : Vec3 ℝ := ⟨1000 * t * VertexPosition.x, 1000 * t * VertexPosition.y, 1 / 100 - 1000⟩
    with hv
  have hdot : 0 < v.dot v := by
    simp only [Vec3.dot, hv]
    nlinarith [mul_self_nonneg (1000 * t * VertexPosition.x),
      mul_self_nonneg (1000 * t * VertexPosition.y)]
  refine ⟨Real.sqrt (v.dot v), Real.sqrt_pos.mpr hdot, ?_⟩
  have hvec : Vec4.ofVec3 VertexPosition 1 = ⟨VertexPosition.x, VertexPosition.y, 1, 1⟩ := by
    simp [Vec4.ofVec3, hz]
  unfold EyeVector
  rw [hEye, hvec, hU]
  dsimp only
  rw [hS]
  have hsub : Vec3.sub ⟨E.x + 1000 * t * VertexPosition.x,
      E.y + 1000 * t * VertexPosition.y, E.z - 1000⟩
      ⟨E.x, E.y, E.z - 1 / 100⟩ = v := by
    simp only [Vec3.sub, hv, Vec3.mk.injEq]
    refine ⟨?_, ?_, ?_⟩ <;> ring
  rw [hsub]
  simp only [normalize, Vec3.divScalar, hv]

/-- In a frame whose camera looks down the negative z axis, the ray of every
fragment of the 64 by 64 window hits, at an entry depth of at most 0, every cube
of half-size 1/200 that contains the centre of the near plane. -/
theorem axis_ray_hits (E : Vec3 ℝ) (R : Matrix44 ℝ)
    (hR : Matrix44.Invert (axisViewProjection Real.tan Real.pi E) = some R) (U : Uniforms ℝ)
    (hU : U.ViewProjectionInverseMatrix = R) (hvs : U.VoxelSize = 1 / 200) (i j : Int)
    (hv : inViewport (reachRenderer Real.tan Real.pi) i j) (p : Vec3 ℝ)
    (hin : InBox ⟨E.x, E.y, E.z - 1 / 100⟩ (p.subScalar (1 / 200)) (p.addScalar (1 / 200))) :
    fragmentRayHits Real.sqrt (reachRenderer Real.tan Real.pi) U i j p 0 := by
  obtain ⟨hi0, hi1, hj0, hj1⟩ := hv
  have hi1' : i < 64 := hi1
  have hj1' : j < 64 := hj1
  obtain ⟨hEye, k, hk, hdir⟩ := axis_ray E R hR U hU
    (FragmentVertexPosition (reachRenderer Real.tan Real.pi).ScreenWidth
      (reachRenderer Real.tan Real.pi).ScreenHeight i j) rfl
  have ht := tan_reach_pos
  have hXne : (FragmentVertexPosition (F := ℝ) (reachRenderer Real.tan Real.pi).ScreenWidth
      (reachRenderer Real.tan Real.pi).ScreenHeight i j).x ≠ 0 := by
    simp only [FragmentVertexPosition, reachRenderer]
    intro h0
    have h1 : (2 * (i : ℝ) + 1) = 64 := by
      field_simp at h0
      linarith
    have h2 : 2 * i + 1 = 64 := by exact_mod_cast h1
    omega
  have hYne : (FragmentVertexPosition (F := ℝ) (reachRenderer Real.tan Real.pi).ScreenWidth
      (reachRenderer Real.tan Real.pi).ScreenHeight i j).y ≠ 0 := by
    simp only [FragmentVertexPosition, reachRenderer]
    intro h0
    have h1 : (2 * (j : ℝ) + 1) = 64 := by
      field_simp at h0
      linarith
    have h2 : 2 * j + 1 = 64 := by exact_mod_cast h1
    omega
  have hk0 : k ≠ 0 := hk.ne'
  have hbet := (RayBoxIntersect_between_iff ⟨E.x, E.y, E.z - 1 / 100⟩
    ⟨1000 * Real.tan (45 * Real.pi / 360) * (FragmentVertexPosition (F := ℝ)
        (reachRenderer Real.tan Real.pi).ScreenWidth
        (reachRenderer Real.tan Real.pi).ScreenHeight i j).x / k,
     1000 * Real.tan (45 * Real.pi / 360) * (FragmentVertexPosition (F := ℝ)
        (reachRenderer Real.tan Real.pi).ScreenWidth
        (reachRenderer Real.tan Real.pi).ScreenHeight i j).y / k,
     (1 / 100 - 1000) / k⟩ (p.subScalar (1 / 200)) (p.addScalar (1 / 200))
    (div_ne_zero (mul_ne_zero (mul_ne_zero (by norm_num) ht.ne') hXne) hk0)
    (div_ne_zero (mul_ne_zero (mul_ne_zero (by norm_num) ht.ne') hYne) hk0)
    (div_ne_zero (by norm_num) hk0)
    (by simp only [Vec3.subScalar, Vec3.addScalar]; linarith)
    (by simp only [Vec3.subScalar, Vec3.addScalar]; linarith)
    (by simp only [Vec3.subScalar, Vec3.addScalar]; linarith) 0).mpr
    (by simpa [rayPoint] using hin)
  unfold fragmentRayHits fragmentRayDepths
  rw [hEye, hdir, hvs]
  exact ⟨le_trans hbet.1 hbet.2, hbet.1⟩

/-! ### Frames of a volume with no or with one opaque voxel -/

theorem buildMap_eq_nil {F : Type} [LinearOrderedField F] (Scene : Scene)
    (h : ∀ x y z, x < Scene.SizeX → y < Scene.SizeY → z < Scene.SizeZ →
      (Scene.At x y z).Alpha = 0) : buildMap (F := F) Scene = [] := by
  rw [List.eq_nil_iff_forall_not_mem]
  intro s hs
  obtain ⟨x, y, z, hx, hy, hz, hA, -⟩ := (mem_buildMap Scene s).mp hs
  rw [h x y z hx hy hz] at hA
  exact absurd hA (lt_irrefl 0)

theorem eq_singleton_of_nodup {α : Type} (l : List α) (c : α) (hnd : l.Nodup)
    (hmem : ∀ a, a ∈ l ↔ a = c) : l = [c] := by
  cases l with
  | nil => exact absurd ((hmem c).mpr rfl) (List.not_mem_nil c)
  | cons a t =>
    have ha : a = c := (hmem a).mp (List.mem_cons_self _ _)
    have ht : t = [] := by
      rw [List.eq_nil_iff_forall_not_mem]
      intro b hb
      have hbc : b = c := (hmem b).mp (List.mem_cons_of_mem _ hb)
      rw [List.nodup_cons] at hnd
      exact hnd.1 (by rw [ha, ← hbc]; exact hb)
    rw [ha, ht]

theorem visitedBefore_ne (a b : Nat × Nat × Nat) (h : visitedBefore a b) : a ≠ b := by
  rintro rfl
  unfold visitedBefore at h
  omega

theorem buildMap_single {F : Type} [LinearOrderedField F] (Scene : Scene) (x y z : Nat)
    (hx : x < Scene.SizeX) (hy : y < Scene.SizeY) (hz : z < Scene.SizeZ)
    (hA : (Scene.At x y z).Alpha > 0)
    (hone : ∀ x' y' z', x' < Scene.SizeX → y' < Scene.SizeY → z' < Scene.SizeZ →
      (Scene.At x' y' z').Alpha > 0 → x' = x ∧ y' = y ∧ z' = z) :
    buildMap (F := F) Scene = [voxelRecord x y z (Scene.At x y z)] := by
  have hcells : (loopCells Scene).filter (opaqueCell Scene) = [(x, y, z)] := by
    apply eq_singleton_of_nodup
    · exact ((loopCells_pairwise Scene).imp (fun {a b} h => visitedBefore_ne a b h)).sublist
        (List.filter_sublist _)
    · rintro ⟨x', y', z'⟩
      simp only [List.mem_filter, mem_loopCells, opaqueCell, decide_eq_true_eq, Prod.mk.injEq]
      constructor
      · rintro ⟨⟨hx', hy', hz'⟩, hA'⟩
        exact hone x' y' z' hx' hy' hz' hA'
      · rintro ⟨rfl, rfl, rfl⟩
        exact ⟨⟨hx, hy, hz⟩, hA⟩
  rw [buildMap_eq, hcells]
  rfl

theorem Identity_mulVec4 {F : Type} [Field F] (v : Vec4 F) :
    (Matrix44.Identity (F := F)).mulVec4 v = v := by
  cases v
  simp [Matrix44.mulVec4, Matrix44.Identity]

theorem viewport_pos {F : Type} (r : Renderer F) (i j : Int) (hv : inViewport r i j) :
    0 < r.ScreenWidth ∧ 0 < r.ScreenHeight := by
  obtain ⟨h1, h2, h3, h4⟩ := hv
  constructor <;> omega

theorem drawCalls_last_uniforms {F : Type} [LinearOrderedField F] (r : Renderer F)
    (State : GameState F) (MVP VPI : Matrix44 F) (s0 : GLState F) :
    ∃ d4, (drawCalls s0 (renderCommands r State MVP VPI)).getLast? = some d4
      ∧ d4.State.Uniforms = compositeUniformsOf r State VPI := by
  obtain ⟨d0, d1, d2, d3, d4, hcalls, -, h4⟩ := drawCalls_renderCommands_frame r State MVP VPI s0
  exact ⟨d4, by rw [hcalls]; rfl, h4.1⟩

/-- The splat pass of a frame without vertices leaves the clear value in every
texel of the position texture. -/
theorem frame_splat_nil {F : Type} [LinearOrderedField F] [FloorRing F] (sqrt : F → F)
    (r : Renderer F) (State : GameState F) (s0 : GLState F) (mem : TextureMemory F)
    (MVP VPI : Matrix44 F) (hnil : buildMap (F := F) State.Scene = []) (i j : Int) :
    frameAfterSplat sqrt r (drawCalls s0 (renderCommands r State MVP VPI)) mem
      TextureName.TexturePosition1 i j = ⟨9 / 10, 9 / 10, 9 / 10, 1⟩ := by
  obtain ⟨d0, d1, d2, d3, d4, hcalls, h0, -⟩ := drawCalls_renderCommands_frame r State MVP VPI s0
  obtain ⟨h0m, h0p, h0f, -, -, h0v, -, -, -, h0cc⟩ := h0
  simp only [frameAfterSplat, hcalls, List.head?_cons]
  rw [execSplat_nil sqrt r d0 mem h0p h0m h0f (by rw [h0v, hnil])]
  exact h0cc

/-- The splat pass of a frame with one vertex whose fragment lies in the
viewport, nearer than the far plane, leaves the vertex's position at the pixel
of the fragment and the clear value in every other texel of the position
texture. -/
theorem frame_splat_single {F : Type} [LinearOrderedField F] [FloorRing F] (sqrt : F → F)
    (r : Renderer F) (State : GameState F) (s0 : GLState F) (mem : TextureMemory F)
    (MVP VPI : Matrix44 F) (s : Sample F) (hone : buildMap (F := F) State.Scene = [s])
    (hModel : r.Model = Matrix44.Identity) (i0 j0 : Int) (depth : F)
    (hpix : splatPixel r (drawCalls s0 (renderCommands r State MVP VPI)) s
      = some (i0, j0, depth))
    (hv0 : inViewport r i0 j0) (hdepth : depth < 1) (i j : Int) :
    (frameAfterSplat sqrt r (drawCalls s0 (renderCommands r State MVP VPI)) mem
      TextureName.TexturePosition1 i j).xyz
      = if i = i0 ∧ j = j0 then s.Position else ⟨9 / 10, 9 / 10, 9 / 10⟩ := by
  obtain ⟨d0, d1, d2, d3, d4, hcalls, h0, -⟩ := drawCalls_renderCommands_frame r State MVP VPI s0
  obtain ⟨h0m, h0p, h0f, -, h0model, h0v, h0first, h0count, -, h0cc⟩ := h0
  simp only [splatPixel, hcalls, List.head?_cons, Option.some_bind] at hpix
  simp only [frameAfterSplat, hcalls, List.head?_cons]
  rw [execSplat_single sqrt r d0 mem s h0p h0m h0f (by rw [h0v, hone]) h0first
    (by rw [h0count, hone]; rfl) i0 j0 depth hpix hv0 hdepth]
  by_cases h : i = i0 ∧ j = j0
  · simp only [h, and_self, if_true, splatFragment, FragmentShaderSource1.main,
      VertexShaderSource1.main, h0model, hModel, Identity_mulVec4]
    cases s.Position
    rfl
  · simp only [h, if_false, h0cc]
    rfl

/-- A pixel of a frame is written with alpha 1 when the position texture the
splat pass leaves holds, in the pixel's row and at most 16 columns from it, a
position whose cube the pixel's ray hits at an entry depth below 9999999. -/
theorem frame_hit {F : Type} [LinearOrderedField F] [FloorRing F] (sqrt sin : F → F)
    (r : Renderer F) (State : GameState F) (s0 : GLState F) (mem : TextureMemory F)
    (MVP VPI : Matrix44 F) (i j : Int) (hv : inViewport r i j) (i0 : Int)
    (hv0 : inViewport r i0 j) (hnear : |i0 - i| ≤ 16) (D : F) (hD : D < InitialBestDepth)
    (hhit : fragmentRayHits sqrt r (compositeUniformsOf r State VPI) i j
      (frameAfterSplat sqrt r (drawCalls s0 (renderCommands r State MVP VPI)) mem
        TextureName.TexturePosition1 i0 j).xyz D) :
    ∃ out c, frameOutput sqrt sin r (drawCalls s0 (renderCommands r State MVP VPI)) mem i j
        = some out
      ∧ out.FragmentPosition.w = 1
      ∧ displayedPixel sqrt sin r (drawCalls s0 (renderCommands r State MVP VPI)) mem i j
          = some c
      ∧ c.w = 1 := by
  obtain ⟨hW, hH⟩ := viewport_pos r i j hv
  obtain ⟨d0, d1, d2, d3, d4, hcalls, -, h4⟩ := drawCalls_renderCommands_frame r State MVP VPI s0
  obtain ⟨h4u, h4b, -⟩ := h4
  have hlast : (drawCalls s0 (renderCommands r State MVP VPI)).getLast? = some d4 := by
    rw [hcalls]; rfl
  have hL : d4.State.Uniforms.LastRender = true := by rw [h4u]; rfl
  obtain ⟨res, hres, hle⟩ := compositeResolve_hit sqrt sin r hW hH State s0 MVP VPI
    (frameAfterSplat sqrt r (drawCalls s0 (renderCommands r State MVP VPI)) mem)
    i j hv i0 hv0 hnear D hD.le hhit
  obtain ⟨out, hout, hhitw, -⟩ := frameOutput_of_resolve sqrt sin r _ mem i j d4 res
    hlast hL hres
  have hw := hhitw (lt_of_le_of_lt hle hD)
  exact ⟨out, _, hout, hw, displayedPixel_of_output sqrt sin r _ mem i j d4 out hlast h4b hout,
    blend_opaque_w _ _ hw⟩

/-- A pixel of a frame is written with (0, 0, 0, 0), and shows the clear colour
of the window, when every position the splat pass leaves lies in a set of
positions, the zero vector among them, whose cubes the pixel's ray all misses. -/
theorem frame_miss {F : Type} [LinearOrderedField F] [FloorRing F] (Q : Vec3 F → Prop)
    (hQ0 : Q ⟨0, 0, 0⟩) (sqrt sin : F → F)
    (r : Renderer F) (State : GameState F) (s0 : GLState F) (mem : TextureMemory F)
    (MVP VPI : Matrix44 F)
    (hsrc : ∀ i j, inViewport r i j →
      Q (frameAfterSplat sqrt r (drawCalls s0 (renderCommands r State MVP VPI)) mem
        TextureName.TexturePosition1 i j).xyz)
    (i j : Int) (hv : inViewport r i j)
    (hmiss : ∀ p, Q p → fragmentRayMisses sqrt r (compositeUniformsOf r State VPI) i j p) :
    ∃ out, frameOutput sqrt sin r (drawCalls s0 (renderCommands r State MVP VPI)) mem i j
        = some out
      ∧ out.FragmentPosition = ⟨0, 0, 0, 0⟩
      ∧ displayedPixel sqrt sin r (drawCalls s0 (renderCommands r State MVP VPI)) mem i j
          = some ⟨306 / 1000, 267 / 1000, 698 / 1000, 0⟩ := by
  obtain ⟨hW, hH⟩ := viewport_pos r i j hv
  obtain ⟨d0, d1, d2, d3, d4, hcalls, -, h4⟩ := drawCalls_renderCommands_frame r State MVP VPI s0
  obtain ⟨h4u, h4b, h4cc⟩ := h4
  have hlast : (drawCalls s0 (renderCommands r State MVP VPI)).getLast? = some d4 := by
    rw [hcalls]; rfl
  have hL : d4.State.Uniforms.LastRender = true := by rw [h4u]; rfl
  have hinit := compositeResolve_missed Q hQ0 sqrt sin r hW hH State s0
    MVP VPI (frameAfterSplat sqrt r (drawCalls s0 (renderCommands r State MVP VPI)) mem)
    hsrc i j hv hmiss
  obtain ⟨out, hout, -, hmissw⟩ := frameOutput_of_resolve sqrt sin r _ mem i j d4 _
    hlast hL hinit
  have hpos : out.FragmentPosition = ⟨0, 0, 0, 0⟩ := by
    rw [hmissw (lt_irrefl _)]
    simp [KernelState.initial, Vec4.ofVec3]
  refine ⟨out, hout, hpos, ?_⟩
  rw [displayedPixel_of_output sqrt sin r _ mem i j d4 out hlast h4b hout, hpos,
    blend_transparent, h4cc]

/-- For a ray with three nonzero direction components and a cube of
half-size `VoxelSize ≥ 0`, the kernel's test reports a miss exactly when no
point of the ray's line lies in the cube. -/
theorem fragmentRayMisses_iff {F : Type} [LinearOrderedField F] (sqrt : F → F) (r : Renderer F)
    (U : Uniforms F) (i j : Int) (hreg : fragmentRayRegular sqrt r U i j)
    (hV : 0 ≤ U.VoxelSize) (p : Vec3 F) :
    fragmentRayMisses sqrt r U i j p ↔
      ¬ ∃ τ, InBox (rayPoint (EyePosition U)
          (EyeVector sqrt U (FragmentVertexPosition r.ScreenWidth r.ScreenHeight i j)) τ)
        (p.subScalar U.VoxelSize) (p.addScalar U.VoxelSize) := by
  unfold fragmentRayMisses
  refine not_congr (RayBoxIntersect_hit_iff _ _ _ _ hreg.1 hreg.2.1 hreg.2.2 ?_ ?_ ?_) <;>
    simp only [Vec3.subScalar, Vec3.addScalar] <;> linarith

/-- In a frame whose camera looks down the negative z axis, the ray of every
fragment of the 64 by 64 window has three nonzero direction components. -/
theorem axis_ray_regular (E : Vec3 ℝ) (R : Matrix44 ℝ)
    (hR : Matrix44.Invert (axisViewProjection Real.tan Real.pi E) = some R) (U : Uniforms ℝ)
    (hU : U.ViewProjectionInverseMatrix = R) (i j : Int)
    (hv : inViewport (reachRenderer Real.tan Real.pi) i j) :
    fragmentRayRegular Real.sqrt (reachRenderer Real.tan Real.pi) U i j := by
  obtain ⟨hi0, hi1, hj0, hj1⟩ := hv
  have hi1' : i < 64 := hi1
  have hj1' : j < 64 := hj1
  obtain ⟨-, k, hk, hdir⟩ := axis_ray E R hR U hU
    (FragmentVertexPosition (reachRenderer Real.tan Real.pi).ScreenWidth
      (reachRenderer Real.tan Real.pi).ScreenHeight i j) rfl
  have ht := tan_reach_pos
  have hXne : (FragmentVertexPosition (F := ℝ) (reachRenderer Real.tan Real.pi).ScreenWidth
      (reachRenderer Real.tan Real.pi).ScreenHeight i j).x ≠ 0 := by
    simp only [FragmentVertexPosition, reachRenderer]
    intro h0
    have h1 : (2 * (i : ℝ) + 1) = 64 := by
      field_simp at h0
      linarith
    have h2 : 2 * i + 1 = 64 := by exact_mod_cast h1
    omega
  have hYne : (FragmentVertexPosition (F := ℝ) (reachRenderer Real.tan Real.pi).ScreenWidth
      (reachRenderer Real.tan Real.pi).ScreenHeight i j).y ≠ 0 := by
    simp only [FragmentVertexPosition, reachRenderer]
    intro h0
    have h1 : (2 * (j : ℝ) + 1) = 64 := by
      field_simp at h0
      linarith
    have h2 : 2 * j + 1 = 64 := by exact_mod_cast h1
    omega
  have hk0 : k ≠ 0 := hk.ne'
  unfold fragmentRayRegular
  rw [hdir]
  refine ⟨div_ne_zero (mul_ne_zero (mul_ne_zero (by norm_num) ht.ne') hXne) hk0,
    div_ne_zero (mul_ne_zero (mul_ne_zero (by norm_num) ht.ne') hYne) hk0,
    div_ne_zero (by norm_num) hk0⟩

/-- C15, amended. In every frame of a volume without opaque voxel the splat
pass leaves the clear value (0.9, 0.9, 0.9, 1) in every texel of the position
texture, and for every pixel of the viewport whose ray has three nonzero
direction components: the kernel's test on the cube of half-size
`VoxelSize ≥ 0` around a position reports a miss exactly when no point of the
ray's line lies in the cube; if the ray misses the two cubes around the empty
values (0.9, 0.9, 0.9) and (0, 0, 0), the composite pass writes (0, 0, 0, 0) and
the window shows its clear colour (0.306, 0.267, 0.698, 0) there; if the ray
hits the cube around (0.9, 0.9, 0.9) at an entry depth below 9999999, the
composite pass writes a colour of alpha 1 and the window shows a pixel of alpha
1. -/
theorem transparent_frame {F : Type} [LinearOrderedField F] [FloorRing F] (sqrt sin : F → F)
    (r : Renderer F) (State : GameState F) (s0 : GLState F) (mem : TextureMemory F)
    (cmds : List (GLCommand F)) (h : Render sqrt r State = some cmds)
    (hT : ∀ x y z, x < State.Scene.SizeX → y < State.Scene.SizeY → z < State.Scene.SizeZ →
      (State.Scene.At x y z).Alpha = 0)
    (i j : Int) (hv : inViewport r i j) :
    ∃ d4 out,
      (drawCalls s0 cmds).getLast? = some d4
      ∧ frameOutput sqrt sin r (drawCalls s0 cmds) mem i j = some out
      ∧ (∀ i' j', frameAfterSplat sqrt r (drawCalls s0 cmds) mem
          TextureName.TexturePosition1 i' j' = ⟨9 / 10, 9 / 10, 9 / 10, 1⟩)
      ∧ (fragmentRayRegular sqrt r d4.State.Uniforms i j →
          (0 ≤ d4.State.Uniforms.VoxelSize → ∀ p,
            (fragmentRayMisses sqrt r d4.State.Uniforms i j p ↔
              ¬ ∃ τ, InBox (rayPoint (EyePosition d4.State.Uniforms)
                  (EyeVector sqrt d4.State.Uniforms
                    (FragmentVertexPosition r.ScreenWidth r.ScreenHeight i j)) τ)
                (p.subScalar d4.State.Uniforms.VoxelSize)
                (p.addScalar d4.State.Uniforms.VoxelSize)))
          ∧ ((∀ p, IsSentinel p → fragmentRayMisses sqrt r d4.State.Uniforms i j p) →
              out.FragmentPosition = ⟨0, 0, 0, 0⟩
              ∧ displayedPixel sqrt sin r (drawCalls s0 cmds) mem i j
                  = some ⟨306 / 1000, 267 / 1000, 698 / 1000, 0⟩)
          ∧ ((∃ D, D < InitialBestDepth
                ∧ fragmentRayHits sqrt r d4.State.Uniforms i j ⟨9 / 10, 9 / 10, 9 / 10⟩ D) →
              out.FragmentPosition.w = 1
              ∧ ∃ c, displayedPixel sqrt sin r (drawCalls s0 cmds) mem i j = some c
                  ∧ c.w = 1)) := by
  obtain ⟨MVP, VPI, rfl⟩ := Render_eq_some sqrt r State cmds h
  obtain ⟨d4, hlast, h4u⟩ := drawCalls_last_uniforms r State MVP VPI s0
  have hsplat := frame_splat_nil sqrt r State s0 mem MVP VPI (buildMap_eq_nil _ hT)
  obtain ⟨out, hout⟩ : ∃ out, frameOutput sqrt sin r
      (drawCalls s0 (renderCommands r State MVP VPI)) mem i j = some out := by
    simp [frameOutput, hlast]
  refine ⟨d4, out, hlast, hout, hsplat, fun hreg => ⟨?_, ?_, ?_⟩⟩
  · intro hV p
    exact fragmentRayMisses_iff sqrt r d4.State.Uniforms i j hreg hV p
  · intro hmiss
    rw [h4u] at hmiss
    obtain ⟨out', hout', hpos, hdisp⟩ := frame_miss IsSentinel (Or.inr rfl) sqrt sin r State s0
      mem MVP VPI (fun i' j' _ => Or.inl (by rw [hsplat]; rfl)) i j hv hmiss
    rw [hout] at hout'
    obtain rfl := Option.some.inj hout'
    exact ⟨hpos, hdisp⟩
  · rintro ⟨D, hD, hhit⟩
    rw [h4u] at hhit
    obtain ⟨out', c, hout', hw, hdisp, hc⟩ := frame_hit sqrt sin r State s0 mem MVP VPI i j hv
      i hv (by simp) D hD (by rw [hsplat]; exact hhit)
    rw [hout] at hout'
    obtain rfl := Option.some.inj hout'
    exact ⟨hw, c, hdisp, hc⟩

/-- C15, counterexample. A 64 by 64 window, the camera at (0.9, 0.9, 0.91)
looking down the negative z axis, and a volume of 2 x 2 x 2 cells without any
opaque voxel.  The splat pass draws nothing; the centre of the near plane is the
clear value (0.9, 0.9, 0.9), so the ray of the pixel (32, 32) starts inside the
cube the kernel builds around the clear value: the composite pass writes a
colour of alpha 1 there, and the window shows a pixel of alpha 1, not its clear
colour (0.306, 0.267, 0.698, 0). -/
theorem transparent_frame_counterexample :
    ∃ cmds,
      Render Real.sqrt (reachRenderer Real.tan Real.pi)
          (axisState ⟨9 / 10, 9 / 10, 91 / 100⟩ emptyScene) = some cmds
      ∧ (∀ x y z, (emptyScene.At x y z).Alpha = 0)
      ∧ inViewport (reachRenderer Real.tan Real.pi) 32 32
      ∧ ∀ mem : TextureMemory ℝ, ∃ out c,
          frameOutput Real.sqrt Real.sin (reachRenderer Real.tan Real.pi)
              (drawCalls sampleGLState cmds) mem 32 32 = some out
          ∧ out.FragmentPosition.w = 1
          ∧ displayedPixel Real.sqrt Real.sin (reachRenderer Real.tan Real.pi)
              (drawCalls sampleGLState cmds) mem 32 32 = some c
          ∧ c ≠ ⟨306 / 1000, 267 / 1000, 698 / 1000, 0⟩ := by
  obtain ⟨R, hR, hRender⟩ := axis_Render ⟨9 / 10, 9 / 10, 91 / 100⟩ emptyScene
  have hv : inViewport (reachRenderer Real.tan Real.pi) 32 32 := by
    simp [inViewport, reachRenderer]
  refine ⟨_, hRender, fun _ _ _ => rfl, hv, fun mem => ?_⟩
  have hnil : buildMap (F := ℝ) (axisState (F := ℝ) ⟨9 / 10, 9 / 10, 91 / 100⟩ emptyScene).Scene
      = [] := buildMap_eq_nil _ (fun _ _ _ _ _ _ => rfl)
  have hsplat := frame_splat_nil Real.sqrt (reachRenderer Real.tan Real.pi)
    (axisState ⟨9 / 10, 9 / 10, 91 / 100⟩ emptyScene) sampleGLState mem
    ((axisViewProjection Real.tan Real.pi ⟨9 / 10, 9 / 10, 91 / 100⟩).mul
      (reachRenderer Real.tan Real.pi).Model) R hnil
  have hhit := axis_ray_hits ⟨9 / 10, 9 / 10, 91 / 100⟩ R hR
    (compositeUniformsOf (reachRenderer Real.tan Real.pi)
      (axisState ⟨9 / 10, 9 / 10, 91 / 100⟩ emptyScene) R) rfl
    (by norm_num [compositeUniformsOf, reachRenderer]) 32 32 hv ⟨9 / 10, 9 / 10, 9 / 10⟩
    (by simp only [InBox, Vec3.subScalar, Vec3.addScalar]; norm_num)
  obtain ⟨out, c, hout, hw, hdisp, hc⟩ := frame_hit Real.sqrt Real.sin
    (reachRenderer Real.tan Real.pi) (axisState ⟨9 / 10, 9 / 10, 91 / 100⟩ emptyScene)
    sampleGLState mem _ R 32 32 hv 32 hv (by simp) 0 (by norm_num [InitialBestDepth])
    (by rw [hsplat]; exact hhit)
  refine ⟨out, c, hout, hw, hdisp, ?_⟩
  intro hcc
  rw [hcc] at hc
  norm_num at hc

/-- Witness of C15 (amended): the frame of the same window and volume with the
camera at (0.0343, 0.0099, 0.0205); the ray of the pixel (33, 32) has three
nonzero direction components and misses both cubes, and the window shows its
clear colour there. -/
theorem transparent_frame_witness :
    ∃ cmds,
      Render Real.sqrt (reachRenderer Real.tan Real.pi)
          (axisState ⟨343 / 10000, 99 / 10000, 205 / 10000⟩ emptyScene) = some cmds
      ∧ inViewport (reachRenderer Real.tan Real.pi) 33 32
      ∧ displayedPixel Real.sqrt Real.sin (reachRenderer Real.tan Real.pi)
          (drawCalls sampleGLState cmds) (fun _ _ _ => ⟨0, 0, 0, 0⟩) 33 32
          = some ⟨306 / 1000, 267 / 1000, 698 / 1000, 0⟩ := by
  obtain ⟨R, hR, hRender⟩ := axis_Render ⟨343 / 10000, 99 / 10000, 205 / 10000⟩ emptyScene
  have hv : inViewport (reachRenderer Real.tan Real.pi) 33 32 := by
    simp [inViewport, reachRenderer]
  obtain ⟨d4, out, hlast, -, -, hreg⟩ := transparent_frame Real.sqrt Real.sin
    (reachRenderer Real.tan Real.pi)
    (axisState ⟨343 / 10000, 99 / 10000, 205 / 10000⟩ emptyScene) sampleGLState
    (fun _ _ _ => ⟨0, 0, 0, 0⟩) _ hRender (fun _ _ _ _ _ _ => rfl) 33 32 hv
  obtain ⟨d4', hlast', h4u⟩ := drawCalls_last_uniforms (reachRenderer Real.tan Real.pi)
    (axisState ⟨343 / 10000, 99 / 10000, 205 / 10000⟩ emptyScene)
    ((axisViewProjection Real.tan Real.pi ⟨343 / 10000, 99 / 10000, 205 / 10000⟩).mul
      (reachRenderer Real.tan Real.pi).Model) R sampleGLState
  rw [hlast] at hlast'
  obtain rfl := Option.some.inj hlast'
  have hU : d4.State.Uniforms.ViewProjectionInverseMatrix = R := by rw [h4u]; rfl
  refine ⟨_, hRender, hv,
    ((hreg (axis_ray_regular _ R hR _ hU 33 32 hv)).2.1 ?_).2⟩
  intro p hp
  exact reach_rays_miss R hR _ hU
    (by rw [h4u]; norm_num [compositeUniformsOf, reachRenderer]) 33 32 hv p hp

/-- The clip coordinates of a point in a frame of `reachRenderer` whose camera
is at `E` and looks down the negative z axis. -/
theorem axis_clip (E P : Vec3 ℝ) :
    ((axisViewProjection Real.tan Real.pi E).mul
        (reachRenderer Real.tan Real.pi).Model).mulVec4 (Vec4.ofVec3 P 1)
      = ⟨(P.x - E.x) / Real.tan (45 * Real.pi / 360),
         (P.y - E.y) / Real.tan (45 * Real.pi / 360),
         -(100001 / 99999) * (P.z - E.z) - 2000 / 99999, E.z - P.z⟩ := by
  have ht := tan_reach_pos
  rw [Matrix44.mulVec4_mul]
  simp only [Matrix44.mulVec4, axisViewProjection, Vec4.ofVec3,
    Matrix44.mul_data, reachRenderer, Matrix44.Perspective, Matrix44.Frustum,
    Matrix44.Identity,
    Matrix44.ofValues_00, Matrix44.ofValues_01, Matrix44.ofValues_02, Matrix44.ofValues_03,
    Matrix44.ofValues_10, Matrix44.ofValues_11, Matrix44.ofValues_12, Matrix44.ofValues_13,
    Matrix44.ofValues_20, Matrix44.ofValues_21, Matrix44.ofValues_22, Matrix44.ofValues_23,
    Matrix44.ofValues_30, Matrix44.ofValues_31, Matrix44.ofValues_32, Matrix44.ofValues_33,
    Vec4.mk.injEq]
  set t := Real.tan (45 * Real.pi / 360) with htdef
  have ht0 : t ≠ 0 := ht.ne'
  refine ⟨?_, ?_, ?_, ?_⟩ <;> field_simp <;> ring

theorem reach_window_x (t z : ℝ) (ht1 : 41 / 100 < t) (ht2 : t < 42 / 100) :
    ⌊(windowCoordinate (F := ℝ) 64 64 ⟨-(43 / 10000) / t, 1 / 10000 / t, z, 105 / 10000⟩).x⌋
      = 0 := by
  have ht0 : 0 < t := by linarith
  rw [Int.floor_eq_iff]
  simp only [windowCoordinate]
  have e : (-(43 / 10000) / t / (105 / 10000) + 1) / 2 * ((64 : ℕ) : ℝ)
      = 32 - 32 * 43 / (105 * t) := by
    field_simp
    ring
  rw [e]
  have h1 : 32 * 43 / (105 * t) ≤ 32 := by
    rw [div_le_iff₀ (by positivity)]
    nlinarith
  have h2 : 31 < 32 * 43 / (105 * t) := by
    rw [lt_div_iff₀ (by positivity)]
    nlinarith
  constructor
  · push_cast; linarith
  · push_cast; linarith

theorem reach_window_y (t z : ℝ) (ht1 : 41 / 100 < t) :
    ⌊(windowCoordinate (F := ℝ) 64 64 ⟨-(43 / 10000) / t, 1 / 10000 / t, z, 105 / 10000⟩).y⌋
      = 32 := by
  have ht0 : 0 < t := by linarith
  rw [Int.floor_eq_iff]
  simp only [windowCoordinate]
  have e : (1 / 10000 / t / (105 / 10000) + 1) / 2 * ((64 : ℕ) : ℝ)
      = 32 + 32 / (105 * t) := by
    field_simp
    ring
  rw [e]
  have h1 : 0 ≤ 32 / (105 * t) := by positivity
  have h2 : 32 / (105 * t) < 1 := by
    rw [div_lt_iff₀ (by positivity)]
    nlinarith
  constructor
  · push_cast; linarith
  · push_cast; linarith

theorem reach_clip_inside (t : ℝ) (ht1 : 41 / 100 < t) :
    (0 : ℝ) < 105 / 10000 ∧ -(105 / 10000) ≤ -(43 / 10000) / t
      ∧ -(43 / 10000) / t ≤ 105 / 10000 ∧ -(105 / 10000) ≤ 1 / 10000 / t
      ∧ 1 / 10000 / t ≤ 105 / 10000 ∧ -(105 / 10000 : ℝ) ≤ -(9499895 / 999990000)
      ∧ -(9499895 / 999990000 : ℝ) ≤ 105 / 10000 := by
  have ht0 : 0 < t := by linarith
  refine ⟨by norm_num, ?_, ?_, ?_, ?_, by norm_num, by norm_num⟩
  · rw [le_div_iff₀ ht0]
    nlinarith
  · rw [div_le_iff₀ ht0]
    nlinarith
  · rw [le_div_iff₀ ht0]
    nlinarith
  · rw [div_le_iff₀ ht0]
    nlinarith

theorem reach_clip :
    ((axisViewProjection Real.tan Real.pi reachEye).mul
        (reachRenderer Real.tan Real.pi).Model).mulVec4
          (Vec4.ofVec3 ⟨3 / 100, 1 / 100, 1 / 100⟩ 1)
      = ⟨-(43 / 10000) / Real.tan (45 * Real.pi / 360),
         1 / 10000 / Real.tan (45 * Real.pi / 360), -(9499895 / 999990000), 105 / 10000⟩ := by
  rw [axis_clip]
  simp only [reachEye, Vec4.mk.injEq]
  refine ⟨?_, ?_, ?_, ?_⟩ <;> norm_num

/-- In the frame of `reachRenderer` with the camera at `reachEye`, the point
(0.03, 0.01, 0.01) has its fragment at the pixel (0, 32), nearer than the far
plane. -/
theorem reach_pointFragment :
    ∃ depth : ℝ, depth < 1
      ∧ pointFragment (reachRenderer Real.tan Real.pi)
          (((axisViewProjection Real.tan Real.pi reachEye).mul
            (reachRenderer Real.tan Real.pi).Model).mulVec4
              (Vec4.ofVec3 ⟨3 / 100, 1 / 100, 1 / 100⟩ 1)) = some (0, 32, depth) := by
  obtain ⟨ht1, ht2⟩ := tan_reach_bounds
  have hfx := reach_window_x _ (-(9499895 / 999990000)) ht1 ht2
  have hfy := reach_window_y _ (-(9499895 / 999990000)) ht1
  refine ⟨(-(9499895 / 999990000) / (105 / 10000) + 1) / 2, by norm_num, ?_⟩
  rw [reach_clip]
  unfold pointFragment
  rw [if_pos (reach_clip_inside _ ht1)]
  simp only [reachRenderer]
  rw [hfx, hfy]

/-- The frame of `oneVoxelScene` seen from `reachEye`: the voxel's fragment is at
the pixel (0, 32), and the ray of every pixel has three nonzero direction
components and hits the voxel's cube at an entry depth of at most 0. -/
theorem reach_frame_rays (s0 : GLState ℝ) :
    ∃ cmds MVP VPI depth,
      Render Real.sqrt (reachRenderer Real.tan Real.pi) (axisState reachEye oneVoxelScene)
        = some cmds
      ∧ cmds = renderCommands (reachRenderer Real.tan Real.pi)
          (axisState reachEye oneVoxelScene) MVP VPI
      ∧ splatPixel (reachRenderer Real.tan Real.pi) (drawCalls s0 cmds)
          (voxelRecord 3 1 1 (oneVoxelScene.At 3 1 1)) = some (0, 32, depth)
      ∧ depth < 1
      ∧ ∀ i j, inViewport (reachRenderer Real.tan Real.pi) i j →
          fragmentRayRegular Real.sqrt (reachRenderer Real.tan Real.pi)
            (compositeUniformsOf (reachRenderer Real.tan Real.pi)
              (axisState reachEye oneVoxelScene) VPI) i j
          ∧ fragmentRayHits Real.sqrt (reachRenderer Real.tan Real.pi)
            (compositeUniformsOf (reachRenderer Real.tan Real.pi)
              (axisState reachEye oneVoxelScene) VPI) i j ⟨3 / 100, 1 / 100, 1 / 100⟩ 0 := by
  obtain ⟨R, hR, hRender⟩ := axis_Render reachEye oneVoxelScene
  obtain ⟨depth, hdepth, hfrag⟩ := reach_pointFragment
  refine ⟨_, _, R, depth, hRender, rfl, ?_, hdepth, ?_⟩
  · obtain ⟨d0, d1, d2, d3, d4, hcalls, h0, -⟩ := drawCalls_renderCommands_frame
      (reachRenderer Real.tan Real.pi) (axisState reachEye oneVoxelScene)
      ((axisViewProjection Real.tan Real.pi reachEye).mul (reachRenderer Real.tan Real.pi).Model)
      R s0
    obtain ⟨-, -, -, h0mvp, -⟩ := h0
    simp only [splatPixel, hcalls, List.head?_cons, Option.some_bind, VertexShaderSource1.main,
      h0mvp, voxelRecord]
    rw [← hfrag]
    norm_num
  · intro i j hv
    refine ⟨axis_ray_regular reachEye R hR _ rfl i j hv,
      axis_ray_hits reachEye R hR _ rfl
        (by norm_num [compositeUniformsOf, reachRenderer]) i j hv ⟨3 / 100, 1 / 100, 1 / 100⟩ ?_⟩
    simp only [InBox, Vec3.subScalar, Vec3.addScalar, reachEye]
    norm_num

/-- C16, amended. In every frame of a volume with exactly one opaque voxel,
drawn by the renderer the constructor builds (`Model` the identity), whose
centre has its fragment at a pixel `(i0, j0)` of the viewport nearer than the
far plane: the splat pass leaves the voxel's position at `(i0, j0)` and the
clear value everywhere else, and for every pixel `(i, j)` of the viewport whose
ray has three nonzero direction components: the kernel's test on the cube of
half-size `VoxelSize ≥ 0` around a position reports a miss exactly when no
point of the ray's line lies in the cube; if the pixel lies in the row `j0` at
most 16 columns from `i0` (the pixel `(i0, j0)` included) and its ray hits the
voxel's cube at an entry depth below 9999999, the composite pass writes a colour
of alpha 1 and the window shows a pixel of alpha 1; if its ray misses the
voxel's cube and the two cubes around the empty values (0.9, 0.9, 0.9) and
(0, 0, 0), the composite pass writes (0, 0, 0, 0) and the window shows its clear
colour. -/
theorem single_voxel_frame {F : Type} [LinearOrderedField F] [FloorRing F] (sqrt sin : F → F)
    (r : Renderer F) (State : GameState F) (s0 : GLState F) (mem : TextureMemory F)
    (cmds : List (GLCommand F)) (h : Render sqrt r State = some cmds)
    (hModel : r.Model = Matrix44.Identity) (x y z : Nat)
    (hx : x < State.Scene.SizeX) (hy : y < State.Scene.SizeY) (hz : z < State.Scene.SizeZ)
    (hA : (State.Scene.At x y z).Alpha > 0)
    (hone : ∀ x' y' z', x' < State.Scene.SizeX → y' < State.Scene.SizeY →
      z' < State.Scene.SizeZ → (State.Scene.At x' y' z').Alpha > 0 → x' = x ∧ y' = y ∧ z' = z)
    (i0 j0 : Int) (depth : F)
    (hpix : splatPixel r (drawCalls s0 cmds) (voxelRecord x y z (State.Scene.At x y z))
      = some (i0, j0, depth))
    (hv0 : inViewport r i0 j0) (hdepth : depth < 1) (i j : Int) (hv : inViewport r i j) :
    ∃ d4 out,
      (drawCalls s0 cmds).getLast? = some d4
      ∧ frameOutput sqrt sin r (drawCalls s0 cmds) mem i j = some out
      ∧ (∀ i' j', (frameAfterSplat sqrt r (drawCalls s0 cmds) mem
            TextureName.TexturePosition1 i' j').xyz
          = if i' = i0 ∧ j' = j0 then ⟨(x : F) / 100, (y : F) / 100, (z : F) / 100⟩
            else ⟨9 / 10, 9 / 10, 9 / 10⟩)
      ∧ (fragmentRayRegular sqrt r d4.State.Uniforms i j →
          (0 ≤ d4.State.Uniforms.VoxelSize → ∀ p,
            (fragmentRayMisses sqrt r d4.State.Uniforms i j p ↔
              ¬ ∃ τ, InBox (rayPoint (EyePosition d4.State.Uniforms)
                  (EyeVector sqrt d4.State.Uniforms
                    (FragmentVertexPosition r.ScreenWidth r.ScreenHeight i j)) τ)
                (p.subScalar d4.State.Uniforms.VoxelSize)
                (p.addScalar d4.State.Uniforms.VoxelSize)))
          ∧ (j = j0 → |i0 - i| ≤ 16 →
              (∃ D, D < InitialBestDepth ∧ fragmentRayHits sqrt r d4.State.Uniforms i j
                  ⟨(x : F) / 100, (y : F) / 100, (z : F) / 100⟩ D) →
              out.FragmentPosition.w = 1
              ∧ ∃ c, displayedPixel sqrt sin r (drawCalls s0 cmds) mem i j = some c
                  ∧ c.w = 1)
          ∧ (fragmentRayMisses sqrt r d4.State.Uniforms i j
                ⟨(x : F) / 100, (y : F) / 100, (z : F) / 100⟩ →
              (∀ p, IsSentinel p → fragmentRayMisses sqrt r d4.State.Uniforms i j p) →
              out.FragmentPosition = ⟨0, 0, 0, 0⟩
              ∧ displayedPixel sqrt sin r (drawCalls s0 cmds) mem i j
                  = some ⟨306 / 1000, 267 / 1000, 698 / 1000, 0⟩)) := by
  obtain ⟨MVP, VPI, rfl⟩ := Render_eq_some sqrt r State cmds h
  obtain ⟨d4, hlast, h4u⟩ := drawCalls_last_uniforms r State MVP VPI s0
  have hsplat : ∀ i' j', (frameAfterSplat sqrt r (drawCalls s0 (renderCommands r State MVP VPI))
      mem TextureName.TexturePosition1 i' j').xyz
      = if i' = i0 ∧ j' = j0 then ⟨(x : F) / 100, (y : F) / 100, (z : F) / 100⟩
        else ⟨9 / 10, 9 / 10, 9 / 10⟩ :=
    frame_splat_single sqrt r State s0 mem MVP VPI _
      (buildMap_single State.Scene x y z hx hy hz hA hone) hModel i0 j0 depth hpix hv0 hdepth
  obtain ⟨out, hout⟩ : ∃ out, frameOutput sqrt sin r
      (drawCalls s0 (renderCommands r State MVP VPI)) mem i j = some out := by
    simp [frameOutput, hlast]
  refine ⟨d4, out, hlast, hout, hsplat, fun hreg => ⟨?_, ?_, ?_⟩⟩
  · intro hV p
    exact fragmentRayMisses_iff sqrt r d4.State.Uniforms i j hreg hV p
  · rintro rfl hnear ⟨D, hD, hhit⟩
    rw [h4u] at hhit
    obtain ⟨out', c, hout', hw, hdisp, hc⟩ := frame_hit sqrt sin r State s0 mem MVP VPI i j hv
      i0 hv0 hnear D hD (by rw [hsplat, if_pos ⟨rfl, rfl⟩]; exact hhit)
    rw [hout] at hout'
    obtain rfl := Option.some.inj hout'
    exact ⟨hw, c, hdisp, hc⟩
  · intro hmV hmS
    rw [h4u] at hmV hmS
    obtain ⟨out', hout', hpos, hdisp⟩ := frame_miss
      (fun p => p = ⟨(x : F) / 100, (y : F) / 100, (z : F) / 100⟩ ∨ IsSentinel p)
      (Or.inr (Or.inr rfl)) sqrt sin r State s0 mem MVP VPI
      (fun i' j' _ => by
        rw [hsplat]
        split_ifs
        · exact Or.inl rfl
        · exact Or.inr (Or.inl rfl)) i j hv
      (fun p hp => by
        rcases hp with rfl | hp
        · exact hmV
        · exact hmS p hp)
    rw [hout] at hout'
    obtain rfl := Option.some.inj hout'
    exact ⟨hpos, hdisp⟩

theorem oneVoxelScene_alpha (x y z : Nat) :
    (oneVoxelScene.At x y z).Alpha > 0 ↔ x = 3 ∧ y = 1 ∧ z = 1 := by
  unfold oneVoxelScene
  by_cases h : x = 3 ∧ y = 1 ∧ z = 1
  · simp [h]
  · simp [h]

/-- The frame of `oneVoxelScene` seen from `reachEye`: the voxel's fragment is at
the pixel (0, 32), and the ray of every pixel hits the voxel's cube at an entry
depth of at most 0. -/
theorem reach_frame (s0 : GLState ℝ) :
    ∃ cmds MVP VPI depth,
      Render Real.sqrt (reachRenderer Real.tan Real.pi) (axisState reachEye oneVoxelScene)
        = some cmds
      ∧ cmds = renderCommands (reachRenderer Real.tan Real.pi)
          (axisState reachEye oneVoxelScene) MVP VPI
      ∧ splatPixel (reachRenderer Real.tan Real.pi) (drawCalls s0 cmds)
          (voxelRecord 3 1 1 (oneVoxelScene.At 3 1 1)) = some (0, 32, depth)
      ∧ depth < 1
      ∧ ∀ i j, inViewport (reachRenderer Real.tan Real.pi) i j →
          fragmentRayHits Real.sqrt (reachRenderer Real.tan Real.pi)
            (compositeUniformsOf (reachRenderer Real.tan Real.pi)
              (axisState reachEye oneVoxelScene) VPI) i j ⟨3 / 100, 1 / 100, 1 / 100⟩ 0 := by
  obtain ⟨R, hR, hRender⟩ := axis_Render reachEye oneVoxelScene
  obtain ⟨depth, hdepth, hfrag⟩ := reach_pointFragment
  refine ⟨_, _, R, depth, hRender, rfl, ?_, hdepth, ?_⟩
  · obtain ⟨d0, d1, d2, d3, d4, hcalls, h0, -⟩ := drawCalls_renderCommands_frame
      (reachRenderer Real.tan Real.pi) (axisState reachEye oneVoxelScene)
      ((axisViewProjection Real.tan Real.pi reachEye).mul (reachRenderer Real.tan Real.pi).Model)
      R s0
    obtain ⟨-, -, -, h0mvp, -⟩ := h0
    simp only [splatPixel, hcalls, List.head?_cons, Option.some_bind, VertexShaderSource1.main,
      h0mvp, voxelRecord]
    rw [← hfrag]
    norm_num
  · intro i j hv
    refine axis_ray_hits reachEye R hR _ rfl
      (by norm_num [compositeUniformsOf, reachRenderer]) i j hv ⟨3 / 100, 1 / 100, 1 / 100⟩ ?_
    simp only [InBox, Vec3.subScalar, Vec3.addScalar, reachEye]
    norm_num

/-- C16, counterexample. A 64 by 64 window, the camera at
(0.0343, 0.0099, 0.0205) looking down the negative z axis, and a volume whose
only opaque voxel is the cell (3, 1, 1).  The voxel's centre has its fragment at
the pixel (0, 32), inside the viewport; the composite pass nevertheless writes
a colour of alpha 1 at the pixel (1, 32), whose ray hits the voxel's cube too,
and the window shows a pixel of alpha 1 there, not its clear colour. -/
theorem single_voxel_counterexample :
    ∃ cmds depth,
      Render Real.sqrt (reachRenderer Real.tan Real.pi) (axisState reachEye oneVoxelScene)
        = some cmds
      ∧ (∀ x y z, (oneVoxelScene.At x y z).Alpha > 0 ↔ x = 3 ∧ y = 1 ∧ z = 1)
      ∧ splatPixel (reachRenderer Real.tan Real.pi) (drawCalls sampleGLState cmds)
          (voxelRecord 3 1 1 (oneVoxelScene.At 3 1 1)) = some (0, 32, depth)
      ∧ inViewport (reachRenderer Real.tan Real.pi) 0 32
      ∧ inViewport (reachRenderer Real.tan Real.pi) 1 32
      ∧ ∀ mem : TextureMemory ℝ, ∃ out c,
          frameOutput Real.sqrt Real.sin (reachRenderer Real.tan Real.pi)
              (drawCalls sampleGLState cmds) mem 1 32 = some out
          ∧ out.FragmentPosition.w = 1
          ∧ displayedPixel Real.sqrt Real.sin (reachRenderer Real.tan Real.pi)
              (drawCalls sampleGLState cmds) mem 1 32 = some c
          ∧ c ≠ ⟨306 / 1000, 267 / 1000, 698 / 1000, 0⟩ := by
  obtain ⟨cmds, MVP, VPI, depth, hRender, rfl, hpix, hdepth, hhits⟩ := reach_frame sampleGLState
  have hv0 : inViewport (reachRenderer Real.tan Real.pi) 0 32 := by
    simp [inViewport, reachRenderer]
  have hv : inViewport (reachRenderer Real.tan Real.pi) 1 32 := by
    simp [inViewport, reachRenderer]
  refine ⟨_, depth, hRender, oneVoxelScene_alpha, hpix, hv0, hv, fun mem => ?_⟩
  have hone : buildMap (F := ℝ) (axisState (F := ℝ) reachEye oneVoxelScene).Scene
      = [voxelRecord 3 1 1 (oneVoxelScene.At 3 1 1)] :=
    buildMap_single oneVoxelScene 3 1 1 (by decide) (by decide) (by decide) (by decide)
      (fun x' y' z' _ _ _ hA => (oneVoxelScene_alpha x' y' z').mp hA)
  have hsplat := frame_splat_single Real.sqrt (reachRenderer Real.tan Real.pi)
    (axisState reachEye oneVoxelScene) sampleGLState mem MVP VPI _ hone rfl 0 32 depth hpix
    hv0 hdepth 0 32
  obtain ⟨out, c, hout, hw, hdisp, hc⟩ := frame_hit Real.sqrt Real.sin
    (reachRenderer Real.tan Real.pi) (axisState reachEye oneVoxelScene) sampleGLState mem
    MVP VPI 1 32 hv 0 hv0 (by norm_num) 0 (by norm_num [InitialBestDepth])
    (by
      rw [hsplat, if_pos ⟨rfl, rfl⟩]
      have := hhits 1 32 hv
      simpa [voxelRecord] using this)
  refine ⟨out, c, hout, hw, hdisp, ?_⟩
  intro hcc
  rw [hcc] at hc
  norm_num at hc

/-- Witness of C16 (amended): in the same frame the pixel (0, 32), the one the
voxel's centre has its fragment at, has a ray of three nonzero direction
components and is written with alpha 1. -/
theorem single_voxel_frame_witness :
    ∃ cmds,
      Render Real.sqrt (reachRenderer Real.tan Real.pi) (axisState reachEye oneVoxelScene)
        = some cmds
      ∧ inViewport (reachRenderer Real.tan Real.pi) 0 32
      ∧ ∃ out, frameOutput Real.sqrt Real.sin (reachRenderer Real.tan Real.pi)
            (drawCalls sampleGLState cmds) (fun _ _ _ => ⟨0, 0, 0, 0⟩) 0 32 = some out
          ∧ out.FragmentPosition.w = 1 := by
  obtain ⟨cmds, MVP, VPI, depth, hRender, hcmds, hpix, hdepth, hrays⟩ :=
    reach_frame_rays sampleGLState
  have hv0 : inViewport (reachRenderer Real.tan Real.pi) 0 32 := by
    simp [inViewport, reachRenderer]
  obtain ⟨d4, out, hlast, hout, -, hreg⟩ := single_voxel_frame Real.sqrt Real.sin
    (reachRenderer Real.tan Real.pi) (axisState reachEye oneVoxelScene) sampleGLState
    (fun _ _ _ => ⟨0, 0, 0, 0⟩) cmds hRender rfl 3 1 1 (by decide) (by decide) (by decide)
    (by decide) (fun x' y' z' _ _ _ hA => (oneVoxelScene_alpha x' y' z').mp hA)
    0 32 depth hpix hv0 hdepth 0 32 hv0
  subst hcmds
  obtain ⟨d4', hlast', h4u⟩ := drawCalls_last_uniforms (reachRenderer Real.tan Real.pi)
    (axisState reachEye oneVoxelScene) MVP VPI sampleGLState
  rw [hlast] at hlast'
  obtain rfl := Option.some.inj hlast'
  have hreg0 : fragmentRayRegular Real.sqrt (reachRenderer Real.tan Real.pi)
      d4.State.Uniforms 0 32 := by
    rw [h4u]
    exact (hrays 0 32 hv0).1
  refine ⟨_, hRender, hv0, out, hout,
    ((hreg hreg0).2.1 rfl (by norm_num) ⟨0, ?_, ?_⟩).1⟩
  · norm_num [InitialBestDepth]
  · rw [h4u]
    have := (hrays 0 32 hv0).2
    simpa using this

/-! ### The vector functions of `Maths.cpp` -/

theorem sum_squares_eq_zero (x y z : ℝ) (h : x * x + y * y + z * z = 0) :
    x = 0 ∧ y = 0 ∧ z = 0 := by
  refine ⟨?_, ?_, ?_⟩ <;>
    nlinarith [mul_self_nonneg x, mul_self_nonneg y, mul_self_nonneg z]

theorem sum_squares_nonneg (x y z : ℝ) : 0 ≤ x * x + y * y + z * z := by
  nlinarith [mul_self_nonneg x, mul_self_nonneg y, mul_self_nonneg z]

theorem Normalise_eq_none_iff (v : Vector3 ℝ) :
    Vector3.Normalise Real.sqrt v = none ↔ v = ⟨0, 0, 0⟩ := by
  obtain ⟨x, y, z⟩ := v
  simp only [Vector3.Normalise]
  constructor
  · intro h
    split_ifs at h with h0
    have h1 : x * x + y * y + z * z = 0 :=
      (Real.sqrt_eq_zero (sum_squares_nonneg x y z)).mp h0
    obtain ⟨hx, hy, hz⟩ := sum_squares_eq_zero x y z h1
    rw [hx, hy, hz]
  · intro h
    simp only [Vec3.mk.injEq] at h
    obtain ⟨hx, hy, hz⟩ := h
    simp [hx, hy, hz]

/-- What `Normalise` returns when its assertion holds: the denominator is
positive, its square is the sum of squares, and the result is the quotient. -/
theorem Normalise_eq_some (v n : Vector3 ℝ) (h : Vector3.Normalise Real.sqrt v = some n) :
    0 < Real.sqrt (v.x * v.x + v.y * v.y + v.z * v.z)
    ∧ Real.sqrt (v.x * v.x + v.y * v.y + v.z * v.z)
        * Real.sqrt (v.x * v.x + v.y * v.y + v.z * v.z) = v.x * v.x + v.y * v.y + v.z * v.z
    ∧ n = ⟨v.x / Real.sqrt (v.x * v.x + v.y * v.y + v.z * v.z),
           v.y / Real.sqrt (v.x * v.x + v.y * v.y + v.z * v.z),
           v.z / Real.sqrt (v.x * v.x + v.y * v.y + v.z * v.z)⟩ := by
  simp only [Vector3.Normalise] at h
  split_ifs at h with h0
  have hpos : 0 < Real.sqrt (v.x * v.x + v.y * v.y + v.z * v.z) :=
    lt_of_le_of_ne (Real.sqrt_nonneg _) (Ne.symm h0)
  exact ⟨hpos, Real.mul_self_sqrt (sum_squares_nonneg _ _ _), (Option.some.inj h).symm⟩

theorem Normalise_dot_self (v n : Vector3 ℝ) (h : Vector3.Normalise Real.sqrt v = some n) :
    n.x * n.x + n.y * n.y + n.z * n.z = 1 := by
  obtain ⟨hpos, hDD, hn⟩ := Normalise_eq_some v n h
  rw [hn]
  have hD0 := hpos.ne'
  simp only []
  field_simp
  linarith

/-- C21. `Normalise(v)` fails its assertion `Denominator != 0` if and only if
`v` is the zero vector; for every other `v` with real components it returns
`v` divided by its Euclidean length, the non-negative square root of the sum of
the squares of its components. -/
theorem Normalise_fails_iff_zero (v : Vector3 ℝ) :
    (Vector3.Normalise Real.sqrt v = none ↔ v = ⟨0, 0, 0⟩)
    ∧ (v ≠ ⟨0, 0, 0⟩ →
        ∃ Length : ℝ, 0 < Length ∧ Length * Length = v.x * v.x + v.y * v.y + v.z * v.z
          ∧ Vector3.Normalise Real.sqrt v = some ⟨v.x / Length, v.y / Length, v.z / Length⟩) := by
  refine ⟨Normalise_eq_none_iff v, fun hv => ?_⟩
  have hne : Vector3.Normalise Real.sqrt v ≠ none := fun h => hv ((Normalise_eq_none_iff v).mp h)
  obtain ⟨n, hn⟩ := Option.ne_none_iff_exists'.mp hne
  obtain ⟨hpos, hDD, hval⟩ := Normalise_eq_some v n hn
  exact ⟨_, hpos, hDD, by rw [hn, hval]⟩

/-- C23. For all vectors `a` and `b`, over any ordered field, `Cross(a, b)` is
the componentwise negation of `Cross(b, a)`, and `Cross(a, a)` is the zero
vector. -/
theorem Cross_anticommutative {F : Type} [LinearOrderedField F] (a b : Vector3 F) :
    Vector3.Cross a b
        = ⟨-(Vector3.Cross b a).x, -(Vector3.Cross b a).y, -(Vector3.Cross b a).z⟩
    ∧ Vector3.Cross a a = ⟨0, 0, 0⟩ := by
  constructor
  · simp only [Vector3.Cross, Vec3.mk.injEq]
    refine ⟨?_, ?_, ?_⟩ <;> ring
  · simp only [Vector3.Cross, Vec3.mk.injEq]
    refine ⟨?_, ?_, ?_⟩ <;> ring

/-- C24. For all vectors `a` and `b` with components in the reals (or in any
other ordered field), the dot product of `Cross(a, b)` with `a` is exactly 0,
and so is its dot product with `b`. -/
theorem Cross_orthogonal {F : Type} [LinearOrderedField F] (a b : Vector3 F) :
    Vec3.dot (Vector3.Cross a b) a = 0 ∧ Vec3.dot (Vector3.Cross a b) b = 0 := by
  constructor <;> simp only [Vector3.Cross, Vec3.dot] <;> ring

/-! ### The view matrix -/

/-- The two axes `View` normalises and the matrix it builds from them. -/
theorem View_eq_some {F : Type} [LinearOrderedField F] (sqrt : F → F)
    (Eye Target Up : Vector3 F) (V : Matrix44 F)
    (h : Matrix44.View sqrt Eye Target Up = some V) :
    ∃ AxisX AxisZ : Vector3 F,
      Vector3.Normalise sqrt (Vector3.sub Eye Target) = some AxisZ
      ∧ Vector3.Normalise sqrt (Vector3.Cross Up AxisZ) = some AxisX
      ∧ V = Matrix44.ofValues
          AxisX.x AxisX.y AxisX.z (-(AxisX.x * Eye.x + AxisX.y * Eye.y + AxisX.z * Eye.z))
          (Vector3.Cross AxisZ AxisX).x (Vector3.Cross AxisZ AxisX).y
          (Vector3.Cross AxisZ AxisX).z
          (-((Vector3.Cross AxisZ AxisX).x * Eye.x + (Vector3.Cross AxisZ AxisX).y * Eye.y
            + (Vector3.Cross AxisZ AxisX).z * Eye.z))
          AxisZ.x AxisZ.y AxisZ.z (-(AxisZ.x * Eye.x + AxisZ.y * Eye.y + AxisZ.z * Eye.z))
          0 0 0 1 := by
  unfold Matrix44.View at h
  simp only [Option.bind_eq_some] at h
  obtain ⟨AxisZ, hZ, AxisX, hX, hV⟩ := h
  exact ⟨AxisX, AxisZ, hZ, hX, (Option.some.inj hV).symm⟩

/-- A matrix with the rows of a view matrix sends a point to its three
coordinates along the axes, measured from the eye. -/
theorem ofValues_view_mulVec4 {F : Type} [LinearOrderedField F] (X Y Z Eye p : Vec3 F) :
    (Matrix44.ofValues
        X.x X.y X.z (-(X.x * Eye.x + X.y * Eye.y + X.z * Eye.z))
        Y.x Y.y Y.z (-(Y.x * Eye.x + Y.y * Eye.y + Y.z * Eye.z))
        Z.x Z.y Z.z (-(Z.x * Eye.x + Z.y * Eye.y + Z.z * Eye.z))
        0 0 0 1).mulVec4 ⟨p.x, p.y, p.z, 1⟩
      = ⟨Vec3.dot X (Vec3.sub p Eye), Vec3.dot Y (Vec3.sub p Eye),
         Vec3.dot Z (Vec3.sub p Eye), 1⟩ := by
  simp only [Matrix44.mulVec4, Vec3.dot, Vec3.sub,
    Matrix44.ofValues_00, Matrix44.ofValues_01, Matrix44.ofValues_02, Matrix44.ofValues_03,
    Matrix44.ofValues_10, Matrix44.ofValues_11, Matrix44.ofValues_12, Matrix44.ofValues_13,
    Matrix44.ofValues_20, Matrix44.ofValues_21, Matrix44.ofValues_22, Matrix44.ofValues_23,
    Matrix44.ofValues_30, Matrix44.ofValues_31, Matrix44.ofValues_32, Matrix44.ofValues_33,
    Vec4.mk.injEq]
  refine ⟨?_, ?_, ?_, ?_⟩ <;> ring

/-- C25. For every eye, target and up for which `View` is defined, the matrix
`View(eye, target, up)` applied to the homogeneous column vector `(eye, 1)`
(component `r` of the result is the dot product of `Data[r]` with the vector)
is `(0, 0, 0, 1)`. -/
theorem View_maps_eye_to_origin {F : Type} [LinearOrderedField F] (sqrt : F → F)
    (Eye Target Up : Vector3 F) (V : Matrix44 F)
    (h : Matrix44.View sqrt Eye Target Up = some V) :
    V.mulVec4 ⟨Eye.x, Eye.y, Eye.z, 1⟩ = ⟨0, 0, 0, 1⟩ := by
  obtain ⟨AxisX, AxisZ, _, _, hV⟩ := View_eq_some sqrt Eye Target Up V h
  rw [hV, ofValues_view_mulVec4]
  simp only [Vec3.dot, Vec3.sub, Vec4.mk.injEq]
  refine ⟨?_, ?_, ?_, trivial⟩ <;> ring

theorem Real_sqrt_25 : Real.sqrt (3 * 3 + 0 * 0 + 4 * 4) = 5 := by
  rw [show (3 * 3 + 0 * 0 + 4 * 4 : ℝ) = 5 ^ 2 by norm_num]
  exact Real.sqrt_sq (by norm_num)

/-- The view matrix of a camera at (3, 0, 4) looking at the origin: its axes
are (4/5, 0, -3/5), (0, 1, 0) and (3/5, 0, 4/5). -/
theorem View_tilted :
    Matrix44.View Real.sqrt ⟨3, 0, 4⟩ ⟨0, 0, 0⟩ ⟨0, 1, 0⟩
      = some (Matrix44.ofValues (4 / 5) 0 (-3 / 5) 0  0 1 0 0  (3 / 5) 0 (4 / 5) (-5)
          0 0 0 1) := by
  have hZ : Vector3.Normalise Real.sqrt (Vector3.sub ⟨3, 0, 4⟩ ⟨0, 0, 0⟩)
      = some ⟨3 / 5, 0, 4 / 5⟩ := by
    simp only [Vector3.Normalise, Vector3.sub, sub_zero, Real_sqrt_25]
    norm_num
  have h1 : Real.sqrt ((1 * (4 / 5) - 0 * 0) * (1 * (4 / 5) - 0 * 0)
      + (0 * (3 / 5) - 0 * (4 / 5)) * (0 * (3 / 5) - 0 * (4 / 5))
      + (0 * 0 - 1 * (3 / 5)) * (0 * 0 - 1 * (3 / 5))) = 1 := by
    rw [show ((1 * (4 / 5) - 0 * 0) * (1 * (4 / 5) - 0 * 0)
      + (0 * (3 / 5) - 0 * (4 / 5)) * (0 * (3 / 5) - 0 * (4 / 5))
      + (0 * 0 - 1 * (3 / 5)) * (0 * 0 - 1 * (3 / 5)) : ℝ) = 1 by norm_num]
    exact Real.sqrt_one
  have hX : Vector3.Normalise Real.sqrt (Vector3.Cross ⟨0, 1, 0⟩ ⟨3 / 5, 0, 4 / 5⟩)
      = some ⟨4 / 5, 0, -3 / 5⟩ := by
    simp only [Vector3.Normalise, Vector3.Cross, h1]
    norm_num
  unfold Matrix44.View
  rw [hZ]
  simp only [Option.some_bind]
  rw [hX]
  simp only [Option.some_bind, Vector3.Cross]
  norm_num

/-- Witness of C25: the camera at (3, 0, 4) looking at the origin. -/
theorem View_maps_eye_to_origin_witness :
    Matrix44.View Real.sqrt ⟨3, 0, 4⟩ ⟨0, 0, 0⟩ ⟨0, 1, 0⟩
      = some (Matrix44.ofValues (4 / 5) 0 (-3 / 5) 0  0 1 0 0  (3 / 5) 0 (4 / 5) (-5)
          0 0 0 1)
    ∧ (Matrix44.ofValues (4 / 5) 0 (-3 / 5) 0  0 1 0 0  (3 / 5) 0 (4 / 5) (-5)
          0 0 0 1 : Matrix44 ℝ).mulVec4 ⟨3, 0, 4, 1⟩ = ⟨0, 0, 0, 1⟩ :=
  ⟨View_tilted, View_maps_eye_to_origin Real.sqrt ⟨3, 0, 4⟩ ⟨0, 0, 0⟩ ⟨0, 1, 0⟩ _ View_tilted⟩

/-! ### When `View` fails -/

theorem Vector3.sub_eq_zero_iff {F : Type} [LinearOrderedField F] (a b : Vector3 F) :
    Vector3.sub a b = ⟨0, 0, 0⟩ ↔ a = b := by
  obtain ⟨ax, ay, az⟩ := a
  obtain ⟨bx, b_y, bz⟩ := b
  simp only [Vector3.sub, Vec3.mk.injEq, sub_eq_zero]

theorem Cross_divided_eq_zero_iff (Up d : Vector3 ℝ) (D : ℝ) (hD : D ≠ 0) :
    Vector3.Cross Up ⟨d.x / D, d.y / D, d.z / D⟩ = ⟨0, 0, 0⟩
      ↔ Vector3.Cross Up d = ⟨0, 0, 0⟩ := by
  have e1 : Up.y * (d.z / D) - Up.z * (d.y / D) = (Up.y * d.z - Up.z * d.y) / D := by
    field_simp
  have e2 : Up.z * (d.x / D) - Up.x * (d.z / D) = (Up.z * d.x - Up.x * d.z) / D := by
    field_simp
  have e3 : Up.x * (d.y / D) - Up.y * (d.x / D) = (Up.x * d.y - Up.y * d.x) / D := by
    field_simp
  simp only [Vector3.Cross, Vec3.mk.injEq, e1, e2, e3, div_eq_zero_iff, hD, or_false]

theorem View_eq_none_iff (Eye Target Up : Vector3 ℝ) :
    Matrix44.View Real.sqrt Eye Target Up = none
      ↔ Eye = Target ∨ Vector3.Cross Up (Vector3.sub Eye Target) = ⟨0, 0, 0⟩ := by
  unfold Matrix44.View
  cases hZ : Vector3.Normalise Real.sqrt (Vector3.sub Eye Target) with
  | none =>
    have h0 := (Normalise_eq_none_iff _).mp hZ
    simp only [Option.none_bind, true_iff]
    exact Or.inl ((Vector3.sub_eq_zero_iff Eye Target).mp h0)
  | some AxisZ =>
    obtain ⟨hpos, _, hval⟩ := Normalise_eq_some _ AxisZ hZ
    have hne : Eye ≠ Target := by
      intro h
      have h0 : Vector3.Normalise Real.sqrt (Vector3.sub Eye Target) = none :=
        (Normalise_eq_none_iff _).mpr ((Vector3.sub_eq_zero_iff Eye Target).mpr h)
      rw [hZ] at h0
      exact Option.some_ne_none _ h0
    simp only [Option.some_bind]
    cases hX : Vector3.Normalise Real.sqrt (Vector3.Cross Up AxisZ) with
    | none =>
      have h0 := (Normalise_eq_none_iff _).mp hX
      rw [hval, Cross_divided_eq_zero_iff Up _ _ hpos.ne'] at h0
      simp only [Option.none_bind, true_iff]
      exact Or.inr h0
    | some AxisX =>
      simp only [Option.some_bind]
      constructor
      · intro h
        exact absurd h (Option.some_ne_none _)
      · rintro (h | h0)
        · exact absurd h hne
        · have h1 : Vector3.Cross Up AxisZ = ⟨0, 0, 0⟩ := by
            rw [hval, Cross_divided_eq_zero_iff Up _ _ hpos.ne']
            exact h0
          have h2 := (Normalise_eq_none_iff _).mpr h1
          rw [hX] at h2
          exact absurd h2 (Option.some_ne_none _)

theorem View_up_eq_none_iff (Eye Target : Vector3 ℝ) :
    Matrix44.View Real.sqrt Eye Target ⟨0, 1, 0⟩ = none
      ↔ Eye.x = Target.x ∧ Eye.z = Target.z := by
  rw [View_eq_none_iff]
  obtain ⟨ex, ey, ez⟩ := Eye
  obtain ⟨tx, ty, tz⟩ := Target
  simp only [Vector3.Cross, Vector3.sub, Vec3.mk.injEq]
  constructor
  · rintro (⟨hx, _, hz⟩ | ⟨h1, _, h3⟩)
    · exact ⟨hx, hz⟩
    · constructor <;> linarith
  · rintro ⟨hx, hz⟩
    right
    refine ⟨?_, ?_, ?_⟩ <;> simp only [hx, hz] <;> ring

/-- C22. `View(eye, target, up)` fails (one of its two `Normalise` calls
asserts) if and only if `eye = target` or `Cross(up, eye - target)` is the zero
vector; with the fixed `up = (0, 1, 0)` of `Render` this is exactly when the
camera position and the camera target have equal x and equal z coordinates, and
`Render` then fails at its first statement. -/
theorem View_fails_iff (Eye Target Up : Vector3 ℝ) :
    (Matrix44.View Real.sqrt Eye Target Up = none
      ↔ Eye = Target ∨ Vector3.Cross Up (Vector3.sub Eye Target) = ⟨0, 0, 0⟩)
    ∧ (Matrix44.View Real.sqrt Eye Target ⟨0, 1, 0⟩ = none
      ↔ Eye.x = Target.x ∧ Eye.z = Target.z)
    ∧ ∀ (r : Renderer ℝ) (State : GameState ℝ),
        State.CameraPosition = Eye → State.CameraTarget = Target →
        Eye.x = Target.x → Eye.z = Target.z → Render Real.sqrt r State = none := by
  refine ⟨View_eq_none_iff Eye Target Up, View_up_eq_none_iff Eye Target, ?_⟩
  intro r State hE hT hx hz
  unfold Render
  rw [hE, hT, (View_up_eq_none_iff Eye Target).mpr ⟨hx, hz⟩]
  rfl

/-! ### The axes of the view matrix -/

/-- The axes `View` computes: `AxisZ` and `AxisX` have unit length and are
orthogonal. -/
theorem View_axes (Eye Target Up AxisX AxisZ : Vector3 ℝ)
    (hZ : Vector3.Normalise Real.sqrt (Vector3.sub Eye Target) = some AxisZ)
    (hX : Vector3.Normalise Real.sqrt (Vector3.Cross Up AxisZ) = some AxisX) :
    AxisZ.x * AxisZ.x + AxisZ.y * AxisZ.y + AxisZ.z * AxisZ.z = 1
    ∧ AxisX.x * AxisX.x + AxisX.y * AxisX.y + AxisX.z * AxisX.z = 1
    ∧ AxisX.x * AxisZ.x + AxisX.y * AxisZ.y + AxisX.z * AxisZ.z = 0 := by
  refine ⟨Normalise_dot_self _ _ hZ, Normalise_dot_self _ _ hX, ?_⟩
  obtain ⟨_, _, hval⟩ := Normalise_eq_some _ AxisX hX
  have key : (Vector3.Cross Up AxisZ).x * AxisZ.x + (Vector3.Cross Up AxisZ).y * AxisZ.y
      + (Vector3.Cross Up AxisZ).z * AxisZ.z = 0 := by
    simp only [Vector3.Cross]
    ring
  have e : ∀ (c : Vector3 ℝ) (D : ℝ), c.x / D * AxisZ.x + c.y / D * AxisZ.y + c.z / D * AxisZ.z
      = (c.x * AxisZ.x + c.y * AxisZ.y + c.z * AxisZ.z) / D := by
    intro c D
    ring
  rw [hval]
  simp only []
  rw [e, key, zero_div]

/-- C26. For every eye, target and up for which `View` is defined, the three
axis rows of `View(eye, target, up)` form a right-handed orthonormal basis: the
axis of the third row is `Normalise(eye - target)`, the three axes have length
1, they are pairwise orthogonal, and `Cross(AxisX, AxisY) = AxisZ`, where
`AxisY` is `Cross(AxisZ, AxisX)`, not normalised. -/
theorem View_orthonormal (Eye Target Up : Vector3 ℝ) (V : Matrix44 ℝ)
    (h : Matrix44.View Real.sqrt Eye Target Up = some V) :
    ∃ AxisX AxisY AxisZ : Vector3 ℝ,
      AxisX = ⟨V.Data 0 0, V.Data 0 1, V.Data 0 2⟩
      ∧ AxisY = ⟨V.Data 1 0, V.Data 1 1, V.Data 1 2⟩
      ∧ AxisZ = ⟨V.Data 2 0, V.Data 2 1, V.Data 2 2⟩
      ∧ Vector3.Normalise Real.sqrt (Vector3.sub Eye Target) = some AxisZ
      ∧ AxisY = Vector3.Cross AxisZ AxisX
      ∧ Real.sqrt (Vec3.dot AxisX AxisX) = 1 ∧ Real.sqrt (Vec3.dot AxisY AxisY) = 1
      ∧ Real.sqrt (Vec3.dot AxisZ AxisZ) = 1
      ∧ Vec3.dot AxisX AxisY = 0 ∧ Vec3.dot AxisY AxisZ = 0 ∧ Vec3.dot AxisZ AxisX = 0
      ∧ Vector3.Cross AxisX AxisY = AxisZ := by
  obtain ⟨AxisX, AxisZ, hZ, hX, hV⟩ := View_eq_some Real.sqrt Eye Target Up V h
  obtain ⟨hZZ, hXX, hXZ⟩ := View_axes Eye Target Up AxisX AxisZ hZ hX
  obtain ⟨xx, xy, xz⟩ := AxisX
  obtain ⟨zx, zy, zz⟩ := AxisZ
  simp only [] at hZZ hXX hXZ
  have hYY : (zy * xz - zz * xy) * (zy * xz - zz * xy)
      + (zz * xx - zx * xz) * (zz * xx - zx * xz)
      + (zx * xy - zy * xx) * (zx * xy - zy * xx) = 1 := by
    linear_combination (xx * xx + xy * xy + xz * xz) * hZZ + hXX
      - (xx * zx + xy * zy + xz * zz) * hXZ
  refine ⟨⟨xx, xy, xz⟩, Vector3.Cross ⟨zx, zy, zz⟩ ⟨xx, xy, xz⟩, ⟨zx, zy, zz⟩, ?_, ?_, ?_, hZ, rfl,
    ?_, ?_, ?_, ?_, ?_, ?_, ?_⟩
  · rw [hV]
    rfl
  · rw [hV]
    rfl
  · rw [hV]
    rfl
  · simp only [Vec3.dot, hXX, Real.sqrt_one]
  · simp only [Vec3.dot, Vector3.Cross, hYY, Real.sqrt_one]
  · simp only [Vec3.dot, hZZ, Real.sqrt_one]
  · simp only [Vec3.dot, Vector3.Cross]
    ring
  · simp only [Vec3.dot, Vector3.Cross]
    ring
  · simp only [Vec3.dot]
    linear_combination hXZ
  · simp only [Vector3.Cross, Vec3.mk.injEq]
    refine ⟨?_, ?_, ?_⟩
    · linear_combination zx * hXX - xx * hXZ
    · linear_combination zy * hXX - xy * hXZ
    · linear_combination zz * hXX - xz * hXZ

/-- Witness of C26: the camera at (3, 0, 4) looking at the origin has the
axes (4/5, 0, -3/5), (0, 1, 0) and (3/5, 0, 4/5). -/
theorem View_orthonormal_witness :
    Matrix44.View Real.sqrt ⟨3, 0, 4⟩ ⟨0, 0, 0⟩ ⟨0, 1, 0⟩
      = some (Matrix44.ofValues (4 / 5) 0 (-3 / 5) 0  0 1 0 0  (3 / 5) 0 (4 / 5) (-5)
          0 0 0 1)
    ∧ ∃ AxisX AxisY AxisZ : Vector3 ℝ,
        Vector3.Normalise Real.sqrt (Vector3.sub ⟨3, 0, 4⟩ ⟨0, 0, 0⟩) = some AxisZ
        ∧ AxisY = Vector3.Cross AxisZ AxisX
        ∧ Vector3.Cross AxisX AxisY = AxisZ :=
  ⟨View_tilted,
    (View_orthonormal ⟨3, 0, 4⟩ ⟨0, 0, 0⟩ ⟨0, 1, 0⟩ _ View_tilted).elim
      fun X hX => hX.elim fun Y hY => hY.elim fun Z hZ =>
        ⟨X, Y, Z, hZ.2.2.2.1, hZ.2.2.2.2.1, hZ.2.2.2.2.2.2.2.2.2.2.2⟩⟩

/-! ### The projection matrix -/

/-- C27. For all `left != right`, `bottom != top` and positive `near != far`,
`Frustum(left, right, bottom, top, near, far)` follows the OpenGL clip
convention: after the division by `w`, the corners `(left, bottom, -near)` and
`(right, top, -near)` of the near plane become `(-1, -1, -1)` and `(1, 1, -1)`,
and every point with `z = -far` gets the depth `+1`. -/
theorem Frustum_clip_convention {F : Type} [LinearOrderedField F]
    (Left Right Bottom Top Near Far : F) (hlr : Left ≠ Right) (hbt : Bottom ≠ Top)
    (hnf : Near ≠ Far) (hn : 0 < Near) (hf : 0 < Far) :
    perspectiveDivide ((Matrix44.Frustum Left Right Bottom Top Near Far).mulVec4
        ⟨Left, Bottom, -Near, 1⟩) = ⟨-1, -1, -1⟩
    ∧ perspectiveDivide ((Matrix44.Frustum Left Right Bottom Top Near Far).mulVec4
        ⟨Right, Top, -Near, 1⟩) = ⟨1, 1, -1⟩
    ∧ ∀ x y : F, (perspectiveDivide ((Matrix44.Frustum Left Right Bottom Top Near Far).mulVec4
        ⟨x, y, -Far, 1⟩)).z = 1 := by
  have hW : Right - Left ≠ 0 := sub_ne_zero.mpr (Ne.symm hlr)
  have hH : Top - Bottom ≠ 0 := sub_ne_zero.mpr (Ne.symm hbt)
  have hD : Far - Near ≠ 0 := sub_ne_zero.mpr (Ne.symm hnf)
  have hn0 : Near ≠ 0 := hn.ne'
  have hf0 : Far ≠ 0 := hf.ne'
  simp only [perspectiveDivide, Matrix44.mulVec4, Matrix44.Frustum, Vec4.xyz, Vec3.divScalar,
    Matrix44.ofValues_00, Matrix44.ofValues_01, Matrix44.ofValues_02, Matrix44.ofValues_03,
    Matrix44.ofValues_10, Matrix44.ofValues_11, Matrix44.ofValues_12, Matrix44.ofValues_13,
    Matrix44.ofValues_20, Matrix44.ofValues_21, Matrix44.ofValues_22, Matrix44.ofValues_23,
    Matrix44.ofValues_30, Matrix44.ofValues_31, Matrix44.ofValues_32, Matrix44.ofValues_33,
    Vec3.mk.injEq]
  refine ⟨⟨?_, ?_, ?_⟩, ⟨?_, ?_, ?_⟩, fun x y => ?_⟩ <;> field_simp <;> ring

/-- Witness of C27: the frustum `[-1, 1] x [-1, 1]` with near 1 and far 3. -/
theorem Frustum_clip_convention_witness :
    perspectiveDivide ((Matrix44.Frustum (-1 : ℚ) 1 (-1) 1 1 3).mulVec4 ⟨-1, -1, -1, 1⟩)
      = ⟨-1, -1, -1⟩
    ∧ (perspectiveDivide ((Matrix44.Frustum (-1 : ℚ) 1 (-1) 1 1 3).mulVec4
        ⟨5, 7, -3, 1⟩)).z = 1 :=
  have h := Frustum_clip_convention (-1 : ℚ) 1 (-1) 1 1 3 (by norm_num) (by norm_num)
    (by norm_num) (by norm_num) (by norm_num)
  ⟨h.1, h.2.2 5 7⟩

/-! ### The constructor -/

theorem constructionLog_mem (gl : DriverReplies) :
    (Diagnostic.VertexShader1 ∈ constructionLog gl ↔ gl.VertexShader1 = GL_FALSE)
    ∧ (Diagnostic.FragmentShader1 ∈ constructionLog gl ↔ gl.FragmentShader1 = GL_FALSE)
    ∧ (Diagnostic.VertexShader2 ∈ constructionLog gl ↔ gl.VertexShader2 = GL_FALSE)
    ∧ (Diagnostic.FragmentShader2 ∈ constructionLog gl ↔ gl.FragmentShader2 = GL_FALSE)
    ∧ (Diagnostic.ShaderProgram1 ∈ constructionLog gl ↔ gl.ShaderProgram1 = GL_FALSE)
    ∧ (Diagnostic.ShaderProgram2 ∈ constructionLog gl ↔ gl.ShaderProgram2 = GL_FALSE) := by
  unfold constructionLog
  refine ⟨?_, ?_, ?_, ?_, ?_, ?_⟩ <;>
    simp only [List.mem_append] <;> split_ifs <;> simp_all

/-- The view matrix the constructor computes exists: its eye and its target
differ in `x`. -/
theorem constructor_View :
    ∃ V, Matrix44.View Real.sqrt ⟨-(1 / 4), -(1 / 4), -(1 / 4)⟩ ⟨0, 0, 0⟩ ⟨0, 1, 0⟩ = some V := by
  apply Option.ne_none_iff_exists'.mp
  intro h
  have h1 := ((View_up_eq_none_iff _ _).mp h).1
  norm_num at h1

/-- The renderer the constructor leaves for a window of `ScreenWidth` by
`ScreenHeight` pixels. -/
theorem Renderer_eq (tan : ℝ → ℝ) (M_PI : ℝ) (ScreenWidth ScreenHeight : Nat) :
    ∃ V : Matrix44 ℝ, ∀ gl : DriverReplies,
      Renderer.Renderer Real.sqrt tan M_PI ScreenWidth ScreenHeight gl
        = if gl.Status1 ≠ GL_FRAMEBUFFER_COMPLETE ∨ gl.Status2 ≠ GL_FRAMEBUFFER_COMPLETE then
            Construction.Aborted (constructionLog gl)
          else
            Construction.Completed (constructionLog gl)
              { ScreenWidth := ScreenWidth
                ScreenHeight := ScreenHeight
                Projection := Matrix44.Perspective tan M_PI 45
                  ((ScreenWidth : ℝ) / (ScreenHeight : ℝ)) (1 / 100) 1000
                Model := Matrix44.Identity
                Subdivisions := 100 } V := by
  obtain ⟨V, hV⟩ := constructor_View
  refine ⟨V, fun gl => ?_⟩
  unfold Renderer.Renderer
  rw [hV]
  by_cases h1 : gl.Status1 = GL_FRAMEBUFFER_COMPLETE
  · by_cases h2 : gl.Status2 = GL_FRAMEBUFFER_COMPLETE
    · simp [h1, h2, Matrix44.Identity]
    · simp [h1, h2]
  · simp [h1]

/-- C30. Construction of `Renderer` ends in `std::abort` if and only if the
status of framebuffer 1 or of framebuffer 2 is not `GL_FRAMEBUFFER_COMPLETE`;
otherwise it completes, and the fields it leaves are the same whatever the
compile and link statuses are.  A shader that fails to compile or a program
that fails to link adds its message to what is logged, and nothing else. -/
theorem Renderer_aborts_iff (tan : ℝ → ℝ) (M_PI : ℝ) (ScreenWidth ScreenHeight : Nat) :
    ∃ (r : Renderer ℝ) (V : Matrix44 ℝ), ∀ gl : DriverReplies,
      ((∃ Log, Renderer.Renderer Real.sqrt tan M_PI ScreenWidth ScreenHeight gl
            = Construction.Aborted Log)
        ↔ (gl.Status1 ≠ GL_FRAMEBUFFER_COMPLETE ∨ gl.Status2 ≠ GL_FRAMEBUFFER_COMPLETE))
      ∧ (Renderer.Renderer Real.sqrt tan M_PI ScreenWidth ScreenHeight gl
          = if gl.Status1 ≠ GL_FRAMEBUFFER_COMPLETE ∨ gl.Status2 ≠ GL_FRAMEBUFFER_COMPLETE then
              Construction.Aborted (constructionLog gl)
            else Construction.Completed (constructionLog gl) r V)
      ∧ (Diagnostic.VertexShader1 ∈ constructionLog gl ↔ gl.VertexShader1 = GL_FALSE)
      ∧ (Diagnostic.FragmentShader1 ∈ constructionLog gl ↔ gl.FragmentShader1 = GL_FALSE)
      ∧ (Diagnostic.VertexShader2 ∈ constructionLog gl ↔ gl.VertexShader2 = GL_FALSE)
      ∧ (Diagnostic.FragmentShader2 ∈ constructionLog gl ↔ gl.FragmentShader2 = GL_FALSE)
      ∧ (Diagnostic.ShaderProgram1 ∈ constructionLog gl ↔ gl.ShaderProgram1 = GL_FALSE)
      ∧ (Diagnostic.ShaderProgram2 ∈ constructionLog gl ↔ gl.ShaderProgram2 = GL_FALSE) := by
  obtain ⟨V, hV⟩ := Renderer_eq tan M_PI ScreenWidth ScreenHeight
  refine ⟨_, V, fun gl => ⟨?_, hV gl, constructionLog_mem gl⟩⟩
  rw [hV gl]
  by_cases h : gl.Status1 ≠ GL_FRAMEBUFFER_COMPLETE ∨ gl.Status2 ≠ GL_FRAMEBUFFER_COMPLETE
  · rw [if_pos h]
    exact ⟨fun _ => h, fun _ => ⟨_, rfl⟩⟩
  · rw [if_neg h]
    constructor
    · rintro ⟨Log, hLog⟩
      cases hLog
    · intro h'
      exact absurd h' h

/-! ### A frame does not depend on the frames before it -/

theorem foldl_append_flatMap {α β : Type} (L : List α) (f : α → List β) (init : List β) :
    L.foldl (fun acc a => acc ++ f a) init = init ++ L.flatMap f := by
  induction L generalizing init with
  | nil => simp
  | cons a L ih => simp [List.foldl_cons, ih, List.flatMap_cons, List.append_assoc]

theorem foldl_push_back {α β : Type} (L : List α) (p : α → Prop) [DecidablePred p] (f : α → β)
    (init : List β) :
    L.foldl (fun acc a => if p a then acc ++ [f a] else acc) init
      = init ++ L.flatMap (fun a => if p a then [f a] else []) := by
  induction L generalizing init with
  | nil => simp
  | cons a L ih =>
    by_cases h : p a
    · simp [List.foldl_cons, ih, List.flatMap_cons, h]
    · simp [List.foldl_cons, ih, List.flatMap_cons, h]

/-- The loops push the sample list of the volume behind what the vector holds. -/
theorem pushVoxels_eq {F : Type} [LinearOrderedField F] (map : List (Sample F)) (Scene : Scene) :
    pushVoxels map Scene = map ++ buildMap Scene := by
  unfold pushVoxels buildMap
  simp only [foldl_push_back, foldl_append_flatMap]

/-- After `map.clear()` and the loops the vector holds the sample list of the
volume, whatever it held before. -/
theorem pushVoxels_clearMap {F : Type} [LinearOrderedField F] (previous : List (Sample F))
    (Scene : Scene) : pushVoxels (clearMap previous) Scene = buildMap Scene := by
  rw [pushVoxels_eq]
  rfl

theorem frameCommands_buildMap {F : Type} [LinearOrderedField F] (r : Renderer F)
    (State : GameState F) (MVP VPI : Matrix44 F) :
    frameCommands r State MVP VPI (buildMap State.Scene) = renderCommands r State MVP VPI := rfl

/-- The sample list of a volume depends on its sizes and on the voxels of its
cells only. -/
theorem buildMap_congr {F : Type} [LinearOrderedField F] (A B : Scene)
    (hx : A.SizeX = B.SizeX) (hy : A.SizeY = B.SizeY) (hz : A.SizeZ = B.SizeZ)
    (hAt : ∀ x y z, x < A.SizeX → y < A.SizeY → z < A.SizeZ → A.At x y z = B.At x y z) :
    buildMap (F := F) A = buildMap B := by
  have hcells : loopCells A = loopCells B := by
    unfold loopCells
    rw [hx, hy, hz]
  have hfilter : (loopCells A).filter (opaqueCell A) = (loopCells A).filter (opaqueCell B) := by
    apply List.filter_congr
    rintro ⟨x, y, z⟩ hc
    obtain ⟨h1, h2, h3⟩ := (mem_loopCells A x y z).mp hc
    simp only [opaqueCell, hAt x y z h1 h2 h3]
  rw [buildMap_eq, buildMap_eq, hfilter, ← hcells]
  apply List.map_congr_left
  rintro ⟨x, y, z⟩ hc
  obtain ⟨h1, h2, h3⟩ := (mem_loopCells A x y z).mp (List.mem_of_mem_filter hc)
  simp only [hAt x y z h1 h2 h3]

/-- The inputs of the five passes of a frame, whatever state the OpenGL
context was in before. -/
theorem inputs_renderCommands {F : Type} [LinearOrderedField F] (r : Renderer F)
    (State : GameState F) (MVP VPI : Matrix44 F) (s0 : GLState F) :
    (drawCalls s0 (renderCommands r State MVP VPI)).map DrawCall.inputs
      = [ PassInputs.Splat MVP r.Model (buildMap State.Scene) 0
            (buildMap (F := F) State.Scene).length,
          PassInputs.Kernel ⟨VPI, spreadDirection 0, (1 / 2) / r.Subdivisions,
              pixelDimensions r, false, sceneOffset State⟩
            (some TextureName.TexturePosition1, some TextureName.TextureNormal1,
              some TextureName.TextureColour1) FrameBuffer.FrameBuffer2,
          PassInputs.Kernel ⟨VPI, spreadDirection 1, (1 / 2) / r.Subdivisions,
              pixelDimensions r, false, sceneOffset State⟩
            (some TextureName.TexturePosition2, some TextureName.TextureNormal2,
              some TextureName.TextureColour2) FrameBuffer.FrameBuffer1,
          PassInputs.Kernel ⟨VPI, spreadDirection 2, (1 / 2) / r.Subdivisions,
              pixelDimensions r, false, sceneOffset State⟩
            (some TextureName.TexturePosition1, some TextureName.TextureNormal1,
              some TextureName.TextureColour1) FrameBuffer.FrameBuffer2,
          PassInputs.Kernel ⟨VPI, ⟨0, 1⟩, (1 / 2) / r.Subdivisions,
              pixelDimensions r, true, sceneOffset State⟩
            (some TextureName.TexturePosition2, some TextureName.TextureNormal2,
              some TextureName.TextureColour2) FrameBuffer.Zero ] := by
  obtain ⟨d0, d1, d2, d3, d4, hl, h0, h1, h2, h3, h4⟩ :=
    drawCalls_renderCommands r State MVP VPI s0
  rw [hl]
  simp only [List.map_cons, List.map_nil, DrawCall.inputs]
  rw [h0.2.1, h1.2.1, h2.2.1, h3.2.1, h4.2.1]
  simp only []
  rw [h0.2.2.2.1, h0.2.2.2.2.1, h0.2.2.2.2.2.1, h0.2.2.2.2.2.2.1, h0.2.2.2.2.2.2.2.1,
    h1.2.2.1, h1.2.2.2.1, h1.2.2.2.2, h2.2.2.1, h2.2.2.2.1, h2.2.2.2.2,
    h3.2.2.1, h3.2.2.2.1, h3.2.2.2.2, h4.2.2.1, h4.2.2.2.1, h4.2.2.2.2]

/-- What a call of `Render` computes, in terms of its inputs alone. -/
theorem RenderFrame_inputs {F : Type} [LinearOrderedField F] (sqrt : F → F) (r : Renderer F)
    (m : FrameMemory F) (State : GameState F) :
    (RenderFrame sqrt r m State).map frameInputs
      = (Matrix44.View sqrt State.CameraPosition State.CameraTarget ⟨0, 1, 0⟩).bind fun View =>
        (Matrix44.Invert (r.Projection.mul View)).bind fun VPI =>
        some (View, buildMap State.Scene,
          (drawCalls sampleGLState (renderCommands r State
            ((r.Projection.mul View).mul r.Model) VPI)).map DrawCall.inputs) := by
  unfold RenderFrame
  cases Matrix44.View sqrt State.CameraPosition State.CameraTarget ⟨0, 1, 0⟩ with
  | none => rfl
  | some View =>
    simp only [Option.some_bind]
    cases Matrix44.Invert (r.Projection.mul View) with
    | none => rfl
    | some VPI =>
      simp only [Option.some_bind, Option.map_some', frameInputs, pushVoxels_clearMap,
        frameCommands_buildMap]
      rw [inputs_renderCommands, inputs_renderCommands]

/-- C29. `Render` is deterministic and carries nothing across frames: for two
renderers constructed for the same screen size, whatever the earlier frames
left in the member `View`, in the static vector `map` and in the OpenGL
context, two calls whose game states agree on the camera position, the camera
target, the scene offset, the sizes of the volume and the voxels of its cells
either both fail or both succeed with the same view matrix, the same sample
list and the same inputs to each of the passes (matrices, vertices, directions,
voxel size, pixel dimensions, scene offset, sampled textures and target).  The
vector is cleared first: it then holds the sample list of the volume. -/
theorem Render_deterministic {F : Type} [LinearOrderedField F] (sqrt tan : F → F) (M_PI : F)
    (ScreenWidth ScreenHeight : Nat) (gl1 gl2 : DriverReplies) (Log1 Log2 : List Diagnostic)
    (r1 r2 : Renderer F) (V1 V2 : Matrix44 F)
    (hc1 : Renderer.Renderer sqrt tan M_PI ScreenWidth ScreenHeight gl1
      = Construction.Completed Log1 r1 V1)
    (hc2 : Renderer.Renderer sqrt tan M_PI ScreenWidth ScreenHeight gl2
      = Construction.Completed Log2 r2 V2)
    (m1 m2 : FrameMemory F) (S1 S2 : GameState F)
    (hpos : S1.CameraPosition = S2.CameraPosition) (htar : S1.CameraTarget = S2.CameraTarget)
    (hoff : S1.SceneOffset = S2.SceneOffset)
    (hx : S1.Scene.SizeX = S2.Scene.SizeX) (hy : S1.Scene.SizeY = S2.Scene.SizeY)
    (hz : S1.Scene.SizeZ = S2.Scene.SizeZ)
    (hAt : ∀ x y z, x < S1.Scene.SizeX → y < S1.Scene.SizeY → z < S1.Scene.SizeZ →
      S1.Scene.At x y z = S2.Scene.At x y z) :
    (RenderFrame sqrt r1 m1 S1).map frameInputs = (RenderFrame sqrt r2 m2 S2).map frameInputs
    ∧ ∀ o, RenderFrame sqrt r1 m1 S1 = some o → o.1.map = buildMap S1.Scene := by
  have hr : r1 = r2 := by
    unfold Renderer.Renderer at hc1 hc2
    cases hV : Matrix44.View sqrt ⟨-(1 / 4), -(1 / 4), -(1 / 4)⟩ ⟨0, 0, 0⟩ ⟨0, 1, 0⟩ with
    | none =>
      rw [hV] at hc1
      cases hc1
    | some V =>
      rw [hV] at hc1 hc2
      simp only [] at hc1 hc2
      split_ifs at hc1 hc2
      cases hc1
      cases hc2
      rfl
  constructor
  · rw [RenderFrame_inputs, RenderFrame_inputs, hr, hpos, htar,
      buildMap_congr S1.Scene S2.Scene hx hy hz hAt]
    simp only [inputs_renderCommands, buildMap_congr S1.Scene S2.Scene hx hy hz hAt,
      sceneOffset, hoff]
  · intro o ho
    unfold RenderFrame at ho
    simp only [Option.bind_eq_some] at ho
    obtain ⟨View, _, VPI, _, ho⟩ := ho
    rw [← Option.some.inj ho]
    exact pushVoxels_clearMap _ _

/-- With the camera looking down the negative z axis a call of `Render` on the
renderer of a 64 by 64 window gets past its assertions. -/
theorem RenderFrame_axis_isSome (E : Vec3 ℝ) (Scene : Scene) (m : FrameMemory ℝ) :
    (RenderFrame Real.sqrt (reachRenderer Real.tan Real.pi) m (axisState E Scene)).isSome
      = true := by
  obtain ⟨R, hR, _⟩ := axis_Render E Scene
  have hP : (reachRenderer Real.tan Real.pi).Projection.mul
      (Matrix44.ofValues 1 0 0 (-E.x) 0 1 0 (-E.y) 0 0 1 (-E.z) 0 0 0 1)
      = axisViewProjection Real.tan Real.pi E := rfl
  unfold RenderFrame
  rw [axis_View]
  simp only [Option.some_bind]
  rw [hP, hR]
  rfl

/-- Witness of C29: two renderers of a 64 by 64 window, one of them built with
a shader that did not compile; a first frame and a frame that finds another
view matrix, a filled vector and another OpenGL state; two game states whose
volumes differ outside their cells only. -/
theorem Render_deterministic_witness :
    ∃ V : Matrix44 ℝ,
      Renderer.Renderer Real.sqrt Real.tan Real.pi 64 64 completeReplies
        = Construction.Completed [] (reachRenderer Real.tan Real.pi) V
      ∧ Renderer.Renderer Real.sqrt Real.tan Real.pi 64 64 failedCompileReplies
        = Construction.Completed [Diagnostic.VertexShader1, Diagnostic.ShaderProgram1]
            (reachRenderer Real.tan Real.pi) V
      ∧ (RenderFrame Real.sqrt (reachRenderer Real.tan Real.pi) firstMemory
          (axisState reachEye oneVoxelScene)).isSome = true
      ∧ (RenderFrame Real.sqrt (reachRenderer Real.tan Real.pi) firstMemory
          (axisState reachEye oneVoxelScene)).map frameInputs
        = (RenderFrame Real.sqrt (reachRenderer Real.tan Real.pi) laterMemory
          (axisState reachEye paddedVoxelScene)).map frameInputs := by
  obtain ⟨V, hV⟩ := Renderer_eq Real.tan Real.pi 64 64
  have hr : ({ ScreenWidth := 64
               ScreenHeight := 64
               Projection := Matrix44.Perspective Real.tan Real.pi 45
                 (((64 : Nat) : ℝ) / ((64 : Nat) : ℝ)) (1 / 100) 1000
               Model := Matrix44.Identity
               Subdivisions := 100 } : Renderer ℝ) = reachRenderer Real.tan Real.pi := by
    simp only [reachRenderer, Nat.cast_ofNat]
  have h1 : Renderer.Renderer Real.sqrt Real.tan Real.pi 64 64 completeReplies
      = Construction.Completed [] (reachRenderer Real.tan Real.pi) V := by
    rw [hV completeReplies, hr]
    simp [completeReplies, constructionLog, GL_FALSE]
  have h2 : Renderer.Renderer Real.sqrt Real.tan Real.pi 64 64 failedCompileReplies
      = Construction.Completed [Diagnostic.VertexShader1, Diagnostic.ShaderProgram1]
          (reachRenderer Real.tan Real.pi) V := by
    rw [hV failedCompileReplies, hr]
    simp [failedCompileReplies, constructionLog, GL_FALSE]
  have hAt : ∀ x y z, x < (axisState (F := ℝ) reachEye oneVoxelScene).Scene.SizeX →
      y < (axisState (F := ℝ) reachEye oneVoxelScene).Scene.SizeY →
      z < (axisState (F := ℝ) reachEye oneVoxelScene).Scene.SizeZ →
      (axisState (F := ℝ) reachEye oneVoxelScene).Scene.At x y z
        = (axisState (F := ℝ) reachEye paddedVoxelScene).Scene.At x y z := by
    intro x y z hx _ _
    have hx4 : ¬ 4 ≤ x := not_le.mpr hx
    simp only [axisState, oneVoxelScene, paddedVoxelScene, hx4, if_false]
  exact ⟨V, h1, h2, RenderFrame_axis_isSome _ _ _,
    (Render_deterministic Real.sqrt Real.tan Real.pi 64 64 completeReplies failedCompileReplies
      _ _ _ _ V V h1 h2 firstMemory laterMemory (axisState reachEye oneVoxelScene)
      (axisState reachEye paddedVoxelScene) rfl rfl rfl rfl rfl rfl hAt).1⟩

/-! ### The ray of the kernel -/

/-- A view matrix sends the point with the coordinates `(a, b, c)` along its
axes, measured from the eye, to `(a, b, c, 1)`. -/
theorem View_mulVec4_cameraPoint (Eye Target Up : Vector3 ℝ) (V : Matrix44 ℝ)
    (hV : Matrix44.View Real.sqrt Eye Target Up = some V) :
    ∃ AxisX AxisZ : Vector3 ℝ,
      Vector3.Normalise Real.sqrt (Vector3.sub Eye Target) = some AxisZ
      ∧ Vector3.Normalise Real.sqrt (Vector3.Cross Up AxisZ) = some AxisX
      ∧ ∀ a b c : ℝ,
        V.mulVec4 (Vec4.ofVec3
            (cameraPoint Eye AxisX (Vector3.Cross AxisZ AxisX) AxisZ a b c) 1)
          = ⟨a, b, c, 1⟩ := by
  obtain ⟨AxisX, AxisZ, hZ, hX, hVeq⟩ := View_eq_some Real.sqrt Eye Target Up V hV
  obtain ⟨hZZ, hXX, hXZ⟩ := View_axes Eye Target Up AxisX AxisZ hZ hX
  refine ⟨AxisX, AxisZ, hZ, hX, fun a b c => ?_⟩
  rw [hVeq]
  refine (ofValues_view_mulVec4 AxisX (Vector3.Cross AxisZ AxisX) AxisZ Eye
    (cameraPoint Eye AxisX (Vector3.Cross AxisZ AxisX) AxisZ a b c)).trans ?_
  obtain ⟨xx, xy, xz⟩ := AxisX
  obtain ⟨zx, zy, zz⟩ := AxisZ
  simp only [] at hZZ hXX hXZ
  have hYY : (zy * xz - zz * xy) * (zy * xz - zz * xy)
      + (zz * xx - zx * xz) * (zz * xx - zx * xz)
      + (zx * xy - zy * xx) * (zx * xy - zy * xx) = 1 := by
    linear_combination (xx * xx + xy * xy + xz * xz) * hZZ + hXX
      - (xx * zx + xy * zy + xz * zz) * hXZ
  simp only [Vec3.dot, Vec3.sub, Vector3.Cross, cameraPoint, Vec4.mk.injEq]
  refine ⟨?_, ?_, ?_, trivial⟩
  · linear_combination a * hXX + c * hXZ
  · linear_combination b * hYY
  · linear_combination a * hXZ + c * hZZ

/-- The product of a `Perspective` matrix with a point. -/
theorem Perspective_mulVec4 {F : Type} [LinearOrderedField F] (tan : F → F)
    (M_PI FieldOfView AspectRatio Near Far a b c : F) :
    (Matrix44.Perspective tan M_PI FieldOfView AspectRatio Near Far).mulVec4 ⟨a, b, c, 1⟩
      = ⟨2 * Near / (Near * tan (FieldOfView * M_PI / 360) * AspectRatio
            - -(Near * tan (FieldOfView * M_PI / 360) * AspectRatio)) * a,
         2 * Near / (Near * tan (FieldOfView * M_PI / 360)
            - -(Near * tan (FieldOfView * M_PI / 360))) * b,
         (-Far - Near) / (Far - Near) * c + -(2 * Near) * Far / (Far - Near),
         -c⟩ := by
  simp only [Matrix44.mulVec4, Matrix44.Perspective, Matrix44.Frustum,
    Matrix44.ofValues_00, Matrix44.ofValues_01, Matrix44.ofValues_02, Matrix44.ofValues_03,
    Matrix44.ofValues_10, Matrix44.ofValues_11, Matrix44.ofValues_12, Matrix44.ofValues_13,
    Matrix44.ofValues_20, Matrix44.ofValues_21, Matrix44.ofValues_22, Matrix44.ofValues_23,
    Matrix44.ofValues_30, Matrix44.ofValues_31, Matrix44.ofValues_32, Matrix44.ofValues_33,
    Vec4.mk.injEq]
  refine ⟨?_, ?_, ?_, ?_⟩ <;> ring

/-- The point of the near plane with the normalised device coordinates
`(X, Y)`, in camera space, is sent to `Near * (X, Y, -1, 1)`. -/
theorem Perspective_mulVec4_near {F : Type} [LinearOrderedField F] (tan : F → F)
    (M_PI FieldOfView AspectRatio Near Far X Y : F)
    (hv : Near * tan (FieldOfView * M_PI / 360) ≠ 0) (ha : AspectRatio ≠ 0)
    (hnf : Near ≠ Far) :
    (Matrix44.Perspective tan M_PI FieldOfView AspectRatio Near Far).mulVec4
        ⟨X * (Near * tan (FieldOfView * M_PI / 360) * AspectRatio),
         Y * (Near * tan (FieldOfView * M_PI / 360)), -Near, 1⟩
      = ⟨Near * X, Near * Y, Near * -1, Near * 1⟩ := by
  have hD : Far - Near ≠ 0 := sub_ne_zero.mpr (Ne.symm hnf)
  have hn : Near ≠ 0 := left_ne_zero_of_mul hv
  have ht : tan (FieldOfView * M_PI / 360) ≠ 0 := right_ne_zero_of_mul hv
  rw [Perspective_mulVec4]
  simp only [Vec4.mk.injEq]
  refine ⟨?_, ?_, ?_, ?_⟩
  · field_simp
    ring
  · field_simp
    ring
  · field_simp
    ring
  · ring

/-- The point of the far plane with the normalised device coordinates `(X, Y)`,
in camera space, is sent to `Far * (X, Y, 1, 1)`. -/
theorem Perspective_mulVec4_far {F : Type} [LinearOrderedField F] (tan : F → F)
    (M_PI FieldOfView AspectRatio Near Far X Y : F)
    (hv : Near * tan (FieldOfView * M_PI / 360) ≠ 0) (ha : AspectRatio ≠ 0)
    (hnf : Near ≠ Far) :
    (Matrix44.Perspective tan M_PI FieldOfView AspectRatio Near Far).mulVec4
        ⟨Far / Near * (X * (Near * tan (FieldOfView * M_PI / 360) * AspectRatio)),
         Far / Near * (Y * (Near * tan (FieldOfView * M_PI / 360))), -Far, 1⟩
      = ⟨Far * X, Far * Y, Far * 1, Far * 1⟩ := by
  have hD : Far - Near ≠ 0 := sub_ne_zero.mpr (Ne.symm hnf)
  have hn : Near ≠ 0 := left_ne_zero_of_mul hv
  have ht : tan (FieldOfView * M_PI / 360) ≠ 0 := right_ne_zero_of_mul hv
  rw [Perspective_mulVec4]
  simp only [Vec4.mk.injEq]
  refine ⟨?_, ?_, ?_, ?_⟩
  · field_simp
    ring
  · field_simp
    ring
  · field_simp
    ring
  · ring

/-- Unprojection through `Projection * View`: where the inverse sends the
points `(X, Y, -1)` and `(X, Y, 1)` of normalised device coordinates. -/
theorem unproject_View (tan : ℝ → ℝ) (M_PI FieldOfView AspectRatio Near Far : ℝ)
    (hv : Near * tan (FieldOfView * M_PI / 360) ≠ 0) (ha : AspectRatio ≠ 0)
    (hnf : Near ≠ Far) (hf : Far ≠ 0) (Eye Target Up : Vector3 ℝ) (V R : Matrix44 ℝ)
    (hV : Matrix44.View Real.sqrt Eye Target Up = some V)
    (hR : Matrix44.Invert
      ((Matrix44.Perspective tan M_PI FieldOfView AspectRatio Near Far).mul V) = some R) :
    ∃ AxisX AxisZ : Vector3 ℝ,
      Vector3.Normalise Real.sqrt (Vector3.sub Eye Target) = some AxisZ
      ∧ Vector3.Normalise Real.sqrt (Vector3.Cross Up AxisZ) = some AxisX
      ∧ ∀ X Y : ℝ,
        perspectiveDivide (R.mulVec4 ⟨X, Y, -1, 1⟩)
          = cameraPoint Eye AxisX (Vector3.Cross AxisZ AxisX) AxisZ
              (X * (Near * tan (FieldOfView * M_PI / 360) * AspectRatio))
              (Y * (Near * tan (FieldOfView * M_PI / 360))) (-Near)
        ∧ perspectiveDivide (R.mulVec4 ⟨X, Y, 1, 1⟩)
          = cameraPoint Eye AxisX (Vector3.Cross AxisZ AxisX) AxisZ
              (Far / Near * (X * (Near * tan (FieldOfView * M_PI / 360) * AspectRatio)))
              (Far / Near * (Y * (Near * tan (FieldOfView * M_PI / 360)))) (-Far) := by
  obtain ⟨AxisX, AxisZ, hZ, hX, hframe⟩ := View_mulVec4_cameraPoint Eye Target Up V hV
  have hn : Near ≠ 0 := left_ne_zero_of_mul hv
  refine ⟨AxisX, AxisZ, hZ, hX, fun X Y => ⟨?_, ?_⟩⟩
  · refine Matrix44.unproject _ R hR _ ⟨X, Y, -1, 1⟩ Near hn ?_
    rw [Matrix44.mulVec4_mul]
    have h := hframe (X * (Near * tan (FieldOfView * M_PI / 360) * AspectRatio))
      (Y * (Near * tan (FieldOfView * M_PI / 360))) (-Near)
    simp only [Vec4.ofVec3] at h
    rw [h]
    exact Perspective_mulVec4_near tan M_PI FieldOfView AspectRatio Near Far X Y hv ha hnf
  · refine Matrix44.unproject _ R hR _ ⟨X, Y, 1, 1⟩ Far hf ?_
    rw [Matrix44.mulVec4_mul]
    have h := hframe
      (Far / Near * (X * (Near * tan (FieldOfView * M_PI / 360) * AspectRatio)))
      (Far / Near * (Y * (Near * tan (FieldOfView * M_PI / 360)))) (-Far)
    simp only [Vec4.ofVec3] at h
    rw [h]
    exact Perspective_mulVec4_far tan M_PI FieldOfView AspectRatio Near Far X Y hv ha hnf

/-- The matrix `ViewProjectionInverseMatrix` of every draw call of program 2 in
a frame is the inverse `Render` computes. -/
theorem drawCalls_kernel_uniform {F : Type} [LinearOrderedField F] (r : Renderer F)
    (State : GameState F) (MVP VPI : Matrix44 F) (s0 : GLState F) (d : DrawCall F)
    (hd : d ∈ drawCalls s0 (renderCommands r State MVP VPI))
    (hprog : d.State.CurrentProgram = Program.ShaderProgram2) :
    d.State.Uniforms.ViewProjectionInverseMatrix = VPI := by
  obtain ⟨d0, d1, d2, d3, d4, hl, h0, h1, h2, h3, h4⟩ :=
    drawCalls_renderCommands r State MVP VPI s0
  rw [hl] at hd
  simp only [List.mem_cons, List.mem_singleton, List.not_mem_nil, or_false] at hd
  rcases hd with rfl | rfl | rfl | rfl | rfl
  · rw [h0.2.1] at hprog
    cases hprog
  · rw [h1.2.2.2.2]
  · rw [h2.2.2.2.2]
  · rw [h3.2.2.2.2]
  · rw [h4.2.2.2.2]

/-- C28, amended. For every camera for which `Render` gets past its assertions,
with the projection `Perspective(fov, aspect, near, far)` the constructor sets,
and every pixel with the normalised device coordinates `(X, Y)`, the ray of
every kernel pass is this.  Its origin (`ViewProjectionInverse` applied to
`(0, 0, -1, 1)`, divided by `w`) is the centre of the near plane: the eye
position given to `View` minus `near` times `AxisZ`, not the eye.  Its direction
is the normalised difference between the unprojected point of the far plane of
the pixel (normalised device coordinates `(X, Y, 1)`, the `VertexPosition` of
the full-screen triangle), which lies on the view ray of the pixel, and that
origin. -/
theorem kernel_ray (tan : ℝ → ℝ) (M_PI FieldOfView AspectRatio Near Far : ℝ)
    (hv : Near * tan (FieldOfView * M_PI / 360) ≠ 0) (ha : AspectRatio ≠ 0)
    (hnf : Near ≠ Far) (hf : Far ≠ 0) (r : Renderer ℝ) (State : GameState ℝ)
    (hP : r.Projection = Matrix44.Perspective tan M_PI FieldOfView AspectRatio Near Far)
    (cmds : List (GLCommand ℝ)) (hR : Render Real.sqrt r State = some cmds)
    (s0 : GLState ℝ) (d : DrawCall ℝ) (hd : d ∈ drawCalls s0 cmds)
    (hprog : d.State.CurrentProgram = Program.ShaderProgram2) :
    ∃ AxisX AxisY AxisZ : Vector3 ℝ,
      Vector3.Normalise Real.sqrt (Vector3.sub State.CameraPosition State.CameraTarget)
        = some AxisZ
      ∧ Vector3.Normalise Real.sqrt (Vector3.Cross ⟨0, 1, 0⟩ AxisZ) = some AxisX
      ∧ AxisY = Vector3.Cross AxisZ AxisX
      ∧ EyePosition d.State.Uniforms
          = cameraPoint State.CameraPosition AxisX AxisY AxisZ 0 0 (-Near)
      ∧ ∀ X Y : ℝ,
          perspectiveDivide (d.State.Uniforms.ViewProjectionInverseMatrix.mulVec4 ⟨X, Y, 1, 1⟩)
            = cameraPoint State.CameraPosition AxisX AxisY AxisZ
                (Far / Near * (X * (Near * tan (FieldOfView * M_PI / 360) * AspectRatio)))
                (Far / Near * (Y * (Near * tan (FieldOfView * M_PI / 360)))) (-Far)
          ∧ EyeVector Real.sqrt d.State.Uniforms ⟨X, Y, 1⟩
            = normalize Real.sqrt (Vec3.sub
                (cameraPoint State.CameraPosition AxisX AxisY AxisZ
                  (Far / Near * (X * (Near * tan (FieldOfView * M_PI / 360) * AspectRatio)))
                  (Far / Near * (Y * (Near * tan (FieldOfView * M_PI / 360)))) (-Far))
                (cameraPoint State.CameraPosition AxisX AxisY AxisZ 0 0 (-Near))) := by
  unfold Render at hR
  simp only [Option.bind_eq_some] at hR
  obtain ⟨V, hV, R, hI, hcmds⟩ := hR
  rw [← Option.some.inj hcmds] at hd
  have hU := drawCalls_kernel_uniform r State _ R s0 d hd hprog
  rw [hP] at hI
  obtain ⟨AxisX, AxisZ, hZ, hX, hpoints⟩ := unproject_View tan M_PI FieldOfView AspectRatio
    Near Far hv ha hnf hf State.CameraPosition State.CameraTarget ⟨0, 1, 0⟩ V R hV hI
  have hEye : EyePosition d.State.Uniforms
      = cameraPoint State.CameraPosition AxisX (Vector3.Cross AxisZ AxisX) AxisZ 0 0 (-Near) := by
    have h := (hpoints 0 0).1
    simp only [zero_mul] at h
    rw [← h, ← hU]
    rfl
  refine ⟨AxisX, Vector3.Cross AxisZ AxisX, AxisZ, hZ, hX, rfl, hEye, fun X Y => ?_⟩
  have hFar := (hpoints X Y).2
  rw [hU]
  refine ⟨hFar, ?_⟩
  rw [← hEye, ← hFar, ← hU]
  rfl

/-- Witness of C28 (amended): the composite pass of a frame of the 64 by 64
window whose camera looks down the negative z axis. -/
theorem kernel_ray_witness :
    ∃ (cmds : List (GLCommand ℝ)) (d : DrawCall ℝ),
      Render Real.sqrt (reachRenderer Real.tan Real.pi) (axisState reachEye oneVoxelScene)
        = some cmds
      ∧ d ∈ drawCalls sampleGLState cmds
      ∧ d.State.CurrentProgram = Program.ShaderProgram2
      ∧ ∃ AxisX AxisY AxisZ : Vector3 ℝ,
          EyePosition d.State.Uniforms
            = cameraPoint reachEye AxisX AxisY AxisZ 0 0 (-(1 / 100)) := by
  obtain ⟨R, _, hRender⟩ := axis_Render reachEye oneVoxelScene
  obtain ⟨d0, d1, d2, d3, d4, hl, _, _, _, _, h4⟩ :=
    drawCalls_renderCommands (reachRenderer Real.tan Real.pi) (axisState reachEye oneVoxelScene)
      ((axisViewProjection Real.tan Real.pi reachEye).mul (reachRenderer Real.tan Real.pi).Model)
      R sampleGLState
  have hd : d4 ∈ drawCalls sampleGLState
      (renderCommands (reachRenderer Real.tan Real.pi) (axisState reachEye oneVoxelScene)
        ((axisViewProjection Real.tan Real.pi reachEye).mul
          (reachRenderer Real.tan Real.pi).Model) R) := by
    rw [hl]
    simp
  have hv : (1 / 100 : ℝ) * Real.tan (45 * Real.pi / 360) ≠ 0 :=
    mul_ne_zero (by norm_num) tan_reach_pos.ne'
  obtain ⟨AxisX, AxisY, AxisZ, _, _, _, hEye, _⟩ :=
    kernel_ray Real.tan Real.pi 45 (64 / 64) (1 / 100) 1000 hv (by norm_num) (by norm_num)
      (by norm_num) (reachRenderer Real.tan Real.pi) (axisState reachEye oneVoxelScene) rfl
      _ hRender sampleGLState d4 hd h4.2.1
  exact ⟨_, d4, hRender, hd, h4.2.1, AxisX, AxisY, AxisZ, hEye⟩

theorem axis_mulVec4_near (E : Vec3 ℝ) (X Y : ℝ) :
    (axisViewProjection Real.tan Real.pi E).mulVec4
        ⟨E.x + 1 / 100 * Real.tan (45 * Real.pi / 360) * X,
         E.y + 1 / 100 * Real.tan (45 * Real.pi / 360) * Y,
         E.z - 1 / 100, 1⟩
      = ⟨1 / 100 * X, 1 / 100 * Y, 1 / 100 * -1, 1 / 100 * 1⟩ := by
  have ht := tan_reach_pos
  simp only [Matrix44.mulVec4, axisViewProjection,
    Matrix44.mul_data, reachRenderer, Matrix44.Perspective, Matrix44.Frustum,
    Matrix44.ofValues_00, Matrix44.ofValues_01, Matrix44.ofValues_02, Matrix44.ofValues_03,
    Matrix44.ofValues_10, Matrix44.ofValues_11, Matrix44.ofValues_12, Matrix44.ofValues_13,
    Matrix44.ofValues_20, Matrix44.ofValues_21, Matrix44.ofValues_22, Matrix44.ofValues_23,
    Matrix44.ofValues_30, Matrix44.ofValues_31, Matrix44.ofValues_32, Matrix44.ofValues_33,
    Vec4.mk.injEq]
  set t := Real.tan (45 * Real.pi / 360) with htdef
  have ht0 : t ≠ 0 := ht.ne'
  refine ⟨?_, ?_, ?_, ?_⟩ <;> field_simp <;> ring

/-- In a frame whose camera is at `E` and looks down the negative z axis, the
ray of a pixel other than the centre is neither the ray from the origin of the
kernel through the pixel's point of the near plane nor the ray from the eye
through it. -/
theorem axis_ray_ne (E : Vec3 ℝ) (R : Matrix44 ℝ)
    (hR : Matrix44.Invert (axisViewProjection Real.tan Real.pi E) = some R) (U : Uniforms ℝ)
    (hU : U.ViewProjectionInverseMatrix = R) (X Y : ℝ) (hX : 0 < X) :
    EyePosition U ≠ E
    ∧ EyeVector Real.sqrt U ⟨X, Y, 1⟩
        ≠ normalize Real.sqrt (Vec3.sub
            (perspectiveDivide (U.ViewProjectionInverseMatrix.mulVec4 ⟨X, Y, -1, 1⟩))
            (EyePosition U))
    ∧ EyeVector Real.sqrt U ⟨X, Y, 1⟩
        ≠ normalize Real.sqrt (Vec3.sub
            (perspectiveDivide (U.ViewProjectionInverseMatrix.mulVec4 ⟨X, Y, -1, 1⟩)) E) := by
  obtain ⟨hEye, k, hk, hdir⟩ := axis_ray E R hR U hU ⟨X, Y, 1⟩ rfl
  have hNear : perspectiveDivide (U.ViewProjectionInverseMatrix.mulVec4 ⟨X, Y, -1, 1⟩)
      = ⟨E.x + 1 / 100 * Real.tan (45 * Real.pi / 360) * X,
         E.y + 1 / 100 * Real.tan (45 * Real.pi / 360) * Y, E.z - 1 / 100⟩ := by
    rw [hU]
    exact Matrix44.unproject _ R hR _ ⟨X, Y, -1, 1⟩ (1 / 100) (by norm_num)
      (axis_mulVec4_near E X Y)
  have ht := tan_reach_pos
  set t := Real.tan (45 * Real.pi / 360) with htdef
  refine ⟨?_, ?_, ?_⟩
  · rw [hEye]
    intro h
    have hz := congrArg Vec3.z h
    simp only [] at hz
    linarith
  · rw [hdir, hNear, hEye]
    intro h
    have hz := congrArg Vec3.z h
    simp only [normalize, Vec3.divScalar, Vec3.sub, sub_self, zero_div] at hz
    rcases div_eq_zero_iff.mp hz with h1 | h1
    · norm_num at h1
    · exact hk.ne' h1
  · rw [hdir, hNear]
    intro h
    set w : Vec3 ℝ := Vec3.sub ⟨E.x + 1 / 100 * t * X, E.y + 1 / 100 * t * Y, E.z - 1 / 100⟩ E
      with hw
    have hwx : w.x = 1 / 100 * t * X := by
      simp only [hw, Vec3.sub]
      ring
    have hwz : w.z = -(1 / 100) := by
      simp only [hw, Vec3.sub]
      ring
    have hdot : 0 < w.dot w := by
      simp only [Vec3.dot, hwz]
      nlinarith [mul_self_nonneg w.x, mul_self_nonneg w.y]
    have hk2 : 0 < Real.sqrt (w.dot w) := Real.sqrt_pos.mpr hdot
    set k2 := Real.sqrt (w.dot w) with hk2def
    have hx := congrArg Vec3.x h
    have hz := congrArg Vec3.z h
    simp only [normalize, Vec3.divScalar, hwx, hwz] at hx hz
    rw [div_eq_div_iff hk.ne' hk2.ne'] at hx hz
    have hzero : 1 / 100 * (t * X * k2) = 0 := by
      linear_combination hx + (t * X) * hz
    have hpos : 0 < t * X * k2 := by positivity
    linarith

/-- C28, counterexample. In the frame of the 64 by 64 window whose camera is
at the origin and looks down the negative z axis, the origin of the ray of
every kernel pass is (0, 0, -0.01), not the eye (0, 0, 0); and the direction of
the ray of the pixel (40, 40) is not the normalised difference between the
unprojected point of the near plane of the pixel and the origin of the ray, nor
between that point and the eye. -/
theorem kernel_ray_counterexample :
    ∃ cmds : List (GLCommand ℝ),
      Render Real.sqrt (reachRenderer Real.tan Real.pi) (axisState ⟨0, 0, 0⟩ emptyScene)
        = some cmds
      ∧ ∀ d ∈ drawCalls sampleGLState cmds, d.State.CurrentProgram = Program.ShaderProgram2 →
        EyePosition d.State.Uniforms = ⟨0, 0, 0 - 1 / 100⟩
        ∧ EyePosition d.State.Uniforms ≠ (axisState (F := ℝ) ⟨0, 0, 0⟩ emptyScene).CameraPosition
        ∧ EyeVector Real.sqrt d.State.Uniforms (FragmentVertexPosition 64 64 40 40)
            ≠ normalize Real.sqrt (Vec3.sub
                (perspectiveDivide (d.State.Uniforms.ViewProjectionInverseMatrix.mulVec4
                  ⟨(FragmentVertexPosition (F := ℝ) 64 64 40 40).x,
                   (FragmentVertexPosition (F := ℝ) 64 64 40 40).y, -1, 1⟩))
                (EyePosition d.State.Uniforms))
        ∧ EyeVector Real.sqrt d.State.Uniforms (FragmentVertexPosition 64 64 40 40)
            ≠ normalize Real.sqrt (Vec3.sub
                (perspectiveDivide (d.State.Uniforms.ViewProjectionInverseMatrix.mulVec4
                  ⟨(FragmentVertexPosition (F := ℝ) 64 64 40 40).x,
                   (FragmentVertexPosition (F := ℝ) 64 64 40 40).y, -1, 1⟩))
                (axisState (F := ℝ) ⟨0, 0, 0⟩ emptyScene).CameraPosition) := by
  obtain ⟨R, hR, hRender⟩ := axis_Render ⟨0, 0, 0⟩ emptyScene
  refine ⟨_, hRender, fun d hd hprog => ?_⟩
  have hU := drawCalls_kernel_uniform _ _ _ R sampleGLState d hd hprog
  have hX : (0 : ℝ) < (FragmentVertexPosition (F := ℝ) 64 64 40 40).x := by
    simp only [FragmentVertexPosition]
    norm_num
  obtain ⟨h1, h2, h3⟩ := axis_ray_ne ⟨0, 0, 0⟩ R hR d.State.Uniforms hU
    (FragmentVertexPosition (F := ℝ) 64 64 40 40).x
    (FragmentVertexPosition (F := ℝ) 64 64 40 40).y hX
  exact ⟨(axis_ray ⟨0, 0, 0⟩ R hR d.State.Uniforms hU ⟨0, 0, 1⟩ rfl).1, h1, h2, h3⟩

/-! ### The taps of the kernel -/

theorem Taps_length : Taps.length = 33 := by decide

theorem Taps_pairwise : Taps.Pairwise (fun a b => a < b) := by decide

theorem mem_Taps_iff (t : Int) : t ∈ Taps ↔ -16 ≤ t ∧ t ≤ 16 :=
  ⟨Taps_bounds t, fun h => mem_Taps t h.1 h.2⟩

/-- The loop over a list of taps ends in the record of the tap `k` when `k`
hits no farther than the best depth so far and than every hitting tap before
it, and nearer than every hitting tap after it. -/
theorem foldl_tapStep_last_minimal {F : Type} [LinearOrderedField F] (S : Samplers F)
    (U : Uniforms F) (eye dir : Vec3 F) (dc : Vec2 F) (L1 L2 : List Int) (k : Int)
    (s : KernelState F) (hhit : tapHits S U eye dir dc k)
    (hs : (IntersectionDepths S U eye dir dc k).x ≤ s.BestDepth)
    (h1 : ∀ j ∈ L1, tapHits S U eye dir dc j →
      (IntersectionDepths S U eye dir dc k).x ≤ (IntersectionDepths S U eye dir dc j).x)
    (h2 : ∀ j ∈ L2, tapHits S U eye dir dc j →
      (IntersectionDepths S U eye dir dc k).x < (IntersectionDepths S U eye dir dc j).x) :
    (L1 ++ k :: L2).foldl (tapStep S U eye dir dc) s = tapRecord S U eye dir dc k := by
  rw [List.foldl_append, List.foldl_cons]
  have hbefore : (IntersectionDepths S U eye dir dc k).x
      ≤ (L1.foldl (tapStep S U eye dir dc) s).BestDepth := by
    rcases (foldl_tapStep_spec S U eye dir dc L1 s).2.2 with h | ⟨j, hj, hjhit, _, hrec⟩
    · rw [h]
      exact hs
    · rw [hrec]
      exact h1 j hj hjhit
  rw [tapStep_of_hit S U eye dir dc _ k hhit hbefore]
  exact foldl_tapStep_of_no_candidate S U eye dir dc L2 _ h2

/-- C34. For every pixel, source textures and uniforms, the kernel examines
exactly the 33 taps `t = -16 .. 16`, at the coordinates
`DataCoordinate + t * EvaluationDirection * PixelDimensions`: all in the row of
the pixel for the direction (1, 0) and all in its column for (0, 1).  When the
loop is left, its output position, normal and colour are the three zero vectors
it started from, or exactly the three values the textures hold at the
coordinate of one single tap, which reported a hit. -/
theorem kernel_selects_one_tap {F : Type} [LinearOrderedField F] (sqrt : F → F)
    (S : Samplers F) (U : Uniforms F) (VertexPosition : Vec3 F) :
    Taps.length = 33
    ∧ (∀ t : Int, t ∈ Taps ↔ -16 ≤ t ∧ t ≤ 16)
    ∧ (∀ t : Int, TappedCoordinate U (DataCoordinate VertexPosition) t
        = ⟨(DataCoordinate VertexPosition).x
            + (t : F) * U.EvaluationDirection.x * U.PixelDimensions.x,
           (DataCoordinate VertexPosition).y
            + (t : F) * U.EvaluationDirection.y * U.PixelDimensions.y⟩)
    ∧ (U.EvaluationDirection = ⟨1, 0⟩ → ∀ t : Int,
        (TappedCoordinate U (DataCoordinate VertexPosition) t).y
          = (DataCoordinate VertexPosition).y)
    ∧ (U.EvaluationDirection = ⟨0, 1⟩ → ∀ t : Int,
        (TappedCoordinate U (DataCoordinate VertexPosition) t).x
          = (DataCoordinate VertexPosition).x)
    ∧ ((resolve sqrt S U VertexPosition).data = zeroData
        ∨ ∃ t ∈ Taps, fragmentTapHits sqrt S U VertexPosition t
            ∧ (resolve sqrt S U VertexPosition).data
              = ((S.PositionSampler (TappedCoordinate U (DataCoordinate VertexPosition) t)).xyz,
                 (S.NormalSampler (TappedCoordinate U (DataCoordinate VertexPosition) t)).xyz,
                 (S.ColourSampler (TappedCoordinate U (DataCoordinate VertexPosition) t)).xyz)) := by
  refine ⟨Taps_length, mem_Taps_iff, fun t => rfl, ?_, ?_, ?_⟩
  · intro hdir t
    simp [TappedCoordinate, hdir]
  · intro hdir t
    simp [TappedCoordinate, hdir]
  · rcases (foldl_tapStep_spec S U (EyePosition U) (EyeVector sqrt U VertexPosition)
      (DataCoordinate VertexPosition) Taps KernelState.initial).2.2 with h | ⟨t, ht, hhit, _, hrec⟩
    · left
      have hres : resolve sqrt S U VertexPosition = KernelState.initial := h
      rw [hres]
      rfl
    · right
      have hres : resolve sqrt S U VertexPosition
          = tapRecord S U (EyePosition U) (EyeVector sqrt U VertexPosition)
              (DataCoordinate VertexPosition) t := hrec
      refine ⟨t, ht, hhit, ?_⟩
      rw [hres]
      rfl

/-- C36. When several hitting taps share the minimal entry depth, itself at
most the initial best depth 9999999, the kernel ends with the values of the one
visited last, the one with the largest tap offset: for a hitting tap `k` whose
entry depth is at most 9999999, at most that of every hitting tap, and below
that of every hitting tap with a larger offset, the loop ends in the record of
`k`.  A hitting tap whose entry depth exceeds 9999999 is never selected: the
best depth never exceeds 9999999, and the loop does not end in its record. -/
theorem kernel_ties_last {F : Type} [LinearOrderedField F] (sqrt : F → F)
    (S : Samplers F) (U : Uniforms F) (VertexPosition : Vec3 F) :
    (∀ k ∈ Taps, fragmentTapHits sqrt S U VertexPosition k →
      fragmentTapDepth sqrt S U VertexPosition k ≤ InitialBestDepth →
      (∀ j ∈ Taps, fragmentTapHits sqrt S U VertexPosition j →
        fragmentTapDepth sqrt S U VertexPosition k ≤ fragmentTapDepth sqrt S U VertexPosition j) →
      (∀ j ∈ Taps, k < j → fragmentTapHits sqrt S U VertexPosition j →
        fragmentTapDepth sqrt S U VertexPosition k < fragmentTapDepth sqrt S U VertexPosition j) →
      resolve sqrt S U VertexPosition = fragmentTapRecord sqrt S U VertexPosition k)
    ∧ (resolve sqrt S U VertexPosition).BestDepth ≤ InitialBestDepth
    ∧ (∀ j ∈ Taps, fragmentTapHits sqrt S U VertexPosition j →
        InitialBestDepth < fragmentTapDepth sqrt S U VertexPosition j →
        resolve sqrt S U VertexPosition ≠ fragmentTapRecord sqrt S U VertexPosition j) := by
  have hbest : (resolve sqrt S U VertexPosition).BestDepth ≤ InitialBestDepth :=
    (foldl_tapStep_spec S U (EyePosition U) (EyeVector sqrt U VertexPosition)
      (DataCoordinate VertexPosition) Taps KernelState.initial).1
  refine ⟨?_, hbest, ?_⟩
  · intro k hk hhit hle hmin hlast
    obtain ⟨L1, L2, hsplit⟩ := List.append_of_mem hk
    have hpw := Taps_pairwise
    rw [hsplit] at hpw
    have hafter : ∀ j ∈ L2, k < j := (List.pairwise_cons.mp (List.pairwise_append.mp hpw).2.1).1
    have hmem1 : ∀ j ∈ L1, j ∈ Taps := fun j hj => by
      rw [hsplit]
      exact List.mem_append_left _ hj
    have hmem2 : ∀ j ∈ L2, j ∈ Taps := fun j hj => by
      rw [hsplit]
      exact List.mem_append_right _ (List.mem_cons_of_mem _ hj)
    unfold resolve tapLoop
    rw [hsplit]
    exact foldl_tapStep_last_minimal S U _ _ _ L1 L2 k KernelState.initial hhit hle
      (fun j hj hjhit => hmin j (hmem1 j hj) hjhit)
      (fun j hj hjhit => hlast j (hmem2 j hj) (hafter j hj) hjhit)
  · intro j _ _ hfar heq
    have h1 : (resolve sqrt S U VertexPosition).BestDepth
        = fragmentTapDepth sqrt S U VertexPosition j := by
      rw [heq]
      rfl
    rw [h1] at hbest
    exact absurd hfar (not_lt.mpr hbest)

/-! ### The noise of the composite pass -/

theorem fract_bounds {F : Type} [LinearOrderedField F] [FloorRing F] (x : F) :
    0 ≤ fract x ∧ fract x < 1 := by
  unfold fract glslFloor
  constructor
  · exact sub_nonneg.mpr (Int.floor_le x)
  · have := Int.lt_floor_add_one x
    linarith

theorem Hash_bounds {F : Type} [LinearOrderedField F] [FloorRing F] (sin : F → F) (Seed : F) :
    0 ≤ Hash sin Seed ∧ Hash sin Seed < 1 :=
  fract_bounds _

/-- The weight `f * f * (3 - 2 * f)` of `Noise` stays between 0 and 1. -/
theorem smooth_bounds {F : Type} [LinearOrderedField F] (f : F) (h0 : 0 ≤ f) (h1 : f < 1) :
    0 ≤ f * f * (3 - 2 * f) ∧ f * f * (3 - 2 * f) ≤ 1 := by
  constructor
  · have h3 : 0 ≤ 3 - 2 * f := by linarith
    exact mul_nonneg (mul_self_nonneg f) h3
  · have h2 : 0 ≤ (1 - f) * (1 - f) * (1 + 2 * f) :=
      mul_nonneg (mul_self_nonneg _) (by linarith)
    nlinarith

/-- A `mix` with a weight between 0 and 1 is a convex combination. -/
theorem mix_bounds {F : Type} [LinearOrderedField F] (x y a : F) (hx0 : 0 ≤ x) (hx1 : x ≤ 1)
    (hy0 : 0 ≤ y) (hy1 : y ≤ 1) (ha0 : 0 ≤ a) (ha1 : a ≤ 1) :
    0 ≤ mix x y a ∧ mix x y a ≤ 1 := by
  unfold mix
  have h1a : 0 ≤ 1 - a := by linarith
  constructor
  · exact add_nonneg (mul_nonneg hx0 h1a) (mul_nonneg hy0 ha0)
  · have e1 : x * (1 - a) ≤ 1 * (1 - a) := mul_le_mul_of_nonneg_right hx1 h1a
    have e2 : y * a ≤ 1 * a := mul_le_mul_of_nonneg_right hy1 ha0
    linarith

/-- C35. For every seed vector (and every sine), `Noise(seed)` lies in the
range -1 to 1 its comment states, indeed between 0 and 1: every value of `Hash`
is a `fract`, in `[0, 1)`, the three weights of the interpolation lie in
`[0, 1]`, and every `mix` is a convex combination. -/
theorem Noise_range {F : Type} [LinearOrderedField F] [FloorRing F] (sin : F → F)
    (Seed : Vec3 F) :
    (-1 ≤ Noise sin Seed ∧ Noise sin Seed ≤ 1)
    ∧ (0 ≤ Noise sin Seed ∧ Noise sin Seed ≤ 1)
    ∧ (∀ x : F, 0 ≤ Hash sin x ∧ Hash sin x < 1)
    ∧ (∀ x : F, 0 ≤ fract x * fract x * (3 - 2 * fract x)
        ∧ fract x * fract x * (3 - 2 * fract x) ≤ 1) := by
  have hH : ∀ x : F, 0 ≤ Hash sin x ∧ Hash sin x ≤ 1 :=
    fun x => ⟨(Hash_bounds sin x).1, (Hash_bounds sin x).2.le⟩
  have hw : ∀ x : F, 0 ≤ fract x * fract x * (3 - 2 * fract x)
      ∧ fract x * fract x * (3 - 2 * fract x) ≤ 1 :=
    fun x => smooth_bounds _ (fract_bounds x).1 (fract_bounds x).2
  have hN : 0 ≤ Noise sin Seed ∧ Noise sin Seed ≤ 1 := by
    unfold Noise
    simp only []
    have m1 := fun a b : F => mix_bounds (Hash sin a) (Hash sin b) _
      (hH a).1 (hH a).2 (hH b).1 (hH b).2 (hw Seed.x).1 (hw Seed.x).2
    have m2 := fun a b c d : F => mix_bounds _ _ _
      (m1 a b).1 (m1 a b).2 (m1 c d).1 (m1 c d).2 (hw Seed.y).1 (hw Seed.y).2
    exact mix_bounds _ _ _ (m2 _ _ _ _).1 (m2 _ _ _ _).2 (m2 _ _ _ _).1 (m2 _ _ _ _).2
      (hw Seed.z).1 (hw Seed.z).2
  exact ⟨⟨by linarith [hN.1], hN.2⟩, hN, Hash_bounds sin, hw⟩

theorem fract_intCast {F : Type} [LinearOrderedField F] [FloorRing F] (n : Int) :
    fract (n : F) = 0 := by
  simp [fract, glslFloor]

theorem mix_zero {F : Type} [LinearOrderedField F] (x y : F) : mix x y 0 = x := by
  simp [mix]

/-- On a seed with integer components `Noise` does not interpolate. -/
theorem Noise_intCast {F : Type} [LinearOrderedField F] [FloorRing F] (sin : F → F)
    (a b c : Int) :
    Noise sin ⟨(a : F), (b : F), (c : F)⟩ = Hash sin ((a : F) + 57 * (b : F) + 113 * (c : F)) := by
  unfold Noise
  simp only [fract_intCast, glslFloor, Int.floor_intCast, mul_zero, zero_mul, mix_zero, add_zero]
  congr 1
  ring

/-- C40. In exact arithmetic, for a pixel resolving to the voxel of the grid
cell `(x, y, z)` and an integer scene offset `(ox, oy, oz)`, the noise seed
`(OutputPosition + SceneOffset) * 100` of the composite pass is the integer
vector `(x + ox, y + oy, z + oz)`; its fractional part is zero, and `Noise`
returns exactly `Hash((x + ox) + 57 * (y + oy) + 113 * (z + oz))`, which is the
value the colour of the pixel is mixed with: one value for the whole voxel. -/
theorem noise_constant_per_voxel {F : Type} [LinearOrderedField F] [FloorRing F]
    (sin : F → F) (x y z : Nat) (ox oy oz : Int) (v : Voxel) (State : GameState F)
    (hoff : State.SceneOffset = ⟨(ox : F), (oy : F), (oz : F)⟩) (U : Uniforms F)
    (hU : U.SceneOffset = sceneOffset State) (s : KernelState F)
    (hs : s.OutputPosition = (voxelRecord (F := F) x y z v).Position) :
    noiseSeed U s = ⟨(((x : Int) + ox : Int) : F), (((y : Int) + oy : Int) : F),
        (((z : Int) + oz : Int) : F)⟩
    ∧ (fract (noiseSeed U s).x = 0 ∧ fract (noiseSeed U s).y = 0 ∧ fract (noiseSeed U s).z = 0)
    ∧ Noise sin (noiseSeed U s)
        = Hash sin ((((x : Int) + ox : Int) : F) + 57 * (((y : Int) + oy : Int) : F)
            + 113 * (((z : Int) + oz : Int) : F))
    ∧ compositeColour sin U s
        = ⟨mix (Noise sin (noiseSeed U s))
              (mix (HemisphereLighting s.OutputNormal).x (HSL2RGB s.OutputColour).x (1 / 2))
              (9 / 10),
           mix (Noise sin (noiseSeed U s))
              (mix (HemisphereLighting s.OutputNormal).y (HSL2RGB s.OutputColour).y (1 / 2))
              (9 / 10),
           mix (Noise sin (noiseSeed U s))
              (mix (HemisphereLighting s.OutputNormal).z (HSL2RGB s.OutputColour).z (1 / 2))
              (9 / 10),
           mix (Noise sin (noiseSeed U s)) 1 1⟩ := by
  have hseed : noiseSeed U s = ⟨(((x : Int) + ox : Int) : F), (((y : Int) + oy : Int) : F),
      (((z : Int) + oz : Int) : F)⟩ := by
    simp only [noiseSeed, hs, hU, sceneOffset, hoff, voxelRecord, Vec3.mk.injEq]
    push_cast
    refine ⟨?_, ?_, ?_⟩ <;> ring
  refine ⟨hseed, ?_, ?_, rfl⟩
  · rw [hseed]
    exact ⟨fract_intCast _, fract_intCast _, fract_intCast _⟩
  · rw [hseed]
    exact Noise_intCast sin _ _ _

/-- Witness of C40: the voxel of the cell (1, 2, 3) and the scene offset
(2, -3, 5) give the seed (3, -1, 8). -/
theorem noise_constant_per_voxel_witness :
    noiseSeed (F := ℚ) ⟨Matrix44.Identity, ⟨0, 1⟩, 1 / 200, ⟨1 / 2, 1 / 3⟩, true,
        sceneOffset offsetState⟩
        ⟨5, (voxelRecord 1 2 3 ⟨5, 3, 8, 1⟩).Position, ⟨1, 0, 0⟩, ⟨1, 0, 0⟩⟩
      = ⟨3, -1, 8⟩
    ∧ Noise (fun q : ℚ => q / 3)
        (noiseSeed ⟨Matrix44.Identity, ⟨0, 1⟩, 1 / 200, ⟨1 / 2, 1 / 3⟩, true,
          sceneOffset offsetState⟩
          ⟨5, (voxelRecord 1 2 3 ⟨5, 3, 8, 1⟩).Position, ⟨1, 0, 0⟩, ⟨1, 0, 0⟩⟩)
      = Hash (fun q : ℚ => q / 3) (3 + 57 * (-1) + 113 * 8) := by
  have h := noise_constant_per_voxel (F := ℚ) (fun q : ℚ => q / 3) 1 2 3 2 (-3) 5 ⟨5, 3, 8, 1⟩
    offsetState rfl
    ⟨Matrix44.Identity, ⟨0, 1⟩, 1 / 200, ⟨1 / 2, 1 / 3⟩, true, sceneOffset offsetState⟩ rfl
    ⟨5, (voxelRecord 1 2 3 ⟨5, 3, 8, 1⟩).Position, ⟨1, 0, 0⟩, ⟨1, 0, 0⟩⟩ rfl
  refine ⟨?_, ?_⟩
  · rw [h.1]
    norm_num
  · rw [h.2.2.1]
    norm_num

/-! ### The cubes of the grid cells -/

/-- Every kernel pass of a frame has the voxel size `0.5 / Subdivisions`. -/
theorem drawCalls_kernel_VoxelSize {F : Type} [LinearOrderedField F] (r : Renderer F)
    (State : GameState F) (MVP VPI : Matrix44 F) (s0 : GLState F) (d : DrawCall F)
    (hd : d ∈ drawCalls s0 (renderCommands r State MVP VPI))
    (hprog : d.State.CurrentProgram = Program.ShaderProgram2) :
    d.State.Uniforms.VoxelSize = (1 / 2) / r.Subdivisions := by
  obtain ⟨d0, d1, d2, d3, d4, hl, h0, h1, h2, h3, h4⟩ :=
    drawCalls_renderCommands r State MVP VPI s0
  rw [hl] at hd
  simp only [List.mem_cons, List.mem_singleton, List.not_mem_nil, or_false] at hd
  rcases hd with rfl | rfl | rfl | rfl | rfl
  · rw [h0.2.1] at hprog
    cases hprog
  · rw [h1.2.2.2.2]
  · rw [h2.2.2.2.2]
  · rw [h3.2.2.2.2]
  · rw [h4.2.2.2.2]

/-- The fields the constructor leaves when it completes. -/
theorem Renderer_fields {F : Type} [LinearOrderedField F] (sqrt tan : F → F) (M_PI : F)
    (ScreenWidth ScreenHeight : Nat) (gl : DriverReplies) (Log : List Diagnostic)
    (r : Renderer F) (V : Matrix44 F)
    (hc : Renderer.Renderer sqrt tan M_PI ScreenWidth ScreenHeight gl
      = Construction.Completed Log r V) :
    r.ScreenWidth = ScreenWidth ∧ r.ScreenHeight = ScreenHeight
    ∧ r.Projection = Matrix44.Perspective tan M_PI 45
        ((ScreenWidth : F) / (ScreenHeight : F)) (1 / 100) 1000
    ∧ r.Model = Matrix44.Identity ∧ r.Subdivisions = 100 := by
  unfold Renderer.Renderer at hc
  cases hV : Matrix44.View sqrt ⟨-(1 / 4), -(1 / 4), -(1 / 4)⟩ ⟨0, 0, 0⟩ ⟨0, 1, 0⟩ with
  | none =>
    rw [hV] at hc
    cases hc
  | some V0 =>
    rw [hV] at hc
    simp only [] at hc
    split_ifs at hc
    cases hc
    exact ⟨rfl, rfl, rfl, rfl, rfl⟩

/-- Two intervals of half-width 1/200 around `a / 100` and `b / 100`, with
`a < b` natural numbers, have no common interior point. -/
theorem cell_intervals_disjoint {F : Type} [LinearOrderedField F] (a b : Nat) (h : a < b)
    (q : F) (h1 : q < (a : F) / 100 + 1 / 200) (h2 : (b : F) / 100 - 1 / 200 < q) : False := by
  have hab : (a : F) + 1 ≤ (b : F) := by exact_mod_cast h
  linarith

/-- C37. With the constants `Render` uses (world position = grid coordinate /
100, `VoxelSize = 0.5 / Subdivisions`, `Subdivisions = 100`), every kernel pass
has the voxel size 1/200 and the cubes it reconstructs tile space exactly: the
cube of the cell `(x, y, z)` and the cube of the next cell along x share the
face at `(2 x + 1) / 200` (likewise along y and z), and the cubes of two
distinct cells have no common interior point. -/
theorem cubes_tile_space {F : Type} [LinearOrderedField F] (sqrt tan : F → F) (M_PI : F)
    (ScreenWidth ScreenHeight : Nat) (gl : DriverReplies) (Log : List Diagnostic)
    (r : Renderer F) (V : Matrix44 F)
    (hc : Renderer.Renderer sqrt tan M_PI ScreenWidth ScreenHeight gl
      = Construction.Completed Log r V)
    (State : GameState F) (MVP VPI : Matrix44 F) (s0 : GLState F) (d : DrawCall F)
    (hd : d ∈ drawCalls s0 (renderCommands r State MVP VPI))
    (hprog : d.State.CurrentProgram = Program.ShaderProgram2) :
    d.State.Uniforms.VoxelSize = 1 / 200
    ∧ ∀ (x y z : Nat) (v : Voxel),
      (((voxelRecord (F := F) x y z v).Position.addScalar d.State.Uniforms.VoxelSize).x
          = (2 * (x : F) + 1) / 200
        ∧ ∀ v', ((voxelRecord (F := F) (x + 1) y z v').Position.subScalar
            d.State.Uniforms.VoxelSize).x = (2 * (x : F) + 1) / 200)
      ∧ (((voxelRecord (F := F) x y z v).Position.addScalar d.State.Uniforms.VoxelSize).y
          = (2 * (y : F) + 1) / 200
        ∧ ∀ v', ((voxelRecord (F := F) x (y + 1) z v').Position.subScalar
            d.State.Uniforms.VoxelSize).y = (2 * (y : F) + 1) / 200)
      ∧ (((voxelRecord (F := F) x y z v).Position.addScalar d.State.Uniforms.VoxelSize).z
          = (2 * (z : F) + 1) / 200
        ∧ ∀ v', ((voxelRecord (F := F) x y (z + 1) v').Position.subScalar
            d.State.Uniforms.VoxelSize).z = (2 * (z : F) + 1) / 200)
      ∧ ∀ (x' y' z' : Nat) (v' : Voxel), (x, y, z) ≠ (x', y', z') → ∀ q : Vec3 F,
          ¬ (InOpenBox q
                ((voxelRecord (F := F) x y z v).Position.subScalar d.State.Uniforms.VoxelSize)
                ((voxelRecord (F := F) x y z v).Position.addScalar d.State.Uniforms.VoxelSize)
              ∧ InOpenBox q
                ((voxelRecord (F := F) x' y' z' v').Position.subScalar
                  d.State.Uniforms.VoxelSize)
                ((voxelRecord (F := F) x' y' z' v').Position.addScalar
                  d.State.Uniforms.VoxelSize)) := by
  have hsub := (Renderer_fields sqrt tan M_PI ScreenWidth ScreenHeight gl Log r V hc).2.2.2.2
  have hvs : d.State.Uniforms.VoxelSize = 1 / 200 := by
    rw [drawCalls_kernel_VoxelSize r State MVP VPI s0 d hd hprog, hsub]
    norm_num
  refine ⟨hvs, fun x y z v => ?_⟩
  rw [hvs]
  simp only [voxelRecord, Vec3.addScalar, Vec3.subScalar, InOpenBox]
  refine ⟨⟨?_, fun _ => ?_⟩, ⟨?_, fun _ => ?_⟩, ⟨?_, fun _ => ?_⟩, ?_⟩
  · ring
  · push_cast
    ring
  · ring
  · push_cast
    ring
  · ring
  · push_cast
    ring
  · intro x' y' z' _ hne q hq
    obtain ⟨⟨⟨ax1, ax2⟩, ⟨ay1, ay2⟩, ⟨az1, az2⟩⟩, ⟨bx1, bx2⟩, ⟨b_y1, b_y2⟩, ⟨bz1, bz2⟩⟩ := hq
    have hcases : x < x' ∨ x' < x ∨ y < y' ∨ y' < y ∨ z < z' ∨ z' < z := by
      by_contra hcon
      apply hne
      have hx : x = x' := by omega
      have hy : y = y' := by omega
      have hz : z = z' := by omega
      rw [hx, hy, hz]
    rcases hcases with h | h | h | h | h | h
    · exact cell_intervals_disjoint x x' h q.x ax2 bx1
    · exact cell_intervals_disjoint x' x h q.x bx2 ax1
    · exact cell_intervals_disjoint y y' h q.y ay2 b_y1
    · exact cell_intervals_disjoint y' y h q.y b_y2 ay1
    · exact cell_intervals_disjoint z z' h q.z az2 bz1
    · exact cell_intervals_disjoint z' z h q.z bz2 az1

/-! ### The full-screen triangle -/

/-- C38. The stage-2 vertex shader maps the vertex IDs 0, 1, 2 to the points
(-1, -1), (3, -1), (-1, 3), with `z = 1`.  The triangle they span contains every
point of the square `[-1, 1] x [-1, 1]`: such a point is a convex combination of
the three vertices, and `VertexPosition` is interpolated to `(x, y, 1)` there.
The data coordinate `xy * 0.5 + 0.5` of every such point lies in
`[0, 1] x [0, 1]`, and the fragment of every pixel of the viewport is such a
point, so the kernel runs for every pixel. -/
theorem fullscreen_triangle {F : Type} [LinearOrderedField F] :
    ((VertexShaderSource2.main (F := F) 0).VertexPosition = ⟨-1, -1, 1⟩
      ∧ (VertexShaderSource2.main (F := F) 1).VertexPosition = ⟨3, -1, 1⟩
      ∧ (VertexShaderSource2.main (F := F) 2).VertexPosition = ⟨-1, 3, 1⟩)
    ∧ ((VertexShaderSource2.main (F := F) 0).gl_Position = ⟨-1, -1, 1, 1⟩
      ∧ (VertexShaderSource2.main (F := F) 1).gl_Position = ⟨3, -1, 1, 1⟩
      ∧ (VertexShaderSource2.main (F := F) 2).gl_Position = ⟨-1, 3, 1, 1⟩)
    ∧ (∀ x y : F, -1 ≤ x → x ≤ 1 → -1 ≤ y → y ≤ 1 →
        (∃ a b c : F, 0 ≤ a ∧ 0 ≤ b ∧ 0 ≤ c ∧ a + b + c = 1
          ∧ (⟨x, y, 1⟩ : Vec3 F)
            = ⟨a * (VertexShaderSource2.main (F := F) 0).VertexPosition.x
                + b * (VertexShaderSource2.main (F := F) 1).VertexPosition.x
                + c * (VertexShaderSource2.main (F := F) 2).VertexPosition.x,
               a * (VertexShaderSource2.main (F := F) 0).VertexPosition.y
                + b * (VertexShaderSource2.main (F := F) 1).VertexPosition.y
                + c * (VertexShaderSource2.main (F := F) 2).VertexPosition.y,
               a * (VertexShaderSource2.main (F := F) 0).VertexPosition.z
                + b * (VertexShaderSource2.main (F := F) 1).VertexPosition.z
                + c * (VertexShaderSource2.main (F := F) 2).VertexPosition.z⟩)
        ∧ (0 ≤ (DataCoordinate (⟨x, y, 1⟩ : Vec3 F)).x ∧ (DataCoordinate (⟨x, y, 1⟩ : Vec3 F)).x ≤ 1)
        ∧ (0 ≤ (DataCoordinate (⟨x, y, 1⟩ : Vec3 F)).y
            ∧ (DataCoordinate (⟨x, y, 1⟩ : Vec3 F)).y ≤ 1))
    ∧ (∀ (r : Renderer F) (i j : Int), inViewport r i j →
        (-1 ≤ (FragmentVertexPosition (F := F) r.ScreenWidth r.ScreenHeight i j).x
          ∧ (FragmentVertexPosition (F := F) r.ScreenWidth r.ScreenHeight i j).x ≤ 1)
        ∧ (-1 ≤ (FragmentVertexPosition (F := F) r.ScreenWidth r.ScreenHeight i j).y
          ∧ (FragmentVertexPosition (F := F) r.ScreenWidth r.ScreenHeight i j).y ≤ 1)
        ∧ (FragmentVertexPosition (F := F) r.ScreenWidth r.ScreenHeight i j).z = 1) := by
  have e0 : ((0 &&& 1) <<< 2 : Nat) = 0 := by decide
  have e1 : ((0 &&& 2) <<< 1 : Nat) = 0 := by decide
  have e2 : ((1 &&& 1) <<< 2 : Nat) = 4 := by decide
  have e3 : ((1 &&& 2) <<< 1 : Nat) = 0 := by decide
  have e4 : ((2 &&& 1) <<< 2 : Nat) = 0 := by decide
  have e5 : ((2 &&& 2) <<< 1 : Nat) = 4 := by decide
  have hP0 : (VertexShaderSource2.main (F := F) 0).VertexPosition = ⟨-1, -1, 1⟩ := by
    simp only [VertexShaderSource2.main, e0, e1]
    norm_num
  have hP1 : (VertexShaderSource2.main (F := F) 1).VertexPosition = ⟨3, -1, 1⟩ := by
    simp only [VertexShaderSource2.main, e2, e3]
    norm_num
  have hP2 : (VertexShaderSource2.main (F := F) 2).VertexPosition = ⟨-1, 3, 1⟩ := by
    simp only [VertexShaderSource2.main, e4, e5]
    norm_num
  refine ⟨⟨hP0, hP1, hP2⟩, ⟨?_, ?_, ?_⟩, ?_, ?_⟩
  · simp only [VertexShaderSource2.main, e0, e1]
    norm_num
  · simp only [VertexShaderSource2.main, e2, e3]
    norm_num
  · simp only [VertexShaderSource2.main, e4, e5]
    norm_num
  · intro x y hx0 hx1 hy0 hy1
    refine ⟨⟨(2 - x - y) / 4, (x + 1) / 4, (y + 1) / 4, ?_, ?_, ?_, ?_, ?_⟩, ⟨?_, ?_⟩, ?_, ?_⟩
    · apply div_nonneg <;> linarith
    · apply div_nonneg <;> linarith
    · apply div_nonneg <;> linarith
    · ring
    · rw [hP0, hP1, hP2]
      simp only [Vec3.mk.injEq]
      refine ⟨?_, ?_, ?_⟩ <;> ring
    · simp only [DataCoordinate]
      linarith
    · simp only [DataCoordinate]
      linarith
    · simp only [DataCoordinate]
      linarith
    · simp only [DataCoordinate]
      linarith
  · intro r i j hv
    obtain ⟨hi0, hi1, hj0, hj1⟩ := hv
    have hWpos : (0 : F) < (r.ScreenWidth : F) := by
      have : (0 : Int) < (r.ScreenWidth : Int) := lt_of_le_of_lt hi0 hi1
      exact_mod_cast this
    have hHpos : (0 : F) < (r.ScreenHeight : F) := by
      have : (0 : Int) < (r.ScreenHeight : Int) := lt_of_le_of_lt hj0 hj1
      exact_mod_cast this
    have hi0' : (0 : F) ≤ (i : F) := by exact_mod_cast hi0
    have hj0' : (0 : F) ≤ (j : F) := by exact_mod_cast hj0
    have hi1' : (i : F) + 1 ≤ (r.ScreenWidth : F) := by
      have : i + 1 ≤ (r.ScreenWidth : Int) := hi1
      exact_mod_cast this
    have hj1' : (j : F) + 1 ≤ (r.ScreenHeight : F) := by
      have : j + 1 ≤ (r.ScreenHeight : Int) := hj1
      exact_mod_cast this
    simp only [FragmentVertexPosition]
    have hx0 : 0 ≤ (2 * (i : F) + 1) / (r.ScreenWidth : F) :=
      div_nonneg (by linarith) hWpos.le
    have hx1 : (2 * (i : F) + 1) / (r.ScreenWidth : F) ≤ 2 := by
      rw [div_le_iff₀ hWpos]
      linarith
    have hy0 : 0 ≤ (2 * (j : F) + 1) / (r.ScreenHeight : F) :=
      div_nonneg (by linarith) hHpos.le
    have hy1 : (2 * (j : F) + 1) / (r.ScreenHeight : F) ≤ 2 := by
      rw [div_le_iff₀ hHpos]
      linarith
    refine ⟨⟨?_, ?_⟩, ⟨?_, ?_⟩, trivial⟩ <;> linarith

/-! ### The normal of the splatted samples -/

/-- One vertex of the splat pass leaves the data of a texel of set 1 as it is
or replaces all three values by the data of its sample. -/
theorem drawPoint_texel {F : Type} [LinearOrderedField F] [FloorRing F] (sqrt : F → F)
    (r : Renderer F) (d : DrawCall F)
    (hfb : d.State.DrawFramebuffer = FrameBuffer.FrameBuffer1) (buf : SplatBuffers F)
    (s : Sample F) (i j : Int) :
    texelData (drawPoint sqrt r d buf s).Textures textureSet1 i j
        = texelData buf.Textures textureSet1 i j
      ∨ texelData (drawPoint sqrt r d buf s).Textures textureSet1 i j
        = splatData sqrt d.State.ModelViewProjection d.State.Model s := by
  unfold drawPoint
  rw [hfb]
  simp only [ColourAttachments]
  cases hf : pointFragment r (VertexShaderSource1.main d.State.ModelViewProjection d.State.Model
      s.Position s.Normal s.Colour).gl_Position with
  | none => exact Or.inl rfl
  | some f =>
    obtain ⟨i0, j0, depth⟩ := f
    simp only []
    split_ifs with hc
    · by_cases h : i = i0 ∧ j = j0
      · right
        simp [texelData, textureSet1, splatData, h]
      · left
        simp [texelData, textureSet1, h]
    · exact Or.inl rfl

/-- The vertices of a splat pass leave the data of a texel of set 1 as it was
or replace it by the data of one of their samples. -/
theorem foldl_drawPoint_texel {F : Type} [LinearOrderedField F] [FloorRing F] (sqrt : F → F)
    (r : Renderer F) (d : DrawCall F)
    (hfb : d.State.DrawFramebuffer = FrameBuffer.FrameBuffer1) (L : List (Sample F))
    (buf : SplatBuffers F) (i j : Int) :
    texelData (L.foldl (drawPoint sqrt r d) buf).Textures textureSet1 i j
        = texelData buf.Textures textureSet1 i j
      ∨ ∃ s ∈ L, texelData (L.foldl (drawPoint sqrt r d) buf).Textures textureSet1 i j
        = splatData sqrt d.State.ModelViewProjection d.State.Model s := by
  induction L generalizing buf with
  | nil => exact Or.inl rfl
  | cons s L ih =>
    rw [List.foldl_cons]
    rcases ih (drawPoint sqrt r d buf s) with h | ⟨s', hs', h⟩
    · rcases drawPoint_texel sqrt r d hfb buf s i j with h' | h'
      · exact Or.inl (h.trans h')
      · exact Or.inr ⟨s, List.mem_cons_self _ _, h.trans h'⟩
    · exact Or.inr ⟨s', List.mem_cons_of_mem _ hs', h⟩

/-- After the splat pass every texel of set 1 holds the clear colour in its
three textures or the data of one sample of the vertex buffer. -/
theorem execSplat_texel {F : Type} [LinearOrderedField F] [FloorRing F] (sqrt : F → F)
    (r : Renderer F) (d : DrawCall F) (mem : TextureMemory F)
    (hp : d.State.CurrentProgram = Program.ShaderProgram1) (hm : d.Mode = PrimitiveMode.POINTS)
    (hfb : d.State.DrawFramebuffer = FrameBuffer.FrameBuffer1) (i j : Int) :
    texelData (execSplat sqrt r d mem).Textures textureSet1 i j
        = (d.State.ClearColour.xyz, d.State.ClearColour.xyz, d.State.ClearColour.xyz)
      ∨ ∃ s ∈ d.State.Vertices, texelData (execSplat sqrt r d mem).Textures textureSet1 i j
        = splatData sqrt d.State.ModelViewProjection d.State.Model s := by
  simp only [execSplat, hp, hm, and_self, if_true]
  rcases foldl_drawPoint_texel sqrt r d hfb ((d.State.Vertices.drop d.First).take d.Count)
    (clearBuffers d.State mem) i j with h | ⟨s, hs, h⟩
  · left
    rw [h]
    simp [texelData, textureSet1, clearBuffers, hfb, ColourAttachments]
  · exact Or.inr ⟨s, List.mem_of_mem_drop (List.mem_of_mem_take hs), h⟩

/-- Every record of `map` has the normal (1, 0, 0). -/
theorem buildMap_Normal {F : Type} [LinearOrderedField F] (Scene : Scene) (s : Sample F)
    (hs : s ∈ buildMap Scene) : s.Normal = ⟨1, 0, 0⟩ := by
  simp only [buildMap, List.mem_flatMap, List.mem_range] at hs
  obtain ⟨z, _, y, _, x, _, hs⟩ := hs
  split_ifs at hs
  · rw [List.mem_singleton] at hs
    rw [hs]
  · cases hs

/-- With the identity as `ModelMatrix` and `sqrt 1 = 1`, program 1 writes the
position of a sample unchanged and, for the normal (1, 0, 0), the normal
(1, 0, 0, 0). -/
theorem splatData_identity {F : Type} [LinearOrderedField F] (sqrt : F → F) (hsqrt : sqrt 1 = 1)
    (MVP : Matrix44 F) (s : Sample F) (hn : s.Normal = ⟨1, 0, 0⟩) :
    (splatFragment sqrt MVP Matrix44.Identity s).FragmentNormal = ⟨1, 0, 0, 0⟩
    ∧ (splatData sqrt MVP Matrix44.Identity s).1 = s.Position
    ∧ (splatData sqrt MVP Matrix44.Identity s).2.1 = ⟨1, 0, 0⟩ := by
  have e : (1 : F) * 1 + 0 * 0 + 0 * 0 = 1 := by ring
  refine ⟨?_, ?_, ?_⟩
  · simp [splatFragment, FragmentShaderSource1.main, VertexShaderSource1.main, hn,
      Identity_mulVec4, Vec4.ofVec3, Vec4.xyz, normalize, Vec3.dot, Vec3.divScalar, hsqrt]
  · simp [splatData, splatFragment, FragmentShaderSource1.main, VertexShaderSource1.main,
      Identity_mulVec4, Vec4.ofVec3, Vec4.xyz]
  · simp [splatData, splatFragment, FragmentShaderSource1.main, VertexShaderSource1.main, hn,
      Identity_mulVec4, Vec4.ofVec3, Vec4.xyz, normalize, Vec3.dot, Vec3.divScalar, hsqrt]

theorem HemisphereLighting_splat {F : Type} [LinearOrderedField F] :
    HemisphereLighting (F := F) ⟨1, 0, 0⟩ = ambientOfSplat := by
  simp only [HemisphereLighting, ambientOfSplat, Vec3.dot, mix, Vec3.mk.injEq]
  refine ⟨?_, ?_, ?_⟩ <;> ring

/-- C39. Every sample written by the splat pass carries the normal (1, 0, 0):
it is the constant put in every record of `map`, the identity `Model` matrix of
the constructor leaves it unchanged and so does the normalisation, so that
program 1 writes (1, 0, 0, 0) for every sample and every texel of set 1 holds,
after the splat pass, the clear colour or the position of a sample with the
normal (1, 0, 0).  For every pixel the composite pass resolves a miss, the
clear value, or a splatted voxel with the normal (1, 0, 0), for which
`HemisphereLighting` returns the constant
`0.45 * (0.886, 0.757, 0.337) + 0.55 * (0.518, 0.169, 0.0)`. -/
theorem splat_normal_constant {F : Type} [LinearOrderedField F] [FloorRing F]
    (sqrt sin tan : F → F) (M_PI : F) (ScreenWidth ScreenHeight : Nat) (gl : DriverReplies)
    (Log : List Diagnostic) (r : Renderer F) (V : Matrix44 F)
    (hc : Renderer.Renderer sqrt tan M_PI ScreenWidth ScreenHeight gl
      = Construction.Completed Log r V)
    (hsqrt : sqrt 1 = 1) (State : GameState F) (cmds : List (GLCommand F))
    (hR : Render sqrt r State = some cmds) (s0 : GLState F) (mem : TextureMemory F)
    (i j : Int) (hv : inViewport r i j) :
    (∀ s ∈ buildMap (F := F) State.Scene, s.Normal = ⟨1, 0, 0⟩
      ∧ ∀ MVP : Matrix44 F, (splatFragment sqrt MVP r.Model s).FragmentNormal = ⟨1, 0, 0, 0⟩)
    ∧ (∀ i' j' : Int,
        texelData (frameAfterSplat sqrt r (drawCalls s0 cmds) mem) textureSet1 i' j'
            = (⟨9 / 10, 9 / 10, 9 / 10⟩, ⟨9 / 10, 9 / 10, 9 / 10⟩, ⟨9 / 10, 9 / 10, 9 / 10⟩)
          ∨ (∃ s ∈ buildMap (F := F) State.Scene,
              (texelData (frameAfterSplat sqrt r (drawCalls s0 cmds) mem) textureSet1 i' j').1
                = s.Position)
            ∧ (texelData (frameAfterSplat sqrt r (drawCalls s0 cmds) mem) textureSet1 i' j').2.1
                = ⟨1, 0, 0⟩)
    ∧ HemisphereLighting (F := F) ⟨1, 0, 0⟩
        = ⟨45 / 100 * (886 / 1000) + 55 / 100 * (518 / 1000),
           45 / 100 * (757 / 1000) + 55 / 100 * (169 / 1000),
           45 / 100 * (337 / 1000) + 55 / 100 * 0⟩
    ∧ ∃ res, compositeResolve sqrt sin r (drawCalls s0 cmds)
          (frameAfterSplat sqrt r (drawCalls s0 cmds) mem) i j = some res
        ∧ (res.data = zeroData
          ∨ res.data
            = (⟨9 / 10, 9 / 10, 9 / 10⟩, ⟨9 / 10, 9 / 10, 9 / 10⟩, ⟨9 / 10, 9 / 10, 9 / 10⟩)
          ∨ (∃ s ∈ buildMap (F := F) State.Scene, res.OutputPosition = s.Position)
            ∧ res.OutputNormal = ⟨1, 0, 0⟩
            ∧ HemisphereLighting res.OutputNormal = ambientOfSplat) := by
  have hModel := (Renderer_fields sqrt tan M_PI ScreenWidth ScreenHeight gl Log r V hc).2.2.2.1
  obtain ⟨MVP, VPI, rfl⟩ := Render_eq_some sqrt r State cmds hR
  obtain ⟨hW, hH⟩ := viewport_pos r i j hv
  have htexel : ∀ i' j' : Int,
      texelData (frameAfterSplat sqrt r (drawCalls s0 (renderCommands r State MVP VPI)) mem)
          textureSet1 i' j'
          = (⟨9 / 10, 9 / 10, 9 / 10⟩, ⟨9 / 10, 9 / 10, 9 / 10⟩, ⟨9 / 10, 9 / 10, 9 / 10⟩)
        ∨ (∃ s ∈ buildMap (F := F) State.Scene,
            (texelData (frameAfterSplat sqrt r (drawCalls s0 (renderCommands r State MVP VPI))
              mem) textureSet1 i' j').1 = s.Position)
          ∧ (texelData (frameAfterSplat sqrt r (drawCalls s0 (renderCommands r State MVP VPI))
              mem) textureSet1 i' j').2.1 = ⟨1, 0, 0⟩ := by
    intro i' j'
    obtain ⟨d0, d1, d2, d3, d4, hl, h0, -⟩ := drawCalls_renderCommands_frame r State MVP VPI s0
    obtain ⟨h0m, h0p, h0f, h0mvp, h0model, h0v, -, -, -, h0c⟩ := h0
    rw [hl]
    simp only [frameAfterSplat, List.head?_cons]
    rcases execSplat_texel sqrt r d0 mem h0p h0m h0f i' j' with h | ⟨s, hs, h⟩
    · left
      rw [h, h0c]
      rfl
    · right
      rw [h0v] at hs
      rw [h, h0model, hModel]
      have hn := buildMap_Normal State.Scene s hs
      obtain ⟨-, e1, e2⟩ := splatData_identity sqrt hsqrt d0.State.ModelViewProjection s hn
      exact ⟨⟨s, hs, e1⟩, e2⟩
  refine ⟨fun s hs => ⟨buildMap_Normal State.Scene s hs, fun MVP' => ?_⟩, htexel,
    HemisphereLighting_splat, ?_⟩
  · rw [hModel]
    exact (splatData_identity sqrt hsqrt MVP' s (buildMap_Normal State.Scene s hs)).1
  · obtain ⟨res, hres, hcar⟩ := compositeResolve_carried sqrt sin r hW hH State s0 MVP VPI
      (frameAfterSplat sqrt r (drawCalls s0 (renderCommands r State MVP VPI)) mem) i j hv
    refine ⟨res, hres, ?_⟩
    rcases hcar with h | ⟨i', j', -, -, -, h⟩
    · exact Or.inl h
    · right
      rcases htexel i' j' with h' | ⟨⟨s, hs, hpos⟩, hnorm⟩
      · left
        rw [h]
        exact h'
      · right
        have e1 : res.OutputPosition = res.data.1 := rfl
        have e2 : res.OutputNormal = res.data.2.1 := rfl
        have hN : res.OutputNormal = ⟨1, 0, 0⟩ := by
          rw [e2, h]
          exact hnorm
        refine ⟨⟨s, hs, ?_⟩, hN, ?_⟩
        · rw [e1, h]
          exact hpos
        · rw [hN]
          exact HemisphereLighting_splat

/-- Witness of C37: the renderer of a 64 by 64 window and the first spread
pass of a frame. -/
theorem cubes_tile_space_witness :
    ∃ (V : Matrix44 ℝ) (d : DrawCall ℝ),
      Renderer.Renderer Real.sqrt Real.tan Real.pi 64 64 completeReplies
        = Construction.Completed [] (reachRenderer Real.tan Real.pi) V
      ∧ d ∈ drawCalls sampleGLState (renderCommands (reachRenderer Real.tan Real.pi)
          reachState Matrix44.Identity Matrix44.Identity)
      ∧ d.State.CurrentProgram = Program.ShaderProgram2
      ∧ d.State.Uniforms.VoxelSize = 1 / 200
      ∧ ((voxelRecord (F := ℝ) 3 1 1 ⟨15, 0, 0, 1⟩).Position.addScalar
          d.State.Uniforms.VoxelSize).x = (2 * ((3 : Nat) : ℝ) + 1) / 200 := by
  obtain ⟨V, hV⟩ := Renderer_eq Real.tan Real.pi 64 64
  have hr : ({ ScreenWidth := 64
               ScreenHeight := 64
               Projection := Matrix44.Perspective Real.tan Real.pi 45
                 (((64 : Nat) : ℝ) / ((64 : Nat) : ℝ)) (1 / 100) 1000
               Model := Matrix44.Identity
               Subdivisions := 100 } : Renderer ℝ) = reachRenderer Real.tan Real.pi := by
    simp only [reachRenderer, Nat.cast_ofNat]
  have h1 : Renderer.Renderer Real.sqrt Real.tan Real.pi 64 64 completeReplies
      = Construction.Completed [] (reachRenderer Real.tan Real.pi) V := by
    rw [hV completeReplies, hr]
    simp [completeReplies, constructionLog, GL_FALSE]
  obtain ⟨d0, d1, d2, d3, d4, hl, -, hd1, -⟩ :=
    drawCalls_renderCommands (reachRenderer Real.tan Real.pi) reachState
      Matrix44.Identity Matrix44.Identity sampleGLState
  have hmem : d1 ∈ drawCalls sampleGLState (renderCommands (reachRenderer Real.tan Real.pi)
      reachState Matrix44.Identity Matrix44.Identity) := by
    rw [hl]
    simp
  have h := cubes_tile_space Real.sqrt Real.tan Real.pi 64 64 completeReplies []
    (reachRenderer Real.tan Real.pi) V h1 reachState Matrix44.Identity Matrix44.Identity
    sampleGLState d1 hmem hd1.2.1
  exact ⟨V, d1, h1, hmem, hd1.2.1, h.1, (h.2 3 1 1 ⟨15, 0, 0, 1⟩).1.1⟩

/-- Witness of C39: the renderer of a 64 by 64 window, the camera looking down
the negative z axis at a volume with one opaque voxel, and the pixel (33, 32). -/
theorem splat_normal_constant_witness :
    ∃ (V : Matrix44 ℝ) (cmds : List (GLCommand ℝ)),
      Renderer.Renderer Real.sqrt Real.tan Real.pi 64 64 completeReplies
        = Construction.Completed [] (reachRenderer Real.tan Real.pi) V
      ∧ Real.sqrt 1 = 1
      ∧ Render Real.sqrt (reachRenderer Real.tan Real.pi) (axisState reachEye oneVoxelScene)
        = some cmds
      ∧ inViewport (reachRenderer Real.tan Real.pi) 33 32
      ∧ ∃ res, compositeResolve Real.sqrt Real.sin (reachRenderer Real.tan Real.pi)
          (drawCalls sampleGLState cmds)
          (frameAfterSplat Real.sqrt (reachRenderer Real.tan Real.pi)
            (drawCalls sampleGLState cmds) (fun _ _ _ => ⟨0, 0, 0, 0⟩)) 33 32 = some res
        ∧ (res.data = zeroData
          ∨ res.data
            = (⟨9 / 10, 9 / 10, 9 / 10⟩, ⟨9 / 10, 9 / 10, 9 / 10⟩, ⟨9 / 10, 9 / 10, 9 / 10⟩)
          ∨ (∃ s ∈ buildMap (F := ℝ) (axisState (F := ℝ) reachEye oneVoxelScene).Scene,
              res.OutputPosition = s.Position)
            ∧ res.OutputNormal = ⟨1, 0, 0⟩
            ∧ HemisphereLighting res.OutputNormal = ambientOfSplat) := by
  obtain ⟨V, hV⟩ := Renderer_eq Real.tan Real.pi 64 64
  have hr : ({ ScreenWidth := 64
               ScreenHeight := 64
               Projection := Matrix44.Perspective Real.tan Real.pi 45
                 (((64 : Nat) : ℝ) / ((64 : Nat) : ℝ)) (1 / 100) 1000
               Model := Matrix44.Identity
               Subdivisions := 100 } : Renderer ℝ) = reachRenderer Real.tan Real.pi := by
    simp only [reachRenderer, Nat.cast_ofNat]
  have h1 : Renderer.Renderer Real.sqrt Real.tan Real.pi 64 64 completeReplies
      = Construction.Completed [] (reachRenderer Real.tan Real.pi) V := by
    rw [hV completeReplies, hr]
    simp [completeReplies, constructionLog, GL_FALSE]
  obtain ⟨R, -, hR⟩ := axis_Render reachEye oneVoxelScene
  have hv : inViewport (reachRenderer Real.tan Real.pi) 33 32 := by
    simp [inViewport, reachRenderer]
  exact ⟨V, _, h1, Real.sqrt_one, hR, hv,
    (splat_normal_constant Real.sqrt Real.sin Real.tan Real.pi 64 64 completeReplies []
      (reachRenderer Real.tan Real.pi) V h1 Real.sqrt_one (axisState reachEye oneVoxelScene)
      _ hR sampleGLState (fun _ _ _ => ⟨0, 0, 0, 0⟩) 33 32 hv).2.2.2⟩

/-! ## Statements about the inversion inside Render -/

/-- The matrix of a product of `operator*` is the product of the matrices. -/
theorem Matrix44.of_mul {F : Type} [Field F] (A B : Matrix44 F) :
    Matrix.of (A.mul B).Data = Matrix.of A.Data * Matrix.of B.Data := by
  ext i j
  rw [Matrix.mul_apply, Fin.sum_univ_four]
  simp only [Matrix.of_apply]
  exact Matrix44.mul_data A B i j

/-- The scalar `Invert` divides by is multiplicative. -/
theorem Matrix44.Determinant_mul {F : Type} [Field F] (A B : Matrix44 F) :
    (A.mul B).Determinant = A.Determinant * B.Determinant := by
  rw [Matrix44.Determinant_eq_det, Matrix44.Determinant_eq_det, Matrix44.Determinant_eq_det,
    Matrix44.of_mul, Matrix.det_mul]

theorem Matrix44.of_Identity {F : Type} [Field F] :
    Matrix.of (Matrix44.Identity (F := F)).Data = (1 : Matrix (Fin 4) (Fin 4) F) := by
  ext i j
  fin_cases i <;> fin_cases j <;> simp [Matrix44.Identity]

/-- For a non-singular matrix the cofactor result of `Invert`, before the
division, is the adjugate. -/
theorem Matrix44.InvertResult_eq_adjugate {F : Type} [Field F] (M : Matrix44 F)
    (h : Matrix.det (Matrix.of M.Data) ≠ 0) :
    Matrix.of M.InvertResult.Data = Matrix.adjugate (Matrix.of M.Data) := by
  have hC : Matrix.of M.InvertResult.Data * Matrix.of M.Data
      = Matrix.det (Matrix.of M.Data) • (1 : Matrix (Fin 4) (Fin 4) F) := by
    rw [← Matrix44.of_mul, ← Matrix44.of_Identity]
    ext i j
    simp only [Matrix.of_apply, Matrix.smul_apply, smul_eq_mul]
    rw [Matrix44.InvertResult_mul, Matrix44.Determinant_eq_det]
  have hA : Matrix.adjugate (Matrix.of M.Data) * Matrix.of M.Data
      = Matrix.det (Matrix.of M.Data) • (1 : Matrix (Fin 4) (Fin 4) F) :=
    Matrix.adjugate_mul _
  have hu : IsUnit (Matrix.det (Matrix.of M.Data)) := isUnit_iff_ne_zero.mpr h
  calc Matrix.of M.InvertResult.Data
      = Matrix.of M.InvertResult.Data * Matrix.of M.Data * (Matrix.of M.Data)⁻¹ :=
        (Matrix.mul_nonsing_inv_cancel_right _ _ hu).symm
    _ = Matrix.adjugate (Matrix.of M.Data) * Matrix.of M.Data * (Matrix.of M.Data)⁻¹ := by
        rw [hC, hA]
    _ = Matrix.adjugate (Matrix.of M.Data) := Matrix.mul_nonsing_inv_cancel_right _ _ hu

/-- C31. The scalar `Invert` divides by, row 0 of `M` dotted with column 0 of
the cofactor result, equals the determinant of `M`; so the assertion of `Invert`
fails if and only if `M` is singular, and for every non-singular `M` the matrix
`Invert` returns is the adjugate of `M` divided by `det(M)`. -/
theorem Invert_adjugate {F : Type} [Field F] [DecidableEq F] (M : Matrix44 F) :
    M.Determinant = M.Data 0 0 * M.InvertResult.Data 0 0 + M.Data 0 1 * M.InvertResult.Data 1 0
        + M.Data 0 2 * M.InvertResult.Data 2 0 + M.Data 0 3 * M.InvertResult.Data 3 0
    ∧ M.Determinant = Matrix.det (Matrix.of M.Data)
    ∧ (Matrix44.Invert M = none ↔ Matrix.det (Matrix.of M.Data) = 0)
    ∧ (Matrix.det (Matrix.of M.Data) ≠ 0 →
        ∃ R, Matrix44.Invert M = some R
          ∧ ∀ i j, R.Data i j
            = Matrix.adjugate (Matrix.of M.Data) i j / Matrix.det (Matrix.of M.Data)) := by
  refine ⟨rfl, Matrix44.Determinant_eq_det M, ?_, ?_⟩
  · rw [← Matrix44.Determinant_eq_det]
    unfold Matrix44.Invert
    by_cases hD : M.Determinant = 0
    · simp [hD]
    · simp [hD]
  · intro hdet
    have hD : M.Determinant ≠ 0 := by
      rw [Matrix44.Determinant_eq_det]
      exact hdet
    refine ⟨⟨fun i j => M.InvertResult.Data i j * (1 / M.Determinant)⟩, ?_, fun i j => ?_⟩
    · simp [Matrix44.Invert, hD]
    · have h := congrFun (congrFun (Matrix44.InvertResult_eq_adjugate M hdet) i) j
      simp only [Matrix.of_apply] at h
      simp only []
      rw [h, Matrix44.Determinant_eq_det, mul_one_div]

/-- The scalar `Invert` computes for a frustum matrix. -/
theorem Frustum_Determinant {F : Type} [LinearOrderedField F]
    (Left Right Bottom Top Near Far : F) :
    (Matrix44.Frustum Left Right Bottom Top Near Far).Determinant
      = (2 * Near / (Right - Left)) * (2 * Near / (Top - Bottom))
        * ((-(2 * Near) * Far) / (Far - Near)) := by
  simp [Matrix44.Determinant, Matrix44.InvertResult, Matrix44.Frustum]
  ring

/-- The scalar `Invert` computes for the projection of the constructor is not
zero when the width and the height are positive. -/
theorem Perspective_Determinant_ne_zero (ScreenWidth ScreenHeight : Nat)
    (hW : 0 < ScreenWidth) (hH : 0 < ScreenHeight) :
    (Matrix44.Perspective Real.tan Real.pi 45 ((ScreenWidth : ℝ) / (ScreenHeight : ℝ))
      (1 / 100) 1000).Determinant ≠ 0 := by
  have ht := tan_reach_pos
  have hW0 : (0 : ℝ) < (ScreenWidth : ℝ) := by exact_mod_cast hW
  have hH0 : (0 : ℝ) < (ScreenHeight : ℝ) := by exact_mod_cast hH
  unfold Matrix44.Perspective
  simp only []
  rw [Frustum_Determinant]
  have hV : (0 : ℝ) < 1 / 100 * Real.tan (45 * Real.pi / 360) := by positivity
  have hHL : (0 : ℝ) < 1 / 100 * Real.tan (45 * Real.pi / 360)
      * ((ScreenWidth : ℝ) / (ScreenHeight : ℝ)) := by positivity
  refine mul_ne_zero (mul_ne_zero ?_ ?_) ?_
  · apply div_ne_zero (by norm_num)
    linarith
  · apply div_ne_zero (by norm_num)
    linarith
  · norm_num

/-- The scalar `Invert` computes for a view matrix is 1. -/
theorem View_Determinant (Eye Target Up : Vector3 ℝ) (V : Matrix44 ℝ)
    (hV : Matrix44.View Real.sqrt Eye Target Up = some V) : V.Determinant = 1 := by
  obtain ⟨AxisX, AxisZ, hZ, hX, hVeq⟩ := View_eq_some Real.sqrt Eye Target Up V hV
  obtain ⟨hZZ, hXX, hXZ⟩ := View_axes Eye Target Up AxisX AxisZ hZ hX
  obtain ⟨xx, xy, xz⟩ := AxisX
  obtain ⟨zx, zy, zz⟩ := AxisZ
  simp only [] at hZZ hXX hXZ
  have key : V.Determinant
      = (xx * xx + xy * xy + xz * xz) * (zx * zx + zy * zy + zz * zz)
        - (xx * zx + xy * zy + xz * zz) * (xx * zx + xy * zy + xz * zz) := by
    rw [hVeq]
    simp [Matrix44.Determinant, Matrix44.InvertResult, Vector3.Cross]
    ring
  rw [key, hXX, hZZ, hXZ]
  norm_num

/-- C32. For every renderer constructed with a positive width and height and
every camera state with position different from target and position - target
not parallel to (0, 1, 0) (its cross product with the up vector is not zero),
`View` returns a matrix, the matrix `Projection * View` that `Render` passes to
`Invert` has a nonzero determinant, `Invert` returns a matrix and `Render` gets
past both assertions. -/
theorem Render_product_nonsingular (ScreenWidth ScreenHeight : Nat)
    (hW : 0 < ScreenWidth) (hH : 0 < ScreenHeight) (gl : DriverReplies)
    (Log : List Diagnostic) (r : Renderer ℝ) (V0 : Matrix44 ℝ)
    (hc : Renderer.Renderer Real.sqrt Real.tan Real.pi ScreenWidth ScreenHeight gl
      = Construction.Completed Log r V0)
    (State : GameState ℝ) (hne : State.CameraPosition ≠ State.CameraTarget)
    (hpar : Vector3.Cross ⟨0, 1, 0⟩ (Vector3.sub State.CameraPosition State.CameraTarget)
      ≠ ⟨0, 0, 0⟩) :
    ∃ V, Matrix44.View Real.sqrt State.CameraPosition State.CameraTarget ⟨0, 1, 0⟩ = some V
      ∧ r.Projection = Matrix44.Perspective Real.tan Real.pi 45
          ((ScreenWidth : ℝ) / (ScreenHeight : ℝ)) (1 / 100) 1000
      ∧ (r.Projection.mul V).Determinant ≠ 0
      ∧ Matrix.det (Matrix.of (r.Projection.mul V).Data) ≠ 0
      ∧ (∃ R, Matrix44.Invert (r.Projection.mul V) = some R)
      ∧ ∃ cmds, Render Real.sqrt r State = some cmds := by
  have hP := (Renderer_fields Real.sqrt Real.tan Real.pi ScreenWidth ScreenHeight gl Log r V0
    hc).2.2.1
  cases hV : Matrix44.View Real.sqrt State.CameraPosition State.CameraTarget ⟨0, 1, 0⟩ with
  | none =>
    rcases (View_eq_none_iff _ _ _).mp hV with h | h
    · exact absurd h hne
    · exact absurd h hpar
  | some V =>
    have hdet : (r.Projection.mul V).Determinant ≠ 0 := by
      rw [Matrix44.Determinant_mul, View_Determinant _ _ _ V hV, mul_one, hP]
      exact Perspective_Determinant_ne_zero ScreenWidth ScreenHeight hW hH
    have hInv : ∃ R, Matrix44.Invert (r.Projection.mul V) = some R := by
      simp [Matrix44.Invert, hdet]
    refine ⟨V, rfl, hP, hdet, ?_, hInv, ?_⟩
    · rw [← Matrix44.Determinant_eq_det]
      exact hdet
    · obtain ⟨R, hR⟩ := hInv
      unfold Render
      rw [hV]
      simp only [Option.some_bind]
      rw [hR]
      exact ⟨_, rfl⟩

/-- Witness of C32: the renderer of a 64 by 64 window and the camera at
(0.0343, 0.0099, 0.0205) looking down the negative z axis. -/
theorem Render_product_nonsingular_witness :
    ∃ V0 : Matrix44 ℝ,
      Renderer.Renderer Real.sqrt Real.tan Real.pi 64 64 completeReplies
        = Construction.Completed [] (reachRenderer Real.tan Real.pi) V0
      ∧ (axisState (F := ℝ) reachEye oneVoxelScene).CameraPosition
        ≠ (axisState (F := ℝ) reachEye oneVoxelScene).CameraTarget
      ∧ Vector3.Cross (F := ℝ) ⟨0, 1, 0⟩
          (Vector3.sub (axisState (F := ℝ) reachEye oneVoxelScene).CameraPosition
            (axisState (F := ℝ) reachEye oneVoxelScene).CameraTarget) ≠ ⟨0, 0, 0⟩
      ∧ ∃ cmds, Render Real.sqrt (reachRenderer Real.tan Real.pi)
          (axisState reachEye oneVoxelScene) = some cmds := by
  obtain ⟨V, hV⟩ := Renderer_eq Real.tan Real.pi 64 64
  have hr : ({ ScreenWidth := 64
               ScreenHeight := 64
               Projection := Matrix44.Perspective Real.tan Real.pi 45
                 (((64 : Nat) : ℝ) / ((64 : Nat) : ℝ)) (1 / 100) 1000
               Model := Matrix44.Identity
               Subdivisions := 100 } : Renderer ℝ) = reachRenderer Real.tan Real.pi := by
    simp only [reachRenderer, Nat.cast_ofNat]
  have h1 : Renderer.Renderer Real.sqrt Real.tan Real.pi 64 64 completeReplies
      = Construction.Completed [] (reachRenderer Real.tan Real.pi) V := by
    rw [hV completeReplies, hr]
    simp [completeReplies, constructionLog, GL_FALSE]
  have hne : (axisState (F := ℝ) reachEye oneVoxelScene).CameraPosition
      ≠ (axisState (F := ℝ) reachEye oneVoxelScene).CameraTarget := by
    norm_num [axisState, reachEye]
  have hpar : Vector3.Cross (F := ℝ) ⟨0, 1, 0⟩
      (Vector3.sub (axisState (F := ℝ) reachEye oneVoxelScene).CameraPosition
        (axisState (F := ℝ) reachEye oneVoxelScene).CameraTarget) ≠ ⟨0, 0, 0⟩ := by
    norm_num [axisState, reachEye, Vector3.Cross, Vector3.sub]
  obtain ⟨_, _, _, _, _, _, hcmds⟩ := Render_product_nonsingular 64 64 (by decide) (by decide)
    completeReplies [] (reachRenderer Real.tan Real.pi) V h1 (axisState reachEye oneVoxelScene)
    hne hpar
  exact ⟨V, h1, hne, hpar, hcmds⟩

/-! ### The bound of the ping-pong loop -/

/-- With the bound 3 the calls are those of `Render`. -/
theorem renderCommandsFor_three {F : Type} [LinearOrderedField F] (r : Renderer F)
    (State : GameState F) (MVP VPI : Matrix44 F) :
    renderCommandsFor 3 r State MVP VPI = renderCommands r State MVP VPI := rfl

/-- The draw calls of two lists of calls run one after the other. -/
theorem drawCalls_append {F : Type} (A B : List (GLCommand F)) (s : GLState F) :
    drawCalls s (A ++ B) = drawCalls s A ++ drawCalls (A.foldl GLState.step s) B := by
  induction A generalizing s with
  | nil => rfl
  | cons c A ih =>
    cases c <;> simp [drawCalls, ih, GLState.step]

/-- One iteration of the loop issues one draw call: into framebuffer 2 from
set 1 when `i` is even, into framebuffer 1 from set 2 when `i` is odd. -/
theorem drawCalls_spreadIteration {F : Type} [LinearOrderedField F] (r : Renderer F)
    (State : GameState F) (VPI : Matrix44 F) (i : Nat) (s : GLState F) :
    ∃ d : DrawCall F, drawCalls s (spreadIteration r State VPI (i : Int)) = [d]
      ∧ d.State.DrawFramebuffer
          = (if i % 2 = 0 then FrameBuffer.FrameBuffer2 else FrameBuffer.FrameBuffer1)
      ∧ d.sampled = (if i % 2 = 0 then sampledSet1 else sampledSet2)
      ∧ d.State.Uniforms.LastRender = false := by
  have h1 : Int.tmod (i : Int) 2 = ((i % 2 : Nat) : Int) := (Int.ofNat_tmod i 2).symm
  rcases Nat.mod_two_eq_zero_or_one i with h | h
  · have h2 : Int.tmod (i : Int) 2 = 0 := by rw [h1, h]; rfl
    unfold spreadIteration
    rw [if_pos h2]
    refine ⟨_, rfl, ?_⟩
    simp [DrawCall.sampled, GLState.step, h, sampledSet1]
  · have h2 : ¬ Int.tmod (i : Int) 2 = 0 := by rw [h1, h]; decide
    unfold spreadIteration
    rw [if_neg h2]
    refine ⟨_, rfl, ?_⟩
    simp [DrawCall.sampled, GLState.step, h, sampledSet2]

theorem spreadLoop_succ {F : Type} [LinearOrderedField F] (r : Renderer F)
    (State : GameState F) (VPI : Matrix44 F) (k : Nat) :
    spreadLoop r State VPI (k + 1)
      = spreadLoop r State VPI k ++ spreadIteration r State VPI (k : Int) := by
  simp [spreadLoop, List.range_succ, List.flatMap_append]

/-- The loop with the bound `k` issues `k` draw calls; call `i` draws into
framebuffer 2 from set 1 when `i` is even, into framebuffer 1 from set 2 when
`i` is odd. -/
theorem drawCalls_spreadLoop {F : Type} [LinearOrderedField F] (r : Renderer F)
    (State : GameState F) (VPI : Matrix44 F) (k : Nat) (s : GLState F) :
    (drawCalls s (spreadLoop r State VPI k)).length = k
    ∧ ∀ (i : Nat) (d : DrawCall F), (drawCalls s (spreadLoop r State VPI k))[i]? = some d →
        d.State.DrawFramebuffer
            = (if i % 2 = 0 then FrameBuffer.FrameBuffer2 else FrameBuffer.FrameBuffer1)
        ∧ d.sampled = (if i % 2 = 0 then sampledSet1 else sampledSet2)
        ∧ d.State.Uniforms.LastRender = false := by
  induction k with
  | zero =>
    refine ⟨rfl, fun i d h => ?_⟩
    have : drawCalls s (spreadLoop r State VPI 0) = [] := rfl
    rw [this] at h
    simp at h
  | succ k ih =>
    obtain ⟨hlen, hget⟩ := ih
    obtain ⟨d', hd', hfacts⟩ := drawCalls_spreadIteration r State VPI k
      ((spreadLoop r State VPI k).foldl GLState.step s)
    rw [spreadLoop_succ, drawCalls_append, hd']
    refine ⟨by simp [hlen], fun i d h => ?_⟩
    rcases Nat.lt_or_ge i k with hi | hi
    · rw [List.getElem?_append_left (by rw [hlen]; exact hi)] at h
      exact hget i d h
    · rw [List.getElem?_append_right (by rw [hlen]; exact hi), hlen] at h
      rcases Nat.eq_or_lt_of_le hi with rfl | hlt
      · simp only [Nat.sub_self, List.getElem?_cons_zero, Option.some.injEq] at h
        rw [← h]
        exact hfacts
      · have : 1 ≤ i - k := by omega
        rw [List.getElem?_eq_none (by simpa using this)] at h
        cases h

/-- The draw call before the loop and the one after it. -/
theorem drawCalls_outside_loop {F : Type} [LinearOrderedField F] (r : Renderer F)
    (State : GameState F) (MVP VPI : Matrix44 F) (s s' : GLState F) :
    (∃ d0 : DrawCall F, drawCalls s ((renderCommands r State MVP VPI).take 16) = [d0]
      ∧ d0.Mode = PrimitiveMode.POINTS ∧ d0.State.CurrentProgram = Program.ShaderProgram1
      ∧ d0.State.DrawFramebuffer = FrameBuffer.FrameBuffer1)
    ∧ ∃ dc : DrawCall F, drawCalls s' ((renderCommands r State MVP VPI).drop 61) = [dc]
      ∧ dc.State.DrawFramebuffer = FrameBuffer.Zero
      ∧ dc.State.Uniforms.LastRender = true
      ∧ dc.sampled = sampledSet2 := by
  constructor
  · refine ⟨_, rfl, ?_⟩
    simp [GLState.step]
  · refine ⟨_, rfl, ?_⟩
    simp [DrawCall.sampled, GLState.step, sampledSet2]

/-- C33. With the bound 3 of the ping-pong loop replaced by an iteration count
`k ≥ 1`, the parity rule kept (an even `i` writes set 2 from set 1, an odd `i`
writes set 1 from set 2) and the composite pass still reading set 2, the frame
issues the splat pass, `k` spread passes and the composite pass, and the
composite pass reads the set the last spread pass wrote if and only if `k` is
odd.  For `k = 3` the calls are those of `Render`. -/
theorem composite_reads_last_iff_odd {F : Type} [LinearOrderedField F] (r : Renderer F)
    (State : GameState F) (MVP VPI : Matrix44 F) (s0 : GLState F) (k : Nat) (hk : 1 ≤ k) :
    renderCommandsFor 3 r State MVP VPI = renderCommands r State MVP VPI
    ∧ ∃ (d0 : DrawCall F) (spread : List (DrawCall F)) (dlast dcomp : DrawCall F),
      drawCalls s0 (renderCommandsFor k r State MVP VPI) = d0 :: spread ++ [dcomp]
      ∧ spread.length = k
      ∧ (∀ (i : Nat) (d : DrawCall F), spread[i]? = some d →
          d.State.DrawFramebuffer
              = (if i % 2 = 0 then FrameBuffer.FrameBuffer2 else FrameBuffer.FrameBuffer1)
          ∧ d.sampled = (if i % 2 = 0 then sampledSet1 else sampledSet2)
          ∧ d.State.Uniforms.LastRender = false)
      ∧ spread.getLast? = some dlast
      ∧ dcomp.State.Uniforms.LastRender = true
      ∧ dcomp.sampled = sampledSet2
      ∧ (some dcomp.sampled = attachedSet dlast.State.DrawFramebuffer ↔ k % 2 = 1) := by
  refine ⟨rfl, ?_⟩
  obtain ⟨⟨d0, hd0, -⟩, -⟩ := drawCalls_outside_loop r State MVP VPI s0 s0
  obtain ⟨-, dc, hdc, -, hlast, hsampled⟩ := drawCalls_outside_loop r State MVP VPI s0
    ((spreadLoop r State VPI k).foldl GLState.step
      (((renderCommands r State MVP VPI).take 16).foldl GLState.step s0))
  obtain ⟨hlen, hget⟩ := drawCalls_spreadLoop r State VPI k
    (((renderCommands r State MVP VPI).take 16).foldl GLState.step s0)
  have hne : drawCalls (((renderCommands r State MVP VPI).take 16).foldl GLState.step s0)
      (spreadLoop r State VPI k) ≠ [] := by
    intro h
    rw [h] at hlen
    simp at hlen
    omega
  have hlastEq := List.getLast?_eq_getElem?
    (drawCalls (((renderCommands r State MVP VPI).take 16).foldl GLState.step s0)
      (spreadLoop r State VPI k))
  rw [hlen] at hlastEq
  have hsome : ∃ dlast, (drawCalls
      (((renderCommands r State MVP VPI).take 16).foldl GLState.step s0)
      (spreadLoop r State VPI k))[k - 1]? = some dlast := by
    have hlt : k - 1 < (drawCalls
        (((renderCommands r State MVP VPI).take 16).foldl GLState.step s0)
        (spreadLoop r State VPI k)).length := by
      rw [hlen]
      omega
    exact ⟨_, List.getElem?_eq_getElem hlt⟩
  obtain ⟨dlast, hdlast⟩ := hsome
  refine ⟨d0, _, dlast, dc, ?_, hlen, hget, hlastEq.trans hdlast, hlast, hsampled, ?_⟩
  · unfold renderCommandsFor
    rw [List.append_assoc, drawCalls_append, hd0, drawCalls_append, hdc]
    rfl
  · obtain ⟨hfb, -, -⟩ := hget (k - 1) dlast hdlast
    rw [hfb, hsampled]
    rcases Nat.mod_two_eq_zero_or_one k with h | h
    · have h' : (k - 1) % 2 = 1 := by omega
      simp [h, h', attachedSet, ColourAttachments, sampledSet2]
    · have h' : (k - 1) % 2 = 0 := by omega
      simp [h, h', attachedSet, ColourAttachments, sampledSet2]

/-- Witness of C33: the bound 3 of `Render` on the sample input. -/
theorem composite_reads_last_iff_odd_witness :
    1 ≤ 3
    ∧ ∃ (d0 : DrawCall ℚ) (spread : List (DrawCall ℚ)) (dlast dcomp : DrawCall ℚ),
      drawCalls sampleGLState
          (renderCommandsFor 3 sampleRenderer sampleState Matrix44.Identity Matrix44.Identity)
        = d0 :: spread ++ [dcomp]
      ∧ spread.length = 3
      ∧ spread.getLast? = some dlast
      ∧ dcomp.sampled = sampledSet2
      ∧ (some dcomp.sampled = attachedSet dlast.State.DrawFramebuffer ↔ 3 % 2 = 1) := by
  obtain ⟨-, d0, spread, dlast, dcomp, h1, h2, -, h4, -, h6, h7⟩ :=
    composite_reads_last_iff_odd sampleRenderer sampleState Matrix44.Identity Matrix44.Identity
      sampleGLState 3 (by decide)
  exact ⟨by decide, d0, spread, dlast, dcomp, h1, h2, h4, h6, h7⟩

/-! ### The rounded arithmetic of the program -/

theorem value_finite {fmt : FloatFormat} (negative : Bool) (m : Nat) :
    (IEEE.finite negative m : IEEE fmt).value
      = some ((if negative then -1 else 1) * (m : ℚ) / 2 ^ fmt.shift) := rfl

/-- C21, counterexample. In `float` arithmetic the vector (2^-100, 0, 0) is not
the zero vector, yet `Normalise` fails its assertion on it: the square 2^-200
lies below half the smallest positive `float` 2^-149 and is rounded to 0, so
`Denominator` is 0.  And on the vector (2^100, 0, 0) the square 2^200 overflows
to infinity, `Denominator` is infinite and `Normalise` returns the zero vector,
not the vector (1, 0, 0) that is (2^100, 0, 0) divided by its length. -/
theorem Normalise_counterexample :
    IEEE.value (IEEE.finite false (2 ^ 49) : Binary32) = some (1 / 2 ^ 100)
    ∧ Rounded.Vector3.Normalise ⟨IEEE.finite false (2 ^ 49), 0, 0⟩ = none
    ∧ IEEE.value (IEEE.finite false (2 ^ 249) : Binary32) = some (2 ^ 100)
    ∧ (Rounded.Vector3.Normalise ⟨IEEE.finite false (2 ^ 249), 0, 0⟩).map
          (fun n => (n.x, n.y, n.z))
        = some (IEEE.finite false 0, IEEE.finite false 0, IEEE.finite false 0) := by
  refine ⟨?_, Option.isNone_iff_eq_none.mp (by decide!), ?_, by decide!⟩
  · rw [value_finite]; norm_num [binary32]
  · rw [value_finite]; norm_num [binary32]

/-- C22, counterexample. In `float` arithmetic `View` fails for the eye
(2^-100, 0, 0), the target (0, 0, 0) and the up vector (0, 1, 0) of `Render`,
although `Eye - Target` = (2^-100, 0, 0) and `Cross(Up, Eye - Target)` =
(0, 0, -2^-100) are not zero and eye and target differ in x: the first
`Normalise` fails, the square 2^-200 being rounded to 0.  It fails as well for
the eye (2^-80, 1, 0): the first `Normalise` returns a vector, and the second
one fails on the cross product, whose square 2^-160 is rounded to 0. -/
theorem View_counterexample :
    Rounded.Matrix44.View ⟨IEEE.finite false (2 ^ 49), 0, 0⟩ ⟨0, 0, 0⟩ ⟨0, 1, 0⟩ = none
    ∧ Rounded.values (Rounded.Vector3.sub ⟨IEEE.finite false (2 ^ 49), 0, 0⟩ ⟨0, 0, 0⟩)
        = some ⟨1 / 2 ^ 100, 0, 0⟩
    ∧ Rounded.values (Rounded.Vector3.Cross ⟨0, 1, 0⟩
          (Rounded.Vector3.sub ⟨IEEE.finite false (2 ^ 49), 0, 0⟩ ⟨0, 0, 0⟩))
        = some ⟨0, 0, -(1 / 2 ^ 100)⟩
    ∧ Rounded.Matrix44.View ⟨IEEE.finite false (2 ^ 69), 1, 0⟩ ⟨0, 0, 0⟩ ⟨0, 1, 0⟩ = none
    ∧ (Rounded.Vector3.Normalise
        (Rounded.Vector3.sub ⟨IEEE.finite false (2 ^ 69), 1, 0⟩ ⟨0, 0, 0⟩)).isSome = true
    ∧ Rounded.values (Rounded.Vector3.sub ⟨IEEE.finite false (2 ^ 69), 1, 0⟩ ⟨0, 0, 0⟩)
        = some ⟨1 / 2 ^ 80, 1, 0⟩
    ∧ Rounded.values (Rounded.Vector3.Cross ⟨0, 1, 0⟩
          (Rounded.Vector3.sub ⟨IEEE.finite false (2 ^ 69), 1, 0⟩ ⟨0, 0, 0⟩))
        = some ⟨0, 0, -(1 / 2 ^ 80)⟩ := by
  have e1 : Rounded.Vector3.sub ⟨IEEE.finite false (2 ^ 49), 0, 0⟩ ⟨0, 0, 0⟩
      = ⟨IEEE.finite false (2 ^ 49), IEEE.finite false 0, IEEE.finite false 0⟩ := by
    simp only [Rounded.Vector3.sub, Vec3.mk.injEq]
    exact ⟨by decide!, by decide!, by decide!⟩
  have e2 : Rounded.Vector3.Cross ⟨0, 1, 0⟩
      ⟨IEEE.finite false (2 ^ 49), IEEE.finite false 0, IEEE.finite false 0⟩
      = ⟨IEEE.finite false 0, IEEE.finite false 0, IEEE.finite true (2 ^ 49)⟩ := by
    simp only [Rounded.Vector3.Cross, Vec3.mk.injEq]
    exact ⟨by decide!, by decide!, by decide!⟩
  have e3 : Rounded.Vector3.sub ⟨IEEE.finite false (2 ^ 69), 1, 0⟩ ⟨0, 0, 0⟩
      = ⟨IEEE.finite false (2 ^ 69), IEEE.finite false (2 ^ 149), IEEE.finite false 0⟩ := by
    simp only [Rounded.Vector3.sub, Vec3.mk.injEq]
    exact ⟨by decide!, by decide!, by decide!⟩
  have e4 : Rounded.Vector3.Cross ⟨0, 1, 0⟩
      ⟨IEEE.finite false (2 ^ 69), IEEE.finite false (2 ^ 149), IEEE.finite false 0⟩
      = ⟨IEEE.finite false 0, IEEE.finite false 0, IEEE.finite true (2 ^ 69)⟩ := by
    simp only [Rounded.Vector3.Cross, Vec3.mk.injEq]
    exact ⟨by decide!, by decide!, by decide!⟩
  refine ⟨Option.isNone_iff_eq_none.mp (by decide!), ?_, ?_,
    Option.isNone_iff_eq_none.mp (by decide!), by decide!, ?_, ?_⟩
  · rw [e1]; norm_num [Rounded.values, value_finite, binary32]
  · rw [e1, e2]; norm_num [Rounded.values, value_finite, binary32]
  · rw [e3]; norm_num [Rounded.values, value_finite, binary32]
  · rw [e3, e4]; norm_num [Rounded.values, value_finite, binary32]

/-- C31, counterexample. The diagonal matrix with the entries 2^-60, 2^-60,
2^-60 and 1 is not singular: its determinant is 2^-180.  In `float` arithmetic
the `Determinant` that `Invert` computes for it is 0, because the product
2^-60 * 2^-120 lies below half the smallest positive `float` 2^-149, and
`Invert` fails its assertion. -/
theorem Invert_counterexample :
    IEEE.value (IEEE.finite false (2 ^ 89) : Binary32) = some (1 / 2 ^ 60)
    ∧ IEEE.value (1 : Binary32) = some 1
    ∧ IEEE.value (0 : Binary32) = some 0
    ∧ Matrix44.Determinant (Matrix44.ofValues (1 / 2 ^ 60 : ℚ) 0 0 0  0 (1 / 2 ^ 60) 0 0
        0 0 (1 / 2 ^ 60) 0  0 0 0 1) = 1 / 2 ^ 180
    ∧ Rounded.Matrix44.Determinant (Matrix44.ofValues (IEEE.finite false (2 ^ 89)) 0 0 0
        0 (IEEE.finite false (2 ^ 89)) 0 0  0 0 (IEEE.finite false (2 ^ 89)) 0  0 0 0 1)
        = IEEE.finite false 0
    ∧ Rounded.Matrix44.Invert (Matrix44.ofValues (IEEE.finite false (2 ^ 89)) 0 0 0
        0 (IEEE.finite false (2 ^ 89)) 0 0  0 0 (IEEE.finite false (2 ^ 89)) 0  0 0 0 1)
        = none := by
  have h1 : (1 : Binary32) = IEEE.finite false (2 ^ 149) := by decide!
  have h0 : (0 : Binary32) = IEEE.finite false 0 := by decide!
  refine ⟨?_, ?_, ?_, ?_, by decide!, Option.isNone_iff_eq_none.mp (by decide!)⟩
  · rw [value_finite]; norm_num [binary32]
  · rw [h1, value_finite]; norm_num [binary32]
  · rw [h0, value_finite]; norm_num [binary32]
  · simp only [Matrix44.Determinant, Matrix44.InvertResult, Matrix44.ofValues_00,
      Matrix44.ofValues_01, Matrix44.ofValues_02, Matrix44.ofValues_03, Matrix44.ofValues_10,
      Matrix44.ofValues_11, Matrix44.ofValues_12, Matrix44.ofValues_13, Matrix44.ofValues_20,
      Matrix44.ofValues_21, Matrix44.ofValues_22, Matrix44.ofValues_23, Matrix44.ofValues_30,
      Matrix44.ofValues_31, Matrix44.ofValues_32, Matrix44.ofValues_33]
    norm_num

theorem Projection_congr (tan : Binary64 → Binary64) (t : Binary64)
    (ScreenWidth ScreenHeight : Nat)
    (h : tan (IEEE.convert binary64 (IEEE.convert binary32 (45 : Binary64))
      * Rounded.M_PI / 360) = t) :
    Rounded.Projection tan ScreenWidth ScreenHeight
      = Rounded.Projection (fun _ => t) ScreenWidth ScreenHeight := by
  simp only [Rounded.Projection, Rounded.Matrix44.Perspective, h]

/-- C32, counterexample. The renderer of a 64 by 64 window and the camera at
(0, 0, 524288) with the target (0, 0, 0): position and target differ, their
difference is not parallel to (0, 1, 0) (the cross product with the up vector is
(524288, 0, 0)), and `View` returns a matrix in `float` arithmetic.  Yet, for
every tangent function that returns at the `double` `45 * M_PI / 360` the
`double` nearest to the true tangent or one of its two neighbours, the
`Determinant` that `Invert` computes in `float` arithmetic for
`Projection * View` is 0, and `Render` fails the assertion of `Invert`. -/
theorem Render_product_counterexample :
    IEEE.value (IEEE.ofNat binary32 524288) = some 524288
    ∧ Vector3.Cross (⟨0, 1, 0⟩ : Vector3 ℚ) (Vector3.sub ⟨0, 0, 524288⟩ ⟨0, 0, 0⟩)
        = ⟨524288, 0, 0⟩
    ∧ (Rounded.Matrix44.View ⟨0, 0, IEEE.ofNat binary32 524288⟩ ⟨0, 0, 0⟩ ⟨0, 1, 0⟩).isSome
        = true
    ∧ ∀ tan : Binary64 → Binary64,
        (tan (IEEE.convert binary64 (IEEE.convert binary32 (45 : Binary64))
            * Rounded.M_PI / 360) = Rounded.tanEighthPi
          ∨ tan (IEEE.convert binary64 (IEEE.convert binary32 (45 : Binary64))
            * Rounded.M_PI / 360) = Rounded.tanEighthPi - IEEE.finite false (2 ^ 1020)
          ∨ tan (IEEE.convert binary64 (IEEE.convert binary32 (45 : Binary64))
            * Rounded.M_PI / 360) = Rounded.tanEighthPi + IEEE.finite false (2 ^ 1020)) →
        (Rounded.Matrix44.View ⟨0, 0, IEEE.ofNat binary32 524288⟩ ⟨0, 0, 0⟩ ⟨0, 1, 0⟩).map
            (fun View => Rounded.Matrix44.Determinant
              (Rounded.Matrix44.mul (Rounded.Projection tan 64 64) View))
          = some (IEEE.finite false 0)
        ∧ Rounded.RenderMatrices (Rounded.Projection tan 64 64)
            (Matrix44.ofValues 1 0 0 0  0 1 0 0  0 0 1 0  0 0 0 1)
            ⟨0, 0, IEEE.ofNat binary32 524288⟩ ⟨0, 0, 0⟩ = none := by
  have hv : IEEE.ofNat binary32 524288 = IEEE.finite false (524288 * 2 ^ 149) := by decide!
  refine ⟨?_, ?_, by decide!, ?_⟩
  · rw [hv, value_finite]; norm_num [binary32]
  · norm_num [Vector3.Cross, Vector3.sub]
  · intro tan h
    rcases h with h | h | h
    · rw [Projection_congr tan _ 64 64 h]
      exact ⟨by decide!, Option.isNone_iff_eq_none.mp (by decide!)⟩
    · rw [Projection_congr tan _ 64 64 h]
      exact ⟨by decide!, Option.isNone_iff_eq_none.mp (by decide!)⟩
    · rw [Projection_congr tan _ 64 64 h]
      exact ⟨by decide!, Option.isNone_iff_eq_none.mp (by decide!)⟩

/-- C37, counterexample. In `float` arithmetic, with `VoxelSize` the `float` of
the `double` quotient 0.5 / 100: the cube of the cell (7, 0, 0) ends along x at
5033165 / 2^26 = 0.0750000030 and the cube of the cell (8, 0, 0) begins at
10066329 / 2^27 = 0.0749999955, so the two cubes do not share the face at
15 / 200 and the point (15 / 200, 0, 0) is interior to both; and the cube of the
cell (4, 0, 0) ends at 12079595 / 2^28 = 0.0449999981, below the face
3019899 / 2^26 = 0.0450000018 at which the cube of the cell (5, 0, 0) begins, so
these two leave a gap around 9 / 200. -/
theorem cubes_tile_counterexample :
    Rounded.values (Rounded.BoxMin (Rounded.voxelRecord 7 0 0 ⟨4, 0, 0, 1⟩).Position
        (Rounded.VoxelSize 100)) = some ⟨1090519 / 16777216, -(5368709 / 1073741824),
          -(5368709 / 1073741824)⟩
    ∧ Rounded.values (Rounded.BoxMax (Rounded.voxelRecord 7 0 0 ⟨4, 0, 0, 1⟩).Position
        (Rounded.VoxelSize 100)) = some ⟨5033165 / 67108864, 5368709 / 1073741824,
          5368709 / 1073741824⟩
    ∧ Rounded.values (Rounded.BoxMin (Rounded.voxelRecord 8 0 0 ⟨4, 0, 0, 1⟩).Position
        (Rounded.VoxelSize 100)) = some ⟨10066329 / 134217728, -(5368709 / 1073741824),
          -(5368709 / 1073741824)⟩
    ∧ Rounded.values (Rounded.BoxMax (Rounded.voxelRecord 8 0 0 ⟨4, 0, 0, 1⟩).Position
        (Rounded.VoxelSize 100)) = some ⟨11408507 / 134217728, 5368709 / 1073741824,
          5368709 / 1073741824⟩
    ∧ (10066329 / 134217728 : ℚ) < 15 / 200 ∧ (15 / 200 : ℚ) < 5033165 / 67108864
    ∧ InOpenBox (⟨15 / 200, 0, 0⟩ : Vec3 ℚ)
        ⟨1090519 / 16777216, -(5368709 / 1073741824), -(5368709 / 1073741824)⟩
        ⟨5033165 / 67108864, 5368709 / 1073741824, 5368709 / 1073741824⟩
    ∧ InOpenBox (⟨15 / 200, 0, 0⟩ : Vec3 ℚ)
        ⟨10066329 / 134217728, -(5368709 / 1073741824), -(5368709 / 1073741824)⟩
        ⟨11408507 / 134217728, 5368709 / 1073741824, 5368709 / 1073741824⟩
    ∧ (Rounded.BoxMax (Rounded.voxelRecord 4 0 0 ⟨4, 0, 0, 1⟩).Position
        (Rounded.VoxelSize 100)).x.value = some (12079595 / 268435456)
    ∧ (Rounded.BoxMin (Rounded.voxelRecord 5 0 0 ⟨4, 0, 0, 1⟩).Position
        (Rounded.VoxelSize 100)).x.value = some (3019899 / 67108864)
    ∧ (12079595 / 268435456 : ℚ) < 9 / 200 ∧ (9 / 200 : ℚ) < 3019899 / 67108864 := by
  have b7lo : Rounded.BoxMin (Rounded.voxelRecord 7 0 0 ⟨4, 0, 0, 1⟩).Position
      (Rounded.VoxelSize 100)
      = ⟨IEEE.finite false 46385548311531861529701976690235554773598208,
         IEEE.finite true 3568119152011219955550762549395314224136192,
         IEEE.finite true 3568119152011219955550762549395314224136192⟩ := by
    simp only [Rounded.BoxMin, Rounded.voxelRecord, Vec3.mk.injEq]
    exact ⟨by decide!, by decide!, by decide!⟩
  have b7hi : Rounded.BoxMax (Rounded.voxelRecord 7 0 0 ⟨4, 0, 0, 1⟩).Position
      (Rounded.VoxelSize 100)
      = ⟨IEEE.finite false 53521790603238288795551120500447364062904320,
         IEEE.finite false 3568119152011219955550762549395314224136192,
         IEEE.finite false 3568119152011219955550762549395314224136192⟩ := by
    simp only [Rounded.BoxMax, Rounded.voxelRecord, Vec3.mk.injEq]
    exact ⟨by decide!, by decide!, by decide!⟩
  have b8lo : Rounded.BoxMin (Rounded.voxelRecord 8 0 0 ⟨4, 0, 0, 1⟩).Position
      (Rounded.VoxelSize 100)
      = ⟨IEEE.finite false 53521785286326305655887628885219122941526016,
         IEEE.finite true 3568119152011219955550762549395314224136192,
         IEEE.finite true 3568119152011219955550762549395314224136192⟩ := by
    simp only [Rounded.BoxMin, Rounded.voxelRecord, Vec3.mk.injEq]
    exact ⟨by decide!, by decide!, by decide!⟩
  have b8hi : Rounded.BoxMax (Rounded.voxelRecord 8 0 0 ⟨4, 0, 0, 1⟩).Position
      (Rounded.VoxelSize 100)
      = ⟨IEEE.finite false 60658027578032732921736772695430932230832128,
         IEEE.finite false 3568119152011219955550762549395314224136192,
         IEEE.finite false 3568119152011219955550762549395314224136192⟩ := by
    simp only [Rounded.BoxMax, Rounded.voxelRecord, Vec3.mk.injEq]
    exact ⟨by decide!, by decide!, by decide!⟩
  have b4hi : Rounded.BoxMax (Rounded.voxelRecord 4 0 0 ⟨4, 0, 0, 1⟩).Position
      (Rounded.VoxelSize 100)
      = ⟨IEEE.finite false 32113071703486981707498926492654297877053440,
         IEEE.finite false 3568119152011219955550762549395314224136192,
         IEEE.finite false 3568119152011219955550762549395314224136192⟩ := by
    simp only [Rounded.BoxMax, Rounded.voxelRecord, Vec3.mk.injEq]
    exact ⟨by decide!, by decide!, by decide!⟩
  have b5lo : Rounded.BoxMin (Rounded.voxelRecord 5 0 0 ⟨4, 0, 0, 1⟩).Position
      (Rounded.VoxelSize 100)
      = ⟨IEEE.finite false 32113074361942973277330672300268418437742592,
         IEEE.finite true 3568119152011219955550762549395314224136192,
         IEEE.finite true 3568119152011219955550762549395314224136192⟩ := by
    simp only [Rounded.BoxMin, Rounded.voxelRecord, Vec3.mk.injEq]
    exact ⟨by decide!, by decide!, by decide!⟩
  refine ⟨?_, ?_, ?_, ?_, by norm_num, by norm_num, ?_, ?_, ?_, ?_, by norm_num, by norm_num⟩
  · rw [b7lo]; norm_num [Rounded.values, value_finite, binary32]
  · rw [b7hi]; norm_num [Rounded.values, value_finite, binary32]
  · rw [b8lo]; norm_num [Rounded.values, value_finite, binary32]
  · rw [b8hi]; norm_num [Rounded.values, value_finite, binary32]
  · simp only [InOpenBox]; norm_num
  · simp only [InOpenBox]; norm_num
  · rw [b4hi]; norm_num [value_finite, binary32]
  · rw [b5lo]; norm_num [value_finite, binary32]

/-! ### The sample list in `float` arithmetic -/

theorem mem_Rounded_buildMap (Scene : Scene) (s : Sample Binary32) :
    s ∈ Rounded.buildMap Scene ↔
      ∃ x y z, x < Scene.SizeX ∧ y < Scene.SizeY ∧ z < Scene.SizeZ
        ∧ (Scene.At x y z).Alpha > 0 ∧ s = Rounded.voxelRecord x y z (Scene.At x y z) := by
  simp only [Rounded.buildMap, List.mem_flatMap, List.mem_range]
  constructor
  · rintro ⟨z, hz, y, hy, x, hx, hs⟩
    split_ifs at hs with hA
    · exact ⟨x, y, z, hx, hy, hz, hA, List.mem_singleton.mp hs⟩
    · simp at hs
  · rintro ⟨x, y, z, hx, hy, hz, hA, rfl⟩
    refine ⟨z, hz, y, hy, x, hx, ?_⟩
    rw [if_pos hA]
    exact List.mem_singleton.mpr rfl

theorem close_of_scaled (T n d U : ℚ) (hd : 0 < d) (hU : 0 < U) (hT : 0 ≤ T)
    (h1 : d * T ≤ n * (2 ^ 25 * U) + d * U) (h2 : n * (2 ^ 25 * U) ≤ d * T + d * U)
    (h3 : T ≤ 2 ^ 25 * U) :
    |T / (2 ^ 25 * U) - n / d| ≤ 1 / 2 ^ 25 ∧ 0 ≤ T / (2 ^ 25 * U) ∧ T / (2 ^ 25 * U) ≤ 1 := by
  have hV : (0 : ℚ) < 2 ^ 25 * U := by positivity
  have key : T / (2 ^ 25 * U) - n / d = (d * T - n * (2 ^ 25 * U)) / (d * (2 ^ 25 * U)) := by
    field_simp
    ring
  refine ⟨?_, by positivity, ?_⟩
  · rw [key, abs_le]
    constructor
    · rw [le_div_iff₀ (by positivity)]
      have e : -(1 / 2 ^ 25) * (d * (2 ^ 25 * U)) = -(d * U) := by
        field_simp
        ring
      rw [e]
      linarith
    · rw [div_le_iff₀ (by positivity)]
      have e : 1 / 2 ^ 25 * (d * (2 ^ 25 * U)) = d * U := by
        field_simp
        ring
      rw [e]
      linarith
  · rw [div_le_one hV]
    exact h3

/-- A `float` between 0 and 1 whose magnitude `T`, in units `2^-149`, satisfies
`|d * T - n * 2^149| ≤ d * 2^124` lies within `2^-25` of `n / d`. -/
theorem close_of_units (a : Binary32) (n d : Nat) (hd : 0 < d)
    (ha : a = IEEE.finite false a.magnitude)
    (h1 : d * a.magnitude ≤ n * 2 ^ 149 + d * 2 ^ 124)
    (h2 : n * 2 ^ 149 ≤ d * a.magnitude + d * 2 ^ 124) (h3 : a.magnitude ≤ 2 ^ 149) :
    ∃ q : ℚ, a.value = some q ∧ |q - (n : ℚ) / d| ≤ 1 / 2 ^ 25 ∧ 0 ≤ q ∧ q ≤ 1 := by
  have hd' : (0 : ℚ) < d := by exact_mod_cast hd
  have hp : (2 : ℚ) ^ 149 = 2 ^ 25 * 2 ^ 124 := by rw [← pow_add]
  have hU : (0 : ℚ) < 2 ^ 124 := pow_pos (by norm_num) 124
  have h1' : (d : ℚ) * a.magnitude ≤ n * (2 ^ 25 * 2 ^ 124) + d * 2 ^ 124 := by
    rw [← hp]; exact_mod_cast h1
  have h2' : (n : ℚ) * (2 ^ 25 * 2 ^ 124) ≤ d * a.magnitude + d * 2 ^ 124 := by
    rw [← hp]; exact_mod_cast h2
  have h3' : (a.magnitude : ℚ) ≤ 2 ^ 25 * 2 ^ 124 := by
    rw [← hp]; exact_mod_cast h3
  have hT : (0 : ℚ) ≤ a.magnitude := Nat.cast_nonneg _
  refine ⟨(a.magnitude : ℚ) / (2 ^ 25 * 2 ^ 124), ?_,
    close_of_scaled _ _ _ _ hd' hU hT h1' h2' h3'⟩
  conv_lhs => rw [ha]
  rw [value_finite, ← hp]
  simp only [binary32, Bool.false_eq_true, if_false, one_mul]

theorem hue_quotients : ∀ k, k < 12 →
    (IEEE.ofNat binary32 k / 11 : Binary32)
        = IEEE.finite false (IEEE.ofNat binary32 k / 11 : Binary32).magnitude
      ∧ 11 * (IEEE.ofNat binary32 k / 11 : Binary32).magnitude ≤ k * 2 ^ 149 + 11 * 2 ^ 124
      ∧ k * 2 ^ 149 ≤ 11 * (IEEE.ofNat binary32 k / 11 : Binary32).magnitude + 11 * 2 ^ 124
      ∧ (IEEE.ofNat binary32 k / 11 : Binary32).magnitude ≤ 2 ^ 149 := by
  decide!

theorem saturation_quotients : ∀ k, k < 4 →
    (IEEE.ofNat binary32 k / 3 : Binary32)
        = IEEE.finite false (IEEE.ofNat binary32 k / 3 : Binary32).magnitude
      ∧ 3 * (IEEE.ofNat binary32 k / 3 : Binary32).magnitude ≤ k * 2 ^ 149 + 3 * 2 ^ 124
      ∧ k * 2 ^ 149 ≤ 3 * (IEEE.ofNat binary32 k / 3 : Binary32).magnitude + 3 * 2 ^ 124
      ∧ (IEEE.ofNat binary32 k / 3 : Binary32).magnitude ≤ 2 ^ 149 := by
  decide!

theorem light_quotients : ∀ k, k < 16 →
    (IEEE.ofNat binary32 k / 15 : Binary32)
        = IEEE.finite false (IEEE.ofNat binary32 k / 15 : Binary32).magnitude
      ∧ 15 * (IEEE.ofNat binary32 k / 15 : Binary32).magnitude ≤ k * 2 ^ 149 + 15 * 2 ^ 124
      ∧ k * 2 ^ 149 ≤ 15 * (IEEE.ofNat binary32 k / 15 : Binary32).magnitude + 15 * 2 ^ 124
      ∧ (IEEE.ofNat binary32 k / 15 : Binary32).magnitude ≤ 2 ^ 149 := by
  decide!

theorem wrapped_hue_quotients : ∀ h, h < 4 →
    IEEE.ofNat binary32 ((h + (2 ^ 32 - 4)) % 2 ^ 32) = IEEE.finite false (2 ^ 32 * 2 ^ 149)
    ∧ (IEEE.ofNat binary32 ((h + (2 ^ 32 - 4)) % 2 ^ 32) / 11 : Binary32)
        = IEEE.finite false (390451584 * 2 ^ 149) := by
  decide!

/-- C12. In `float` arithmetic, for every opaque voxel of the grid with hue in
0..15, saturation in 0..3 and lightness in 0..15, the list holds a record at
the voxel's position `(float(x) / 100, float(y) / 100, float(z) / 100)` whose
colour is `(float(Hue - uint(4)) / 11, float(Saturation) / 3, float(Light) / 15)`,
the subtraction being the one of 32-bit unsigned integers and the conversions
and divisions those of `float`.  For a hue of at least 4 the stored hue is a
`float` between 0 and 1 within 2^-25 of `(Hue - 4) / 11`; for a hue below 4 the
wrapped difference `2^32 - 4 + Hue` is converted to the `float` 2^32 and the
stored hue is 390451584; the other two components are `float`s between 0 and 1
within 2^-25 of `Saturation / 3` and `Light / 15`. -/
theorem buildMap_colour (Scene : Scene) (x y z : Nat)
    (hx : x < Scene.SizeX) (hy : y < Scene.SizeY) (hz : z < Scene.SizeZ)
    (hA : (Scene.At x y z).Alpha > 0) (hHue : (Scene.At x y z).Hue ≤ 15)
    (hSaturation : (Scene.At x y z).Saturation ≤ 3) (hLight : (Scene.At x y z).Light ≤ 15) :
    ∃ s ∈ Rounded.buildMap Scene,
      s.Position = ⟨IEEE.ofNat binary32 x / 100, IEEE.ofNat binary32 y / 100,
        IEEE.ofNat binary32 z / 100⟩
      ∧ s.Colour = ⟨IEEE.ofNat binary32 (((Scene.At x y z).Hue + (2 ^ 32 - 4)) % 2 ^ 32) / 11,
          IEEE.ofNat binary32 (Scene.At x y z).Saturation / 3,
          IEEE.ofNat binary32 (Scene.At x y z).Light / 15⟩
      ∧ (4 ≤ (Scene.At x y z).Hue →
          ∃ q : ℚ, s.Colour.x.value = some q
            ∧ |q - (((Scene.At x y z).Hue : ℚ) - 4) / 11| ≤ 1 / 2 ^ 25 ∧ 0 ≤ q ∧ q ≤ 1)
      ∧ ((Scene.At x y z).Hue < 4 →
          (IEEE.ofNat binary32 (((Scene.At x y z).Hue + (2 ^ 32 - 4)) % 2 ^ 32)).value
              = some 4294967296
            ∧ s.Colour.x.value = some 390451584)
      ∧ (∃ q : ℚ, s.Colour.y.value = some q
            ∧ |q - ((Scene.At x y z).Saturation : ℚ) / 3| ≤ 1 / 2 ^ 25 ∧ 0 ≤ q ∧ q ≤ 1)
      ∧ (∃ q : ℚ, s.Colour.z.value = some q
            ∧ |q - ((Scene.At x y z).Light : ℚ) / 15| ≤ 1 / 2 ^ 25 ∧ 0 ≤ q ∧ q ≤ 1) := by
  refine ⟨Rounded.voxelRecord x y z (Scene.At x y z),
    (mem_Rounded_buildMap Scene _).mpr ⟨x, y, z, hx, hy, hz, hA, rfl⟩, rfl, rfl, ?_, ?_, ?_, ?_⟩
  · intro h4
    have e : ((Scene.At x y z).Hue + (2 ^ 32 - 4)) % 2 ^ 32 = (Scene.At x y z).Hue - 4 := by
      omega
    have hk : (Scene.At x y z).Hue - 4 < 12 := by omega
    obtain ⟨ha, h1, h2, h3⟩ := hue_quotients _ hk
    obtain ⟨q, hq, hclose, h0, h1'⟩ := close_of_units _ _ 11 (by norm_num) ha h1 h2 h3
    refine ⟨q, ?_, ?_, h0, h1'⟩
    · simp only [Rounded.voxelRecord, e]
      exact hq
    · have hc : (((Scene.At x y z).Hue - 4 : Nat) : ℚ) = ((Scene.At x y z).Hue : ℚ) - 4 := by
        rw [Nat.cast_sub h4]; norm_num
      rw [← hc]
      exact_mod_cast hclose
  · intro h4
    obtain ⟨e1, e2⟩ := wrapped_hue_quotients _ h4
    constructor
    · rw [e1, value_finite]; norm_num [binary32]
    · simp only [Rounded.voxelRecord]
      rw [e2, value_finite]; norm_num [binary32]
  · obtain ⟨ha, h1, h2, h3⟩ := saturation_quotients _ (Nat.lt_succ_of_le hSaturation)
    obtain ⟨q, hq, hclose, h0, h1'⟩ := close_of_units _ _ 3 (by norm_num) ha h1 h2 h3
    exact ⟨q, hq, by exact_mod_cast hclose, h0, h1'⟩
  · obtain ⟨ha, h1, h2, h3⟩ := light_quotients _ (Nat.lt_succ_of_le hLight)
    obtain ⟨q, hq, hclose, h0, h1'⟩ := close_of_units _ _ 15 (by norm_num) ha h1 h2 h3
    exact ⟨q, hq, by exact_mod_cast hclose, h0, h1'⟩

/-- Witness of C12: the opaque voxel of the sample volume, with hue 5,
saturation 3 and lightness 8, has a record whose hue lies within 2^-25 of
1/11. -/
theorem buildMap_colour_witness :
    ∃ s ∈ Rounded.buildMap sampleState.Scene,
      s.Position = ⟨IEEE.ofNat binary32 0 / 100, IEEE.ofNat binary32 0 / 100,
        IEEE.ofNat binary32 0 / 100⟩
      ∧ ∃ q : ℚ, s.Colour.x.value = some q ∧ |q - 1 / 11| ≤ 1 / 2 ^ 25 :=
  (buildMap_colour sampleState.Scene 0 0 0 (by decide) (by decide) (by decide)
    (by decide) (by decide) (by decide) (by decide)).elim fun s hs =>
      ⟨s, hs.1, hs.2.1, (hs.2.2.2.1 (by decide)).elim fun q hq =>
        ⟨q, hq.1, by
          have h := hq.2.1
          norm_num [sampleState] at h ⊢
          exact h⟩⟩

end DeferredRasterisation
